import Mathlib

/-!
# Drawer command queue of `r_draw_rgba.cpp`

A shallow embedding of the true-colour drawer command queue: the arena
allocator (`AllocMemory`), the batch state machine (`Finish`, `Begin`, `End`,
`WaitForWorkers`, `StartThreads`) and the row interleaving helpers of
`DrawerThread`.

Conventions.
* C `int` values are `Int`; the counters `run_id` and `threaded_render` are
  assumed not to overflow (signed overflow is undefined in C++).
* `size_t` values are `Nat` and every `size_t` operation that can wrap is
  reduced modulo `SIZE_MOD`.
* Declarations that live in `r_draw_rgba.h` (not among the sources) are either
  fields of `Env` or definitions marked `Modelled from the spec`.
-/

namespace RDrawRgba

/-! ## Worker descriptor -/

/-- The data members of `DrawerThread` that the drawers read: the thread line
index, the number of active threads and the row window of the current pass.
The `std::thread` handle is not represented. -/
structure DrawerThread where
  core : Int
  num_cores : Int
  pass_start_y : Int
  pass_end_y : Int
  deriving DecidableEq

namespace DrawerThread

/-- Modelled from the spec: `DrawerThread::line_skipped_by_thread` is declared in
`r_draw_rgba.h`, which is not among the sources. The spec assigns row `r` to
worker `r mod N` inside the pass window; the check answers whether a single
row is owned by some other worker (or lies outside the window). -/
def line_skipped_by_thread (t : DrawerThread) (line : Int) : Bool :=
  decide (line < t.pass_start_y) || decide (line ≥ t.pass_end_y)
    || decide (Int.tmod line t.num_cores ≠ t.core)

/-- Modelled from the spec: `DrawerThread::skipped_by_thread` is declared in
`r_draw_rgba.h`, which is not among the sources. It is the number of rows
skipped before this worker's first owned row: the rows before the pass window
plus the rows up to the next row congruent to `core` modulo `num_cores`.
The remainder is the truncating `%` of C. -/
def skipped_by_thread (t : DrawerThread) (first_line : Int) : Int :=
  let pass_skip := max (t.pass_start_y - first_line) 0
  let core_skip :=
    Int.tmod (t.num_cores - Int.tmod (first_line + pass_skip - t.core) t.num_cores) t.num_cores
  pass_skip + core_skip

/-- Modelled from the spec: `DrawerThread::count_for_thread` is declared in
`r_draw_rgba.h`, which is not among the sources. It is how many of the rows
`first_line .. first_line + count - 1` that lie before the end of the pass
window belong to this worker. The quotient is the truncating `/` of C. -/
def count_for_thread (t : DrawerThread) (first_line count : Int) : Int :=
  let lines_until_pass_end := max (t.pass_end_y - first_line) 0
  let count := min count lines_until_pass_end
  let c := Int.tdiv (count - t.skipped_by_thread first_line + t.num_cores - 1) t.num_cores
  max c 0

/-- Modelled from the spec: `DrawerThread::dest_for_thread` is declared in
`r_draw_rgba.h`, which is not among the sources. It is the offset adjustment
that lands on this worker's first owned row in a row-major buffer of the given
pitch; `dest` is an index into the buffer. -/
def dest_for_thread (t : DrawerThread) (first_line pitch dest : Int) : Int :=
  dest + t.skipped_by_thread first_line * pitch

end DrawerThread

/-! ## Row loop of the special colormap filter -/

/-- The `while (count > 0)` loop of `ApplySpecialColormapRGBACommand::Execute`,
recording the row `y` each iteration works on: the body processes row `y`,
then `y += thread->num_cores; count--`. The fuel bounds the iterations. -/
def ApplySpecialColormapRGBACommand.rowLoop (num_cores : Int) : Nat → Int → Int → List Int
  | 0, _, _ => []
  | fuel + 1, y, count =>
    if count > 0 then y :: rowLoop num_cores fuel (y + num_cores) (count - 1) else []

/-- The rows `ApplySpecialColormapRGBACommand::Execute` visits for a worker:
`y = skipped_by_thread(0)`, `count = count_for_thread(0, height)`, then the
row loop. The loop runs `count` times, so `count` is enough fuel. -/
def ApplySpecialColormapRGBACommand.rows (thread : DrawerThread) (height : Int) : List Int :=
  let y := thread.skipped_by_thread 0
  let count := thread.count_for_thread 0 height
  ApplySpecialColormapRGBACommand.rowLoop thread.num_cores count.toNat y count

/-! ## Queue state -/

/-- Modulus of `size_t` arithmetic (a 64-bit target). -/
def SIZE_MOD : Nat := 2 ^ 64

/-- What the queue code takes from outside this file: the constants
`memorypool_size` and `MAXHEIGHT` and the member initialisers of a
default-constructed `DrawerThread` (all declared in headers), and the value
`std::thread::hardware_concurrency()` reports. -/
structure Env where
  memorypool_size : Nat
  MAXHEIGHT : Int
  hardware_concurrency : Nat
  default_thread : DrawerThread
  deriving DecidableEq

/-- An element of `DrawerCommandQueue::threads`: the descriptor stored in the
vector and the local variable `run_id` of the lambda the thread runs
(`int run_id = 0` on creation, the last epoch it has served afterwards). -/
structure PoolThread where
  thread : DrawerThread
  run_id : Int
  deriving DecidableEq

/-- The data members of `DrawerCommandQueue` used by this file. `Cmd` stands
for `DrawerCommand *`. The mutexes and condition variables are not state of
the sequential model. -/
structure DrawerCommandQueue (Cmd : Type) where
  memorypool_pos : Nat
  commands : List Cmd
  threads : List PoolThread
  active_commands : List Cmd
  shutdown_flag : Bool
  run_id : Int
  finished_threads : Nat
  threaded_render : Int
  num_passes : Int
  rows_in_pass : Int
  deriving DecidableEq

/-- What a thread does that is visible outside the queue state. -/
inductive Event (Cmd : Type) where
  /-- Records `start_condition.notify_all()` -/
  | notify_all : Event Cmd
  /-- Records `command->Execute(thread)` with the descriptor as it is at the call -/
  | execute : Cmd → DrawerThread → Event Cmd
  /-- Records `command->~DrawerCommand()` -/
  | destroy : Cmd → Event Cmd
  deriving DecidableEq

/-- Outcome of a call that returns: the queue afterwards, what the calling
thread did (in order) and what the pool threads executed (per thread in
order, the threads one after the other in pool order). -/
structure FinishResult (Cmd : Type) where
  queue : DrawerCommandQueue Cmd
  log : List (Event Cmd)
  pool_log : List (Event Cmd)
  deriving DecidableEq

/-! ## Arena -/

/-- `DrawerCommandQueue::AllocMemory`. The result is the offset of the block
from `memorypool` (`none` for `nullptr`) and the queue afterwards. `size` is a
`size_t`: `size + 15` and `memorypool_pos + size` wrap modulo `SIZE_MOD`. -/
def AllocMemory {Cmd : Type} (env : Env) (queue : DrawerCommandQueue Cmd) (size : Nat) :
    Option Nat × DrawerCommandQueue Cmd :=
  let size := (size + 15) % SIZE_MOD / 16 * 16
  if (queue.memorypool_pos + size) % SIZE_MOD > env.memorypool_size then
    (none, queue)
  else
    let data := queue.memorypool_pos
    (some data, { queue with memorypool_pos := (queue.memorypool_pos + size) % SIZE_MOD })

/-- A sequence of `AllocMemory` calls: the results in call order and the final queue. -/
def AllocMemory.calls {Cmd : Type} (env : Env) :
    List Nat → DrawerCommandQueue Cmd → List (Option Nat) × DrawerCommandQueue Cmd
  | [], queue => ([], queue)
  | size :: sizes, queue =>
    let r := AllocMemory env queue size
    let rs := AllocMemory.calls env sizes r.2
    (r.1 :: rs.1, rs.2)

/-! ## Thread pool -/

/-- The `for (int i = 0; i < num_threads - 1; i++)` loop of `StartThreads`:
element `i` of the resized vector gets `core = i + 1`, `num_cores =
num_threads`, and its thread starts with the local `run_id = 0`. -/
def StartThreads.createLoop (num_threads : Int) : Nat → Int → List PoolThread → List PoolThread
  | 0, _, threads => threads
  | fuel + 1, i, threads =>
    if i < num_threads - 1 then
      match threads[i.toNat]? with
      | some t =>
        let thread := { t.thread with core := i + 1, num_cores := num_threads }
        createLoop num_threads fuel (i + 1) (threads.set i.toNat { thread := thread, run_id := 0 })
      | none => threads
    else threads

/-- `DrawerCommandQueue::StartThreads`. The hint is converted to `int` (it is
assumed to fit); `threads.resize(num_threads - 1)` fills the empty vector with
default-constructed descriptors. -/
def StartThreads {Cmd : Type} (env : Env) (queue : DrawerCommandQueue Cmd) :
    DrawerCommandQueue Cmd :=
  if !queue.threads.isEmpty then queue
  else
    let num_threads : Int := env.hardware_concurrency
    let num_threads : Int := if num_threads = 0 then 4 else num_threads
    let threads : List PoolThread :=
      List.replicate (num_threads - 1).toNat { thread := env.default_thread, run_id := 0 }
    { queue with
      threads := StartThreads.createLoop num_threads (num_threads - 1).toNat 0 threads }

/-! ## Executing a batch -/

/-- The inner loop `for (size_t i = 0; i < size; i++) active_commands[i]->Execute(thread)`. -/
def executeLoop {Cmd : Type} (active_commands : List Cmd) (thread : DrawerThread) :
    Nat → Nat → List (Event Cmd)
  | 0, _ => []
  | fuel + 1, i =>
    match active_commands[i]? with
    | some command => Event.execute command thread :: executeLoop active_commands thread fuel (i + 1)
    | none => []

/-- The pass window assignments of `Finish` (the caller's loop body). -/
def Finish.passWindow {Cmd : Type} (env : Env) (queue : DrawerCommandQueue Cmd)
    (thread : DrawerThread) (pass : Int) : DrawerThread :=
  let thread := { thread with pass_start_y := pass * queue.rows_in_pass }
  let thread := { thread with pass_end_y := (pass + 1) * queue.rows_in_pass }
  if pass + 1 = queue.num_passes then
    { thread with pass_end_y := max thread.pass_end_y env.MAXHEIGHT }
  else thread

/-- The pass window assignments of the pool thread's loop body in `StartThreads`. -/
def WorkerLoop.passWindow {Cmd : Type} (env : Env) (queue : DrawerCommandQueue Cmd)
    (thread : DrawerThread) (pass : Int) : DrawerThread :=
  let thread := { thread with pass_start_y := pass * queue.rows_in_pass }
  let thread := { thread with pass_end_y := (pass + 1) * queue.rows_in_pass }
  if pass + 1 = queue.num_passes then
    { thread with pass_end_y := max thread.pass_end_y env.MAXHEIGHT }
  else thread

/-- The loop `for (int pass = 0; pass < num_passes; pass++)` shared in shape by
the caller and the pool threads: set the pass window, then execute the whole
active list. Returns the descriptor after the loop and the Execute calls. -/
def passLoop {Cmd : Type} (window : DrawerThread → Int → DrawerThread)
    (queue : DrawerCommandQueue Cmd) : Nat → Int → DrawerThread → DrawerThread × List (Event Cmd)
  | 0, _, thread => (thread, [])
  | fuel + 1, pass, thread =>
    if pass < queue.num_passes then
      let thread := window thread pass
      let size := queue.active_commands.length
      let events := executeLoop queue.active_commands thread size 0
      let rest := passLoop window queue fuel (pass + 1) thread
      (rest.1, events ++ rest.2)
    else (thread, [])

/-- One turn of the pool thread's `while (true)` loop once it has been
notified. `none`: the thread does not run the batch, because the wait
predicate `queue->run_id != run_id || queue->shutdown_flag` is false (it stays
parked) or because `shutdown_flag` is set (it leaves the loop). Otherwise it
stores the epoch, runs the pass loop and then increments `finished_threads`
(the increment is applied by `runPool`). -/
def WorkerLoop.turn {Cmd : Type} (env : Env) (queue : DrawerCommandQueue Cmd) (w : PoolThread) :
    Option (PoolThread × List (Event Cmd)) :=
  if queue.run_id ≠ w.run_id || queue.shutdown_flag then
    if queue.shutdown_flag then none
    else
      let run_id := queue.run_id
      let r := passLoop (WorkerLoop.passWindow env queue) queue queue.num_passes.toNat 0 w.thread
      some ({ thread := r.1, run_id := run_id }, r.2)
  else none

/-- All pool threads take their turn. Returns the pool afterwards, the value of
`finished_threads` (each thread that ran the batch did `finished_threads++`)
and the Execute calls of the pool. -/
def runPool {Cmd : Type} (env : Env) (queue : DrawerCommandQueue Cmd) :
    List PoolThread → Nat → List PoolThread × Nat × List (Event Cmd)
  | [], finished_threads => ([], finished_threads, [])
  | w :: ws, finished_threads =>
    match WorkerLoop.turn env queue w with
    | some (w', events) =>
      let rest := runPool env queue ws ((finished_threads + 1) % SIZE_MOD)
      (w' :: rest.1, rest.2.1, events ++ rest.2.2)
    | none =>
      let rest := runPool env queue ws finished_threads
      (w :: rest.1, rest.2.1, rest.2.2)

/-- `DrawerCommandQueue::Finish`, sequentialised: the pool threads run their
turn to completion before the caller evaluates the predicate of
`end_condition.wait`. `none` means the caller stays blocked in that wait
(the counter cannot reach `threads.size()` any more). -/
def Finish {Cmd : Type} (env : Env) (queue : DrawerCommandQueue Cmd) :
    Option (FinishResult Cmd) :=
  if queue.commands.isEmpty then
    some { queue := queue, log := [], pool_log := [] }
  else
    -- Give worker threads something to do:
    let queue := { queue with
      active_commands := queue.commands, commands := queue.active_commands }
    let queue := { queue with run_id := queue.run_id + 1 }
    let queue := StartThreads env queue
    -- Do one thread ourselves:
    let thread : DrawerThread :=
      { env.default_thread with core := 0, num_cores := (queue.threads.length : Int) + 1 }
    let own := passLoop (Finish.passWindow env queue) queue queue.num_passes.toNat 0 thread
    -- Wait for everyone to finish:
    let pool := runPool env queue queue.threads queue.finished_threads
    let queue := { queue with threads := pool.1, finished_threads := pool.2.1 }
    if queue.finished_threads = queue.threads.length then
      -- Clean up batch:
      let destroyed := queue.active_commands.map Event.destroy
      some {
        queue := { queue with active_commands := [], memorypool_pos := 0, finished_threads := 0 }
        log := Event.notify_all :: (own.2 ++ destroyed)
        pool_log := pool.2.2 }
    else none

/-- The queue of `Finish` after the swap, the epoch increment and `StartThreads`
(the first half of the non-empty branch of `Finish`). -/
def Finish.started {Cmd : Type} (env : Env) (q : DrawerCommandQueue Cmd) :
    DrawerCommandQueue Cmd :=
  StartThreads env { q with
    active_commands := q.commands, commands := q.active_commands, run_id := q.run_id + 1 }

/-- The `Execute` calls of a log, in order: command and worker descriptor. -/
def Event.executed {Cmd : Type} : List (Event Cmd) → List (Cmd × DrawerThread)
  | [] => []
  | Event.execute command thread :: es => (command, thread) :: Event.executed es
  | Event.notify_all :: es => Event.executed es
  | Event.destroy _ :: es => Event.executed es

/-- The descriptor a thread holds during the `j`-th pass counted from `pass`,
when it enters that stretch of the pass loop with descriptor `thread`. -/
def windowAt (window : DrawerThread → Int → DrawerThread) : Int → DrawerThread → Nat → DrawerThread
  | pass, thread, 0 => window thread pass
  | pass, thread, j + 1 => windowAt window (pass + 1) (window thread pass) j

/-- `DrawerCommandQueue::Begin`. -/
def Begin {Cmd : Type} (env : Env) (queue : DrawerCommandQueue Cmd) : Option (FinishResult Cmd) :=
  (Finish env queue).map fun r =>
    { r with queue := { r.queue with threaded_render := r.queue.threaded_render + 1 } }

/-- `DrawerCommandQueue::End`. -/
def End {Cmd : Type} (env : Env) (queue : DrawerCommandQueue Cmd) : Option (FinishResult Cmd) :=
  (Finish env queue).map fun r =>
    if r.queue.threaded_render > 0 then
      { r with queue := { r.queue with threaded_render := r.queue.threaded_render - 1 } }
    else r

/-- `DrawerCommandQueue::WaitForWorkers`. -/
def WaitForWorkers {Cmd : Type} (env : Env) (queue : DrawerCommandQueue Cmd) :
    Option (FinishResult Cmd) :=
  Finish env queue

/-- The batch control calls. -/
inductive QueueOp where
  | Begin | End | WaitForWorkers | Finish
  deriving DecidableEq

/-- Run one batch control call. -/
def QueueOp.run {Cmd : Type} (env : Env) (op : QueueOp) (queue : DrawerCommandQueue Cmd) :
    Option (FinishResult Cmd) :=
  match op with
  | .Begin => RDrawRgba.Begin env queue
  | .End => RDrawRgba.End env queue
  | .WaitForWorkers => RDrawRgba.WaitForWorkers env queue
  | .Finish => RDrawRgba.Finish env queue

/-- Run a sequence of batch control calls, one after the other; `none` as soon
as one of them does not return. -/
def runOps {Cmd : Type} (env : Env) : List QueueOp → DrawerCommandQueue Cmd →
    Option (DrawerCommandQueue Cmd)
  | [], queue => some queue
  | op :: ops, queue =>
    match op.run env queue with
    | some r => runOps env ops r.queue
    | none => none

/-- The state the queue is in between two batches, as `Finish` leaves it and
as the member initialisers set it up: no active batch, the completion counter
at zero, no shutdown in progress, every pool thread parked with an epoch it
has already served, and a pool small enough to be counted in a `size_t`. -/
def DrawerCommandQueue.Idle {Cmd : Type} (queue : DrawerCommandQueue Cmd) : Prop :=
  queue.active_commands = [] ∧ queue.finished_threads = 0 ∧ queue.shutdown_flag = false ∧
    0 ≤ queue.run_id ∧ (∀ w ∈ queue.threads, w.run_id ≤ queue.run_id) ∧
    queue.threads.length < SIZE_MOD

/-- The concurrency hint fits the `int` it is assigned to. -/
def Env.HintFits (env : Env) : Prop := env.hardware_concurrency < 2 ^ 31

/-! ## Example data -/

/-- A small environment: a 64-byte arena, 200 rows, a concurrency hint of 3. -/
def exampleEnv : Env :=
  { memorypool_size := 64, MAXHEIGHT := 200, hardware_concurrency := 3,
    default_thread := { core := 0, num_cores := 1, pass_start_y := 0, pass_end_y := 200 } }

/-- A queue collecting two commands (named 7 and 8) in 32 bytes of arena, with
no pool started yet and two passes of 100 rows. -/
def exampleQueue : DrawerCommandQueue Nat :=
  { memorypool_pos := 32, commands := [7, 8], threads := [], active_commands := [],
    shutdown_flag := false, run_id := 0, finished_threads := 0, threaded_render := 0,
    num_passes := 2, rows_in_pass := 100 }

/-- The same queue with nothing pending and an empty arena. -/
def exampleIdleQueue : DrawerCommandQueue Nat :=
  { exampleQueue with memorypool_pos := 0, commands := [] }

/-! ## Pixels and the frame buffer -/

/-- Modulus of 32-bit unsigned arithmetic (`uint32_t`, `DWORD`). -/
def U32 : Nat := 2 ^ 32

/-- Multiplication of two `uint32_t` values. -/
def mul32 (a b : Nat) : Nat := (a * b) % U32

/-- Addition of two `uint32_t` values. -/
def add32 (a b : Nat) : Nat := (a + b) % U32

/-- Subtraction of two `uint32_t` values. -/
def sub32 (a b : Nat) : Nat := (a + (U32 - b % U32)) % U32

/-- Left shift of a `uint32_t` value. -/
def shl32 (a n : Nat) : Nat := (a <<< n) % U32

/-- A `fixed_t` (`int`) holding the 32-bit pattern of `x`: two's complement
wrap-around, which is also how the additions on `fixed_t` accumulators are
taken to behave. -/
def toInt32 (x : Int) : Int := (x + 2 ^ 31) % 2 ^ 32 - 2 ^ 31

/-- Frame buffer memory: 32-bit words addressed by word index. A `uint32_t *`
into the frame buffer is the index of the word it points to. -/
abbrev FrameBuffer := Int → Nat

/-- The store `*dest = value`. -/
def FrameBuffer.write (fb : FrameBuffer) (dest : Int) (value : Nat) : FrameBuffer :=
  Function.update fb dest value

/-- Modelled from the spec: the macro `APART` comes from a header that is not
among the sources. Pixels are packed with 8 bits per channel; the alpha byte
is the top byte, as in the `0xff000000 | ...` the kernels of this file write. -/
def APART (c : Nat) : Nat := (c >>> 24) &&& 0xff

/-- Modelled from the spec: the macro `RPART` comes from a header that is not
among the sources. The red byte is `(c >> 16) & 0xff`, as the kernels of this
file that unpack by hand read it. -/
def RPART (c : Nat) : Nat := (c >>> 16) &&& 0xff

/-- Modelled from the spec: the macro `GPART` comes from a header that is not
among the sources. The green byte is `(c >> 8) & 0xff`. -/
def GPART (c : Nat) : Nat := (c >>> 8) &&& 0xff

/-- Modelled from the spec: the macro `BPART` comes from a header that is not
among the sources. The blue byte is `c & 0xff`. -/
def BPART (c : Nat) : Nat := c &&& 0xff

/-- The expression `0xff000000 | (red << 16) | (green << 8) | blue` on
`uint32_t` values, as written by the kernels that compute channels inline. -/
def packBgra (red green blue : Nat) : Nat :=
  0xff000000 ||| shl32 red 16 ||| shl32 green 8 ||| blue

/-! ## Blend functions -/

/-- Modelled from the spec: `BlendBgra::copy` is declared in `r_draw_rgba.h`,
which is not among the sources. It is the plain copy blend. -/
def BlendBgra.copy (fg : Nat) : Nat := fg

/-- One 8-bit channel of the additive blend: the weighted sum on the 0..256
alpha scale, divided by 256 with truncation and clamped to a byte. -/
def BlendBgra.addChannel (fg bg srcalpha destalpha : Nat) : Nat :=
  min (add32 (mul32 fg srcalpha) (mul32 bg destalpha) >>> 8) 255

/-- Modelled from the spec: `BlendBgra::add` is declared in `r_draw_rgba.h`,
which is not among the sources. It is the additive blend on 8-bit-per-channel
packed pixels with weights on the 0..256 scale; every one of the four bytes
of the packed pixel is blended with the same rule. -/
def BlendBgra.add (fg bg srcalpha destalpha : Nat) : Nat :=
  shl32 (BlendBgra.addChannel (APART fg) (APART bg) srcalpha destalpha) 24
    ||| shl32 (BlendBgra.addChannel (RPART fg) (RPART bg) srcalpha destalpha) 16
    ||| shl32 (BlendBgra.addChannel (GPART fg) (GPART bg) srcalpha destalpha) 8
    ||| BlendBgra.addChannel (BPART fg) (BPART bg) srcalpha destalpha

/-- One 8-bit channel of a subtractive blend: `plus * wplus - minus * wminus`
on the 0..256 scale, divided by 256 with truncation and clamped to `0..255`. -/
def BlendBgra.subChannel (plus wplus minus wminus : Nat) : Nat :=
  (min 255 (max 0 (Int.tdiv ((plus : Int) * wplus - (minus : Int) * wminus) 256))).toNat

/-- Modelled from the spec: `BlendBgra::sub` is declared in `r_draw_rgba.h`,
which is not among the sources. It is the subtractive blend: the weighted
foreground is subtracted from the weighted background, channel by channel. -/
def BlendBgra.sub (fg bg srcalpha destalpha : Nat) : Nat :=
  shl32 (BlendBgra.subChannel (APART bg) destalpha (APART fg) srcalpha) 24
    ||| shl32 (BlendBgra.subChannel (RPART bg) destalpha (RPART fg) srcalpha) 16
    ||| shl32 (BlendBgra.subChannel (GPART bg) destalpha (GPART fg) srcalpha) 8
    ||| BlendBgra.subChannel (BPART bg) destalpha (BPART fg) srcalpha

/-- Modelled from the spec: `BlendBgra::revsub` is declared in `r_draw_rgba.h`,
which is not among the sources. It is the reversed subtractive blend: the
weighted background is subtracted from the weighted foreground. -/
def BlendBgra.revsub (fg bg srcalpha destalpha : Nat) : Nat :=
  shl32 (BlendBgra.subChannel (APART fg) srcalpha (APART bg) destalpha) 24
    ||| shl32 (BlendBgra.subChannel (RPART fg) srcalpha (RPART bg) destalpha) 16
    ||| shl32 (BlendBgra.subChannel (GPART fg) srcalpha (GPART bg) destalpha) 8
    ||| BlendBgra.subChannel (BPART fg) srcalpha (BPART bg) destalpha

/-! ## Column commands -/

/-- The fields of `ShadeConstants` (declared in a header) that this file reads. -/
structure ShadeConstants where
  light_red : Nat
  light_green : Nat
  light_blue : Nat
  fade_red : Nat
  fade_green : Nat
  fade_blue : Nat
  desaturate : Nat
  simple_shade : Bool
  deriving DecidableEq

/-- The ambient drawing variables of the process, all those the command
constructors of this file read: the `dc_*` and `ds_*` variables, `fuzzpos`,
`fuzzviewheight`, the per-column arrays of the 4-wide wall drawers and the
`vline` bit counts and limits. The geometry stage assigns them before it
queues a command, and the command constructors copy them. Pointers are
addresses, `fixed_t` values are integers. -/
structure Ambient where
  dc_x : Int
  dc_yl : Int
  dc_yh : Int
  dc_destorg : Int
  dc_pitch : Int
  dc_dest : Int
  dc_count : Int
  dc_iscale : Nat
  dc_texturefrac : Nat
  fuzzpos : Int
  fuzzviewheight : Int
  vplce : Fin 4 → Nat
  vince : Fin 4 → Nat
  ds_y : Int
  ds_x1 : Int
  ds_x2 : Int
  dc_color : Int
  dc_colormap : Int
  dc_destalpha : Int
  dc_light : Int
  dc_shade_constants : ShadeConstants
  dc_source : Int
  dc_source2 : Int
  dc_srcalpha : Int
  dc_srccolor_bgra : Nat
  dc_texturefracx : Nat
  dc_translation : Int
  ds_color : Int
  ds_light : Int
  ds_shade_constants : ShadeConstants
  ds_source : Int
  ds_xbits : Int
  ds_xfrac : Int
  ds_xstep : Int
  ds_ybits : Int
  ds_yfrac : Int
  ds_ystep : Int
  bufplce : Fin 4 → Int
  bufplce2 : Fin 4 → Int
  buftexturefracx : Fin 4 → Nat
  palookuplight : Fin 4 → Int
  vlinebits : Int
  mvlinebits : Int
  tmvlinebits : Int
  vlinemax : Nat
  mvlinemax : Nat
  tmvlinemax : Nat

/-- The process-wide state a command finds when it executes. Besides the
ambient drawing variables it holds what is declared outside this file: the
row table `ylookup`, the fuzz table `fuzzoffset` with its length `FUZZTABLE`,
the palette `GPalette.BaseColors[i].d`, the constant `FRACBITS`, the helpers
of `LightBgra`, `BlendBgra` and `SampleBgra` that are not modelled otherwise
(`sample_bilinear` has two overloads, one for spans and one for wall
columns), and `mem p i`, the element `p[i]` behind a texture, colormap or
translation pointer `p`. Row offsets are word indices relative to the word
`_destorg` points to. -/
structure DrawEnv extends Ambient where
  ylookup : Int → Int
  fuzzoffset : Int → Int
  FUZZTABLE : Int
  FRACBITS : Nat
  palette : Int → Nat
  calc_light_multiplier : Int → Nat
  shade_pal_index_simple : Int → Nat → Nat
  shade_pal_index : Nat → Nat → ShadeConstants → Nat
  shade_bgra : Nat → Nat → ShadeConstants → Nat
  alpha_blend : Nat → Nat → Nat
  calc_blend_bgalpha : Nat → Nat → Nat
  sample_bilinear_span : Int → Nat → Nat → Int → Int → Nat
  sample_bilinear_wall : Int → Int → Nat → Nat → Int → Nat → Nat
  mem : Int → Int → Nat

/-- The fields of `DrawerColumnCommand`, with `_dest_y` of its base class
`DrawerCommand` (the row `_dest` lies in). `_dest` is a word index. -/
structure DrawerColumnCommand where
  _dest_y : Int
  _count : Int
  _dest : Int
  _pitch : Int
  _iscale : Nat
  _texturefrac : Nat
  deriving DecidableEq

/-- The fields of `DrawerColumnCommand::LoopIterator`. -/
structure DrawerColumnCommand.LoopIterator where
  count : Int
  dest : Int
  pitch : Int
  fracstep : Int
  frac : Int
  deriving DecidableEq

namespace DrawerColumnCommand.LoopIterator

/-- The constructor `LoopIterator(command, thread)`. When `count <= 0` it
returns before the other fields are assigned; they are given as 0 here and
are never read in that case. -/
def new (command : DrawerColumnCommand) (thread : DrawerThread) :
    DrawerColumnCommand.LoopIterator :=
  let count := thread.count_for_thread command._dest_y command._count
  if count ≤ 0 then
    { count := count, dest := 0, pitch := 0, fracstep := 0, frac := 0 }
  else
    let dest := thread.dest_for_thread command._dest_y command._pitch command._dest
    let pitch := command._pitch * thread.num_cores
    let fracstep := toInt32 (((command._iscale : Int) * thread.num_cores) % 2 ^ 32)
    let frac := toInt32 (((command._texturefrac : Int)
      + (command._iscale : Int) * thread.skipped_by_thread command._dest_y) % 2 ^ 32)
    { count := count, dest := dest, pitch := pitch, fracstep := fracstep, frac := frac }

/-- `sample_index()`: `frac >> FRACBITS` returned as `uint32_t`. -/
def sample_index (env : DrawEnv) (loop : DrawerColumnCommand.LoopIterator) : Nat :=
  ((loop.frac >>> env.FRACBITS) % 2 ^ 32).toNat

/-- `explicit operator bool()`. -/
def toBool (loop : DrawerColumnCommand.LoopIterator) : Bool := decide (loop.count > 0)

/-- `next()`: the iterator afterwards and the value returned. -/
def next (loop : DrawerColumnCommand.LoopIterator) : DrawerColumnCommand.LoopIterator × Bool :=
  let dest := loop.dest + loop.pitch
  let frac := toInt32 (loop.frac + loop.fracstep)
  let count := loop.count - 1
  ({ loop with dest := dest, frac := frac, count := count }, decide (count ≠ 0))

end DrawerColumnCommand.LoopIterator

/-- The loop `do { *loop.dest = kernel; } while (loop.next());` of the column
commands. `kernel loop bg` is the value the body stores, computed from the
iterator and from the pixel `bg = *loop.dest` it overwrites. -/
def DrawerColumnCommand.doWhile (kernel : DrawerColumnCommand.LoopIterator → Nat → Nat) :
    Nat → DrawerColumnCommand.LoopIterator → FrameBuffer → FrameBuffer
  | 0, _, fb => fb
  | fuel + 1, loop, fb =>
    let fb := fb.write loop.dest (kernel loop (fb loop.dest))
    let r := loop.next
    if r.2 then DrawerColumnCommand.doWhile kernel fuel r.1 fb else fb

/-- `Execute` of a command built on `DrawerColumnCommand`:
`LoopIterator loop(this, thread); if (!loop) return; do { ... } while (loop.next());`.
The loop runs `count` times, so `count` is enough fuel. -/
def DrawerColumnCommand.Execute (kernel : DrawerColumnCommand.LoopIterator → Nat → Nat)
    (command : DrawerColumnCommand) (thread : DrawerThread) (fb : FrameBuffer) : FrameBuffer :=
  let loop := DrawerColumnCommand.LoopIterator.new command thread
  if !loop.toBool then fb
  else DrawerColumnCommand.doWhile kernel loop.count.toNat loop fb

/-- The fields of `FillColumnRGBACommand`: the column fields and the colour
computed by the constructor. -/
structure FillColumnRGBACommand where
  column : DrawerColumnCommand
  _color : Nat
  deriving DecidableEq

/-- `FillColumnRGBACommand::Execute`. -/
def FillColumnRGBACommand.Execute (command : FillColumnRGBACommand) (thread : DrawerThread)
    (fb : FrameBuffer) : FrameBuffer :=
  DrawerColumnCommand.Execute (fun _ _ => BlendBgra.copy command._color) command.column thread fb

/-- The fields of `FillAddColumnRGBACommand`. -/
structure FillAddColumnRGBACommand where
  column : DrawerColumnCommand
  _srccolor : Nat
  deriving DecidableEq

/-- The source weight of `FillAddColumnRGBACommand::Execute` for the alpha byte
`a = APART(_srccolor)`: `alpha = a; alpha += alpha >> 7;`. -/
def FillAddColumnRGBACommand.srcWeight (a : Nat) : Nat := add32 a (a >>> 7)

/-- The destination weight `256 - alpha` of `FillAddColumnRGBACommand::Execute`. -/
def FillAddColumnRGBACommand.destWeight (a : Nat) : Nat :=
  sub32 256 (FillAddColumnRGBACommand.srcWeight a)

/-- `FillAddColumnRGBACommand::Execute`. -/
def FillAddColumnRGBACommand.Execute (command : FillAddColumnRGBACommand)
    (thread : DrawerThread) (fb : FrameBuffer) : FrameBuffer :=
  let alpha := FillAddColumnRGBACommand.srcWeight (APART command._srccolor)
  DrawerColumnCommand.Execute
    (fun _ bg => BlendBgra.add command._srccolor bg alpha (sub32 256 alpha))
    command.column thread fb

/-! ## Wall commands -/

/-- The fields of `DrawerWall1Command` that its `LoopIterator` reads, with
`_dest_y` of the base class. The sources, light and alpha fields are read
only by the kernel expressions of the derived commands. -/
structure DrawerWall1Command where
  _dest_y : Int
  _dest : Int
  _pitch : Int
  _count : Int
  _texturefrac : Nat
  _texturefracx : Nat
  _iscale : Nat
  _vlinebits : Int
  deriving DecidableEq

/-- The fields of `DrawerWall1Command::LoopIterator`. -/
structure DrawerWall1Command.LoopIterator where
  dest : Int
  pitch : Int
  count : Int
  fracstep : Nat
  frac : Nat
  texturefracx : Nat
  bits : Int
  deriving DecidableEq

namespace DrawerWall1Command.LoopIterator

/-- The constructor `LoopIterator(command, thread)`; the fields left
unassigned when `count <= 0` are given as 0. -/
def new (command : DrawerWall1Command) (thread : DrawerThread) :
    DrawerWall1Command.LoopIterator :=
  let count := thread.count_for_thread command._dest_y command._count
  if count ≤ 0 then
    { dest := 0, pitch := 0, count := count, fracstep := 0, frac := 0, texturefracx := 0,
      bits := 0 }
  else
    let fracstep := (((command._iscale : Int) * thread.num_cores) % 2 ^ 32).toNat
    let frac := (((command._texturefrac : Int)
      + (command._iscale : Int) * thread.skipped_by_thread command._dest_y) % 2 ^ 32).toNat
    let texturefracx := command._texturefracx
    let dest := thread.dest_for_thread command._dest_y command._pitch command._dest
    let bits := command._vlinebits
    let pitch := command._pitch * thread.num_cores
    { dest := dest, pitch := pitch, count := count, fracstep := fracstep, frac := frac,
      texturefracx := texturefracx, bits := bits }

/-- `explicit operator bool()`. -/
def toBool (loop : DrawerWall1Command.LoopIterator) : Bool := decide (loop.count > 0)

/-- `sample_index()`: `frac >> bits`. -/
def sample_index (loop : DrawerWall1Command.LoopIterator) : Nat := loop.frac >>> loop.bits.toNat

/-- `next()`: the iterator afterwards and the value returned. -/
def next (loop : DrawerWall1Command.LoopIterator) : DrawerWall1Command.LoopIterator × Bool :=
  let frac := add32 loop.frac loop.fracstep
  let dest := loop.dest + loop.pitch
  let count := loop.count - 1
  ({ loop with frac := frac, dest := dest, count := count }, decide (count ≠ 0))

end DrawerWall1Command.LoopIterator

/-- The loop `do { *loop.dest = kernel; } while (loop.next());` of the commands
built on `DrawerWall1Command`. -/
def DrawerWall1Command.doWhile (kernel : DrawerWall1Command.LoopIterator → Nat → Nat) :
    Nat → DrawerWall1Command.LoopIterator → FrameBuffer → FrameBuffer
  | 0, _, fb => fb
  | fuel + 1, loop, fb =>
    let fb := fb.write loop.dest (kernel loop (fb loop.dest))
    let r := loop.next
    if r.2 then DrawerWall1Command.doWhile kernel fuel r.1 fb else fb

/-- `Execute` of a command built on `DrawerWall1Command`. -/
def DrawerWall1Command.Execute (kernel : DrawerWall1Command.LoopIterator → Nat → Nat)
    (command : DrawerWall1Command) (thread : DrawerThread) (fb : FrameBuffer) : FrameBuffer :=
  let loop := DrawerWall1Command.LoopIterator.new command thread
  if !loop.toBool then fb
  else DrawerWall1Command.doWhile kernel loop.count.toNat loop fb

/-- The fields of `DrawerWall4Command` that its `LoopIterator` reads, with
`_dest_y` of the base class. -/
structure DrawerWall4Command where
  _dest_y : Int
  _dest : Int
  _count : Int
  _pitch : Int
  _vlinebits : Int
  _vplce : Fin 4 → Nat
  _vince : Fin 4 → Nat

/-- The fields of `DrawerWall4Command::LoopIterator`. -/
structure DrawerWall4Command.LoopIterator where
  dest : Int
  pitch : Int
  count : Int
  bits : Int
  vplce : Fin 4 → Nat
  vince : Fin 4 → Nat

namespace DrawerWall4Command.LoopIterator

/-- The constructor `LoopIterator(command, thread)`; the fields left
unassigned when `count <= 0` are given as 0. -/
def new (command : DrawerWall4Command) (thread : DrawerThread) :
    DrawerWall4Command.LoopIterator :=
  let count := thread.count_for_thread command._dest_y command._count
  if count ≤ 0 then
    { dest := 0, pitch := 0, count := count, bits := 0, vplce := fun _ => 0,
      vince := fun _ => 0 }
  else
    let dest := thread.dest_for_thread command._dest_y command._pitch command._dest
    let pitch := command._pitch * thread.num_cores
    let bits := command._vlinebits
    let skipped := thread.skipped_by_thread command._dest_y
    { dest := dest, pitch := pitch, count := count, bits := bits,
      vplce := fun i =>
        (((command._vplce i : Int) + (command._vince i : Int) * skipped) % 2 ^ 32).toNat,
      vince := fun i => (((command._vince i : Int) * thread.num_cores) % 2 ^ 32).toNat }

/-- `explicit operator bool()`. -/
def toBool (loop : DrawerWall4Command.LoopIterator) : Bool := decide (loop.count > 0)

/-- `sample_index(col)`: `vplce[col] >> bits`. -/
def sample_index (loop : DrawerWall4Command.LoopIterator) (col : Fin 4) : Nat :=
  loop.vplce col >>> loop.bits.toNat

/-- `next()`: the iterator afterwards and the value returned. -/
def next (loop : DrawerWall4Command.LoopIterator) : DrawerWall4Command.LoopIterator × Bool :=
  let vplce := fun i => add32 (loop.vplce i) (loop.vince i)
  let dest := loop.dest + loop.pitch
  let count := loop.count - 1
  ({ loop with vplce := vplce, dest := dest, count := count }, decide (count ≠ 0))

end DrawerWall4Command.LoopIterator

/-- The body `for (int i = 0; i < 4; i++) loop.dest[i] = kernel;` of the 4-wide
wall commands; `kernel loop i bg` is the value stored in `loop.dest[i]`,
computed from the iterator and the pixel `bg = loop.dest[i]`. -/
def DrawerWall4Command.body (kernel : DrawerWall4Command.LoopIterator → Fin 4 → Nat → Nat)
    (loop : DrawerWall4Command.LoopIterator) (fb : FrameBuffer) : FrameBuffer :=
  let fb := fb.write (loop.dest + 0) (kernel loop 0 (fb (loop.dest + 0)))
  let fb := fb.write (loop.dest + 1) (kernel loop 1 (fb (loop.dest + 1)))
  let fb := fb.write (loop.dest + 2) (kernel loop 2 (fb (loop.dest + 2)))
  fb.write (loop.dest + 3) (kernel loop 3 (fb (loop.dest + 3)))

/-- The loop `do { ... } while (loop.next());` of the 4-wide wall commands. -/
def DrawerWall4Command.doWhile (kernel : DrawerWall4Command.LoopIterator → Fin 4 → Nat → Nat) :
    Nat → DrawerWall4Command.LoopIterator → FrameBuffer → FrameBuffer
  | 0, _, fb => fb
  | fuel + 1, loop, fb =>
    let fb := DrawerWall4Command.body kernel loop fb
    let r := loop.next
    if r.2 then DrawerWall4Command.doWhile kernel fuel r.1 fb else fb

/-- `Execute` of a command built on `DrawerWall4Command`. -/
def DrawerWall4Command.Execute (kernel : DrawerWall4Command.LoopIterator → Fin 4 → Nat → Nat)
    (command : DrawerWall4Command) (thread : DrawerThread) (fb : FrameBuffer) : FrameBuffer :=
  let loop := DrawerWall4Command.LoopIterator.new command thread
  if !loop.toBool then fb
  else DrawerWall4Command.doWhile kernel loop.count.toNat loop fb

/-! ## Fuzz column -/

/-- The fields of `DrawFuzzColumnRGBACommand`; `_destorg` is a word index. -/
structure DrawFuzzColumnRGBACommand where
  _x : Int
  _yl : Int
  _yh : Int
  _destorg : Int
  _pitch : Int
  _fuzzpos : Int
  _fuzzviewheight : Int
  deriving DecidableEq

/-- The darkened pixel the fuzz kernel stores for the background pixel `bg`:
each of red, green and blue times 3 divided by 4, alpha `0xff`. -/
def DrawFuzzColumnRGBACommand.darken (bg : Nat) : Nat :=
  let red := mul32 (RPART bg) 3 / 4
  let green := mul32 (GPART bg) 3 / 4
  let blue := mul32 (BPART bg) 3 / 4
  packBgra red green blue

/-- The inner `do { ... } while (--cnt);` of the fuzz kernel. Returns `dest`,
`fuzz` and the frame buffer afterwards; `none` when the fuel runs out, which
with fuel `cnt` happens exactly when the loop is entered with `cnt <= 0`. -/
def DrawFuzzColumnRGBACommand.inner (env : DrawEnv) (pitch fuzzstep : Int) :
    Nat → Int → Int → Int → FrameBuffer → Option (Int × Int × FrameBuffer)
  | 0, _, _, _, _ => none
  | fuel + 1, dest, fuzz, cnt, fb =>
    let bg := fb (dest + env.fuzzoffset fuzz * fuzzstep)
    let fb := fb.write dest (DrawFuzzColumnRGBACommand.darken bg)
    let dest := dest + pitch
    let fuzz := fuzz + fuzzstep
    let cnt := cnt - 1
    if cnt ≠ 0 then DrawFuzzColumnRGBACommand.inner env pitch fuzzstep fuel dest fuzz cnt fb
    else some (dest, fuzz, fb)

/-- The loop `while (count > 0) { ... }` of the fuzz kernel (the part where
`fuzzoffset` stays within bounds). -/
def DrawFuzzColumnRGBACommand.middle (env : DrawEnv) (pitch fuzzstep : Int) :
    Nat → Int → Int → Int → FrameBuffer → Option (Int × Int × FrameBuffer)
  | 0, dest, fuzz, count, fb => if count > 0 then none else some (dest, fuzz, fb)
  | fuel + 1, dest, fuzz, count, fb =>
    if count > 0 then
      let available := env.FUZZTABLE - fuzz
      let next_wrap := Int.tdiv available fuzzstep
      let next_wrap := if Int.tmod available fuzzstep ≠ 0 then next_wrap + 1 else next_wrap
      let cnt := min count next_wrap
      let count := count - cnt
      match DrawFuzzColumnRGBACommand.inner env pitch fuzzstep cnt.toNat dest fuzz cnt fb with
      | none => none
      | some (dest, fuzz, fb) =>
        let fuzz := Int.tmod fuzz env.FUZZTABLE
        DrawFuzzColumnRGBACommand.middle env pitch fuzzstep fuel dest fuzz count fb
    else some (dest, fuzz, fb)

/-- The part of `DrawFuzzColumnRGBACommand::Execute` after the top branch:
the `lowerbounds` test, the in-bounds loop and the bottom branch. -/
def DrawFuzzColumnRGBACommand.afterTop (env : DrawEnv) (command : DrawFuzzColumnRGBACommand)
    (pitch fuzzstep yl dest fuzz count : Int) (fb : FrameBuffer) : Option FrameBuffer :=
  let lowerbounds := decide (yl + count * fuzzstep > command._fuzzviewheight)
  let count := if lowerbounds then count - 1 else count
  -- Fuzz where fuzzoffset stays within bounds
  match DrawFuzzColumnRGBACommand.middle env pitch fuzzstep count.toNat dest fuzz count fb with
  | none => none
  | some (dest, fuzz, fb) =>
    -- Handle the case where we would go out of bounds at the bottom
    if lowerbounds then
      let bg := fb (dest + (env.fuzzoffset fuzz * fuzzstep - pitch))
      some (fb.write dest (DrawFuzzColumnRGBACommand.darken bg))
    else some fb

/-- `DrawFuzzColumnRGBACommand::Execute`. `none` when one of the loops does not
come to an end. -/
def DrawFuzzColumnRGBACommand.Execute (env : DrawEnv) (command : DrawFuzzColumnRGBACommand)
    (thread : DrawerThread) (fb : FrameBuffer) : Option FrameBuffer :=
  let yl := max command._yl 1
  let yh := min command._yh command._fuzzviewheight
  let count := thread.count_for_thread yl (yh - yl + 1)
  -- Zero length.
  if count ≤ 0 then some fb
  else
    let dest := thread.dest_for_thread yl command._pitch
      (env.ylookup yl + command._x + command._destorg)
    let pitch := command._pitch * thread.num_cores
    let fuzzstep := thread.num_cores
    let fuzz := Int.tmod (command._fuzzpos + thread.skipped_by_thread yl) env.FUZZTABLE
    let yl := yl + thread.skipped_by_thread yl
    -- Handle the case where we would go out of bounds at the top:
    if yl < fuzzstep then
      let bg := fb (dest + (env.fuzzoffset fuzz * fuzzstep + pitch))
      let fb := fb.write dest (DrawFuzzColumnRGBACommand.darken bg)
      let dest := dest + pitch
      let fuzz := fuzz + fuzzstep
      let fuzz := Int.tmod fuzz env.FUZZTABLE
      let count := count - 1
      if count = 0 then some fb
      else DrawFuzzColumnRGBACommand.afterTop env command pitch fuzzstep yl dest fuzz count fb
    else DrawFuzzColumnRGBACommand.afterTop env command pitch fuzzstep yl dest fuzz count fb

/-! ## Translucent fill column -/

/-- The fields of `FillTransColumnRGBACommand`; `_destorg` is a word index. -/
structure FillTransColumnRGBACommand where
  _x : Int
  _y1 : Int
  _y2 : Int
  _color : Int
  _a : Int
  _destorg : Int
  _pitch : Int
  deriving DecidableEq

/-- The loop `for (int y = 0; y < ycount; y++)` of `FillTransColumnRGBACommand`. -/
def FillTransColumnRGBACommand.loop (fg_red fg_green fg_blue inv_alpha : Nat)
    (spacing ycount : Int) : Nat → Int → Int → FrameBuffer → FrameBuffer
  | 0, _, _, fb => fb
  | fuel + 1, y, dest, fb =>
    if y < ycount then
      let bg_red := (fb dest >>> 16) &&& 0xff
      let bg_green := (fb dest >>> 8) &&& 0xff
      let bg_blue := fb dest &&& 0xff
      let red := add32 fg_red (mul32 bg_red inv_alpha) / 256
      let green := add32 fg_green (mul32 bg_green inv_alpha) / 256
      let blue := add32 fg_blue (mul32 bg_blue inv_alpha) / 256
      let fb := fb.write dest (packBgra red green blue)
      FillTransColumnRGBACommand.loop fg_red fg_green fg_blue inv_alpha spacing ycount fuel
        (y + 1) (dest + spacing) fb
    else fb

/-- `FillTransColumnRGBACommand::Execute`. -/
def FillTransColumnRGBACommand.Execute (env : DrawEnv) (command : FillTransColumnRGBACommand)
    (thread : DrawerThread) (fb : FrameBuffer) : FrameBuffer :=
  let x := command._x
  let y1 := command._y1
  let y2 := command._y2
  let color := command._color
  let a := command._a
  let ycount := thread.count_for_thread y1 (y2 - y1 + 1)
  if ycount ≤ 0 then fb
  else
    let fg := env.palette color
    let fg_red := (fg >>> 16) &&& 0xff
    let fg_green := (fg >>> 8) &&& 0xff
    let fg_blue := fg &&& 0xff
    let alpha := ((a + 1) % 2 ^ 32).toNat
    let inv_alpha := sub32 256 alpha
    let fg_red := mul32 fg_red alpha
    let fg_green := mul32 fg_green alpha
    let fg_blue := mul32 fg_blue alpha
    let spacing := command._pitch * thread.num_cores
    let dest := thread.dest_for_thread y1 command._pitch (env.ylookup y1 + x + command._destorg)
    FillTransColumnRGBACommand.loop fg_red fg_green fg_blue inv_alpha spacing ycount
      ycount.toNat 0 dest fb

/-! ## Voxel slab -/

/-- The fields of `DrawSlabRGBACommand` that address pixels and step through
the voxel column; `_p` is a word index. The colour looked up for a voxel
index is passed to `Execute` separately. -/
structure DrawSlabRGBACommand where
  _dx : Int
  _v : Int
  _dy : Int
  _vi : Int
  _p : Int
  _pitch : Int
  _start_y : Int
  deriving DecidableEq

/-- The loop `for (x = 0; x < dx; x++) p[x] = color;` of the general branch. -/
def DrawSlabRGBACommand.fillRow (dx p : Int) (color : Nat) : Nat → Int → FrameBuffer → FrameBuffer
  | 0, _, fb => fb
  | fuel + 1, x, fb =>
    if x < dx then DrawSlabRGBACommand.fillRow dx p color fuel (x + 1) (fb.write (p + x) color)
    else fb

/-- One `while (dy > 0)` loop of `DrawSlabRGBACommand::Execute`; `row p color`
is what the body stores for one row. `shade i` stands for
`LightBgra::shade_pal_index(colormap[vptr[i]], light, shade_constants)`. -/
def DrawSlabRGBACommand.rowLoop (env : DrawEnv) (shade : Int → Nat)
    (row : Int → Nat → FrameBuffer → FrameBuffer) (pitch vi : Int) :
    Nat → Int → Int → Int → FrameBuffer → FrameBuffer
  | 0, _, _, _, fb => fb
  | fuel + 1, dy, p, v, fb =>
    if dy > 0 then
      let color := shade (v >>> env.FRACBITS)
      let fb := row p color fb
      DrawSlabRGBACommand.rowLoop env shade row pitch vi fuel (dy - 1) (p + pitch)
        (toInt32 (v + vi)) fb
    else fb

/-- `DrawSlabRGBACommand::Execute`: the set-up and the five branches on `dx`. -/
def DrawSlabRGBACommand.Execute (env : DrawEnv) (shade : Int → Nat)
    (command : DrawSlabRGBACommand) (thread : DrawerThread) (fb : FrameBuffer) : FrameBuffer :=
  let dx := command._dx
  let v := command._v
  let dy := command._dy
  let vi := command._vi
  let p := command._p
  let pitch := command._pitch
  let dy := thread.count_for_thread command._start_y dy
  let p := thread.dest_for_thread command._start_y pitch p
  let v := toInt32 (v + toInt32 (vi * thread.skipped_by_thread command._start_y))
  let vi := toInt32 (vi * thread.num_cores)
  let pitch := pitch * thread.num_cores
  if dx = 1 then
    DrawSlabRGBACommand.rowLoop env shade (fun p color fb => fb.write p color)
      pitch vi dy.toNat dy p v fb
  else if dx = 2 then
    DrawSlabRGBACommand.rowLoop env shade
      (fun p color fb => (fb.write (p + 0) color).write (p + 1) color)
      pitch vi dy.toNat dy p v fb
  else if dx = 3 then
    DrawSlabRGBACommand.rowLoop env shade
      (fun p color fb => ((fb.write (p + 0) color).write (p + 1) color).write (p + 2) color)
      pitch vi dy.toNat dy p v fb
  else if dx = 4 then
    DrawSlabRGBACommand.rowLoop env shade
      (fun p color fb =>
        (((fb.write (p + 0) color).write (p + 1) color).write (p + 2) color).write (p + 3) color)
      pitch vi dy.toNat dy p v fb
  else
    DrawSlabRGBACommand.rowLoop env shade
      (fun p color fb => DrawSlabRGBACommand.fillRow dx p color dx.toNat 0 fb)
      pitch vi dy.toNat dy p v fb

/-! ## Span commands -/

/-- The fields of `DrawerSpanCommand` that its `LoopIterator` reads; `_destorg`
is a word index. The fractions and steps are `fixed_t` values. -/
structure DrawerSpanCommand where
  _xfrac : Int
  _yfrac : Int
  _xstep : Int
  _ystep : Int
  _x1 : Int
  _x2 : Int
  _y : Int
  _xbits : Int
  _ybits : Int
  _destorg : Int
  deriving DecidableEq

/-- The fields of `DrawerSpanCommand::LoopIterator`. The fractions and steps
are `dsfixed_t` (unsigned 32-bit), the shifts are `BYTE`. -/
structure DrawerSpanCommand.LoopIterator where
  dest : Int
  count : Int
  xfrac : Nat
  yfrac : Nat
  xstep : Nat
  ystep : Nat
  yshift : Nat
  xshift : Nat
  xmask : Int
  is_64x64 : Bool
  skipped : Bool
  deriving DecidableEq

namespace DrawerSpanCommand.LoopIterator

/-- The constructor `LoopIterator(command, thread)`. The shifts are reduced to a
`BYTE`; `((1 << xbits) - 1) << ybits` is written with powers of two. -/
def new (env : DrawEnv) (command : DrawerSpanCommand) (thread : DrawerThread) :
    DrawerSpanCommand.LoopIterator :=
  let yshift := ((32 - command._ybits) % 256).toNat
  { dest := env.ylookup command._y + command._x1 + command._destorg
    count := command._x2 - command._x1 + 1
    xfrac := (command._xfrac % 2 ^ 32).toNat
    yfrac := (command._yfrac % 2 ^ 32).toNat
    xstep := (command._xstep % 2 ^ 32).toNat
    ystep := (command._ystep % 2 ^ 32).toNat
    yshift := yshift
    xshift := (((yshift : Int) - command._xbits) % 256).toNat
    xmask := ((2 : Int) ^ command._xbits.toNat - 1) * 2 ^ command._ybits.toNat
    is_64x64 := decide (command._xbits = 6) && decide (command._ybits = 6)
    skipped := thread.line_skipped_by_thread command._y }

/-- `spot64()`: the sample index of the 64x64 fast path. -/
def spot64 (loop : DrawerSpanCommand.LoopIterator) : Int :=
  toInt32 (add32 ((loop.xfrac >>> (32 - 6 - 6)) &&& (63 * 64)) (loop.yfrac >>> (32 - 6)))

/-- `spot()`: the sample index of the general path. The `int` mask is
converted to unsigned for the `&`. -/
def spot (loop : DrawerSpanCommand.LoopIterator) : Int :=
  toInt32 (add32 ((loop.xfrac >>> loop.xshift) &&& (loop.xmask % 2 ^ 32).toNat)
    (loop.yfrac >>> loop.yshift))

/-- `explicit operator bool()`. -/
def toBool (loop : DrawerSpanCommand.LoopIterator) : Bool :=
  !loop.skipped && decide (loop.count > 0)

/-- `next()`: the iterator afterwards and the value returned. -/
def next (loop : DrawerSpanCommand.LoopIterator) : DrawerSpanCommand.LoopIterator × Bool :=
  let dest := loop.dest + 1
  let xfrac := add32 loop.xfrac loop.xstep
  let yfrac := add32 loop.yfrac loop.ystep
  let count := loop.count - 1
  ({ loop with dest := dest, xfrac := xfrac, yfrac := yfrac, count := count },
    decide (count ≠ 0))

end DrawerSpanCommand.LoopIterator

/-- The loop `do { *loop.dest = kernel; } while (loop.next());` of the span
commands; `kernel loop bg` is the value the body stores. -/
def DrawerSpanCommand.doWhile (kernel : DrawerSpanCommand.LoopIterator → Nat → Nat) :
    Nat → DrawerSpanCommand.LoopIterator → FrameBuffer → FrameBuffer
  | 0, _, fb => fb
  | fuel + 1, loop, fb =>
    let fb := fb.write loop.dest (kernel loop (fb loop.dest))
    let r := loop.next
    if r.2 then DrawerSpanCommand.doWhile kernel fuel r.1 fb else fb

/-- `Execute` of a command built on `DrawerSpanCommand`:
`LoopIterator loop(this, thread); if (!loop) return;` and then one of the
`do ... while (loop.next())` loops, chosen by flags that do not change while
it runs. -/
def DrawerSpanCommand.Execute (env : DrawEnv)
    (kernel : DrawerSpanCommand.LoopIterator → Nat → Nat)
    (command : DrawerSpanCommand) (thread : DrawerThread) (fb : FrameBuffer) : FrameBuffer :=
  let loop := DrawerSpanCommand.LoopIterator.new env command thread
  if !loop.toBool then fb
  else DrawerSpanCommand.doWhile kernel loop.count.toNat loop fb

/-- The loop `for (int i = 0; i < count; i++) dest[i] = color;` of
`FillSpanRGBACommand` and `DrawColoredSpanRGBACommand`. -/
def fillSpanLoop (dest count : Int) (color : Nat) : Nat → Int → FrameBuffer → FrameBuffer
  | 0, _, fb => fb
  | fuel + 1, i, fb =>
    if i < count then fillSpanLoop dest count color fuel (i + 1) (fb.write (dest + i) color)
    else fb

/-- The fields of `FillSpanRGBACommand`; `_destorg` is a word index. -/
structure FillSpanRGBACommand where
  _x1 : Int
  _x2 : Int
  _y : Int
  _destorg : Int
  _light : Int
  _color : Int
  deriving DecidableEq

/-- `FillSpanRGBACommand::Execute`. -/
def FillSpanRGBACommand.Execute (env : DrawEnv) (command : FillSpanRGBACommand)
    (thread : DrawerThread) (fb : FrameBuffer) : FrameBuffer :=
  if thread.line_skipped_by_thread command._y then fb
  else
    let dest := env.ylookup command._y + command._x1 + command._destorg
    let count := command._x2 - command._x1 + 1
    let light := env.calc_light_multiplier command._light
    let color := env.shade_pal_index_simple command._color light
    fillSpanLoop dest count color count.toNat 0 fb

/-- The fields of `DrawColoredSpanRGBACommand`; `_destorg` is a word index. -/
structure DrawColoredSpanRGBACommand where
  _y : Int
  _x1 : Int
  _x2 : Int
  _destorg : Int
  _light : Int
  _color : Int
  deriving DecidableEq

/-- `DrawColoredSpanRGBACommand::Execute`. -/
def DrawColoredSpanRGBACommand.Execute (env : DrawEnv) (command : DrawColoredSpanRGBACommand)
    (thread : DrawerThread) (fb : FrameBuffer) : FrameBuffer :=
  if thread.line_skipped_by_thread command._y then fb
  else
    let y := command._y
    let x1 := command._x1
    let x2 := command._x2
    let dest := env.ylookup y + x1 + command._destorg
    let count := x2 - x1 + 1
    let light := env.calc_light_multiplier command._light
    let color := env.shade_pal_index_simple command._color light
    fillSpanLoop dest count color count.toNat 0 fb

/-- The fields of `DrawTiltedSpanRGBACommand`; `_destorg` is a word index. -/
structure DrawTiltedSpanRGBACommand where
  _y : Int
  _x1 : Int
  _x2 : Int
  _destorg : Int
  deriving DecidableEq

/-- The loop `while (count > 0) { *(dest++) = source[0]; count--; }`. -/
def DrawTiltedSpanRGBACommand.loop (source0 : Nat) : Nat → Int → Int → FrameBuffer → FrameBuffer
  | 0, _, _, fb => fb
  | fuel + 1, dest, count, fb =>
    if count > 0 then
      DrawTiltedSpanRGBACommand.loop source0 fuel (dest + 1) (count - 1) (fb.write dest source0)
    else fb

/-- `DrawTiltedSpanRGBACommand::Execute`; `source0` is the word `source[0]` the
captured `_source` pointer points to. -/
def DrawTiltedSpanRGBACommand.Execute (env : DrawEnv) (source0 : Nat)
    (command : DrawTiltedSpanRGBACommand) (thread : DrawerThread) (fb : FrameBuffer) :
    FrameBuffer :=
  if thread.line_skipped_by_thread command._y then fb
  else
    let y := command._y
    let x1 := command._x1
    let x2 := command._x2
    let dest := env.ylookup y + x1 + command._destorg
    let count := x2 - x1 + 1
    DrawTiltedSpanRGBACommand.loop source0 count.toNat dest count fb

/-! ## Fog boundary -/

/-- The fields of `DrawFogBoundaryLineRGBACommand`; `_destorg` is a word index. -/
structure DrawFogBoundaryLineRGBACommand where
  _y : Int
  _x : Int
  _x2 : Int
  _destorg : Int
  _light : Int
  _shade_constants : ShadeConstants
  deriving DecidableEq

/-- The pixel `DrawFogBoundaryLineRGBACommand::Execute` stores in place of the
pixel `bg = dest[x]`: the body of its loop. -/
def DrawFogBoundaryLineRGBACommand.shadePixel (light : Nat) (constants : ShadeConstants)
    (bg : Nat) : Nat :=
  let red := (bg >>> 16) &&& 0xff
  let green := (bg >>> 8) &&& 0xff
  let blue := bg &&& 0xff
  if constants.simple_shade then
    let red := mul32 red light / 256
    let green := mul32 green light / 256
    let blue := mul32 blue light / 256
    packBgra red green blue
  else
    let inv_light := sub32 256 light
    let inv_desaturate := sub32 256 constants.desaturate
    let intensity :=
      mul32 (add32 (add32 (mul32 red 77) (mul32 green 143)) (mul32 blue 37) >>> 8)
        constants.desaturate
    let red := add32 (mul32 red inv_desaturate) intensity / 256
    let green := add32 (mul32 green inv_desaturate) intensity / 256
    let blue := add32 (mul32 blue inv_desaturate) intensity / 256
    let red := add32 (mul32 constants.fade_red inv_light) (mul32 red light) / 256
    let green := add32 (mul32 constants.fade_green inv_light) (mul32 green light) / 256
    let blue := add32 (mul32 constants.fade_blue inv_light) (mul32 blue light) / 256
    let red := mul32 red constants.light_red / 256
    let green := mul32 green constants.light_green / 256
    let blue := mul32 blue constants.light_blue / 256
    packBgra red green blue

/-- The loop `do { ... dest[x] = ...; } while (++x <= x2);`. -/
def DrawFogBoundaryLineRGBACommand.doWhile (light : Nat) (constants : ShadeConstants)
    (dest x2 : Int) : Nat → Int → FrameBuffer → FrameBuffer
  | 0, _, fb => fb
  | fuel + 1, x, fb =>
    let fb := fb.write (dest + x)
      (DrawFogBoundaryLineRGBACommand.shadePixel light constants (fb (dest + x)))
    let x := x + 1
    if x ≤ x2 then DrawFogBoundaryLineRGBACommand.doWhile light constants dest x2 fuel x fb
    else fb

/-- `DrawFogBoundaryLineRGBACommand::Execute`. The body runs once and then
once more for every further column up to `x2`, so `(x2 - x) + 1` (at least 1)
is enough fuel. -/
def DrawFogBoundaryLineRGBACommand.Execute (env : DrawEnv)
    (command : DrawFogBoundaryLineRGBACommand) (thread : DrawerThread) (fb : FrameBuffer) :
    FrameBuffer :=
  if thread.line_skipped_by_thread command._y then fb
  else
    let y := command._y
    let x := command._x
    let x2 := command._x2
    let dest := env.ylookup y + command._destorg
    let light := env.calc_light_multiplier command._light
    let constants := command._shade_constants
    DrawFogBoundaryLineRGBACommand.doWhile light constants dest x2 ((x2 - x).toNat + 1) x fb

/-! ## Example drawing data -/

/-- Ambient variables set up for a fuzz column in column 7, rows 0 .. 150; the
variables a fuzz column does not use hold neutral values. -/
def exampleAmbient : Ambient :=
  { dc_x := 7, dc_yl := 0, dc_yh := 150, dc_destorg := 0, dc_pitch := 320, dc_dest := 327,
    dc_count := 151, dc_iscale := 65536, dc_texturefrac := 0, fuzzpos := 47,
    fuzzviewheight := 120, vplce := fun _ => 0, vince := fun _ => 65536,
    ds_y := 3, ds_x1 := 0, ds_x2 := 319,
    dc_color := 0, dc_colormap := 2000, dc_destalpha := 0, dc_light := 0,
    dc_shade_constants := ⟨256, 256, 256, 0, 0, 0, 0, true⟩, dc_source := 1000,
    dc_source2 := 0, dc_srcalpha := 65536, dc_srccolor_bgra := 0xff000000,
    dc_texturefracx := 0, dc_translation := 3000, ds_color := 0, ds_light := 0,
    ds_shade_constants := ⟨256, 256, 256, 0, 0, 0, 0, true⟩, ds_source := 4000,
    ds_xbits := 6, ds_xfrac := 0, ds_xstep := 65536, ds_ybits := 6, ds_yfrac := 0,
    ds_ystep := 0, bufplce := fun _ => 1000, bufplce2 := fun _ => 0,
    buftexturefracx := fun _ => 0, palookuplight := fun _ => 0, vlinebits := 16,
    mvlinebits := 16, tmvlinebits := 16, vlinemax := 0, mvlinemax := 0, tmvlinemax := 0 }

/-- A frame of 320 words per row starting at word 0, a two-entry fuzz pattern,
16 fraction bits, a one-colour palette, simple lighting, blending and sampling
helpers and a memory whose element `p[i]` is `(p + i) mod 256`, with the
example ambient variables. -/
def exampleDrawEnv : DrawEnv :=
  { toAmbient := exampleAmbient
    ylookup := fun y => y * 320
    fuzzoffset := fun i => if i % 2 = 0 then 1 else -1
    FUZZTABLE := 50
    FRACBITS := 16
    palette := fun _ => 0xff112233
    calc_light_multiplier := fun light => (256 - light).toNat
    shade_pal_index_simple := fun color light => 0xff000000 + color.toNat * light
    shade_pal_index := fun index light _ => 0xff000000 + index * light
    shade_bgra := fun color light _ =>
      packBgra (RPART color * light / 256) (GPART color * light / 256)
        (BPART color * light / 256)
    alpha_blend := fun fg bg => if APART fg = 0 then bg else fg
    calc_blend_bgalpha := fun _ destalpha => destalpha
    sample_bilinear_span := fun _ _ _ _ _ => 0xff808080
    sample_bilinear_wall := fun _ _ _ _ _ _ => 0xff808080
    mem := fun p i => ((p + i) % 256).toNat }

/-- A frame buffer filled with black pixels of alpha 0. -/
def exampleFrameBuffer : FrameBuffer := fun _ => 0

/-! ## Running fill columns on several workers -/

/-- The word indices the `do { *loop.dest = ...; } while (loop.next());` loop of
a column command stores to, one entry per store, in order. -/
def DrawerColumnCommand.destLog : Nat → DrawerColumnCommand.LoopIterator → List Int
  | 0, _ => []
  | fuel + 1, loop =>
    loop.dest :: (if loop.next.2 then DrawerColumnCommand.destLog fuel loop.next.1 else [])

/-- The word indices `Execute` of a column command stores to on a worker, one
entry per store, in order. -/
def DrawerColumnCommand.stores (command : DrawerColumnCommand) (thread : DrawerThread) :
    List Int :=
  let loop := DrawerColumnCommand.LoopIterator.new command thread
  if !loop.toBool then []
  else DrawerColumnCommand.destLog loop.count.toNat loop

/-- The stores of a log carried out in order: each entry is the word stored to
and the value stored. -/
def FrameBuffer.writeAll (fb : FrameBuffer) (log : List (Int × Nat)) : FrameBuffer :=
  log.foldl (fun fb s => fb.write s.1 s.2) fb

/-- The stores `FillColumnRGBACommand::Execute` makes on a worker, one entry
per iteration of its loop, in order: the word stored to and the value
`BlendBgra::copy(_color)` stored. -/
def FillColumnRGBACommand.storeLog (command : FillColumnRGBACommand) (thread : DrawerThread) :
    List (Int × Nat) :=
  (command.column.stores thread).map fun dest => (dest, BlendBgra.copy command._color)

/-- One worker executing a list of fill-column commands in list order (the
inner loop over `active_commands` of one pass). -/
def FillColumnRGBACommand.ExecuteAll (commands : List FillColumnRGBACommand)
    (thread : DrawerThread) (fb : FrameBuffer) : FrameBuffer :=
  commands.foldl (fun fb command => command.Execute thread fb) fb

/-- Several workers executing the same list one after the other, in the order
of the list `threads`. -/
def FillColumnRGBACommand.ExecuteOnWorkers (commands : List FillColumnRGBACommand)
    (threads : List DrawerThread) (fb : FrameBuffer) : FrameBuffer :=
  threads.foldl (fun fb thread => FillColumnRGBACommand.ExecuteAll commands thread fb) fb

/-- A column command captured for a frame with `pitch` words per row whose row
0 starts at word `destorg`: `_pitch` is the frame pitch and `_dest` is the
word of some column `x` in row `_dest_y`. (The base class computes `_dest_y`
from `dc_dest`, `dc_destorg` and `dc_pitch` this way.) -/
def DrawerColumnCommand.InFrame (destorg pitch : Int) (command : DrawerColumnCommand) : Prop :=
  command._pitch = pitch ∧
    ∃ x : Int, 0 ≤ x ∧ x < pitch ∧ command._dest = destorg + command._dest_y * pitch + x

/-- Four fill columns of 1000 rows each, in columns 0..3 of a frame with 4
words per row. -/
def exampleFillColumns : List FillColumnRGBACommand :=
  [ { column := { _dest_y := 0, _count := 1000, _dest := 0, _pitch := 4, _iscale := 0,
                  _texturefrac := 0 }, _color := 0xff000011 },
    { column := { _dest_y := 0, _count := 1000, _dest := 1, _pitch := 4, _iscale := 0,
                  _texturefrac := 0 }, _color := 0xff000022 },
    { column := { _dest_y := 0, _count := 1000, _dest := 2, _pitch := 4, _iscale := 0,
                  _texturefrac := 0 }, _color := 0xff000033 },
    { column := { _dest_y := 0, _count := 1000, _dest := 3, _pitch := 4, _iscale := 0,
                  _texturefrac := 0 }, _color := 0xff000044 } ]

/-- The word `idx` is one of the words
`dest_for_thread(dest_y, pitch, dest) + k * pitch * num_cores`, `0 <= k < c`,
with `c = count_for_thread(dest_y, count)`: the words a column command stores
to on this worker. -/
def DrawerColumnCommand.Stored (command : DrawerColumnCommand) (thread : DrawerThread)
    (idx : Int) : Prop :=
  ∃ k : Int, 0 ≤ k ∧ k < thread.count_for_thread command._dest_y command._count ∧
    idx = thread.dest_for_thread command._dest_y command._pitch command._dest
            + k * (command._pitch * thread.num_cores)

/-- The descriptor of worker `k` of `N` during a pass with row window
`[pass_start_y, pass_end_y)`. -/
def workerThread (N : Nat) (pass_start_y pass_end_y : Int) (k : Nat) : DrawerThread :=
  { core := (k : Int), num_cores := (N : Int), pass_start_y := pass_start_y,
    pass_end_y := pass_end_y }

/-! ## Size of the pool -/

/-- The local `num_threads` of `StartThreads` once it is settled: the
concurrency hint, or 4 when the hint is 0. -/
def StartThreads.num_threads (env : Env) : Int :=
  let num_threads : Int := env.hardware_concurrency
  if num_threads = 0 then 4 else num_threads

/-- The pool as `StartThreads` builds it, as far as the drawers can tell: pool
thread `i` has `core = i + 1` and `num_cores = num_threads`. -/
def DrawerCommandQueue.PoolBuilt {Cmd : Type} (env : Env) (queue : DrawerCommandQueue Cmd) :
    Prop :=
  queue.threads.map (fun w => (w.thread.core, w.thread.num_cores))
    = (List.range (StartThreads.num_threads env - 1).toNat).map
        (fun (i : Nat) => ((i : Int) + 1, StartThreads.num_threads env))

/-! ## Shutdown -/

/-- What a pool thread does once `StopThreads` has notified it: it evaluates the
wait predicate `queue->run_id != run_id || queue->shutdown_flag` and, when that
holds, `if (queue->shutdown_flag) break;`. The value is `true` when the thread
leaves its loop, so that `join()` on it returns. -/
def WorkerLoop.exits {Cmd : Type} (queue : DrawerCommandQueue Cmd) (w : PoolThread) : Bool :=
  (decide (queue.run_id ≠ w.run_id) || queue.shutdown_flag) && queue.shutdown_flag

/-- `DrawerCommandQueue::StopThreads`. `none` means the caller stays blocked in a
`join()`, because some pool thread does not leave its loop. -/
def StopThreads {Cmd : Type} (queue : DrawerCommandQueue Cmd) :
    Option (DrawerCommandQueue Cmd) :=
  let queue := { queue with shutdown_flag := true }
  -- start_condition.notify_all(); then join every thread
  if queue.threads.all (WorkerLoop.exits queue) then
    let queue := { queue with threads := [] }
    some { queue with shutdown_flag := false }
  else none

/-- A queue with a pool of two parked threads, two pending commands and 48
bytes of arena in use. -/
def examplePoolQueue : DrawerCommandQueue Nat :=
  { exampleQueue with
    memorypool_pos := 48, run_id := 5,
    threads := [
      { thread := { core := 1, num_cores := 3, pass_start_y := 100, pass_end_y := 200 },
        run_id := 5 },
      { thread := { core := 2, num_cores := 3, pass_start_y := 100, pass_end_y := 200 },
        run_id := 5 }] }

/-! ## Trace of the fuzz column -/

/-- One pass through one of the three places of `DrawFuzzColumnRGBACommand::Execute`
that store a pixel: the word `dest` stored to, the index `fuzz` used to read
`fuzzoffset`, and the index expression `offset` of the read `dest[offset]`
(`fuzzoffset[fuzz] * fuzzstep`, plus `pitch` in the top branch and minus
`pitch` in the bottom branch). -/
structure DrawFuzzColumnRGBACommand.Step where
  dest : Int
  fuzz : Int
  offset : Int
  deriving DecidableEq

/-- What one such place does to the frame buffer: `bg = dest[offset]`, then
`*dest = 0xff000000 | (red << 16) | (green << 8) | blue` with the three
channels of `bg` times 3 divided by 4. -/
def DrawFuzzColumnRGBACommand.Step.run (s : DrawFuzzColumnRGBACommand.Step)
    (fb : FrameBuffer) : FrameBuffer :=
  fb.write s.dest (DrawFuzzColumnRGBACommand.darken (fb (s.dest + s.offset)))

/-- The frame buffer after a sequence of such steps, in order. -/
def DrawFuzzColumnRGBACommand.replay (steps : List DrawFuzzColumnRGBACommand.Step)
    (fb : FrameBuffer) : FrameBuffer :=
  steps.foldl (fun fb s => s.run fb) fb

/-- The steps of the inner `do { ... } while (--cnt);` of the fuzz kernel, with
`dest` and `fuzz` afterwards; the control flow is that of
`DrawFuzzColumnRGBACommand.inner`. -/
def DrawFuzzColumnRGBACommand.innerSteps (env : DrawEnv) (pitch fuzzstep : Int) :
    Nat → Int → Int → Int → Option (Int × Int × List DrawFuzzColumnRGBACommand.Step)
  | 0, _, _, _ => none
  | fuel + 1, dest, fuzz, cnt =>
    let step : DrawFuzzColumnRGBACommand.Step :=
      { dest := dest, fuzz := fuzz, offset := env.fuzzoffset fuzz * fuzzstep }
    let dest := dest + pitch
    let fuzz := fuzz + fuzzstep
    let cnt := cnt - 1
    if cnt ≠ 0 then
      match DrawFuzzColumnRGBACommand.innerSteps env pitch fuzzstep fuel dest fuzz cnt with
      | none => none
      | some (dest, fuzz, steps) => some (dest, fuzz, step :: steps)
    else some (dest, fuzz, [step])

/-- The steps of the loop `while (count > 0) { ... }` of the fuzz kernel, with
`dest` and `fuzz` afterwards; the control flow is that of
`DrawFuzzColumnRGBACommand.middle`. -/
def DrawFuzzColumnRGBACommand.middleSteps (env : DrawEnv) (pitch fuzzstep : Int) :
    Nat → Int → Int → Int → Option (Int × Int × List DrawFuzzColumnRGBACommand.Step)
  | 0, dest, fuzz, count => if count > 0 then none else some (dest, fuzz, [])
  | fuel + 1, dest, fuzz, count =>
    if count > 0 then
      let available := env.FUZZTABLE - fuzz
      let next_wrap := Int.tdiv available fuzzstep
      let next_wrap := if Int.tmod available fuzzstep ≠ 0 then next_wrap + 1 else next_wrap
      let cnt := min count next_wrap
      let count := count - cnt
      match DrawFuzzColumnRGBACommand.innerSteps env pitch fuzzstep cnt.toNat dest fuzz cnt with
      | none => none
      | some (dest, fuzz, steps) =>
        let fuzz := Int.tmod fuzz env.FUZZTABLE
        match DrawFuzzColumnRGBACommand.middleSteps env pitch fuzzstep fuel dest fuzz count with
        | none => none
        | some (dest, fuzz, rest) => some (dest, fuzz, steps ++ rest)
    else some (dest, fuzz, [])

/-- The steps of the part of `DrawFuzzColumnRGBACommand::Execute` after the top
branch; the control flow is that of `DrawFuzzColumnRGBACommand.afterTop`. -/
def DrawFuzzColumnRGBACommand.afterTopSteps (env : DrawEnv)
    (command : DrawFuzzColumnRGBACommand) (pitch fuzzstep yl dest fuzz count : Int) :
    Option (List DrawFuzzColumnRGBACommand.Step) :=
  let lowerbounds := decide (yl + count * fuzzstep > command._fuzzviewheight)
  let count := if lowerbounds then count - 1 else count
  match DrawFuzzColumnRGBACommand.middleSteps env pitch fuzzstep count.toNat dest fuzz count with
  | none => none
  | some (dest, fuzz, steps) =>
    if lowerbounds then
      some (steps ++ [{ dest := dest, fuzz := fuzz, offset := env.fuzzoffset fuzz * fuzzstep - pitch }])
    else some steps

/-- The steps of `DrawFuzzColumnRGBACommand::Execute` in the order it takes
them: every read of `fuzzoffset` and every store, with the control flow of
`DrawFuzzColumnRGBACommand.Execute`. `none` when one of the loops does not
come to an end. -/
def DrawFuzzColumnRGBACommand.ExecuteSteps (env : DrawEnv)
    (command : DrawFuzzColumnRGBACommand) (thread : DrawerThread) :
    Option (List DrawFuzzColumnRGBACommand.Step) :=
  let yl := max command._yl 1
  let yh := min command._yh command._fuzzviewheight
  let count := thread.count_for_thread yl (yh - yl + 1)
  if count ≤ 0 then some []
  else
    let dest := thread.dest_for_thread yl command._pitch
      (env.ylookup yl + command._x + command._destorg)
    let pitch := command._pitch * thread.num_cores
    let fuzzstep := thread.num_cores
    let fuzz := Int.tmod (command._fuzzpos + thread.skipped_by_thread yl) env.FUZZTABLE
    let yl := yl + thread.skipped_by_thread yl
    if yl < fuzzstep then
      let step : DrawFuzzColumnRGBACommand.Step :=
        { dest := dest, fuzz := fuzz, offset := env.fuzzoffset fuzz * fuzzstep + pitch }
      let dest := dest + pitch
      let fuzz := fuzz + fuzzstep
      let fuzz := Int.tmod fuzz env.FUZZTABLE
      let count := count - 1
      if count = 0 then some [step]
      else
        match DrawFuzzColumnRGBACommand.afterTopSteps env command pitch fuzzstep yl dest fuzz
          count with
        | none => none
        | some steps => some (step :: steps)
    else DrawFuzzColumnRGBACommand.afterTopSteps env command pitch fuzzstep yl dest fuzz count

/-- A fuzz table of 50 entries that alternate between one row down and one row
up (in a frame of pitch 320), with the other tables of the example. -/
def exampleFuzzEnv : DrawEnv :=
  { exampleDrawEnv with
    FUZZTABLE := 50
    fuzzoffset := fun i => if i % 2 = 0 then 320 else -320
    ylookup := fun y => y * 320 }

/-- A fuzz column queued for rows 0 .. 150 of column 7 with `fuzzpos = 47`, in a
view of 120 rows: it covers rows 1 .. 120. -/
def exampleFuzzColumn : DrawFuzzColumnRGBACommand :=
  { _x := 7, _yl := 0, _yh := 150, _destorg := 0, _pitch := 320, _fuzzpos := 47,
    _fuzzviewheight := 120 }

/-- The step `DrawFuzzColumnRGBACommand::Execute` takes for the `k`-th pixel of
a worker, in closed form: the store goes to the worker's first pixel plus
`k * pitch * num_cores`, the fuzz index is `(fuzzpos + s + k * num_cores) mod
FUZZTABLE` with `s = skipped_by_thread(yl)`, and the pixel read lies
`fuzzoffset[index] * num_cores` words from the store, one worker row further
down for the pixel the top branch handles and one worker row further up for
the pixel the bottom branch handles. -/
def DrawFuzzColumnRGBACommand.rowStep (env : DrawEnv) (command : DrawFuzzColumnRGBACommand)
    (thread : DrawerThread) (k : Nat) : DrawFuzzColumnRGBACommand.Step :=
  let yl := max command._yl 1
  let yh := min command._yh command._fuzzviewheight
  let count := thread.count_for_thread yl (yh - yl + 1)
  let s := thread.skipped_by_thread yl
  let pitch := command._pitch * thread.num_cores
  let top := decide (yl + s < thread.num_cores)
  let rest := if top then count - 1 else count
  let bottom := decide (yl + s + rest * thread.num_cores > command._fuzzviewheight)
  let fuzz := (command._fuzzpos + s + (k : Int) * thread.num_cores) % env.FUZZTABLE
  let adjust :=
    if top && decide (k = 0) then pitch
    else if bottom && decide ((k : Int) = count - 1) then -pitch
    else 0
  { dest := thread.dest_for_thread yl command._pitch
      (env.ylookup yl + command._x + command._destorg) + (k : Int) * pitch
    fuzz := fuzz
    offset := env.fuzzoffset fuzz * thread.num_cores + adjust }

/-! ## 128-bit vectors -/

/-- A `__m128i` (or `__m128`) value: the 128 bits as a number below `2^128`.
Lane `i` of width `bits` is the `i`-th group of `bits` bits counted from the
least significant end, as on the little-endian targets that have SSE2. -/
abbrev M128 := Nat

/-- Lane `i` of width `bits` of a vector. -/
def M128.lane (bits : Nat) (v : M128) (i : Nat) : Nat := (v >>> (bits * i)) % 2 ^ bits

/-- The lanes of width `bits` of a vector, lane 0 first. -/
def M128.lanes (bits : Nat) (v : M128) : List Nat :=
  (List.range (128 / bits)).map (M128.lane bits v)

/-- The vector with the given lanes of width `bits`, lane 0 first. -/
def M128.ofLanes (bits : Nat) : List Nat → M128
  | [] => 0
  | x :: xs => x % 2 ^ bits + 2 ^ bits * M128.ofLanes bits xs

/-- The value of a 16-bit lane read as a signed `short`. -/
def M128.toInt16 (x : Nat) : Int := if x < 2 ^ 15 then (x : Int) else (x : Int) - 2 ^ 16

/-- The two lists taken in turns: `a0, b0, a1, b1, ...`. -/
def M128.interleave : List Nat → List Nat → List Nat
  | a :: as, b :: bs => a :: b :: M128.interleave as bs
  | _, _ => []

/-- The SSE2 intrinsic `_mm_setzero_si128`. -/
def _mm_setzero_si128 : M128 := 0

/-- The SSE2 intrinsic `_mm_set_epi16`: the arguments are given from lane 7 down
to lane 0, each converted to a 16-bit lane. -/
def _mm_set_epi16 (e7 e6 e5 e4 e3 e2 e1 e0 : Int) : M128 :=
  M128.ofLanes 16 ([e0, e1, e2, e3, e4, e5, e6, e7].map (fun e => (e % 2 ^ 16).toNat))

/-- The SSE2 intrinsic `_mm_set1_epi32`: the same 32-bit value in all four lanes. -/
def _mm_set1_epi32 (a : Int) : M128 :=
  M128.ofLanes 32 (List.replicate 4 (a % 2 ^ 32).toNat)

/-- The SSE2 intrinsic `_mm_loadu_si128` on the frame buffer: the 16 bytes at
word index `p`, which are the four pixels `p .. p+3`. -/
def _mm_loadu_si128 (fb : FrameBuffer) (p : Int) : M128 :=
  M128.ofLanes 32 [fb p, fb (p + 1), fb (p + 2), fb (p + 3)]

/-- The SSE2 intrinsic `_mm_storeu_si128` on the frame buffer: the four 32-bit
lanes go to the pixels `p .. p+3`. -/
def _mm_storeu_si128 (fb : FrameBuffer) (p : Int) (a : M128) : FrameBuffer :=
  let fb := fb.write p (M128.lane 32 a 0)
  let fb := fb.write (p + 1) (M128.lane 32 a 1)
  let fb := fb.write (p + 2) (M128.lane 32 a 2)
  fb.write (p + 3) (M128.lane 32 a 3)

/-- The SSE2 intrinsic `_mm_unpacklo_epi8`: the low 8 bytes of `a` and `b` in turns. -/
def _mm_unpacklo_epi8 (a b : M128) : M128 :=
  M128.ofLanes 8 (M128.interleave ((M128.lanes 8 a).take 8) ((M128.lanes 8 b).take 8))

/-- The SSE2 intrinsic `_mm_unpackhi_epi8`: the high 8 bytes of `a` and `b` in turns. -/
def _mm_unpackhi_epi8 (a b : M128) : M128 :=
  M128.ofLanes 8 (M128.interleave ((M128.lanes 8 a).drop 8) ((M128.lanes 8 b).drop 8))

/-- The SSE2 intrinsic `_mm_unpacklo_epi16`: the low four 16-bit lanes of `a` and
`b` in turns. -/
def _mm_unpacklo_epi16 (a b : M128) : M128 :=
  M128.ofLanes 16 (M128.interleave ((M128.lanes 16 a).take 4) ((M128.lanes 16 b).take 4))

/-- The SSE2 intrinsic `_mm_unpackhi_epi16`: the high four 16-bit lanes of `a` and
`b` in turns. -/
def _mm_unpackhi_epi16 (a b : M128) : M128 :=
  M128.ofLanes 16 (M128.interleave ((M128.lanes 16 a).drop 4) ((M128.lanes 16 b).drop 4))

/-- The SSE2 intrinsic `_mm_mullo_epi16`: the low 16 bits of the lane-wise products. -/
def _mm_mullo_epi16 (a b : M128) : M128 :=
  M128.ofLanes 16 (List.zipWith (fun x y => x * y % 2 ^ 16) (M128.lanes 16 a) (M128.lanes 16 b))

/-- The SSE2 intrinsic `_mm_mulhi_epi16`: the high 16 bits of the 32-bit products
of the lanes read as signed values. -/
def _mm_mulhi_epi16 (a b : M128) : M128 :=
  M128.ofLanes 16 (List.zipWith
    (fun x y => ((M128.toInt16 x * M128.toInt16 y / 2 ^ 16) % 2 ^ 16).toNat)
    (M128.lanes 16 a) (M128.lanes 16 b))

/-- The SSE2 intrinsic `_mm_add_epi32`: lane-wise sum modulo `2^32`. -/
def _mm_add_epi32 (a b : M128) : M128 :=
  M128.ofLanes 32 (List.zipWith (fun x y => (x + y) % 2 ^ 32) (M128.lanes 32 a) (M128.lanes 32 b))

/-- The SSE2 intrinsic `_mm_sub_epi32`: lane-wise difference modulo `2^32`. -/
def _mm_sub_epi32 (a b : M128) : M128 :=
  M128.ofLanes 32 (List.zipWith (fun x y => (x + (2 ^ 32 - y)) % 2 ^ 32)
    (M128.lanes 32 a) (M128.lanes 32 b))

/-- The SSE2 intrinsic `_mm_srli_epi32`: each 32-bit lane shifted right by `count`
bits, zeros coming in. -/
def _mm_srli_epi32 (a : M128) (count : Nat) : M128 :=
  M128.ofLanes 32 ((M128.lanes 32 a).map (fun x => x >>> count))

/-- The macro `_MM_SHUFFLE(z, y, x, w)`. -/
def _MM_SHUFFLE (z y x w : Nat) : Nat := (z <<< 6) ||| (y <<< 4) ||| (x <<< 2) ||| w

/-- The SSE2 intrinsic `_mm_shuffle_epi32`: lane `i` of the result is the lane of
`a` selected by bits `2i+1 .. 2i` of the immediate. -/
def _mm_shuffle_epi32 (a : M128) (imm : Nat) : M128 :=
  M128.ofLanes 32 ((List.range 4).map (fun i => M128.lane 32 a ((imm >>> (2 * i)) % 4)))

/-- The SSE2 intrinsic `_mm_packs_epi32`: the four lanes of `a`, then the four
lanes of `b`, read as signed 32-bit values and saturated to signed 16 bits. -/
def _mm_packs_epi32 (a b : M128) : M128 :=
  M128.ofLanes 16 ((M128.lanes 32 a ++ M128.lanes 32 b).map
    (fun x => ((max (-32768) (min 32767 (toInt32 (x : Int)))) % 2 ^ 16).toNat))

/-- The SSE2 intrinsic `_mm_packus_epi16`: the eight lanes of `a`, then the eight
lanes of `b`, read as signed 16-bit values and saturated to unsigned 8 bits. -/
def _mm_packus_epi16 (a b : M128) : M128 :=
  M128.ofLanes 8 ((M128.lanes 16 a ++ M128.lanes 16 b).map
    (fun x => (max 0 (min 255 (M128.toInt16 x))).toNat))

/-- The SSE intrinsic `_mm_castsi128_ps`: the same bits. -/
def _mm_castsi128_ps (a : M128) : M128 := a

/-- The SSE intrinsic `_mm_castps_si128`: the same bits. -/
def _mm_castps_si128 (a : M128) : M128 := a

/-- The macro `_MM_TRANSPOSE4_PS(row0, row1, row2, row3)`: the four vectors as
the rows of a 4x4 matrix of 32-bit lanes, transposed. The new rows are returned. -/
def _MM_TRANSPOSE4_PS (row0 row1 row2 row3 : M128) : M128 × M128 × M128 × M128 :=
  let col := fun (i : Nat) =>
    M128.ofLanes 32 [M128.lane 32 row0 i, M128.lane 32 row1 i, M128.lane 32 row2 i,
      M128.lane 32 row3 i]
  (col 0, col 1, col 2, col 3)

/-! ## Special colormap filter -/

/-- The fields of `ApplySpecialColormapRGBACommand`. `buffer` is the word index
of the first pixel of the screen; `pitch` counts pixels. -/
structure ApplySpecialColormapRGBACommand where
  buffer : Int
  pitch : Int
  width : Int
  height : Int
  start_red : Int
  start_green : Int
  start_blue : Int
  end_red : Int
  end_green : Int
  end_blue : Int
  deriving DecidableEq

/-- The body of the scalar `for` loop of `ApplySpecialColormapRGBACommand::Execute`
for the pixel `p`: the four bytes it stores, as one word. Byte 0 of a pixel is
its least significant byte. `clamp` is the library template. -/
def ApplySpecialColormapRGBACommand.scalarPixel (command : ApplySpecialColormapRGBACommand)
    (p : Nat) : Nat :=
  let fg_red : Int := ((p >>> 16) % 256 : Nat)
  let fg_green : Int := ((p >>> 8) % 256 : Nat)
  let fg_blue : Int := (p % 256 : Nat)
  let gray : Int := (fg_red * 77 + fg_green * 143 + fg_blue * 37) >>> 8
  let gray := gray + (gray >>> 7)
  let inv_gray := 256 - gray
  let red : Int := max 0 (min 255 ((command.start_red * inv_gray + command.end_red * gray) >>> 8))
  let green : Int := max 0 (min 255 ((command.start_green * inv_gray + command.end_green * gray) >>> 8))
  let blue : Int := max 0 (min 255 ((command.start_blue * inv_gray + command.end_blue * gray) >>> 8))
  (blue % 256).toNat + 2 ^ 8 * (green % 256).toNat + 2 ^ 16 * (red % 256).toNat + 2 ^ 24 * 0xff

/-- The scalar loop `for (int x = ...; x < width; x++) { ...; pixels += 4; }`. -/
def ApplySpecialColormapRGBACommand.scalarLoop (command : ApplySpecialColormapRGBACommand) :
    Nat → Int → Int → FrameBuffer → FrameBuffer
  | 0, _, _, fb => fb
  | fuel + 1, x, pixels, fb =>
    if x < command.width then
      let fb := fb.write pixels (command.scalarPixel (fb pixels))
      ApplySpecialColormapRGBACommand.scalarLoop command fuel (x + 1) (pixels + 1) fb
    else fb

/-- The body of the wide loop of `ApplySpecialColormapRGBACommand::Execute`: the
vector stored for the vector `p` of four pixels loaded. -/
def ApplySpecialColormapRGBACommand.ssePixels (gray_weight start_end : M128) (p : M128) : M128 :=
  -- Unpack to integers:
  let p16_0 := _mm_unpacklo_epi8 p _mm_setzero_si128
  let p16_1 := _mm_unpackhi_epi8 p _mm_setzero_si128
  -- Add gray weighting to colors
  let mullo0 := _mm_mullo_epi16 p16_0 gray_weight
  let mullo1 := _mm_mullo_epi16 p16_1 gray_weight
  let p32_0 := _mm_unpacklo_epi16 mullo0 _mm_setzero_si128
  let p32_1 := _mm_unpackhi_epi16 mullo0 _mm_setzero_si128
  let p32_2 := _mm_unpacklo_epi16 mullo1 _mm_setzero_si128
  let p32_3 := _mm_unpackhi_epi16 mullo1 _mm_setzero_si128
  -- Transpose to get color components in individual vectors:
  let tmpx := _mm_castsi128_ps p32_0
  let tmpy := _mm_castsi128_ps p32_1
  let tmpz := _mm_castsi128_ps p32_2
  let tmpw := _mm_castsi128_ps p32_3
  let t := _MM_TRANSPOSE4_PS tmpx tmpy tmpz tmpw
  let blue := _mm_castps_si128 t.1
  let green := _mm_castps_si128 t.2.1
  let red := _mm_castps_si128 t.2.2.1
  -- Calculate gray and 256-gray values:
  let gray := _mm_srli_epi32 (_mm_add_epi32 (_mm_add_epi32 red green) blue) 8
  let inv_gray := _mm_sub_epi32 (_mm_set1_epi32 256) gray
  -- p32 = start * inv_gray + end * gray:
  let gray0 := _mm_shuffle_epi32 gray (_MM_SHUFFLE 0 0 0 0)
  let gray1 := _mm_shuffle_epi32 gray (_MM_SHUFFLE 1 1 1 1)
  let gray2 := _mm_shuffle_epi32 gray (_MM_SHUFFLE 2 2 2 2)
  let gray3 := _mm_shuffle_epi32 gray (_MM_SHUFFLE 3 3 3 3)
  let inv_gray0 := _mm_shuffle_epi32 inv_gray (_MM_SHUFFLE 0 0 0 0)
  let inv_gray1 := _mm_shuffle_epi32 inv_gray (_MM_SHUFFLE 1 1 1 1)
  let inv_gray2 := _mm_shuffle_epi32 inv_gray (_MM_SHUFFLE 2 2 2 2)
  let inv_gray3 := _mm_shuffle_epi32 inv_gray (_MM_SHUFFLE 3 3 3 3)
  let gray16_0 := _mm_packs_epi32 gray0 inv_gray0
  let gray16_1 := _mm_packs_epi32 gray1 inv_gray1
  let gray16_2 := _mm_packs_epi32 gray2 inv_gray2
  let gray16_3 := _mm_packs_epi32 gray3 inv_gray3
  let gray16_0_mullo := _mm_mullo_epi16 gray16_0 start_end
  let gray16_1_mullo := _mm_mullo_epi16 gray16_1 start_end
  let gray16_2_mullo := _mm_mullo_epi16 gray16_2 start_end
  let gray16_3_mullo := _mm_mullo_epi16 gray16_3 start_end
  let gray16_0_mulhi := _mm_mulhi_epi16 gray16_0 start_end
  let gray16_1_mulhi := _mm_mulhi_epi16 gray16_1 start_end
  let gray16_2_mulhi := _mm_mulhi_epi16 gray16_2 start_end
  let gray16_3_mulhi := _mm_mulhi_epi16 gray16_3 start_end
  let p32_0 := _mm_srli_epi32 (_mm_add_epi32 (_mm_unpacklo_epi16 gray16_0_mullo gray16_0_mulhi)
    (_mm_unpackhi_epi16 gray16_0_mullo gray16_0_mulhi)) 8
  let p32_1 := _mm_srli_epi32 (_mm_add_epi32 (_mm_unpacklo_epi16 gray16_1_mullo gray16_1_mulhi)
    (_mm_unpackhi_epi16 gray16_1_mullo gray16_1_mulhi)) 8
  let p32_2 := _mm_srli_epi32 (_mm_add_epi32 (_mm_unpacklo_epi16 gray16_2_mullo gray16_2_mulhi)
    (_mm_unpackhi_epi16 gray16_2_mullo gray16_2_mulhi)) 8
  let p32_3 := _mm_srli_epi32 (_mm_add_epi32 (_mm_unpacklo_epi16 gray16_3_mullo gray16_3_mulhi)
    (_mm_unpackhi_epi16 gray16_3_mullo gray16_3_mulhi)) 8
  let p16_0 := _mm_packs_epi32 p32_0 p32_1
  let p16_1 := _mm_packs_epi32 p32_2 p32_3
  _mm_packus_epi16 p16_0 p16_1

/-- The wide loop `for (int x = 0; x < sse_length; x++) { ...; pixels += 16; }`;
returns `pixels` afterwards with the frame buffer. -/
def ApplySpecialColormapRGBACommand.sseLoop (gray_weight start_end : M128) (sse_length : Int) :
    Nat → Int → Int → FrameBuffer → Int × FrameBuffer
  | 0, _, pixels, fb => (pixels, fb)
  | fuel + 1, x, pixels, fb =>
    if x < sse_length then
      let p := _mm_loadu_si128 fb pixels
      let p := ApplySpecialColormapRGBACommand.ssePixels gray_weight start_end p
      let fb := _mm_storeu_si128 fb pixels p
      ApplySpecialColormapRGBACommand.sseLoop gray_weight start_end sse_length fuel (x + 1)
        (pixels + 4) fb
    else (pixels, fb)

/-- The `while (count > 0)` loop of the scalar form of
`ApplySpecialColormapRGBACommand::Execute` (the one compiled with `NO_SSE`). -/
def ApplySpecialColormapRGBACommand.whileLoop_NO_SSE (command : ApplySpecialColormapRGBACommand)
    (num_cores : Int) : Nat → Int → Int → FrameBuffer → FrameBuffer
  | 0, _, _, fb => fb
  | fuel + 1, y, count, fb =>
    if count > 0 then
      let pixels := command.buffer + y * command.pitch
      let fb := command.scalarLoop command.width.toNat 0 pixels fb
      ApplySpecialColormapRGBACommand.whileLoop_NO_SSE command num_cores fuel (y + num_cores)
        (count - 1) fb
    else fb

/-- The scalar form of `ApplySpecialColormapRGBACommand::Execute` (`NO_SSE`). -/
def ApplySpecialColormapRGBACommand.Execute_NO_SSE (command : ApplySpecialColormapRGBACommand)
    (thread : DrawerThread) (fb : FrameBuffer) : FrameBuffer :=
  let y := thread.skipped_by_thread 0
  let count := thread.count_for_thread 0 command.height
  command.whileLoop_NO_SSE thread.num_cores count.toNat y count fb

/-- The `while (count > 0)` loop of the wide form of
`ApplySpecialColormapRGBACommand::Execute`: per row the wide loop over
`width / 4` groups of four pixels, then the scalar loop over the rest. -/
def ApplySpecialColormapRGBACommand.whileLoop (command : ApplySpecialColormapRGBACommand)
    (gray_weight start_end : M128) (num_cores : Int) :
    Nat → Int → Int → FrameBuffer → FrameBuffer
  | 0, _, _, fb => fb
  | fuel + 1, y, count, fb =>
    if count > 0 then
      let pixels := command.buffer + y * command.pitch
      let sse_length := Int.tdiv command.width 4
      let r := ApplySpecialColormapRGBACommand.sseLoop gray_weight start_end sse_length
        sse_length.toNat 0 pixels fb
      let fb := command.scalarLoop (command.width - sse_length * 4).toNat (sse_length * 4) r.1 r.2
      ApplySpecialColormapRGBACommand.whileLoop command gray_weight start_end num_cores fuel
        (y + num_cores) (count - 1) fb
    else fb

/-- The wide form of `ApplySpecialColormapRGBACommand::Execute` (compiled unless
`NO_SSE` is defined). -/
def ApplySpecialColormapRGBACommand.Execute (command : ApplySpecialColormapRGBACommand)
    (thread : DrawerThread) (fb : FrameBuffer) : FrameBuffer :=
  let y := thread.skipped_by_thread 0
  let count := thread.count_for_thread 0 command.height
  let gray_weight := _mm_set_epi16 256 77 143 37 256 77 143 37
  let start_end := _mm_set_epi16 255 command.start_red command.start_green command.start_blue
    255 command.end_red command.end_green command.end_blue
  command.whileLoop gray_weight start_end thread.num_cores count.toNat y count fb

/-- A filter from black to white over a screen of one row of four pixels. -/
def exampleColormap : ApplySpecialColormapRGBACommand :=
  { buffer := 0, pitch := 4, width := 4, height := 1,
    start_red := 0, start_green := 0, start_blue := 0,
    end_red := 255, end_green := 255, end_blue := 255 }

/-- A frame buffer filled with white pixels of alpha `0xff`. -/
def exampleWhiteFrameBuffer : FrameBuffer := fun _ => 0xffffffff

/-! ## Process-wide state and constructors -/

/-- The process-wide state under the name used where it is read and assigned as
a set of global variables, by the entry points `R_*` and by the command
constructors: the same state a command finds when it executes. -/
abbrev Globals := DrawEnv

/-- The constructor `DrawFuzzColumnRGBACommand()`: a copy of the ambient variables. -/
def DrawFuzzColumnRGBACommand.new (g : Globals) : DrawFuzzColumnRGBACommand :=
  { _x := g.dc_x
    _yl := g.dc_yl
    _yh := g.dc_yh
    _destorg := g.dc_destorg
    _pitch := g.dc_pitch
    _fuzzpos := g.fuzzpos
    _fuzzviewheight := g.fuzzviewheight }

/-- The constructor `FillTransColumnRGBACommand(x, y1, y2, color, a)`. -/
def FillTransColumnRGBACommand.new (g : Globals) (x y1 y2 color a : Int) :
    FillTransColumnRGBACommand :=
  { _x := x
    _y1 := y1
    _y2 := y2
    _color := color
    _a := a
    _destorg := g.dc_destorg
    _pitch := g.dc_pitch }

/-! ## The column commands -/

/-- The fields of `DrawColumnRGBACommand`: the column fields and its
own; pointers are addresses. -/
structure DrawColumnRGBACommand where
  column : DrawerColumnCommand
  _light : Nat
  _source : Int
  _shade_constants : ShadeConstants
  _colormap : Int

/-- `DrawColumnRGBACommand::Execute`. -/
def DrawColumnRGBACommand.Execute (env : DrawEnv)
    (command : DrawColumnRGBACommand) (thread : DrawerThread)
    (fb : FrameBuffer) : FrameBuffer :=
  DrawerColumnCommand.Execute
    (fun loop _ =>
      let fg := env.shade_pal_index
        (env.mem command._colormap (env.mem command._source (loop.sample_index env)))
        command._light command._shade_constants
      BlendBgra.copy fg)
    command.column thread fb

/-- The fields of `FillAddClampColumnRGBACommand`: the column fields and its
own; pointers are addresses. -/
structure FillAddClampColumnRGBACommand where
  column : DrawerColumnCommand
  _color : Int
  _srccolor : Nat
  _srcalpha : Nat
  _destalpha : Nat

/-- `FillAddClampColumnRGBACommand::Execute`. -/
def FillAddClampColumnRGBACommand.Execute
    (command : FillAddClampColumnRGBACommand) (thread : DrawerThread)
    (fb : FrameBuffer) : FrameBuffer :=
  DrawerColumnCommand.Execute
    (fun _ bg =>
      BlendBgra.add command._srccolor bg command._srcalpha command._destalpha)
    command.column thread fb

/-- The fields of `FillSubClampColumnRGBACommand`: the column fields and its
own; pointers are addresses. -/
structure FillSubClampColumnRGBACommand where
  column : DrawerColumnCommand
  _srccolor : Nat
  _srcalpha : Nat
  _destalpha : Nat

/-- `FillSubClampColumnRGBACommand::Execute`. -/
def FillSubClampColumnRGBACommand.Execute
    (command : FillSubClampColumnRGBACommand) (thread : DrawerThread)
    (fb : FrameBuffer) : FrameBuffer :=
  DrawerColumnCommand.Execute
    (fun _ bg =>
      BlendBgra.sub command._srccolor bg command._srcalpha command._destalpha)
    command.column thread fb

/-- The fields of `FillRevSubClampColumnRGBACommand`: the column fields and its
own; pointers are addresses. -/
structure FillRevSubClampColumnRGBACommand where
  column : DrawerColumnCommand
  _srccolor : Nat
  _srcalpha : Nat
  _destalpha : Nat

/-- `FillRevSubClampColumnRGBACommand::Execute`. -/
def FillRevSubClampColumnRGBACommand.Execute
    (command : FillRevSubClampColumnRGBACommand) (thread : DrawerThread)
    (fb : FrameBuffer) : FrameBuffer :=
  DrawerColumnCommand.Execute
    (fun _ bg =>
      BlendBgra.revsub command._srccolor bg command._srcalpha command._destalpha)
    command.column thread fb

/-- The fields of `DrawAddColumnRGBACommand`: the column fields and its
own; pointers are addresses. -/
structure DrawAddColumnRGBACommand where
  column : DrawerColumnCommand
  _source : Int
  _light : Nat
  _shade_constants : ShadeConstants
  _srcalpha : Nat
  _destalpha : Nat
  _colormap : Int

/-- `DrawAddColumnRGBACommand::Execute`. -/
def DrawAddColumnRGBACommand.Execute (env : DrawEnv)
    (command : DrawAddColumnRGBACommand) (thread : DrawerThread)
    (fb : FrameBuffer) : FrameBuffer :=
  DrawerColumnCommand.Execute
    (fun loop bg =>
      let fg := env.shade_pal_index
        (env.mem command._colormap (env.mem command._source (loop.sample_index env)))
        command._light command._shade_constants
      BlendBgra.add fg bg command._srcalpha command._destalpha)
    command.column thread fb

/-- The fields of `DrawTranslatedColumnRGBACommand`: the column fields and its
own; pointers are addresses. -/
structure DrawTranslatedColumnRGBACommand where
  column : DrawerColumnCommand
  _light : Int
  _shade_constants : ShadeConstants
  _translation : Int
  _source : Int

/-- `DrawTranslatedColumnRGBACommand::Execute`. -/
def DrawTranslatedColumnRGBACommand.Execute (env : DrawEnv)
    (command : DrawTranslatedColumnRGBACommand) (thread : DrawerThread)
    (fb : FrameBuffer) : FrameBuffer :=
  DrawerColumnCommand.Execute
    (fun loop _ =>
      let fg := env.shade_pal_index
        (env.mem command._translation (env.mem command._source (loop.sample_index env)))
        (command._light % 2 ^ 32).toNat command._shade_constants
      BlendBgra.copy fg)
    command.column thread fb

/-- The fields of `DrawTlatedAddColumnRGBACommand`: the column fields and its
own; pointers are addresses. -/
structure DrawTlatedAddColumnRGBACommand where
  column : DrawerColumnCommand
  _light : Int
  _shade_constants : ShadeConstants
  _translation : Int
  _source : Int
  _srcalpha : Nat
  _destalpha : Nat

/-- `DrawTlatedAddColumnRGBACommand::Execute`. -/
def DrawTlatedAddColumnRGBACommand.Execute (env : DrawEnv)
    (command : DrawTlatedAddColumnRGBACommand) (thread : DrawerThread)
    (fb : FrameBuffer) : FrameBuffer :=
  DrawerColumnCommand.Execute
    (fun loop bg =>
      let fg := env.shade_pal_index
        (env.mem command._translation (env.mem command._source (loop.sample_index env)))
        (command._light % 2 ^ 32).toNat command._shade_constants
      BlendBgra.add fg bg command._srcalpha command._destalpha)
    command.column thread fb

/-- The fields of `DrawShadedColumnRGBACommand`: the column fields and its
own; pointers are addresses. -/
structure DrawShadedColumnRGBACommand where
  column : DrawerColumnCommand
  _source : Int
  _colormap : Int
  _color : Nat

/-- `DrawShadedColumnRGBACommand::Execute`. -/
def DrawShadedColumnRGBACommand.Execute (env : DrawEnv)
    (command : DrawShadedColumnRGBACommand) (thread : DrawerThread)
    (fb : FrameBuffer) : FrameBuffer :=
  DrawerColumnCommand.Execute
    (fun loop bg =>
      let alpha := mul32 (max 0 (min 64
        (env.mem command._colormap (env.mem command._source (loop.sample_index env))))) 4
      let inv_alpha := sub32 256 alpha
      BlendBgra.add command._color bg alpha inv_alpha)
    command.column thread fb

/-- The fields of `DrawAddClampColumnRGBACommand`: the column fields and its
own; pointers are addresses. -/
structure DrawAddClampColumnRGBACommand where
  column : DrawerColumnCommand
  _source : Int
  _light : Nat
  _shade_constants : ShadeConstants
  _srcalpha : Nat
  _destalpha : Nat

/-- `DrawAddClampColumnRGBACommand::Execute`. -/
def DrawAddClampColumnRGBACommand.Execute (env : DrawEnv)
    (command : DrawAddClampColumnRGBACommand) (thread : DrawerThread)
    (fb : FrameBuffer) : FrameBuffer :=
  DrawerColumnCommand.Execute
    (fun loop bg =>
      let fg := env.shade_pal_index
        (env.mem command._source (loop.sample_index env))
        command._light command._shade_constants
      BlendBgra.add fg bg command._srcalpha command._destalpha)
    command.column thread fb

/-- The fields of `DrawAddClampTranslatedColumnRGBACommand`: the column fields and its
own; pointers are addresses. -/
structure DrawAddClampTranslatedColumnRGBACommand where
  column : DrawerColumnCommand
  _translation : Int
  _source : Int
  _light : Nat
  _shade_constants : ShadeConstants
  _srcalpha : Nat
  _destalpha : Nat

/-- `DrawAddClampTranslatedColumnRGBACommand::Execute`. -/
def DrawAddClampTranslatedColumnRGBACommand.Execute (env : DrawEnv)
    (command : DrawAddClampTranslatedColumnRGBACommand) (thread : DrawerThread)
    (fb : FrameBuffer) : FrameBuffer :=
  DrawerColumnCommand.Execute
    (fun loop bg =>
      let fg := env.shade_pal_index
        (env.mem command._translation (env.mem command._source (loop.sample_index env)))
        command._light command._shade_constants
      BlendBgra.add fg bg command._srcalpha command._destalpha)
    command.column thread fb

/-- The fields of `DrawSubClampColumnRGBACommand`: the column fields and its
own; pointers are addresses. -/
structure DrawSubClampColumnRGBACommand where
  column : DrawerColumnCommand
  _source : Int
  _light : Nat
  _shade_constants : ShadeConstants
  _srcalpha : Nat
  _destalpha : Nat

/-- `DrawSubClampColumnRGBACommand::Execute`. -/
def DrawSubClampColumnRGBACommand.Execute (env : DrawEnv)
    (command : DrawSubClampColumnRGBACommand) (thread : DrawerThread)
    (fb : FrameBuffer) : FrameBuffer :=
  DrawerColumnCommand.Execute
    (fun loop bg =>
      let fg := env.shade_pal_index
        (env.mem command._source (loop.sample_index env))
        command._light command._shade_constants
      BlendBgra.sub fg bg command._srcalpha command._destalpha)
    command.column thread fb

/-- The fields of `DrawSubClampTranslatedColumnRGBACommand`: the column fields and its
own; pointers are addresses. -/
structure DrawSubClampTranslatedColumnRGBACommand where
  column : DrawerColumnCommand
  _source : Int
  _light : Nat
  _shade_constants : ShadeConstants
  _srcalpha : Nat
  _destalpha : Nat
  _translation : Int

/-- `DrawSubClampTranslatedColumnRGBACommand::Execute`. -/
def DrawSubClampTranslatedColumnRGBACommand.Execute (env : DrawEnv)
    (command : DrawSubClampTranslatedColumnRGBACommand) (thread : DrawerThread)
    (fb : FrameBuffer) : FrameBuffer :=
  DrawerColumnCommand.Execute
    (fun loop bg =>
      let fg := env.shade_pal_index
        (env.mem command._translation (env.mem command._source (loop.sample_index env)))
        command._light command._shade_constants
      BlendBgra.sub fg bg command._srcalpha command._destalpha)
    command.column thread fb

/-- The fields of `DrawRevSubClampColumnRGBACommand`: the column fields and its
own; pointers are addresses. -/
structure DrawRevSubClampColumnRGBACommand where
  column : DrawerColumnCommand
  _source : Int
  _light : Nat
  _shade_constants : ShadeConstants
  _srcalpha : Nat
  _destalpha : Nat

/-- `DrawRevSubClampColumnRGBACommand::Execute`. -/
def DrawRevSubClampColumnRGBACommand.Execute (env : DrawEnv)
    (command : DrawRevSubClampColumnRGBACommand) (thread : DrawerThread)
    (fb : FrameBuffer) : FrameBuffer :=
  DrawerColumnCommand.Execute
    (fun loop bg =>
      let fg := env.shade_pal_index
        (env.mem command._source (loop.sample_index env))
        command._light command._shade_constants
      BlendBgra.revsub fg bg command._srcalpha command._destalpha)
    command.column thread fb

/-- The fields of `DrawRevSubClampTranslatedColumnRGBACommand`: the column fields and its
own; pointers are addresses. -/
structure DrawRevSubClampTranslatedColumnRGBACommand where
  column : DrawerColumnCommand
  _source : Int
  _light : Nat
  _shade_constants : ShadeConstants
  _srcalpha : Nat
  _destalpha : Nat
  _translation : Int

/-- `DrawRevSubClampTranslatedColumnRGBACommand::Execute`. -/
def DrawRevSubClampTranslatedColumnRGBACommand.Execute (env : DrawEnv)
    (command : DrawRevSubClampTranslatedColumnRGBACommand) (thread : DrawerThread)
    (fb : FrameBuffer) : FrameBuffer :=
  DrawerColumnCommand.Execute
    (fun loop bg =>
      let fg := env.shade_pal_index
        (env.mem command._translation (env.mem command._source (loop.sample_index env)))
        command._light command._shade_constants
      BlendBgra.revsub fg bg command._srcalpha command._destalpha)
    command.column thread fb

/-! ## The span commands -/

/-- The fields of `DrawerSpanCommand` that its `LoopIterator` does not read:
the texture pointer, the light, the shade constants, the sampling mode and the
blend weights, read by the kernels of the derived commands. -/
structure DrawerSpanCommand.Sampling where
  _source : Int
  _light : Nat
  _shade_constants : ShadeConstants
  _magnifying : Bool
  _srcalpha : Nat
  _destalpha : Nat

/-- `DrawSpanRGBACommand::Execute`. -/
def DrawSpanRGBACommand.Execute (env : DrawEnv) (command : DrawerSpanCommand)
    (sampling : DrawerSpanCommand.Sampling) (thread : DrawerThread) (fb : FrameBuffer) :
    FrameBuffer :=
  let loop := DrawerSpanCommand.LoopIterator.new env command thread
  if !loop.toBool then fb
  else if sampling._magnifying then
    if loop.is_64x64 then
      DrawerSpanCommand.doWhile
        (fun loop _ =>
          env.shade_bgra
            (env.mem sampling._source loop.spot64)
            sampling._light sampling._shade_constants)
        loop.count.toNat loop fb
    else
      DrawerSpanCommand.doWhile
        (fun loop _ =>
          env.shade_bgra
            (env.mem sampling._source loop.spot)
            sampling._light sampling._shade_constants)
        loop.count.toNat loop fb
  else
    if loop.is_64x64 then
      DrawerSpanCommand.doWhile
        (fun loop _ =>
          env.shade_bgra
            (env.sample_bilinear_span sampling._source loop.xfrac loop.yfrac 26 26)
            sampling._light sampling._shade_constants)
        loop.count.toNat loop fb
    else
      DrawerSpanCommand.doWhile
        (fun loop _ =>
          env.shade_bgra
            (env.sample_bilinear_span sampling._source loop.xfrac loop.yfrac
              (32 - command._xbits) (32 - command._ybits))
            sampling._light sampling._shade_constants)
        loop.count.toNat loop fb

/-- `DrawSpanMaskedRGBACommand::Execute`. -/
def DrawSpanMaskedRGBACommand.Execute (env : DrawEnv) (command : DrawerSpanCommand)
    (sampling : DrawerSpanCommand.Sampling) (thread : DrawerThread) (fb : FrameBuffer) :
    FrameBuffer :=
  let loop := DrawerSpanCommand.LoopIterator.new env command thread
  if !loop.toBool then fb
  else if sampling._magnifying then
    if loop.is_64x64 then
      DrawerSpanCommand.doWhile
        (fun loop bg =>
          let fg := env.shade_bgra
            (env.mem sampling._source loop.spot64)
            sampling._light sampling._shade_constants
          env.alpha_blend fg bg)
        loop.count.toNat loop fb
    else
      DrawerSpanCommand.doWhile
        (fun loop bg =>
          let fg := env.shade_bgra
            (env.mem sampling._source loop.spot)
            sampling._light sampling._shade_constants
          env.alpha_blend fg bg)
        loop.count.toNat loop fb
  else
    if loop.is_64x64 then
      DrawerSpanCommand.doWhile
        (fun loop bg =>
          let fg := env.shade_bgra
            (env.sample_bilinear_span sampling._source loop.xfrac loop.yfrac 26 26)
            sampling._light sampling._shade_constants
          env.alpha_blend fg bg)
        loop.count.toNat loop fb
    else
      DrawerSpanCommand.doWhile
        (fun loop bg =>
          let fg := env.shade_bgra
            (env.sample_bilinear_span sampling._source loop.xfrac loop.yfrac
              (32 - command._xbits) (32 - command._ybits))
            sampling._light sampling._shade_constants
          env.alpha_blend fg bg)
        loop.count.toNat loop fb

/-- `DrawSpanTranslucentRGBACommand::Execute`. -/
def DrawSpanTranslucentRGBACommand.Execute (env : DrawEnv) (command : DrawerSpanCommand)
    (sampling : DrawerSpanCommand.Sampling) (thread : DrawerThread) (fb : FrameBuffer) :
    FrameBuffer :=
  let loop := DrawerSpanCommand.LoopIterator.new env command thread
  if !loop.toBool then fb
  else
    if loop.is_64x64 then
      DrawerSpanCommand.doWhile
        (fun loop bg =>
          let fg := env.shade_bgra
            (env.mem sampling._source loop.spot64)
            sampling._light sampling._shade_constants
          BlendBgra.add fg bg sampling._srcalpha sampling._destalpha)
        loop.count.toNat loop fb
    else
      DrawerSpanCommand.doWhile
        (fun loop bg =>
          let fg := env.shade_bgra
            (env.mem sampling._source loop.spot)
            sampling._light sampling._shade_constants
          BlendBgra.add fg bg sampling._srcalpha sampling._destalpha)
        loop.count.toNat loop fb

/-- `DrawSpanMaskedTranslucentRGBACommand::Execute`. -/
def DrawSpanMaskedTranslucentRGBACommand.Execute (env : DrawEnv) (command : DrawerSpanCommand)
    (sampling : DrawerSpanCommand.Sampling) (thread : DrawerThread) (fb : FrameBuffer) :
    FrameBuffer :=
  let loop := DrawerSpanCommand.LoopIterator.new env command thread
  if !loop.toBool then fb
  else
    if loop.is_64x64 then
      DrawerSpanCommand.doWhile
        (fun loop bg =>
          let fg := env.shade_bgra
            (env.mem sampling._source loop.spot64)
            sampling._light sampling._shade_constants
          BlendBgra.add fg bg sampling._srcalpha
            (env.calc_blend_bgalpha fg sampling._destalpha))
        loop.count.toNat loop fb
    else
      DrawerSpanCommand.doWhile
        (fun loop bg =>
          let fg := env.shade_bgra
            (env.mem sampling._source loop.spot)
            sampling._light sampling._shade_constants
          BlendBgra.add fg bg sampling._srcalpha
            (env.calc_blend_bgalpha fg sampling._destalpha))
        loop.count.toNat loop fb

/-- `DrawSpanAddClampRGBACommand::Execute`. -/
def DrawSpanAddClampRGBACommand.Execute (env : DrawEnv) (command : DrawerSpanCommand)
    (sampling : DrawerSpanCommand.Sampling) (thread : DrawerThread) (fb : FrameBuffer) :
    FrameBuffer :=
  let loop := DrawerSpanCommand.LoopIterator.new env command thread
  if !loop.toBool then fb
  else
    if loop.is_64x64 then
      DrawerSpanCommand.doWhile
        (fun loop bg =>
          let fg := env.shade_bgra
            (env.mem sampling._source loop.spot64)
            sampling._light sampling._shade_constants
          BlendBgra.add fg bg sampling._srcalpha sampling._destalpha)
        loop.count.toNat loop fb
    else
      DrawerSpanCommand.doWhile
        (fun loop bg =>
          let fg := env.shade_bgra
            (env.mem sampling._source loop.spot)
            sampling._light sampling._shade_constants
          BlendBgra.add fg bg sampling._srcalpha sampling._destalpha)
        loop.count.toNat loop fb

/-- `DrawSpanMaskedAddClampRGBACommand::Execute`. -/
def DrawSpanMaskedAddClampRGBACommand.Execute (env : DrawEnv) (command : DrawerSpanCommand)
    (sampling : DrawerSpanCommand.Sampling) (thread : DrawerThread) (fb : FrameBuffer) :
    FrameBuffer :=
  let loop := DrawerSpanCommand.LoopIterator.new env command thread
  if !loop.toBool then fb
  else
    if loop.is_64x64 then
      DrawerSpanCommand.doWhile
        (fun loop bg =>
          let fg := env.shade_bgra
            (env.mem sampling._source loop.spot64)
            sampling._light sampling._shade_constants
          BlendBgra.add fg bg sampling._srcalpha
            (env.calc_blend_bgalpha fg sampling._destalpha))
        loop.count.toNat loop fb
    else
      DrawerSpanCommand.doWhile
        (fun loop bg =>
          let fg := env.shade_bgra
            (env.mem sampling._source loop.spot)
            sampling._light sampling._shade_constants
          BlendBgra.add fg bg sampling._srcalpha
            (env.calc_blend_bgalpha fg sampling._destalpha))
        loop.count.toNat loop fb

/-! ## The wall commands -/

/-- The fields of `DrawerWall1Command` that its `LoopIterator` does not read,
read by the kernels of the derived commands. -/
structure DrawerWall1Command.Sampling where
  _vlinemax : Nat
  _source : Int
  _source2 : Int
  _light : Nat
  _shade_constants : ShadeConstants
  _srcalpha : Nat
  _destalpha : Nat

/-- The fields of `DrawerWall4Command` that its `LoopIterator` does not read,
read by the kernels of the derived commands. -/
structure DrawerWall4Command.Sampling where
  _vlinemax : Nat
  _shade_constants : ShadeConstants
  _buftexturefracx : Fin 4 → Nat
  _bufplce : Fin 4 → Int
  _bufplce2 : Fin 4 → Int
  _light : Fin 4 → Nat
  _srcalpha : Nat
  _destalpha : Nat

/-- `Vlinec1RGBACommand::Execute`. -/
def Vlinec1RGBACommand.Execute (env : DrawEnv) (command : DrawerWall1Command)
    (sampling : DrawerWall1Command.Sampling) (thread : DrawerThread) (fb : FrameBuffer) :
    FrameBuffer :=
  let loop := DrawerWall1Command.LoopIterator.new command thread
  if !loop.toBool then fb
  else if sampling._source2 = 0 then
    DrawerWall1Command.doWhile
      (fun loop _ =>
        let fg := env.shade_bgra
          (env.mem sampling._source loop.sample_index)
          sampling._light sampling._shade_constants
        BlendBgra.copy fg)
      loop.count.toNat loop fb
  else
    DrawerWall1Command.doWhile
      (fun loop _ =>
        let fg := env.shade_bgra
          (env.sample_bilinear_wall sampling._source sampling._source2
            loop.texturefracx loop.frac loop.bits sampling._vlinemax)
          sampling._light sampling._shade_constants
        BlendBgra.copy fg)
      loop.count.toNat loop fb

/-- `Vlinec4RGBACommand::Execute`. -/
def Vlinec4RGBACommand.Execute (env : DrawEnv) (command : DrawerWall4Command)
    (sampling : DrawerWall4Command.Sampling) (thread : DrawerThread) (fb : FrameBuffer) :
    FrameBuffer :=
  let loop := DrawerWall4Command.LoopIterator.new command thread
  if !loop.toBool then fb
  else if sampling._bufplce2 0 = 0 then
    DrawerWall4Command.doWhile
      (fun loop i _ =>
        let fg := env.shade_bgra
          (env.mem (sampling._bufplce i) (loop.sample_index i))
          (sampling._light i) sampling._shade_constants
        BlendBgra.copy fg)
      loop.count.toNat loop fb
  else
    DrawerWall4Command.doWhile
      (fun loop i _ =>
        let fg := env.shade_bgra
          (env.sample_bilinear_wall (sampling._bufplce i) (sampling._bufplce2 i)
            (sampling._buftexturefracx i) (loop.sample_index i) loop.bits sampling._vlinemax)
          (sampling._light i) sampling._shade_constants
        BlendBgra.copy fg)
      loop.count.toNat loop fb

/-- `Mvlinec1RGBACommand::Execute`. -/
def Mvlinec1RGBACommand.Execute (env : DrawEnv) (command : DrawerWall1Command)
    (sampling : DrawerWall1Command.Sampling) (thread : DrawerThread) (fb : FrameBuffer) :
    FrameBuffer :=
  let loop := DrawerWall1Command.LoopIterator.new command thread
  if !loop.toBool then fb
  else if sampling._source2 = 0 then
    DrawerWall1Command.doWhile
      (fun loop bg =>
        let fg := env.shade_bgra
          (env.mem sampling._source loop.sample_index)
          sampling._light sampling._shade_constants
        env.alpha_blend fg bg)
      loop.count.toNat loop fb
  else
    DrawerWall1Command.doWhile
      (fun loop bg =>
        let fg := env.shade_bgra
          (env.sample_bilinear_wall sampling._source sampling._source2
            loop.texturefracx loop.frac loop.bits sampling._vlinemax)
          sampling._light sampling._shade_constants
        env.alpha_blend fg bg)
      loop.count.toNat loop fb

/-- `Mvlinec4RGBACommand::Execute`. -/
def Mvlinec4RGBACommand.Execute (env : DrawEnv) (command : DrawerWall4Command)
    (sampling : DrawerWall4Command.Sampling) (thread : DrawerThread) (fb : FrameBuffer) :
    FrameBuffer :=
  let loop := DrawerWall4Command.LoopIterator.new command thread
  if !loop.toBool then fb
  else if sampling._bufplce2 0 = 0 then
    DrawerWall4Command.doWhile
      (fun loop i bg =>
        let fg := env.shade_bgra
          (env.mem (sampling._bufplce i) (loop.sample_index i))
          (sampling._light i) sampling._shade_constants
        env.alpha_blend fg bg)
      loop.count.toNat loop fb
  else
    DrawerWall4Command.doWhile
      (fun loop i bg =>
        let fg := env.shade_bgra
          (env.sample_bilinear_wall (sampling._bufplce i) (sampling._bufplce2 i)
            (sampling._buftexturefracx i) (loop.sample_index i) loop.bits sampling._vlinemax)
          (sampling._light i) sampling._shade_constants
        env.alpha_blend fg bg)
      loop.count.toNat loop fb

/-- `Tmvline1AddRGBACommand::Execute`. -/
def Tmvline1AddRGBACommand.Execute (env : DrawEnv) (command : DrawerWall1Command)
    (sampling : DrawerWall1Command.Sampling) (thread : DrawerThread) (fb : FrameBuffer) :
    FrameBuffer :=
  let loop := DrawerWall1Command.LoopIterator.new command thread
  if !loop.toBool then fb
  else
    DrawerWall1Command.doWhile
      (fun loop bg =>
        let fg := env.shade_bgra
          (env.mem sampling._source loop.sample_index)
          sampling._light sampling._shade_constants
        BlendBgra.add fg bg sampling._srcalpha
          (env.calc_blend_bgalpha fg sampling._destalpha))
      loop.count.toNat loop fb

/-- `Tmvline4AddRGBACommand::Execute`. -/
def Tmvline4AddRGBACommand.Execute (env : DrawEnv) (command : DrawerWall4Command)
    (sampling : DrawerWall4Command.Sampling) (thread : DrawerThread) (fb : FrameBuffer) :
    FrameBuffer :=
  let loop := DrawerWall4Command.LoopIterator.new command thread
  if !loop.toBool then fb
  else
    DrawerWall4Command.doWhile
      (fun loop i bg =>
        let fg := env.shade_bgra
          (env.mem (sampling._bufplce i) (loop.sample_index i))
          (sampling._light i) sampling._shade_constants
        BlendBgra.add fg bg sampling._srcalpha
          (env.calc_blend_bgalpha fg sampling._destalpha))
      loop.count.toNat loop fb

/-- `Tmvline1AddClampRGBACommand::Execute`. -/
def Tmvline1AddClampRGBACommand.Execute (env : DrawEnv) (command : DrawerWall1Command)
    (sampling : DrawerWall1Command.Sampling) (thread : DrawerThread) (fb : FrameBuffer) :
    FrameBuffer :=
  let loop := DrawerWall1Command.LoopIterator.new command thread
  if !loop.toBool then fb
  else
    DrawerWall1Command.doWhile
      (fun loop bg =>
        let fg := env.shade_bgra
          (env.mem sampling._source loop.sample_index)
          sampling._light sampling._shade_constants
        BlendBgra.add fg bg sampling._srcalpha
          (env.calc_blend_bgalpha fg sampling._destalpha))
      loop.count.toNat loop fb

/-- `Tmvline4AddClampRGBACommand::Execute`. -/
def Tmvline4AddClampRGBACommand.Execute (env : DrawEnv) (command : DrawerWall4Command)
    (sampling : DrawerWall4Command.Sampling) (thread : DrawerThread) (fb : FrameBuffer) :
    FrameBuffer :=
  let loop := DrawerWall4Command.LoopIterator.new command thread
  if !loop.toBool then fb
  else
    DrawerWall4Command.doWhile
      (fun loop i bg =>
        let fg := env.shade_bgra
          (env.mem (sampling._bufplce i) (loop.sample_index i))
          (sampling._light i) sampling._shade_constants
        BlendBgra.add fg bg sampling._srcalpha
          (env.calc_blend_bgalpha fg sampling._destalpha))
      loop.count.toNat loop fb

/-- `Tmvline1SubClampRGBACommand::Execute`. -/
def Tmvline1SubClampRGBACommand.Execute (env : DrawEnv) (command : DrawerWall1Command)
    (sampling : DrawerWall1Command.Sampling) (thread : DrawerThread) (fb : FrameBuffer) :
    FrameBuffer :=
  let loop := DrawerWall1Command.LoopIterator.new command thread
  if !loop.toBool then fb
  else
    DrawerWall1Command.doWhile
      (fun loop bg =>
        let fg := env.shade_bgra
          (env.mem sampling._source loop.sample_index)
          sampling._light sampling._shade_constants
        BlendBgra.sub fg bg sampling._srcalpha
          (env.calc_blend_bgalpha fg sampling._destalpha))
      loop.count.toNat loop fb

/-- `Tmvline4SubClampRGBACommand::Execute`. -/
def Tmvline4SubClampRGBACommand.Execute (env : DrawEnv) (command : DrawerWall4Command)
    (sampling : DrawerWall4Command.Sampling) (thread : DrawerThread) (fb : FrameBuffer) :
    FrameBuffer :=
  let loop := DrawerWall4Command.LoopIterator.new command thread
  if !loop.toBool then fb
  else
    DrawerWall4Command.doWhile
      (fun loop i bg =>
        let fg := env.shade_bgra
          (env.mem (sampling._bufplce i) (loop.sample_index i))
          (sampling._light i) sampling._shade_constants
        BlendBgra.sub fg bg sampling._srcalpha
          (env.calc_blend_bgalpha fg sampling._destalpha))
      loop.count.toNat loop fb

/-- `Tmvline1RevSubClampRGBACommand::Execute`. -/
def Tmvline1RevSubClampRGBACommand.Execute (env : DrawEnv) (command : DrawerWall1Command)
    (sampling : DrawerWall1Command.Sampling) (thread : DrawerThread) (fb : FrameBuffer) :
    FrameBuffer :=
  let loop := DrawerWall1Command.LoopIterator.new command thread
  if !loop.toBool then fb
  else
    DrawerWall1Command.doWhile
      (fun loop bg =>
        let fg := env.shade_bgra
          (env.mem sampling._source loop.sample_index)
          sampling._light sampling._shade_constants
        BlendBgra.revsub fg bg sampling._srcalpha
          (env.calc_blend_bgalpha fg sampling._destalpha))
      loop.count.toNat loop fb

/-- `Tmvline4RevSubClampRGBACommand::Execute`. -/
def Tmvline4RevSubClampRGBACommand.Execute (env : DrawEnv) (command : DrawerWall4Command)
    (sampling : DrawerWall4Command.Sampling) (thread : DrawerThread) (fb : FrameBuffer) :
    FrameBuffer :=
  let loop := DrawerWall4Command.LoopIterator.new command thread
  if !loop.toBool then fb
  else
    DrawerWall4Command.doWhile
      (fun loop i bg =>
        let fg := env.shade_bgra
          (env.mem (sampling._bufplce i) (loop.sample_index i))
          (sampling._light i) sampling._shade_constants
        BlendBgra.revsub fg bg sampling._srcalpha
          (env.calc_blend_bgalpha fg sampling._destalpha))
      loop.count.toNat loop fb

/-! ## Queued commands -/

/-- The fields of `DrawSlabRGBACommand` that its loops do not read: the voxel
column, the shade constants, the colormap and the light, read where the
colour of a voxel is looked up. -/
structure DrawSlabRGBACommand.Shading where
  _voxelptr : Int
  _shade_constants : ShadeConstants
  _colormap : Int
  _light : Int

/-- A queued command (`DrawerCommand *`): one constructor for every command
class of this file, holding the captured fields of the command. -/
inductive DrawerCommand where
  | DrawColumnRGBACommand
      (command : RDrawRgba.DrawColumnRGBACommand)
  | FillColumnRGBACommand
      (command : RDrawRgba.FillColumnRGBACommand)
  | FillAddColumnRGBACommand
      (command : RDrawRgba.FillAddColumnRGBACommand)
  | FillAddClampColumnRGBACommand
      (command : RDrawRgba.FillAddClampColumnRGBACommand)
  | FillSubClampColumnRGBACommand
      (command : RDrawRgba.FillSubClampColumnRGBACommand)
  | FillRevSubClampColumnRGBACommand
      (command : RDrawRgba.FillRevSubClampColumnRGBACommand)
  | DrawAddColumnRGBACommand
      (command : RDrawRgba.DrawAddColumnRGBACommand)
  | DrawTranslatedColumnRGBACommand
      (command : RDrawRgba.DrawTranslatedColumnRGBACommand)
  | DrawTlatedAddColumnRGBACommand
      (command : RDrawRgba.DrawTlatedAddColumnRGBACommand)
  | DrawShadedColumnRGBACommand
      (command : RDrawRgba.DrawShadedColumnRGBACommand)
  | DrawAddClampColumnRGBACommand
      (command : RDrawRgba.DrawAddClampColumnRGBACommand)
  | DrawAddClampTranslatedColumnRGBACommand
      (command : RDrawRgba.DrawAddClampTranslatedColumnRGBACommand)
  | DrawSubClampColumnRGBACommand
      (command : RDrawRgba.DrawSubClampColumnRGBACommand)
  | DrawSubClampTranslatedColumnRGBACommand
      (command : RDrawRgba.DrawSubClampTranslatedColumnRGBACommand)
  | DrawRevSubClampColumnRGBACommand
      (command : RDrawRgba.DrawRevSubClampColumnRGBACommand)
  | DrawRevSubClampTranslatedColumnRGBACommand
      (command : RDrawRgba.DrawRevSubClampTranslatedColumnRGBACommand)
  | DrawFuzzColumnRGBACommand (command : RDrawRgba.DrawFuzzColumnRGBACommand)
  | DrawSpanRGBACommand
      (command : DrawerSpanCommand) (sampling : DrawerSpanCommand.Sampling)
  | DrawSpanMaskedRGBACommand
      (command : DrawerSpanCommand) (sampling : DrawerSpanCommand.Sampling)
  | DrawSpanTranslucentRGBACommand
      (command : DrawerSpanCommand) (sampling : DrawerSpanCommand.Sampling)
  | DrawSpanMaskedTranslucentRGBACommand
      (command : DrawerSpanCommand) (sampling : DrawerSpanCommand.Sampling)
  | DrawSpanAddClampRGBACommand
      (command : DrawerSpanCommand) (sampling : DrawerSpanCommand.Sampling)
  | DrawSpanMaskedAddClampRGBACommand
      (command : DrawerSpanCommand) (sampling : DrawerSpanCommand.Sampling)
  | FillSpanRGBACommand (command : RDrawRgba.FillSpanRGBACommand)
  | DrawSlabRGBACommand (command : RDrawRgba.DrawSlabRGBACommand)
      (shading : DrawSlabRGBACommand.Shading)
  | Vlinec1RGBACommand
      (command : DrawerWall1Command) (sampling : DrawerWall1Command.Sampling)
  | Vlinec4RGBACommand
      (command : DrawerWall4Command) (sampling : DrawerWall4Command.Sampling)
  | Mvlinec1RGBACommand
      (command : DrawerWall1Command) (sampling : DrawerWall1Command.Sampling)
  | Mvlinec4RGBACommand
      (command : DrawerWall4Command) (sampling : DrawerWall4Command.Sampling)
  | Tmvline1AddRGBACommand
      (command : DrawerWall1Command) (sampling : DrawerWall1Command.Sampling)
  | Tmvline4AddRGBACommand
      (command : DrawerWall4Command) (sampling : DrawerWall4Command.Sampling)
  | Tmvline1AddClampRGBACommand
      (command : DrawerWall1Command) (sampling : DrawerWall1Command.Sampling)
  | Tmvline4AddClampRGBACommand
      (command : DrawerWall4Command) (sampling : DrawerWall4Command.Sampling)
  | Tmvline1SubClampRGBACommand
      (command : DrawerWall1Command) (sampling : DrawerWall1Command.Sampling)
  | Tmvline4SubClampRGBACommand
      (command : DrawerWall4Command) (sampling : DrawerWall4Command.Sampling)
  | Tmvline1RevSubClampRGBACommand
      (command : DrawerWall1Command) (sampling : DrawerWall1Command.Sampling)
  | Tmvline4RevSubClampRGBACommand
      (command : DrawerWall4Command) (sampling : DrawerWall4Command.Sampling)
  | DrawFogBoundaryLineRGBACommand (command : RDrawRgba.DrawFogBoundaryLineRGBACommand)
  | DrawTiltedSpanRGBACommand (command : RDrawRgba.DrawTiltedSpanRGBACommand) (_source : Int)
  | DrawColoredSpanRGBACommand (command : RDrawRgba.DrawColoredSpanRGBACommand)
  | FillTransColumnRGBACommand (command : RDrawRgba.FillTransColumnRGBACommand)
  | ApplySpecialColormapRGBACommand (command : RDrawRgba.ApplySpecialColormapRGBACommand)

/-- The virtual call `command->Execute(thread)` in a process whose state is
`g`: the frame buffer afterwards, `none` when the call does not return. Every
`Execute` that reads anything outside the command and the worker descriptor
is handed the whole state. For the voxel slab the colour of voxel `i` is
`shade_pal_index(colormap[vptr[i]], light, shade_constants)` with
`light = calc_light_multiplier(_light)`; for the tilted span `source[0]` is
read through the captured pointer. -/
def DrawerCommand.Execute (g : Globals) :
    DrawerCommand → DrawerThread → FrameBuffer → Option FrameBuffer
  | .DrawColumnRGBACommand command, thread, fb =>
    some (RDrawRgba.DrawColumnRGBACommand.Execute g command thread fb)
  | .FillColumnRGBACommand command, thread, fb =>
    some (RDrawRgba.FillColumnRGBACommand.Execute command thread fb)
  | .FillAddColumnRGBACommand command, thread, fb =>
    some (RDrawRgba.FillAddColumnRGBACommand.Execute command thread fb)
  | .FillAddClampColumnRGBACommand command, thread, fb =>
    some (RDrawRgba.FillAddClampColumnRGBACommand.Execute command thread fb)
  | .FillSubClampColumnRGBACommand command, thread, fb =>
    some (RDrawRgba.FillSubClampColumnRGBACommand.Execute command thread fb)
  | .FillRevSubClampColumnRGBACommand command, thread, fb =>
    some (RDrawRgba.FillRevSubClampColumnRGBACommand.Execute command thread fb)
  | .DrawAddColumnRGBACommand command, thread, fb =>
    some (RDrawRgba.DrawAddColumnRGBACommand.Execute g command thread fb)
  | .DrawTranslatedColumnRGBACommand command, thread, fb =>
    some (RDrawRgba.DrawTranslatedColumnRGBACommand.Execute g command thread fb)
  | .DrawTlatedAddColumnRGBACommand command, thread, fb =>
    some (RDrawRgba.DrawTlatedAddColumnRGBACommand.Execute g command thread fb)
  | .DrawShadedColumnRGBACommand command, thread, fb =>
    some (RDrawRgba.DrawShadedColumnRGBACommand.Execute g command thread fb)
  | .DrawAddClampColumnRGBACommand command, thread, fb =>
    some (RDrawRgba.DrawAddClampColumnRGBACommand.Execute g command thread fb)
  | .DrawAddClampTranslatedColumnRGBACommand command, thread, fb =>
    some (RDrawRgba.DrawAddClampTranslatedColumnRGBACommand.Execute g command thread fb)
  | .DrawSubClampColumnRGBACommand command, thread, fb =>
    some (RDrawRgba.DrawSubClampColumnRGBACommand.Execute g command thread fb)
  | .DrawSubClampTranslatedColumnRGBACommand command, thread, fb =>
    some (RDrawRgba.DrawSubClampTranslatedColumnRGBACommand.Execute g command thread fb)
  | .DrawRevSubClampColumnRGBACommand command, thread, fb =>
    some (RDrawRgba.DrawRevSubClampColumnRGBACommand.Execute g command thread fb)
  | .DrawRevSubClampTranslatedColumnRGBACommand command, thread, fb =>
    some (RDrawRgba.DrawRevSubClampTranslatedColumnRGBACommand.Execute g command thread fb)
  | .DrawFuzzColumnRGBACommand command, thread, fb =>
    RDrawRgba.DrawFuzzColumnRGBACommand.Execute g command thread fb
  | .DrawSpanRGBACommand command sampling, thread, fb =>
    some (RDrawRgba.DrawSpanRGBACommand.Execute g command sampling thread fb)
  | .DrawSpanMaskedRGBACommand command sampling, thread, fb =>
    some (RDrawRgba.DrawSpanMaskedRGBACommand.Execute g command sampling thread fb)
  | .DrawSpanTranslucentRGBACommand command sampling, thread, fb =>
    some (RDrawRgba.DrawSpanTranslucentRGBACommand.Execute g command sampling thread fb)
  | .DrawSpanMaskedTranslucentRGBACommand command sampling, thread, fb =>
    some (RDrawRgba.DrawSpanMaskedTranslucentRGBACommand.Execute g command sampling thread fb)
  | .DrawSpanAddClampRGBACommand command sampling, thread, fb =>
    some (RDrawRgba.DrawSpanAddClampRGBACommand.Execute g command sampling thread fb)
  | .DrawSpanMaskedAddClampRGBACommand command sampling, thread, fb =>
    some (RDrawRgba.DrawSpanMaskedAddClampRGBACommand.Execute g command sampling thread fb)
  | .FillSpanRGBACommand command, thread, fb =>
    some (RDrawRgba.FillSpanRGBACommand.Execute g command thread fb)
  | .DrawSlabRGBACommand command shading, thread, fb =>
    some (RDrawRgba.DrawSlabRGBACommand.Execute g
      (fun i => g.shade_pal_index (g.mem shading._colormap (g.mem shading._voxelptr i))
        (g.calc_light_multiplier shading._light) shading._shade_constants)
      command thread fb)
  | .Vlinec1RGBACommand command sampling, thread, fb =>
    some (RDrawRgba.Vlinec1RGBACommand.Execute g command sampling thread fb)
  | .Vlinec4RGBACommand command sampling, thread, fb =>
    some (RDrawRgba.Vlinec4RGBACommand.Execute g command sampling thread fb)
  | .Mvlinec1RGBACommand command sampling, thread, fb =>
    some (RDrawRgba.Mvlinec1RGBACommand.Execute g command sampling thread fb)
  | .Mvlinec4RGBACommand command sampling, thread, fb =>
    some (RDrawRgba.Mvlinec4RGBACommand.Execute g command sampling thread fb)
  | .Tmvline1AddRGBACommand command sampling, thread, fb =>
    some (RDrawRgba.Tmvline1AddRGBACommand.Execute g command sampling thread fb)
  | .Tmvline4AddRGBACommand command sampling, thread, fb =>
    some (RDrawRgba.Tmvline4AddRGBACommand.Execute g command sampling thread fb)
  | .Tmvline1AddClampRGBACommand command sampling, thread, fb =>
    some (RDrawRgba.Tmvline1AddClampRGBACommand.Execute g command sampling thread fb)
  | .Tmvline4AddClampRGBACommand command sampling, thread, fb =>
    some (RDrawRgba.Tmvline4AddClampRGBACommand.Execute g command sampling thread fb)
  | .Tmvline1SubClampRGBACommand command sampling, thread, fb =>
    some (RDrawRgba.Tmvline1SubClampRGBACommand.Execute g command sampling thread fb)
  | .Tmvline4SubClampRGBACommand command sampling, thread, fb =>
    some (RDrawRgba.Tmvline4SubClampRGBACommand.Execute g command sampling thread fb)
  | .Tmvline1RevSubClampRGBACommand command sampling, thread, fb =>
    some (RDrawRgba.Tmvline1RevSubClampRGBACommand.Execute g command sampling thread fb)
  | .Tmvline4RevSubClampRGBACommand command sampling, thread, fb =>
    some (RDrawRgba.Tmvline4RevSubClampRGBACommand.Execute g command sampling thread fb)
  | .DrawFogBoundaryLineRGBACommand command, thread, fb =>
    some (RDrawRgba.DrawFogBoundaryLineRGBACommand.Execute g command thread fb)
  | .DrawTiltedSpanRGBACommand command _source, thread, fb =>
    some (RDrawRgba.DrawTiltedSpanRGBACommand.Execute g (g.mem _source 0) command thread fb)
  | .DrawColoredSpanRGBACommand command, thread, fb =>
    some (RDrawRgba.DrawColoredSpanRGBACommand.Execute g command thread fb)
  | .FillTransColumnRGBACommand command, thread, fb =>
    some (RDrawRgba.FillTransColumnRGBACommand.Execute g command thread fb)
  | .ApplySpecialColormapRGBACommand command, thread, fb =>
    some (RDrawRgba.ApplySpecialColormapRGBACommand.Execute command thread fb)

/-- A textured column of 8 rows from row 2 on in column 5 of a frame of 320
words per row, light multiplier 128, texture at address 1000 and colormap at
address 2000. -/
def exampleColumn : DrawColumnRGBACommand :=
  { column := { _dest_y := 2, _count := 8, _dest := 2 * 320 + 5, _pitch := 320,
                _iscale := 65536, _texturefrac := 0 }
    _light := 128
    _source := 1000
    _shade_constants := ⟨256, 256, 256, 0, 0, 0, 0, true⟩
    _colormap := 2000 }

/-- The example process with the fuzz table: its ambient variables are set up
for a fuzz column in column 7, rows 0 .. 150. -/
def exampleGlobals : Globals := exampleFuzzEnv

/-- The same process after the geometry stage has set up the next drawing
operation: every ambient variable holds another value, everything else is the
same. -/
def exampleGlobalsLater : Globals :=
  { exampleFuzzEnv with
    dc_x := 8, dc_yl := 10, dc_yh := 20, dc_destorg := 4, dc_pitch := 640, dc_dest := 1,
    dc_count := 11, dc_iscale := 1, dc_texturefrac := 5, fuzzpos := 31,
    fuzzviewheight := 100, vplce := fun _ => 9, vince := fun _ => 3,
    ds_y := 9, ds_x1 := 5, ds_x2 := 6,
    dc_color := 1, dc_colormap := 2001, dc_destalpha := 1, dc_light := 1,
    dc_shade_constants := ⟨128, 128, 128, 1, 1, 1, 1, false⟩, dc_source := 1001,
    dc_source2 := 1, dc_srcalpha := 1, dc_srccolor_bgra := 0xff000001,
    dc_texturefracx := 1, dc_translation := 3001, ds_color := 1, ds_light := 1,
    ds_shade_constants := ⟨128, 128, 128, 1, 1, 1, 1, false⟩, ds_source := 4001,
    ds_xbits := 5, ds_xfrac := 1, ds_xstep := 1, ds_ybits := 5, ds_yfrac := 1,
    ds_ystep := 1, bufplce := fun _ => 1001, bufplce2 := fun _ => 1,
    buftexturefracx := fun _ => 1, palookuplight := fun _ => 1, vlinebits := 8,
    mvlinebits := 8, tmvlinebits := 8, vlinemax := 1, mvlinemax := 1, tmvlinemax := 1 }

/-- A frame buffer whose first row (of 320 pixels) is white and whose other
rows are black. -/
def exampleRowFrameBuffer : FrameBuffer := fun i => if i < 320 then 0xffffffff else 0

/-! ## Completion barrier -/

/-- Where the calling thread stands in `Finish` once it has handed out the batch
(after `start_condition.notify_all()`). -/
inductive Barrier.CallerPc where
  /-- Before its own pass loop (`// Do one thread ourselves`) -/
  | working
  /-- In `end_condition.wait` (`// Wait for everyone to finish`) -/
  | waiting
  /-- Past the wait, before `// Clean up batch` -/
  | cleaning
  /-- `Finish` has returned -/
  | returned
  deriving DecidableEq

/-- Where a pool thread stands in its `while (true)` loop. -/
inductive Barrier.WorkerPc where
  /-- In `start_condition.wait` -/
  | parked
  /-- Has taken the new epoch, its pass loop is not done yet (`// Do the work`) -/
  | running
  /-- Its pass loop is done, before `queue->finished_threads++` -/
  | counting
  /-- Has left the loop through `break` -/
  | exited
  deriving DecidableEq

/-- A moment in an execution of `Finish` together with the pool threads: the
shared queue, where each thread stands, and what the threads have done so far
in the order they did it. -/
structure Barrier.State (Cmd : Type) where
  queue : DrawerCommandQueue Cmd
  caller : Barrier.CallerPc
  pool : List Barrier.WorkerPc
  log : List (Event Cmd)
  deriving DecidableEq

/-- Which thread takes the next step: the caller or pool thread `i`. -/
inductive Barrier.Action where
  | caller
  | worker (i : Nat)
  deriving DecidableEq

/-- The next step of the calling thread in `Finish`. A caller whose wait
predicate `finished_threads == threads.size()` is false stays where it is. -/
def Barrier.callerStep {Cmd : Type} (env : Env) (s : Barrier.State Cmd) : Barrier.State Cmd :=
  match s.caller with
  | .working =>
    -- Do one thread ourselves:
    let thread : DrawerThread :=
      { env.default_thread with core := 0, num_cores := (s.queue.threads.length : Int) + 1 }
    let own := passLoop (Finish.passWindow env s.queue) s.queue s.queue.num_passes.toNat 0 thread
    { s with caller := .waiting, log := s.log ++ own.2 }
  | .waiting =>
    -- Wait for everyone to finish:
    if s.queue.finished_threads = s.queue.threads.length then { s with caller := .cleaning }
    else s
  | .cleaning =>
    -- Clean up batch:
    { s with
      queue := { s.queue with active_commands := [], memorypool_pos := 0, finished_threads := 0 }
      log := s.log ++ s.queue.active_commands.map Event.destroy
      caller := .returned }
  | .returned => s

/-- The next step of pool thread `i` in the loop `StartThreads` starts it with.
A thread whose wait predicate `queue->run_id != run_id || queue->shutdown_flag`
is false stays parked. -/
def Barrier.workerStep {Cmd : Type} (env : Env) (s : Barrier.State Cmd) (i : Nat) :
    Barrier.State Cmd :=
  match s.queue.threads[i]?, s.pool[i]? with
  | some w, some .parked =>
    -- Wait until we are signalled to run:
    if s.queue.run_id ≠ w.run_id || s.queue.shutdown_flag then
      if s.queue.shutdown_flag then { s with pool := s.pool.set i .exited }
      else
        { s with
          queue := { s.queue with
            threads := s.queue.threads.set i { w with run_id := s.queue.run_id } }
          pool := s.pool.set i .running }
    else s
  | some w, some .running =>
    -- Do the work:
    let r := passLoop (WorkerLoop.passWindow env s.queue) s.queue s.queue.num_passes.toNat 0
      w.thread
    { s with
      queue := { s.queue with threads := s.queue.threads.set i { w with thread := r.1 } }
      pool := s.pool.set i .counting
      log := s.log ++ r.2 }
  | some _, some .counting =>
    -- Notify main thread that we finished:
    { s with
      queue := { s.queue with finished_threads := (s.queue.finished_threads + 1) % SIZE_MOD }
      pool := s.pool.set i .parked }
  | _, _ => s

/-- One step of the thread the scheduler picks. -/
def Barrier.step {Cmd : Type} (env : Env) (s : Barrier.State Cmd) :
    Barrier.Action → Barrier.State Cmd
  | .caller => Barrier.callerStep env s
  | .worker i => Barrier.workerStep env s i

/-- The state after the threads have taken their steps in the order of the
schedule. -/
def Barrier.run {Cmd : Type} (env : Env) (s : Barrier.State Cmd)
    (schedule : List Barrier.Action) : Barrier.State Cmd :=
  schedule.foldl (Barrier.step env) s

/-- The moment `Finish` has swapped the lists, advanced the epoch, started the
pool if there was none and called `start_condition.notify_all()`: every pool
thread is still parked. -/
def Barrier.init {Cmd : Type} (env : Env) (q : DrawerCommandQueue Cmd) : Barrier.State Cmd :=
  { queue := Finish.started env q
    caller := .working
    pool := List.replicate (Finish.started env q).threads.length .parked
    log := [Event.notify_all] }

/-- What pool thread `w` executes in the batch of the queue `q0`: the `Execute`
calls of its pass loop. -/
def Barrier.batchEvents {Cmd : Type} (env : Env) (q0 : DrawerCommandQueue Cmd) (w : PoolThread) :
    List (Event Cmd) :=
  (passLoop (WorkerLoop.passWindow env q0) q0 q0.num_passes.toNat 0 w.thread).2

/-- Pool thread `i` has served the current epoch and is parked again. -/
def Barrier.done {Cmd : Type} (s : Barrier.State Cmd) (i : Nat) : Bool :=
  match s.queue.threads[i]?, s.pool[i]? with
  | some w, some .parked => decide (w.run_id = s.queue.run_id)
  | _, _ => false

/-- What holds of pool thread `w`, which stands at `pc` and started the batch
as `w0`, when `log` has been done: a parked thread has either not taken the
epoch yet or has executed its whole batch; a running thread has taken the
epoch; a counting thread has executed its whole batch. -/
def Barrier.WorkerInv {Cmd : Type} (env : Env) (q0 : DrawerCommandQueue Cmd)
    (log : List (Event Cmd)) (w : PoolThread) (pc : Barrier.WorkerPc) (w0 : PoolThread) : Prop :=
  match pc with
  | .parked =>
    (w.run_id ≠ q0.run_id ∧ w.thread = w0.thread) ∨
      (w.run_id = q0.run_id ∧ (Barrier.batchEvents env q0 w0).Sublist log)
  | .running => w.run_id = q0.run_id ∧ w.thread = w0.thread
  | .counting => w.run_id = q0.run_id ∧ (Barrier.batchEvents env q0 w0).Sublist log
  | .exited => False

/-- The invariant of the executions of `Finish` on the batch of `q0`. -/
def Barrier.Inv {Cmd : Type} (env : Env) (q0 : DrawerCommandQueue Cmd) (s : Barrier.State Cmd) :
    Prop :=
  (s.queue.run_id = q0.run_id ∧ s.queue.shutdown_flag = false ∧
    s.queue.num_passes = q0.num_passes ∧ s.queue.rows_in_pass = q0.rows_in_pass) ∧
  (s.queue.threads.length = q0.threads.length ∧ s.pool.length = q0.threads.length ∧
    q0.threads.length < SIZE_MOD) ∧
  (∀ (i : Nat) (w : PoolThread) (pc : Barrier.WorkerPc) (w0 : PoolThread),
    s.queue.threads[i]? = some w → s.pool[i]? = some pc → q0.threads[i]? = some w0 →
    Barrier.WorkerInv env q0 s.log w pc w0) ∧
  (s.caller ≠ .returned →
    s.queue.active_commands = q0.active_commands ∧
    s.queue.memorypool_pos = q0.memorypool_pos ∧ ∀ c, Event.destroy c ∉ s.log) ∧
  ((s.caller = .working ∨ s.caller = .waiting) →
    s.queue.finished_threads = (List.range q0.threads.length).countP (Barrier.done s)) ∧
  ((s.caller = .cleaning ∨ s.caller = .returned) →
    ∀ i, i < q0.threads.length → Barrier.done s i = true) ∧
  (s.caller = .cleaning → s.queue.finished_threads = q0.threads.length)

/-- A filter from `(10, 20, 30)` to `(200, 150, 100)` over a screen of one row
of four pixels. -/
def exampleTintColormap : ApplySpecialColormapRGBACommand :=
  { exampleColormap with
    start_red := 10, start_green := 20, start_blue := 30,
    end_red := 200, end_green := 150, end_blue := 100 }

/-- A frame buffer with four different dark pixels (gray below 128) in its first
words, the rest black. -/
def exampleDarkFrameBuffer : FrameBuffer := fun i =>
  if i = 0 then 0xff102030 else if i = 1 then 0x00405060 else if i = 2 then 0x80010203
  else if i = 3 then 0x7f7f0000 else 0

/-! ## Blocks of the arena -/

/-- The blocks a sequence of `AllocMemory` calls has handed out: for every call
that did not return null, the offset of the block from `memorypool` and the
size that was asked for, in call order. -/
def AllocMemory.blocks : List Nat → List (Option Nat) → List (Nat × Nat)
  | size :: sizes, some data :: results => (data, size) :: AllocMemory.blocks sizes results
  | _ :: sizes, none :: results => AllocMemory.blocks sizes results
  | _, _ => []

/-! ## Queueing a fuzz column -/

/-- `R_DrawFuzzColumn_rgba`: the command is built from the ambient variables as
they stand on entry (the first component is the command handed to
`QueueCommand`); then `dc_yl = MAX(dc_yl, 1)`, `dc_yh = MIN(dc_yh,
fuzzviewheight)` and, if `dc_yl <= dc_yh`,
`fuzzpos = (fuzzpos + dc_yh - dc_yl + 1) % FUZZTABLE`, with the truncating `%`
of C. -/
def R_DrawFuzzColumn_rgba (g : Globals) : DrawFuzzColumnRGBACommand × Globals :=
  let command := DrawFuzzColumnRGBACommand.new g
  let g := { g with dc_yl := max g.dc_yl 1 }
  let g := { g with dc_yh := min g.dc_yh g.fuzzviewheight }
  let g :=
    if g.dc_yl ≤ g.dc_yh then
      { g with fuzzpos := Int.tmod (g.fuzzpos + g.dc_yh - g.dc_yl + 1) g.FUZZTABLE }
    else g
  (command, g)

/-! ## Gray weight of the scalar colormap loop -/

/-- The gray weight the scalar loop of `ApplySpecialColormapRGBACommand::Execute`
computes for the pixel `p`:
`gray = (fg_red * 77 + fg_green * 143 + fg_blue * 37) >> 8; gray += (gray >> 7)`. -/
def ApplySpecialColormapRGBACommand.scalarGray (p : Nat) : Int :=
  let fg_red : Int := ((p >>> 16) % 256 : Nat)
  let fg_green : Int := ((p >>> 8) % 256 : Nat)
  let fg_blue : Int := (p % 256 : Nat)
  let gray : Int := (fg_red * 77 + fg_green * 143 + fg_blue * 37) >>> 8
  gray + (gray >>> 7)

/-- The value the scalar loop hands to `clamp` for one channel:
`(start * inv_gray + end * gray) >> 8` with `inv_gray = 256 - gray`. -/
def ApplySpecialColormapRGBACommand.scalarChannel (start_c end_c gray : Int) : Int :=
  let inv_gray := 256 - gray
  (start_c * inv_gray + end_c * gray) >>> 8

/-! ## Channels of the fog boundary shader -/

/-- The values of `red`, `green` and `blue` in the body of the loop of
`DrawFogBoundaryLineRGBACommand::Execute` when the store to `dest[x]` is
reached, for the pixel `bg = dest[x]` read. -/
def DrawFogBoundaryLineRGBACommand.shadeChannels (light : Nat) (constants : ShadeConstants)
    (bg : Nat) : Nat × Nat × Nat :=
  let red := (bg >>> 16) &&& 0xff
  let green := (bg >>> 8) &&& 0xff
  let blue := bg &&& 0xff
  if constants.simple_shade then
    let red := mul32 red light / 256
    let green := mul32 green light / 256
    let blue := mul32 blue light / 256
    (red, green, blue)
  else
    let inv_light := sub32 256 light
    let inv_desaturate := sub32 256 constants.desaturate
    let intensity :=
      mul32 (add32 (add32 (mul32 red 77) (mul32 green 143)) (mul32 blue 37) >>> 8)
        constants.desaturate
    let red := add32 (mul32 red inv_desaturate) intensity / 256
    let green := add32 (mul32 green inv_desaturate) intensity / 256
    let blue := add32 (mul32 blue inv_desaturate) intensity / 256
    let red := add32 (mul32 constants.fade_red inv_light) (mul32 red light) / 256
    let green := add32 (mul32 constants.fade_green inv_light) (mul32 green light) / 256
    let blue := add32 (mul32 constants.fade_blue inv_light) (mul32 blue light) / 256
    let red := mul32 red constants.light_red / 256
    let green := mul32 green constants.light_green / 256
    let blue := mul32 blue constants.light_blue / 256
    (red, green, blue)

/-- A fog boundary line over columns 5 .. 8 of row 3 with the simple shade and
light level 128 (multiplier 128 with the example helpers). -/
def exampleFogLine : DrawFogBoundaryLineRGBACommand :=
  { _y := 3, _x := 5, _x2 := 8, _destorg := 0, _light := 128,
    _shade_constants := ⟨256, 256, 256, 0, 0, 0, 0, true⟩ }

/-- Shade constants of the full path: a gray-blue fade, a warm light colour and
half desaturation. -/
def exampleFullShade : ShadeConstants := ⟨256, 200, 128, 255, 40, 0, 128, false⟩

/-! ## The general branch of the voxel slab -/

/-- The general branch of `DrawSlabRGBACommand::Execute` (the final `else`,
with the per-row loop `for (x = 0; x < dx; x++) p[x] = color;`) run after the
same set-up for whatever `dx` the command holds: what the specialised
branches for `dx` = 1, 2, 3, 4 are compared with. -/
def DrawSlabRGBACommand.ExecuteGeneral (env : DrawEnv) (shade : Int → Nat)
    (command : DrawSlabRGBACommand) (thread : DrawerThread) (fb : FrameBuffer) : FrameBuffer :=
  let dx := command._dx
  let v := command._v
  let dy := command._dy
  let vi := command._vi
  let p := command._p
  let pitch := command._pitch
  let dy := thread.count_for_thread command._start_y dy
  let p := thread.dest_for_thread command._start_y pitch p
  let v := toInt32 (v + toInt32 (vi * thread.skipped_by_thread command._start_y))
  let vi := toInt32 (vi * thread.num_cores)
  let pitch := pitch * thread.num_cores
  DrawSlabRGBACommand.rowLoop env shade
    (fun p color fb => DrawSlabRGBACommand.fillRow dx p color dx.toNat 0 fb)
    pitch vi dy.toNat dy p v fb

/-- The values of `p` and `v` at the start of every iteration of a
`while (dy > 0)` loop of `DrawSlabRGBACommand::Execute`: each iteration ends
with `p += pitch; v += vi; dy--`. -/
def DrawSlabRGBACommand.rowStates (pitch vi : Int) : Nat → Int → Int → Int → List (Int × Int)
  | 0, _, _, _ => []
  | fuel + 1, dy, p, v =>
    if dy > 0 then
      (p, v) :: DrawSlabRGBACommand.rowStates pitch vi fuel (dy - 1) (p + pitch)
        (toInt32 (v + vi))
    else []

/-- A slab of width 3 over 5 rows starting at row 2, column 10, of a frame of
320 words per row. -/
def exampleSlab : DrawSlabRGBACommand :=
  { _dx := 3, _v := 0, _dy := 5, _vi := 65536, _p := 2 * 320 + 10, _pitch := 320,
    _start_y := 2 }

/-! ## Shade constants of the voxel slab -/

/-- Modelled from the spec: `PalEntry` is declared in a header that is not among
the sources. It is a packed colour: the 32-bit value `d` and its bytes `a`,
`r`, `g`, `b` name the same storage, with the alpha byte on top and blue
lowest, the packing of every pixel this file writes. -/
structure PalEntry where
  d : Nat
  deriving DecidableEq

/-- Modelled from the spec: the byte `a` of a `PalEntry`. -/
def PalEntry.a (c : PalEntry) : Nat := APART c.d

/-- Modelled from the spec: the byte `r` of a `PalEntry`. -/
def PalEntry.r (c : PalEntry) : Nat := RPART c.d

/-- Modelled from the spec: the byte `g` of a `PalEntry`. -/
def PalEntry.g (c : PalEntry) : Nat := GPART c.d

/-- Modelled from the spec: the byte `b` of a `PalEntry`. -/
def PalEntry.b (c : PalEntry) : Nat := BPART c.d

/-- The fields of `FColormap` (declared in a header) that `R_SetupDrawSlab_rgba`
reads; `Maps` is the address of the table. -/
structure FColormap where
  Color : PalEntry
  Fade : PalEntry
  Desaturate : Int
  Maps : Nat
  deriving DecidableEq

/-- The file-level variables `R_SetupDrawSlab_rgba` assigns. `light_alpha` and
`fade_alpha` are the two fields of `slab_rgba_shade_constants` that no kernel
of this file reads. -/
structure SlabSetup where
  slab_rgba_shade_constants : ShadeConstants
  light_alpha : Nat
  fade_alpha : Nat
  slab_rgba_colormap : Nat
  slab_rgba_light : Int
  deriving DecidableEq

/-- `R_SetupDrawSlab_rgba(base_colormap, light, shade)`. The macro `LIGHTSCALE`
comes from a header and is a parameter, as is the type of `light`; `/` is the
truncating division of C on values that are not negative, `abs` the absolute
value. -/
def R_SetupDrawSlab_rgba {L : Type} (LIGHTSCALE : L → Int → Int) (base_colormap : FColormap)
    (light : L) (shade : Int) : SlabSetup :=
  { slab_rgba_shade_constants :=
      { light_red := base_colormap.Color.r * 256 / 255
        light_green := base_colormap.Color.g * 256 / 255
        light_blue := base_colormap.Color.b * 256 / 255
        fade_red := base_colormap.Fade.r
        fade_green := base_colormap.Fade.g
        fade_blue := base_colormap.Fade.b
        desaturate := min (Int.natAbs base_colormap.Desaturate) 255 * 255 / 256
        simple_shade :=
          decide (base_colormap.Color.d = 0x00ffffff) && decide (base_colormap.Fade.d = 0x00000000)
            && decide (base_colormap.Desaturate = 0) }
    light_alpha := base_colormap.Color.a * 256 / 255
    fade_alpha := base_colormap.Fade.a
    slab_rgba_colormap := base_colormap.Maps
    slab_rgba_light := LIGHTSCALE light shade }

/-- The neutral colormap: white light, no fade, no desaturation. -/
def exampleNeutralColormap : FColormap :=
  { Color := ⟨0x00ffffff⟩, Fade := ⟨0⟩, Desaturate := 0, Maps := 0 }

/-- A tinted colormap: light colour `(255, 128, 0)`, a dark red fade and full
desaturation. -/
def exampleTintedColormap : FColormap :=
  { Color := ⟨0x00ff8000⟩, Fade := ⟨0x00400000⟩, Desaturate := -300, Maps := 0 }

/-! ## Row interleaving -/

open DrawerThread

theorem rowLoop_eq_map (N : Int) : ∀ (fuel : Nat) (y count : Int), 0 ≤ count → count.toNat ≤ fuel →
    ApplySpecialColormapRGBACommand.rowLoop N fuel y count
      = (List.range count.toNat).map (fun j : Nat => y + (j : Int) * N)
  | 0, y, count, h0, hf => by
    have : count.toNat = 0 := by omega
    simp [ApplySpecialColormapRGBACommand.rowLoop, this]
  | fuel + 1, y, count, h0, hf => by
    unfold ApplySpecialColormapRGBACommand.rowLoop
    by_cases hc : count > 0
    · have ih := rowLoop_eq_map N fuel (y + N) (count - 1) (by omega) (by omega)
      have hn : count.toNat = (count - 1).toNat + 1 := by omega
      rw [if_pos hc, ih, hn, List.range_succ_eq_map]
      simp only [List.map_cons, List.map_map]
      congr 1
      · simp
      · apply List.map_congr_left
        intro j _
        simp only [Function.comp, Nat.succ_eq_add_one]
        push_cast
        ring
    · have : count.toNat = 0 := by omega
      simp [hc, this]

theorem tmod_neg_left (y N : Int) : Int.tmod (-y) N = -(Int.tmod y N) := by
  rw [Int.tmod_def, Int.tmod_def, Int.neg_tdiv]; ring

theorem core_skip_eq_emod (x N : Int) (hN : 0 < N) :
    Int.tmod (N - Int.tmod x N) N = (-x) % N := by
  rcases le_or_lt 0 x with hx | hx
  · rw [Int.tmod_eq_emod hx hN.le]
    have hm0 : 0 ≤ x % N := Int.emod_nonneg x hN.ne'
    have hmN : x % N < N := Int.emod_lt_of_pos x hN
    rw [Int.tmod_eq_emod (by omega) hN.le]
    have hx' : -x = (N - x % N) + N * (-(x / N) - 1) := by
      have := Int.emod_add_ediv x N
      linarith
    rw [hx', Int.add_mul_emod_self_left]
  · have hy : 0 ≤ -x := by omega
    have hxy : x = -(-x) := by ring
    have h1 : Int.tmod x N = -((-x) % N) := by
      conv_lhs => rw [hxy]
      rw [tmod_neg_left, Int.tmod_eq_emod hy hN.le]
    have hm0 : 0 ≤ (-x) % N := Int.emod_nonneg (-x) hN.ne'
    rw [h1, Int.tmod_eq_emod (by omega) hN.le]
    have : N - -(-x % N) = (-x) % N + N := by ring
    rw [this, Int.add_emod_self, Int.emod_emod_of_dvd _ (dvd_refl N)]

theorem skipped_by_thread_eq (t : DrawerThread) (first_line : Int) (hN : 0 < t.num_cores) :
    t.skipped_by_thread first_line
      = max (t.pass_start_y - first_line) 0
        + (t.core - (first_line + max (t.pass_start_y - first_line) 0)) % t.num_cores := by
  simp only [skipped_by_thread]
  rw [core_skip_eq_emod _ _ hN]
  congr 2
  ring

theorem skipped_by_thread_zero (k N pe : Int) (hk0 : 0 ≤ k) (hkN : k < N) :
    skipped_by_thread ⟨k, N, 0, pe⟩ 0 = k := by
  rw [skipped_by_thread_eq _ _ (by show (0:Int) < N; omega)]
  simp only [sub_zero, max_self, zero_add, add_zero]
  exact Int.emod_eq_of_lt hk0 hkN

theorem count_for_thread_zero (k N pe H : Int) (hk0 : 0 ≤ k) (hkN : k < N) (hH : 0 ≤ H)
    (hpe : H ≤ pe) :
    count_for_thread ⟨k, N, 0, pe⟩ 0 H = (H - k + N - 1) / N := by
  have hs := skipped_by_thread_zero k N pe hk0 hkN
  simp only [count_for_thread, hs]
  have h1 : min H (max (pe - 0) 0) = H := by
    simp only [sub_zero]; omega
  rw [h1, Int.tdiv_eq_ediv (by omega) (by omega)]
  have : 0 ≤ (H - k + N - 1) / N := Int.ediv_nonneg (by omega) (by omega)
  omega

theorem mem_rows_iff (k N pe H r : Int) (hk0 : 0 ≤ k) (hkN : k < N) (hH : 0 ≤ H)
    (hpe : H ≤ pe) :
    r ∈ ApplySpecialColormapRGBACommand.rows ⟨k, N, 0, pe⟩ H ↔
      (0 ≤ r ∧ r < H) ∧ r % N = k := by
  have hc := count_for_thread_zero k N pe H hk0 hkN hH hpe
  have hs := skipped_by_thread_zero k N pe hk0 hkN
  have hN : 0 < N := by omega
  have hc0 : 0 ≤ (H - k + N - 1) / N := Int.ediv_nonneg (by omega) (by omega)
  unfold ApplySpecialColormapRGBACommand.rows
  simp only [hc, hs]
  rw [rowLoop_eq_map N _ _ _ hc0 le_rfl]
  simp only [List.mem_map, List.mem_range]
  have key : ∀ j : Int, 0 ≤ j → (j < (H - k + N - 1) / N ↔ k + j * N < H) := by
    intro j hj
    have : j < (H - k + N - 1) / N ↔ j + 1 ≤ (H - k + N - 1) / N := by omega
    rw [this, Int.le_ediv_iff_mul_le hN]
    constructor <;> intro h <;> nlinarith
  constructor
  · rintro ⟨j, hj, rfl⟩
    have hj0 : (0:Int) ≤ (j:Int) := Int.ofNat_nonneg j
    have hj' : (j:Int) < (H - k + N - 1) / N := by omega
    have := (key j hj0).1 hj'
    refine ⟨⟨by positivity, this⟩, ?_⟩
    rw [Int.add_mul_emod_self, Int.emod_eq_of_lt hk0 hkN]
  · rintro ⟨⟨hr0, hrH⟩, hmod⟩
    have hdiv : 0 ≤ r / N := Int.ediv_nonneg hr0 (by omega)
    have hr : r = k + (r / N) * N := by
      have := Int.emod_add_ediv r N
      rw [hmod] at this
      linarith [mul_comm N (r / N)]
    refine ⟨(r / N).toNat, ?_, ?_⟩
    · have : r / N < (H - k + N - 1) / N := (key _ hdiv).2 (by rw [← hr]; exact hrH)
      omega
    · rw [Int.toNat_of_nonneg hdiv]; exact hr.symm

/-- C1. Partition property. For a row count `H ≥ 0`, a worker count `N ≥ 1` and a
single pass window `[0, pe)` covering `[0, H)`: the rows that
`ApplySpecialColormapRGBACommand::Execute` visits on worker `k` are
`skipped_by_thread(0) + j * N` for `0 ≤ j < count_for_thread(0, H)`, no worker
visits a row twice, every visited row lies in `[0, H)`, and every row of
`[0, H)` is visited by exactly one of the workers `0 .. N-1`. -/
theorem partition_rows (H N pe : Int) (hH : 0 ≤ H) (hN : 1 ≤ N) (hpe : H ≤ pe) :
    (∀ k : Int, 0 ≤ k → k < N →
      ApplySpecialColormapRGBACommand.rows ⟨k, N, 0, pe⟩ H
        = (List.range (count_for_thread ⟨k, N, 0, pe⟩ 0 H).toNat).map
            (fun j : Nat => skipped_by_thread ⟨k, N, 0, pe⟩ 0 + (j : Int) * N)) ∧
    (∀ k : Int, 0 ≤ k → k < N →
      (ApplySpecialColormapRGBACommand.rows ⟨k, N, 0, pe⟩ H).Nodup) ∧
    (∀ k r : Int, 0 ≤ k → k < N →
      r ∈ ApplySpecialColormapRGBACommand.rows ⟨k, N, 0, pe⟩ H → 0 ≤ r ∧ r < H) ∧
    (∀ r : Int, 0 ≤ r → r < H →
      ∃! k : Int, (0 ≤ k ∧ k < N) ∧
        r ∈ ApplySpecialColormapRGBACommand.rows ⟨k, N, 0, pe⟩ H) := by
  have hN0 : 0 < N := by omega
  have hrows : ∀ k : Int, 0 ≤ k → k < N →
      ApplySpecialColormapRGBACommand.rows ⟨k, N, 0, pe⟩ H
        = (List.range (count_for_thread ⟨k, N, 0, pe⟩ 0 H).toNat).map
            (fun j : Nat => skipped_by_thread ⟨k, N, 0, pe⟩ 0 + (j : Int) * N) := by
    intro k hk0 hkN
    have hc := count_for_thread_zero k N pe H hk0 hkN hH hpe
    have hc0 : 0 ≤ (H - k + N - 1) / N := Int.ediv_nonneg (by omega) (by omega)
    unfold ApplySpecialColormapRGBACommand.rows
    simp only [hc]
    exact rowLoop_eq_map N _ _ _ hc0 le_rfl
  refine ⟨hrows, ?_, ?_, ?_⟩
  · intro k hk0 hkN
    rw [hrows k hk0 hkN]
    refine (List.nodup_range _).map ?_
    intro a b hab
    have h : (a : Int) * N = (b : Int) * N := by simpa using hab
    have := mul_right_cancel₀ hN0.ne' h
    exact_mod_cast this
  · intro k r hk0 hkN hr
    exact ((mem_rows_iff k N pe H r hk0 hkN hH hpe).1 hr).1
  · intro r hr0 hrH
    refine ⟨r % N, ⟨⟨Int.emod_nonneg r hN0.ne', Int.emod_lt_of_pos r hN0⟩, ?_⟩, ?_⟩
    · exact (mem_rows_iff (r % N) N pe H r (Int.emod_nonneg r hN0.ne')
        (Int.emod_lt_of_pos r hN0) hH hpe).2 ⟨⟨hr0, hrH⟩, rfl⟩
    · rintro k ⟨⟨hk0, hkN⟩, hmem⟩
      exact ((mem_rows_iff k N pe H r hk0 hkN hH hpe).1 hmem).2.symm

/-- Witness for `partition_rows`: 10 rows, 4 workers, pass window `[0, 200)`. -/
theorem partition_rows_witness :
    ((0 : Int) ≤ 10 ∧ (1 : Int) ≤ 4 ∧ (10 : Int) ≤ 200) ∧
    (∀ r : Int, 0 ≤ r → r < 10 →
      ∃! k : Int, (0 ≤ k ∧ k < 4) ∧
        r ∈ ApplySpecialColormapRGBACommand.rows ⟨k, 4, 0, 200⟩ 10) :=
  ⟨by decide, (partition_rows 10 4 200 (by decide) (by decide) (by decide)).2.2.2⟩

/-! ## Thread pool lemmas -/

theorem createLoop_length (num_threads : Int) :
    ∀ (fuel : Nat) (i : Int) (threads : List PoolThread),
      (StartThreads.createLoop num_threads fuel i threads).length = threads.length
  | 0, _, _ => rfl
  | fuel + 1, i, threads => by
    unfold StartThreads.createLoop
    split
    · split
      · rw [createLoop_length num_threads fuel]; simp
      · rfl
    · rfl

theorem createLoop_run_id (num_threads : Int) :
    ∀ (fuel : Nat) (i : Int) (threads : List PoolThread),
      (∀ w ∈ threads, w.run_id = 0) →
      ∀ w ∈ StartThreads.createLoop num_threads fuel i threads, w.run_id = 0
  | 0, _, _, h => h
  | fuel + 1, i, threads, h => by
    unfold StartThreads.createLoop
    split
    · split
      · apply createLoop_run_id num_threads fuel
        intro w hw
        rcases List.mem_or_eq_of_mem_set hw with h1 | h1
        · exact h w h1
        · rw [h1]
      · exact h
    · exact h

theorem StartThreads_fields {Cmd : Type} (env : Env) (q : DrawerCommandQueue Cmd) :
    StartThreads env q = { q with threads := (StartThreads env q).threads } := by
  unfold StartThreads
  split <;> rfl

theorem StartThreads_threads_of_ne {Cmd : Type} (env : Env) (q : DrawerCommandQueue Cmd)
    (h : q.threads ≠ []) : (StartThreads env q).threads = q.threads := by
  unfold StartThreads
  have : q.threads.isEmpty = false := by
    cases hq : q.threads with
    | nil => exact absurd hq h
    | cons a l => rfl
  simp [this]

theorem StartThreads_threads_of_nil {Cmd : Type} (env : Env) (q : DrawerCommandQueue Cmd)
    (h : q.threads = []) :
    (∀ w ∈ (StartThreads env q).threads, w.run_id = 0) ∧
      (StartThreads env q).threads.length
        = ((if (env.hardware_concurrency : Int) = 0 then 4
            else (env.hardware_concurrency : Int)) - 1).toNat := by
  unfold StartThreads
  simp only [h, List.isEmpty_nil, Bool.not_true, Bool.false_eq_true, if_false]
  constructor
  · apply createLoop_run_id
    intro w hw
    rw [List.eq_of_mem_replicate hw]
  · rw [createLoop_length, List.length_replicate]

theorem runPool_length {Cmd : Type} (env : Env) (q : DrawerCommandQueue Cmd) :
    ∀ (ws : List PoolThread) (f : Nat), (runPool env q ws f).1.length = ws.length
  | [], _ => rfl
  | w :: ws, f => by
    unfold runPool
    split <;> simp [runPool_length env q ws]

theorem runPool_awake {Cmd : Type} (env : Env) (q : DrawerCommandQueue Cmd)
    (hs : q.shutdown_flag = false) :
    ∀ (ws : List PoolThread) (f : Nat), (∀ w ∈ ws, w.run_id ≠ q.run_id) → f < SIZE_MOD →
      (runPool env q ws f).2.1 = (f + ws.length) % SIZE_MOD ∧
      ∀ w ∈ (runPool env q ws f).1, w.run_id = q.run_id
  | [], f, _, hf => by
    simp [runPool, Nat.mod_eq_of_lt hf]
  | w :: ws, f, h, hf => by
    have hw : w.run_id ≠ q.run_id := h w (List.mem_cons_self _ _)
    have hM : 0 < SIZE_MOD := by unfold SIZE_MOD; positivity
    have ih := runPool_awake env q hs ws ((f + 1) % SIZE_MOD)
      (fun w' hw' => h w' (List.mem_cons_of_mem _ hw')) (Nat.mod_lt _ hM)
    have ht : WorkerLoop.turn env q w = some
        ({ thread := (passLoop (WorkerLoop.passWindow env q) q q.num_passes.toNat 0 w.thread).1,
           run_id := q.run_id },
         (passLoop (WorkerLoop.passWindow env q) q q.num_passes.toNat 0 w.thread).2) := by
      unfold WorkerLoop.turn
      simp [hs, Ne.symm hw]
    unfold runPool
    rw [ht]
    simp only [List.length_cons, List.mem_cons]
    refine ⟨?_, ?_⟩
    · rw [ih.1, Nat.mod_add_mod]
      congr 1
      omega
    · rintro w' (rfl | hw')
      · rfl
      · exact ih.2 w' hw'

/-! ## Finish -/

theorem isEmpty_eq_false_of_ne {α : Type} {l : List α} (h : l ≠ []) : l.isEmpty = false := by
  cases l with
  | nil => exact absurd rfl h
  | cons a l => rfl

theorem Finish_of_empty {Cmd : Type} (env : Env) (q : DrawerCommandQueue Cmd)
    (h : q.commands = []) : Finish env q = some { queue := q, log := [], pool_log := [] } := by
  simp [Finish, h]

theorem Finish.started_eq {Cmd : Type} (env : Env) (q : DrawerCommandQueue Cmd) :
    Finish.started env q = { q with
      active_commands := q.commands, commands := q.active_commands, run_id := q.run_id + 1,
      threads := (Finish.started env q).threads } := by
  unfold Finish.started
  rw [StartThreads_fields]

theorem Finish_unfold {Cmd : Type} (env : Env) (q : DrawerCommandQueue Cmd) :
    Finish env q =
      if q.commands.isEmpty then some { queue := q, log := [], pool_log := [] }
      else
        if (runPool env (Finish.started env q) (Finish.started env q).threads
              (Finish.started env q).finished_threads).2.1
            = (runPool env (Finish.started env q) (Finish.started env q).threads
              (Finish.started env q).finished_threads).1.length then
          some {
            queue := { Finish.started env q with
              threads := (runPool env (Finish.started env q) (Finish.started env q).threads
                (Finish.started env q).finished_threads).1
              active_commands := [], memorypool_pos := 0, finished_threads := 0 }
            log := Event.notify_all ::
              ((passLoop (Finish.passWindow env (Finish.started env q)) (Finish.started env q)
                  (Finish.started env q).num_passes.toNat 0
                  { env.default_thread with
                    core := 0,
                    num_cores := ((Finish.started env q).threads.length : Int) + 1 }).2
                ++ (Finish.started env q).active_commands.map Event.destroy)
            pool_log := (runPool env (Finish.started env q) (Finish.started env q).threads
              (Finish.started env q).finished_threads).2.2 }
        else none := rfl

theorem Finish_of_nonempty {Cmd : Type} (env : Env) (q : DrawerCommandQueue Cmd)
    (h : q.commands ≠ []) (r : FinishResult Cmd) (hr : Finish env q = some r) :
    (runPool env (Finish.started env q) (Finish.started env q).threads q.finished_threads).2.1
        = (Finish.started env q).threads.length ∧
    r.queue = { q with
      commands := q.active_commands, active_commands := [], run_id := q.run_id + 1,
      memorypool_pos := 0, finished_threads := 0,
      threads := (runPool env (Finish.started env q) (Finish.started env q).threads
        q.finished_threads).1 } ∧
    r.log = Event.notify_all ::
      ((passLoop (Finish.passWindow env (Finish.started env q)) (Finish.started env q)
          q.num_passes.toNat 0
          { env.default_thread with
            core := 0, num_cores := ((Finish.started env q).threads.length : Int) + 1 }).2
        ++ q.commands.map Event.destroy) := by
  have hs := Finish.started_eq env q
  have e1 : (Finish.started env q).finished_threads = q.finished_threads := by rw [hs]
  have e2 : (Finish.started env q).num_passes = q.num_passes := by rw [hs]
  have e3 : (Finish.started env q).active_commands = q.commands := by rw [hs]
  rw [Finish_unfold, isEmpty_eq_false_of_ne h, e1, e2, e3, runPool_length] at hr
  simp only [Bool.false_eq_true, if_false] at hr
  split at hr
  · rename_i hcond
    injection hr with hr
    subst hr
    refine ⟨hcond, ?_, rfl⟩
    show { Finish.started env q with
      threads := (runPool env (Finish.started env q) (Finish.started env q).threads
        q.finished_threads).1
      active_commands := [], memorypool_pos := 0, finished_threads := 0 } = _
    rw [hs]
  · exact absurd hr (by simp)

theorem Finish_some_of_awake {Cmd : Type} (env : Env) (q : DrawerCommandQueue Cmd)
    (hf : q.finished_threads = 0) (hs : q.shutdown_flag = false)
    (hw : ∀ w ∈ (Finish.started env q).threads, w.run_id ≠ q.run_id + 1)
    (hl : (Finish.started env q).threads.length < SIZE_MOD) :
    ∃ r, Finish env q = some r := by
  by_cases h : q.commands = []
  · exact ⟨_, Finish_of_empty env q h⟩
  · have hst := Finish.started_eq env q
    have e1 : (Finish.started env q).finished_threads = q.finished_threads := by rw [hst]
    have e4 : (Finish.started env q).shutdown_flag = false := by rw [hst]; exact hs
    have e5 : (Finish.started env q).run_id = q.run_id + 1 := by rw [hst]
    have hM : 0 < SIZE_MOD := by unfold SIZE_MOD; positivity
    have ha := runPool_awake env (Finish.started env q) e4 (Finish.started env q).threads 0
      (by rw [e5]; exact hw) hM
    rw [Finish_unfold, isEmpty_eq_false_of_ne h, e1, hf, runPool_length, ha.1, zero_add,
      Nat.mod_eq_of_lt hl]
    simp

theorem executeLoop_eq_map {Cmd : Type} (active : List Cmd) (t : DrawerThread) :
    ∀ (fuel i : Nat), active.length ≤ i + fuel →
      executeLoop active t fuel i = (active.drop i).map (fun c => Event.execute c t)
  | 0, i, h => by
    rw [List.drop_of_length_le (by omega)]
    rfl
  | fuel + 1, i, h => by
    unfold executeLoop
    by_cases hi : i < active.length
    · rw [List.getElem?_eq_getElem hi]
      simp only
      rw [executeLoop_eq_map active t fuel (i + 1) (by omega)]
      conv_rhs => rw [List.drop_eq_getElem_cons hi]
      rfl
    · rw [List.getElem?_eq_none (by omega), List.drop_of_length_le (by omega)]
      rfl

theorem passLoop_events {Cmd : Type} (window : DrawerThread → Int → DrawerThread)
    (q : DrawerCommandQueue Cmd) :
    ∀ (fuel : Nat) (pass : Int) (t : DrawerThread), fuel = (q.num_passes - pass).toNat →
      (passLoop window q fuel pass t).2
        = (List.range fuel).flatMap
            (fun j => q.active_commands.map (fun c => Event.execute c (windowAt window pass t j)))
  | 0, _, _, _ => rfl
  | fuel + 1, pass, t, h => by
    have hp : pass < q.num_passes := by omega
    unfold passLoop
    rw [if_pos hp]
    simp only
    rw [passLoop_events window q fuel (pass + 1) (window t pass) (by omega),
      executeLoop_eq_map _ _ _ _ (by omega), List.drop_zero, List.range_succ_eq_map,
      List.flatMap_cons, List.flatMap_map]
    rfl

theorem executed_append {Cmd : Type} (xs ys : List (Event Cmd)) :
    Event.executed (xs ++ ys) = Event.executed xs ++ Event.executed ys := by
  induction xs with
  | nil => rfl
  | cons x xs ih => cases x <;> simp [Event.executed, ih]

theorem executed_map_destroy {Cmd : Type} (cs : List Cmd) :
    Event.executed (cs.map Event.destroy) = [] := by
  induction cs with
  | nil => rfl
  | cons c cs ih => simpa [Event.executed] using ih

theorem executed_map_execute {Cmd : Type} (cs : List Cmd) (t : DrawerThread) :
    Event.executed (cs.map (fun c => Event.execute c t)) = cs.map (fun c => (c, t)) := by
  induction cs with
  | nil => rfl
  | cons c cs ih => simp [Event.executed, ih]

theorem executed_flatMap {Cmd : Type} (cs : List Cmd) (f : Nat → DrawerThread) (ps : List Nat) :
    Event.executed (ps.flatMap (fun j => cs.map (fun c => Event.execute c (f j))))
      = ps.flatMap (fun j => cs.map (fun c => (c, f j))) := by
  induction ps with
  | nil => rfl
  | cons p ps ih => simp [List.flatMap_cons, executed_append, executed_map_execute, ih]

theorem windowAt_Finish {Cmd : Type} (env : Env) (q : DrawerCommandQueue Cmd) :
    ∀ (j : Nat) (pass : Int) (t : DrawerThread),
      (windowAt (Finish.passWindow env q) pass t j).core = t.core ∧
      (windowAt (Finish.passWindow env q) pass t j).num_cores = t.num_cores ∧
      (windowAt (Finish.passWindow env q) pass t j).pass_start_y = (pass + j) * q.rows_in_pass
  | 0, pass, t => by
    unfold windowAt Finish.passWindow
    split <;> simp
  | j + 1, pass, t => by
    unfold windowAt
    obtain ⟨h1, h2, h3⟩ := windowAt_Finish env q j (pass + 1) (Finish.passWindow env q t pass)
    refine ⟨?_, ?_, ?_⟩
    · rw [h1]; unfold Finish.passWindow; split <;> rfl
    · rw [h2]; unfold Finish.passWindow; split <;> rfl
    · rw [h3]; push_cast; ring

/-! ## Idle states -/

theorem started_threads {Cmd : Type} (env : Env) (q : DrawerCommandQueue Cmd) :
    (q.threads ≠ [] ∧ (Finish.started env q).threads = q.threads) ∨
    (q.threads = [] ∧ (∀ w ∈ (Finish.started env q).threads, w.run_id = 0) ∧
      (Finish.started env q).threads.length
        = ((if (env.hardware_concurrency : Int) = 0 then 4
            else (env.hardware_concurrency : Int)) - 1).toNat) := by
  by_cases h : q.threads = []
  · exact Or.inr ⟨h, StartThreads_threads_of_nil env _ h⟩
  · exact Or.inl ⟨h, StartThreads_threads_of_ne env _ h⟩

theorem started_parked {Cmd : Type} (env : Env) (q : DrawerCommandQueue Cmd)
    (he : env.HintFits) (hi : q.Idle) :
    (∀ w ∈ (Finish.started env q).threads, w.run_id ≠ q.run_id + 1) ∧
      (Finish.started env q).threads.length < SIZE_MOD := by
  obtain ⟨_, _, _, hr0, hrw, hlen⟩ := hi
  rcases started_threads env q with ⟨_, h⟩ | ⟨_, h0, hl⟩
  · rw [h]
    exact ⟨fun w hw => by have := hrw w hw; omega, hlen⟩
  · refine ⟨fun w hw => by rw [h0 w hw]; omega, ?_⟩
    rw [hl]
    unfold Env.HintFits at he
    unfold SIZE_MOD
    split <;> omega

theorem Finish_total {Cmd : Type} (env : Env) (q : DrawerCommandQueue Cmd)
    (he : env.HintFits) (hi : q.Idle) : ∃ r, Finish env q = some r :=
  Finish_some_of_awake env q hi.2.1 hi.2.2.1 (started_parked env q he hi).1
    (started_parked env q he hi).2

theorem Finish_Idle {Cmd : Type} (env : Env) (q : DrawerCommandQueue Cmd)
    (he : env.HintFits) (hi : q.Idle) (r : FinishResult Cmd) (hr : Finish env q = some r) :
    r.queue.Idle ∧ r.queue.threaded_render = q.threaded_render := by
  by_cases h : q.commands = []
  · rw [Finish_of_empty env q h] at hr
    injection hr with hr
    subst hr
    exact ⟨hi, rfl⟩
  · obtain ⟨_, hq, _⟩ := Finish_of_nonempty env q h r hr
    have hp := started_parked env q he hi
    obtain ⟨_, hf, hsd, hr0, _, _⟩ := hi
    have hst := Finish.started_eq env q
    have e4 : (Finish.started env q).shutdown_flag = false := by rw [hst]; exact hsd
    have e5 : (Finish.started env q).run_id = q.run_id + 1 := by rw [hst]
    have hM : 0 < SIZE_MOD := by unfold SIZE_MOD; positivity
    have ha := runPool_awake env (Finish.started env q) e4 (Finish.started env q).threads 0
      (by rw [e5]; exact hp.1) hM
    rw [hq]
    refine ⟨⟨rfl, rfl, hsd, ?_, ?_, ?_⟩, rfl⟩
    · show 0 ≤ q.run_id + 1
      omega
    · intro w hw
      show w.run_id ≤ q.run_id + 1
      rw [hf] at hw
      rw [ha.2 w hw, e5]
    · show (runPool env (Finish.started env q) (Finish.started env q).threads
        q.finished_threads).1.length < SIZE_MOD
      rw [runPool_length]
      exact hp.2

theorem Begin_of_Finish {Cmd : Type} (env : Env) (q : DrawerCommandQueue Cmd)
    (r : FinishResult Cmd) (hr : Finish env q = some r) :
    Begin env q = some
      { r with queue := { r.queue with threaded_render := r.queue.threaded_render + 1 } } := by
  simp [Begin, hr]

theorem End_of_Finish {Cmd : Type} (env : Env) (q : DrawerCommandQueue Cmd)
    (r : FinishResult Cmd) (hr : Finish env q = some r) :
    End env q = some
      (if r.queue.threaded_render > 0 then
        { r with queue := { r.queue with threaded_render := r.queue.threaded_render - 1 } }
       else r) := by
  simp [End, hr]

theorem run_Idle {Cmd : Type} (env : Env) (op : QueueOp) (q : DrawerCommandQueue Cmd)
    (he : env.HintFits) (hi : q.Idle) :
    ∃ r, op.run env q = some r ∧ r.queue.Idle ∧
      r.queue.threaded_render =
        match op with
        | .Begin => q.threaded_render + 1
        | .End => if q.threaded_render > 0 then q.threaded_render - 1 else q.threaded_render
        | .WaitForWorkers => q.threaded_render
        | .Finish => q.threaded_render := by
  obtain ⟨r, hr⟩ := Finish_total env q he hi
  obtain ⟨hri, hrt⟩ := Finish_Idle env q he hi r hr
  cases op with
  | Begin =>
    refine ⟨_, Begin_of_Finish env q r hr, hri, ?_⟩
    simp [hrt]
  | End =>
    refine ⟨_, End_of_Finish env q r hr, ?_, ?_⟩
    · split
      · exact hri
      · exact hri
    · rw [hrt]
      split
      · simp [hrt]
      · exact hrt
  | WaitForWorkers => exact ⟨r, hr, hri, hrt⟩
  | Finish => exact ⟨r, hr, hri, hrt⟩

theorem Finish_threaded_render {Cmd : Type} (env : Env) (q : DrawerCommandQueue Cmd)
    (r : FinishResult Cmd) (hr : Finish env q = some r) :
    r.queue.threaded_render = q.threaded_render := by
  by_cases h : q.commands = []
  · rw [Finish_of_empty env q h] at hr
    injection hr with hr
    subst hr
    rfl
  · rw [(Finish_of_nonempty env q h r hr).2.1]

theorem exampleQueue_Idle : exampleQueue.Idle := by
  refine ⟨rfl, rfl, rfl, ?_, ?_, ?_⟩
  · decide
  · intro w hw
    cases hw
  · decide

theorem exampleEnv_HintFits : exampleEnv.HintFits := by
  unfold Env.HintFits; decide

/-! ## Batch state machine -/

/-- C2. For every queue state whose pending list is non-empty and whose active list
is empty: whenever `Finish` returns, the pending list is empty, the active list
is empty, `finished_threads` is 0 and `run_id` is exactly one greater than
before; and from an idle state (with a concurrency hint that fits an `int`)
`Finish` does return. -/
theorem Finish_batch {Cmd : Type} (env : Env) (q : DrawerCommandQueue Cmd)
    (hp : q.commands ≠ []) (ha : q.active_commands = []) :
    (∀ r, Finish env q = some r →
      r.queue.commands = [] ∧ r.queue.active_commands = [] ∧
      r.queue.finished_threads = 0 ∧ r.queue.run_id = q.run_id + 1) ∧
    (env.HintFits → q.Idle → ∃ r, Finish env q = some r) := by
  refine ⟨?_, fun he hi => Finish_total env q he hi⟩
  intro r hr
  rw [(Finish_of_nonempty env q hp r hr).2.1]
  exact ⟨ha, rfl, rfl, rfl⟩

/-- Witness for `Finish_batch`: the example queue holds two pending commands;
`Finish` returns on it and leaves the stated state. -/
theorem Finish_batch_witness :
    (exampleQueue.commands ≠ [] ∧ exampleQueue.active_commands = []) ∧
    (∃ r, Finish exampleEnv exampleQueue = some r ∧
      r.queue.commands = [] ∧ r.queue.active_commands = [] ∧
      r.queue.finished_threads = 0 ∧ r.queue.run_id = 1) :=
  ⟨⟨by decide, rfl⟩,
    let h := Finish_batch exampleEnv exampleQueue (by decide) rfl
    (h.2 exampleEnv_HintFits exampleQueue_Idle).elim fun r hr => ⟨r, hr, h.1 r hr⟩⟩

/-- C3. Arena reuse. For every queue state with a non-empty pending list, whenever
`Finish`, `WaitForWorkers`, `Begin` or `End` returns, `memorypool_pos` is
exactly 0, whatever it was before; and from an idle state each of the four
calls does return. -/
theorem arena_reset {Cmd : Type} (env : Env) (q : DrawerCommandQueue Cmd)
    (hp : q.commands ≠ []) :
    (∀ r, Finish env q = some r → r.queue.memorypool_pos = 0) ∧
    (∀ r, WaitForWorkers env q = some r → r.queue.memorypool_pos = 0) ∧
    (∀ r, Begin env q = some r → r.queue.memorypool_pos = 0) ∧
    (∀ r, End env q = some r → r.queue.memorypool_pos = 0) ∧
    (env.HintFits → q.Idle →
      (∃ r, Finish env q = some r) ∧ (∃ r, WaitForWorkers env q = some r) ∧
      (∃ r, Begin env q = some r) ∧ (∃ r, End env q = some r)) := by
  have hF : ∀ r, Finish env q = some r → r.queue.memorypool_pos = 0 := by
    intro r hr
    rw [(Finish_of_nonempty env q hp r hr).2.1]
  refine ⟨hF, hF, ?_, ?_, ?_⟩
  · intro r hr
    cases hf : Finish env q with
    | none => simp [Begin, hf] at hr
    | some r' =>
      rw [Begin_of_Finish env q r' hf] at hr
      injection hr with hr
      subst hr
      exact hF r' hf
  · intro r hr
    cases hf : Finish env q with
    | none => simp [End, hf] at hr
    | some r' =>
      rw [End_of_Finish env q r' hf] at hr
      injection hr with hr
      subst hr
      split
      · exact hF r' hf
      · exact hF r' hf
  · intro he hi
    obtain ⟨r, hr⟩ := Finish_total env q he hi
    exact ⟨⟨r, hr⟩, ⟨r, hr⟩, ⟨_, Begin_of_Finish env q r hr⟩, ⟨_, End_of_Finish env q r hr⟩⟩

/-- Witness for `arena_reset`: the example queue has 32 bytes in use and two
pending commands; `End` returns on it with the offset back at 0. -/
theorem arena_reset_witness :
    (exampleQueue.commands ≠ [] ∧ exampleQueue.memorypool_pos = 32) ∧
    (∃ r, End exampleEnv exampleQueue = some r ∧ r.queue.memorypool_pos = 0) :=
  ⟨⟨by decide, rfl⟩,
    let h := arena_reset exampleEnv exampleQueue (by decide)
    (h.2.2.2.2 exampleEnv_HintFits exampleQueue_Idle).2.2.2.elim
      fun r hr => ⟨r, hr, h.2.2.2.1 r hr⟩⟩

/-- C4. Idempotent drain. When the pending list is empty, `Finish` returns and
leaves the whole queue state as it was (`run_id`, `finished_threads`,
`memorypool_pos`, the active list, the pending list and the thread pool
included), the caller's log is empty (no `notify_all`, no `Execute`, no
destructor call) and no pool thread executes anything. -/
theorem Finish_drain_noop {Cmd : Type} (env : Env) (q : DrawerCommandQueue Cmd)
    (hp : q.commands = []) :
    Finish env q = some { queue := q, log := [], pool_log := [] } :=
  Finish_of_empty env q hp

/-- Witness for `Finish_drain_noop`: the idle example queue. -/
theorem Finish_drain_noop_witness :
    exampleIdleQueue.commands = [] ∧
    Finish exampleEnv exampleIdleQueue
      = some { queue := exampleIdleQueue, log := [], pool_log := [] } :=
  ⟨rfl, Finish_drain_noop exampleEnv exampleIdleQueue rfl⟩

/-- C5. In `Finish` with a non-empty pending list the calling thread executes, for
each pass `0 .. num_passes-1` in increasing order, every command of the batch
exactly once and in the order the commands were queued, always with a
descriptor whose `core` is 0 and whose `num_cores` is the pool size plus one
(pass `p` runs with `pass_start_y = p * rows_in_pass`); and from an idle state
`Finish` does return. -/
theorem Finish_caller_order {Cmd : Type} (env : Env) (q : DrawerCommandQueue Cmd)
    (hp : q.commands ≠ []) :
    (∀ r, Finish env q = some r →
      ∃ thread : Nat → DrawerThread,
        (∀ p : Nat, (thread p).core = 0 ∧
          (thread p).num_cores = (r.queue.threads.length : Int) + 1 ∧
          (thread p).pass_start_y = (p : Int) * q.rows_in_pass) ∧
        Event.executed r.log
          = (List.range q.num_passes.toNat).flatMap
              (fun p => q.commands.map (fun command => (command, thread p)))) ∧
    (env.HintFits → q.Idle → ∃ r, Finish env q = some r) := by
  refine ⟨?_, fun he hi => Finish_total env q he hi⟩
  intro r hr
  obtain ⟨_, hq, hlog⟩ := Finish_of_nonempty env q hp r hr
  have hst := Finish.started_eq env q
  have e2 : (Finish.started env q).num_passes = q.num_passes := by rw [hst]
  have e3 : (Finish.started env q).active_commands = q.commands := by rw [hst]
  have e6 : (Finish.started env q).rows_in_pass = q.rows_in_pass := by rw [hst]
  have hlen : r.queue.threads.length = (Finish.started env q).threads.length := by
    rw [hq]
    exact runPool_length env _ _ _
  refine ⟨windowAt (Finish.passWindow env (Finish.started env q)) 0
    { env.default_thread with
      core := 0, num_cores := ((Finish.started env q).threads.length : Int) + 1 }, ?_, ?_⟩
  · intro p
    obtain ⟨h1, h2, h3⟩ := windowAt_Finish env (Finish.started env q) p 0
      { env.default_thread with
        core := 0, num_cores := ((Finish.started env q).threads.length : Int) + 1 }
    refine ⟨h1, ?_, ?_⟩
    · rw [h2, hlen]
    · rw [h3, e6, zero_add]
  · rw [hlog]
    have hev := passLoop_events (Finish.passWindow env (Finish.started env q))
      (Finish.started env q) q.num_passes.toNat 0
      { env.default_thread with
        core := 0, num_cores := ((Finish.started env q).threads.length : Int) + 1 }
      (by rw [e2, sub_zero])
    rw [hev, e3]
    simp only [Event.executed]
    rw [executed_append, executed_map_destroy, List.append_nil, executed_flatMap]

/-- Witness for `Finish_caller_order`: on the example queue (commands 7 and 8,
two passes, a pool of two threads) the caller executes 7, 8, 7, 8 with
`core = 0` and `num_cores = 3`. -/
theorem Finish_caller_order_witness :
    exampleQueue.commands ≠ [] ∧
    (∃ r, Finish exampleEnv exampleQueue = some r ∧
      (Event.executed r.log).map Prod.fst = [7, 8, 7, 8] ∧
      ∃ thread : Nat → DrawerThread,
        (∀ p : Nat, (thread p).core = 0 ∧
          (thread p).num_cores = (r.queue.threads.length : Int) + 1 ∧
          (thread p).pass_start_y = (p : Int) * exampleQueue.rows_in_pass) ∧
        Event.executed r.log
          = (List.range exampleQueue.num_passes.toNat).flatMap
              (fun p => exampleQueue.commands.map (fun command => (command, thread p)))) :=
  ⟨by decide,
    let h := Finish_caller_order exampleEnv exampleQueue (by decide)
    ⟨(Finish exampleEnv exampleQueue).get (by decide), by simp, by decide,
      h.1 _ (by simp)⟩⟩

theorem runOps_cons {Cmd : Type} (env : Env) (op : QueueOp) (ops : List QueueOp)
    (q : DrawerCommandQueue Cmd) (r : FinishResult Cmd) (h : op.run env q = some r) :
    runOps env (op :: ops) q = runOps env ops r.queue := by
  simp [runOps, h]

/-- C6. Nesting. For every queue state with `threaded_render = d ≥ 0` and no active
batch: if a single `Finish` returns, then `Begin; Begin; End; End` returns as
well, leaves `threaded_render` equal to `d`, and leaves the pending list, the
active list, the arena offset and `finished_threads` exactly as that single
`Finish` leaves them: both lists empty, and offset and counter 0 whenever
there was work pending. From an idle state `Finish` does return. -/
theorem nested_brackets {Cmd : Type} (env : Env) (q : DrawerCommandQueue Cmd) (d : Int)
    (hd : q.threaded_render = d) (h0 : 0 ≤ d) (ha : q.active_commands = []) :
    (∀ r, Finish env q = some r →
      ∃ q4, runOps env [QueueOp.Begin, QueueOp.Begin, QueueOp.End, QueueOp.End] q = some q4 ∧
        q4.threaded_render = d ∧
        (q4.commands = r.queue.commands ∧ q4.active_commands = r.queue.active_commands ∧
          q4.memorypool_pos = r.queue.memorypool_pos ∧
          q4.finished_threads = r.queue.finished_threads) ∧
        (q4.commands = [] ∧ q4.active_commands = []) ∧
        (q.commands ≠ [] → q4.memorypool_pos = 0 ∧ q4.finished_threads = 0)) ∧
    (env.HintFits → q.Idle → ∃ r, Finish env q = some r) := by
  refine ⟨?_, fun he hi => Finish_total env q he hi⟩
  intro r hr
  have htr := Finish_threaded_render env q r hr
  -- after the first `Finish` nothing is pending
  have hc : r.queue.commands = [] ∧ r.queue.active_commands = [] ∧
      (q.commands ≠ [] → r.queue.memorypool_pos = 0 ∧ r.queue.finished_threads = 0) := by
    by_cases h : q.commands = []
    · rw [Finish_of_empty env q h] at hr
      injection hr with hr
      subst hr
      exact ⟨h, ha, fun h' => absurd h h'⟩
    · rw [(Finish_of_nonempty env q h r hr).2.1]
      exact ⟨ha, rfl, fun _ => ⟨rfl, rfl⟩⟩
  -- every later `Finish` is a no-op on a queue with `r.queue`'s lists
  have hnoop : ∀ t : Int, Finish env { r.queue with threaded_render := t }
      = some { queue := { r.queue with threaded_render := t }, log := [], pool_log := [] } :=
    fun t => Finish_of_empty env _ hc.1
  have s1 : QueueOp.Begin.run env q = some
      { r with queue := { r.queue with threaded_render := r.queue.threaded_render + 1 } } :=
    Begin_of_Finish env q r hr
  have s2 : QueueOp.Begin.run env { r.queue with threaded_render := d + 1 } = some
      { queue := { r.queue with threaded_render := d + 1 + 1 }, log := [], pool_log := [] } :=
    Begin_of_Finish env _ _ (hnoop (d + 1))
  have s3 : QueueOp.End.run env { r.queue with threaded_render := d + 1 + 1 } = some
      { queue := { r.queue with threaded_render := d + 1 }, log := [], pool_log := [] } := by
    have := End_of_Finish env _ _ (hnoop (d + 1 + 1))
    rw [if_pos (show d + 1 + 1 > 0 by omega)] at this
    simpa using this
  have s4 : QueueOp.End.run env { r.queue with threaded_render := d + 1 } = some
      { queue := { r.queue with threaded_render := d }, log := [], pool_log := [] } := by
    have := End_of_Finish env _ _ (hnoop (d + 1))
    rw [if_pos (show d + 1 > 0 by omega)] at this
    simpa using this
  refine ⟨{ r.queue with threaded_render := d }, ?_, rfl, ⟨rfl, rfl, rfl, rfl⟩,
    ⟨hc.1, hc.2.1⟩, hc.2.2⟩
  rw [runOps_cons env _ _ q _ s1]
  simp only [htr, hd]
  rw [runOps_cons env _ _ _ _ s2, runOps_cons env _ _ _ _ s3, runOps_cons env _ _ _ _ s4]
  rfl

/-- Witness for `nested_brackets`: on the example queue (depth 0, two pending
commands, 32 bytes in use) the four calls return and leave depth 0, empty
lists, offset 0 and counter 0. -/
theorem nested_brackets_witness :
    (exampleQueue.threaded_render = 0 ∧ (0 : Int) ≤ 0 ∧ exampleQueue.active_commands = []) ∧
    (∃ q4, runOps exampleEnv [QueueOp.Begin, QueueOp.Begin, QueueOp.End, QueueOp.End]
        exampleQueue = some q4 ∧
      q4.threaded_render = 0 ∧ q4.commands = [] ∧ q4.active_commands = [] ∧
      q4.memorypool_pos = 0 ∧ q4.finished_threads = 0) :=
  ⟨⟨rfl, le_refl 0, rfl⟩,
    let h := nested_brackets exampleEnv exampleQueue 0 rfl (le_refl 0) rfl
    (h.2 exampleEnv_HintFits exampleQueue_Idle).elim fun r hr =>
      (h.1 r hr).elim fun q4 h4 =>
        ⟨q4, h4.1, h4.2.1, h4.2.2.2.1.1, h4.2.2.2.1.2,
          (h4.2.2.2.2 (by decide)).1, (h4.2.2.2.2 (by decide)).2⟩⟩

theorem run_threaded_render {Cmd : Type} (env : Env) (op : QueueOp)
    (q : DrawerCommandQueue Cmd) (r : FinishResult Cmd) :
    op.run env q = some r →
    r.queue.threaded_render =
      match op with
      | .Begin => q.threaded_render + 1
      | .End => if q.threaded_render > 0 then q.threaded_render - 1 else q.threaded_render
      | .WaitForWorkers => q.threaded_render
      | .Finish => q.threaded_render := by
  intro hr
  cases op with
  | Begin =>
    change RDrawRgba.Begin env q = some r at hr
    cases hf : Finish env q with
    | none => simp [RDrawRgba.Begin, hf] at hr
    | some r' =>
      rw [Begin_of_Finish env q r' hf] at hr
      injection hr with hr
      subst hr
      simp [Finish_threaded_render env q r' hf]
  | End =>
    change RDrawRgba.End env q = some r at hr
    cases hf : Finish env q with
    | none => simp [RDrawRgba.End, hf] at hr
    | some r' =>
      have htr := Finish_threaded_render env q r' hf
      rw [End_of_Finish env q r' hf] at hr
      injection hr with hr
      subst hr
      rw [htr]
      split
      · simp [htr]
      · exact htr
  | WaitForWorkers => exact Finish_threaded_render env q r hr
  | Finish => exact Finish_threaded_render env q r hr

theorem runOps_nonneg {Cmd : Type} (env : Env) :
    ∀ (ops : List QueueOp) (q q' : DrawerCommandQueue Cmd), 0 ≤ q.threaded_render →
      runOps env ops q = some q' → 0 ≤ q'.threaded_render
  | [], q, q', h0, h => by
    simp only [runOps, Option.some.injEq] at h
    rw [← h]
    exact h0
  | op :: ops, q, q', h0, h => by
    cases hr : op.run env q with
    | none => simp [runOps, hr] at h
    | some r =>
      rw [runOps_cons env op ops q r hr] at h
      have htr := run_threaded_render env op q r hr
      refine runOps_nonneg env ops r.queue q' ?_ h
      rw [htr]
      cases op with
      | Begin => show 0 ≤ q.threaded_render + 1; omega
      | End =>
        show 0 ≤ (if q.threaded_render > 0 then q.threaded_render - 1 else q.threaded_render)
        split <;> omega
      | WaitForWorkers => exact h0
      | Finish => exact h0

theorem runOps_total {Cmd : Type} (env : Env) (he : env.HintFits) :
    ∀ (ops : List QueueOp) (q : DrawerCommandQueue Cmd), q.Idle →
      ∃ q', runOps env ops q = some q'
  | [], q, _ => ⟨q, rfl⟩
  | op :: ops, q, hi => by
    obtain ⟨r, hr, hri, _⟩ := run_Idle env op q he hi
    rw [runOps_cons env op ops q r hr]
    exact runOps_total env he ops r.queue hri

/-- C7. The nesting depth never becomes negative. From a queue state with
`threaded_render ≥ 0` (in particular 0), whatever sequence of `Begin`, `End`,
`WaitForWorkers` and `Finish` runs, `threaded_render ≥ 0` afterwards. `Begin`
increases the depth by exactly 1; `End` decreases it by exactly 1 when it is
positive and leaves it at 0 when it is 0. From an idle state every such
sequence does run to its end. -/
theorem threaded_render_nonneg {Cmd : Type} (env : Env) (q : DrawerCommandQueue Cmd)
    (h0 : 0 ≤ q.threaded_render) :
    (∀ (ops : List QueueOp) (q' : DrawerCommandQueue Cmd),
      runOps env ops q = some q' → 0 ≤ q'.threaded_render) ∧
    (∀ r, Begin env q = some r → r.queue.threaded_render = q.threaded_render + 1) ∧
    (∀ r, End env q = some r →
      (0 < q.threaded_render → r.queue.threaded_render = q.threaded_render - 1) ∧
      (q.threaded_render = 0 → r.queue.threaded_render = 0)) ∧
    (env.HintFits → q.Idle → ∀ ops : List QueueOp, ∃ q', runOps env ops q = some q') := by
  refine ⟨fun ops q' h => runOps_nonneg env ops q q' h0 h, ?_, ?_,
    fun he hi ops => runOps_total env he ops q hi⟩
  · intro r hr
    exact run_threaded_render env QueueOp.Begin q r hr
  · intro r hr
    have h := run_threaded_render env QueueOp.End q r hr
    simp only at h
    constructor
    · intro hpos
      rw [h, if_pos hpos]
    · intro hz
      rw [h, if_neg (by omega), hz]

/-- Witness for `threaded_render_nonneg`: the example queue starts at depth 0;
`End; Begin; End; End; Finish` runs to its end and the depth is not negative. -/
theorem threaded_render_nonneg_witness :
    (0 : Int) ≤ exampleQueue.threaded_render ∧
    (∃ q', runOps exampleEnv
        [QueueOp.End, QueueOp.Begin, QueueOp.End, QueueOp.End, QueueOp.Finish] exampleQueue
          = some q' ∧ 0 ≤ q'.threaded_render) :=
  ⟨le_refl 0,
    let h := threaded_render_nonneg exampleEnv exampleQueue (le_refl 0)
    (h.2.2.2 exampleEnv_HintFits exampleQueue_Idle
      [QueueOp.End, QueueOp.Begin, QueueOp.End, QueueOp.End, QueueOp.Finish]).elim
      fun q' hq' => ⟨q', hq', h.1 _ q' hq'⟩⟩

/-! ## Arena -/

theorem SIZE_MOD_eq : SIZE_MOD = 16 * 2 ^ 60 := by
  unfold SIZE_MOD; norm_num

theorem AllocMemory_pos_mod {Cmd : Type} (env : Env) (q : DrawerCommandQueue Cmd) (size : Nat)
    (h : q.memorypool_pos % 16 = 0) :
    (AllocMemory env q size).2.memorypool_pos % 16 = 0 ∧
    ∀ off, (AllocMemory env q size).1 = some off → off % 16 = 0 := by
  unfold AllocMemory
  simp only
  split
  · exact ⟨h, fun off ho => by simp at ho⟩
  · refine ⟨?_, fun off ho => ?_⟩
    · show (q.memorypool_pos + (size + 15) % SIZE_MOD / 16 * 16) % SIZE_MOD % 16 = 0
      rw [Nat.mod_mod_of_dvd _ (by rw [SIZE_MOD_eq]; exact Dvd.intro _ rfl)]
      omega
    · have : off = q.memorypool_pos := by
        simp only [Option.some.injEq] at ho
        exact ho.symm
      rw [this]
      exact h

theorem calls_pos_mod {Cmd : Type} (env : Env) :
    ∀ (sizes : List Nat) (q : DrawerCommandQueue Cmd), q.memorypool_pos % 16 = 0 →
      (AllocMemory.calls env sizes q).2.memorypool_pos % 16 = 0 ∧
      ∀ off, some off ∈ (AllocMemory.calls env sizes q).1 → off % 16 = 0
  | [], q, h => ⟨h, fun off ho => by simp [AllocMemory.calls] at ho⟩
  | size :: sizes, q, h => by
    obtain ⟨h1, h2⟩ := AllocMemory_pos_mod env q size h
    obtain ⟨h3, h4⟩ := calls_pos_mod env sizes (AllocMemory env q size).2 h1
    unfold AllocMemory.calls
    refine ⟨h3, fun off ho => ?_⟩
    rcases List.mem_cons.1 ho with h5 | h5
    · exact h2 off h5.symm
    · exact h4 off h5

/-- C8. Arena alignment invariant. Starting from `memorypool_pos = 0`, after every
sequence of `AllocMemory` calls with arbitrary sizes `memorypool_pos` is a
multiple of 16, and every block the calls return (every result that is not
null) lies at an offset from the pool base that is a multiple of 16. -/
theorem AllocMemory_aligned {Cmd : Type} (env : Env) (sizes : List Nat)
    (q : DrawerCommandQueue Cmd) (h : q.memorypool_pos = 0) :
    (AllocMemory.calls env sizes q).2.memorypool_pos % 16 = 0 ∧
    ∀ off, some off ∈ (AllocMemory.calls env sizes q).1 → off % 16 = 0 :=
  calls_pos_mod env sizes q (by rw [h])

/-- Witness for `AllocMemory_aligned`: sizes 1, 16, 17, 40 and two sizes near the
top of the `size_t` range on the empty 64-byte example arena. -/
theorem AllocMemory_aligned_witness :
    exampleIdleQueue.memorypool_pos = 0 ∧
    (AllocMemory.calls exampleEnv [1, 16, 17, 40, 2 ^ 64 - 1, 2 ^ 64 - 16] exampleIdleQueue).1
      = [some 0, some 16, some 32, none, some 64, some 64] ∧
    (AllocMemory.calls exampleEnv [1, 16, 17, 40, 2 ^ 64 - 1, 2 ^ 64 - 16]
      exampleIdleQueue).2.memorypool_pos % 16 = 0 :=
  ⟨rfl, by decide,
    (AllocMemory_aligned exampleEnv [1, 16, 17, 40, 2 ^ 64 - 1, 2 ^ 64 - 16]
      exampleIdleQueue rfl).1⟩

/-- `AllocMemory` refuses a request that exceeds the remaining capacity as long
as neither `size + 15` nor `memorypool_pos + size` wraps. -/
theorem AllocMemory_null_of_no_wrap {Cmd : Type} (env : Env) (q : DrawerCommandQueue Cmd)
    (size : Nat) (h1 : size + 15 < SIZE_MOD)
    (h2 : q.memorypool_pos + (size + 15) / 16 * 16 < SIZE_MOD)
    (h : size > env.memorypool_size - q.memorypool_pos) :
    AllocMemory env q size = (none, q) := by
  unfold AllocMemory
  simp only
  rw [Nat.mod_eq_of_lt h1, Nat.mod_eq_of_lt h2, if_pos (by omega)]

/-- C9 (the code at the failing input). On the empty 64-byte example arena a
request of `SIZE_MAX` bytes exceeds the remaining capacity, yet `AllocMemory`
returns the block at offset 0 instead of null: `size + 15` wraps to 14 and is
rounded down to 0. -/
theorem AllocMemory_SIZE_MAX_not_null :
    2 ^ 64 - 1 > exampleEnv.memorypool_size - exampleIdleQueue.memorypool_pos ∧
    AllocMemory exampleEnv exampleIdleQueue (2 ^ 64 - 1) = (some 0, exampleIdleQueue) := by
  decide

/-- C10. For a size `s ≤ memorypool_size`, the offset `p = memorypool_pos` and `r` the
smallest multiple of 16 that is `≥ s` (with `p + memorypool_size + 15` inside
the `size_t` range, as for every offset the arena reaches): if
`p + r ≤ memorypool_size`, `AllocMemory` returns the block at offset `p` and
sets `memorypool_pos` to `p + r`; otherwise it returns null and leaves the
queue, `memorypool_pos` included, as it was. -/
theorem AllocMemory_result {Cmd : Type} (env : Env) (q : DrawerCommandQueue Cmd) (s r : Nat)
    (hw : q.memorypool_pos + env.memorypool_size + 15 < SIZE_MOD)
    (hs : s ≤ env.memorypool_size)
    (hr : s ≤ r ∧ 16 ∣ r ∧ ∀ m, s ≤ m → 16 ∣ m → r ≤ m) :
    (q.memorypool_pos + r ≤ env.memorypool_size →
      AllocMemory env q s
        = (some q.memorypool_pos, { q with memorypool_pos := q.memorypool_pos + r })) ∧
    (¬ q.memorypool_pos + r ≤ env.memorypool_size → AllocMemory env q s = (none, q)) := by
  obtain ⟨hr1, hr2, hr3⟩ := hr
  have hle := hr3 ((s + 15) / 16 * 16) (by omega) (Dvd.intro_left _ rfl)
  have hreq : (s + 15) / 16 * 16 = r := by omega
  have h1 : (s + 15) % SIZE_MOD = s + 15 := Nat.mod_eq_of_lt (by omega)
  have h2 : (q.memorypool_pos + r) % SIZE_MOD = q.memorypool_pos + r :=
    Nat.mod_eq_of_lt (by omega)
  unfold AllocMemory
  simp only
  rw [h1, hreq, h2]
  constructor
  · intro h
    rw [if_neg (by omega)]
  · intro h
    rw [if_pos (by omega)]

/-- Witness for `AllocMemory_result`: 17 bytes at offset 32 of the 64-byte example
arena; the smallest multiple of 16 that is at least 17 is 32, the block is
at offset 32 and the offset becomes 64. -/
theorem AllocMemory_result_witness :
    (exampleQueue.memorypool_pos + exampleEnv.memorypool_size + 15 < SIZE_MOD ∧
      17 ≤ exampleEnv.memorypool_size ∧
      (17 ≤ 32 ∧ 16 ∣ 32 ∧ ∀ m, 17 ≤ m → 16 ∣ m → 32 ≤ m)) ∧
    AllocMemory exampleEnv exampleQueue 17
      = (some 32, { exampleQueue with memorypool_pos := 64 }) :=
  ⟨⟨by decide, by decide, by decide, by decide, fun m h1 h2 => by omega⟩,
    (AllocMemory_result exampleEnv exampleQueue 17 32 (by decide) (by decide)
      ⟨by decide, by decide, fun m h1 h2 => by omega⟩).1 (by decide)⟩

/-! ## Packed pixels -/

theorem and_0xff (x : Nat) : x &&& 0xff = x % 256 := by
  have h : (0xff : Nat) = 2 ^ 8 - 1 := by norm_num
  rw [h, Nat.and_pow_two_sub_one_eq_mod]

theorem or_bytes (a r g b : Nat) (hr : r < 256) (hg : g < 256) (hb : b < 256) :
    a * 2 ^ 24 ||| r * 2 ^ 16 ||| g * 2 ^ 8 ||| b = a * 2 ^ 24 + r * 2 ^ 16 + g * 2 ^ 8 + b := by
  have h1 : a * 2 ^ 24 ||| r * 2 ^ 16 = a * 2 ^ 24 + r * 2 ^ 16 := by
    have := Nat.mul_add_lt_is_or (i := 24) (b := r * 2 ^ 16) (by omega) a
    rw [Nat.mul_comm (2 ^ 24) a] at this
    exact this.symm
  have h2 : a * 2 ^ 24 + r * 2 ^ 16 ||| g * 2 ^ 8 = a * 2 ^ 24 + r * 2 ^ 16 + g * 2 ^ 8 := by
    have := Nat.mul_add_lt_is_or (i := 16) (b := g * 2 ^ 8) (by omega) (a * 2 ^ 8 + r)
    have e : 2 ^ 16 * (a * 2 ^ 8 + r) = a * 2 ^ 24 + r * 2 ^ 16 := by ring
    rw [e] at this
    exact this.symm
  have h3 : a * 2 ^ 24 + r * 2 ^ 16 + g * 2 ^ 8 ||| b
      = a * 2 ^ 24 + r * 2 ^ 16 + g * 2 ^ 8 + b := by
    have := Nat.mul_add_lt_is_or (i := 8) (b := b) (by omega) (a * 2 ^ 16 + r * 2 ^ 8 + g)
    have e : 2 ^ 8 * (a * 2 ^ 16 + r * 2 ^ 8 + g) = a * 2 ^ 24 + r * 2 ^ 16 + g * 2 ^ 8 := by
      ring
    rw [e] at this
    exact this.symm
  rw [h1, h2, h3]

theorem parts_lt (c : Nat) : APART c < 256 ∧ RPART c < 256 ∧ GPART c < 256 ∧ BPART c < 256 := by
  simp only [APART, RPART, GPART, BPART, and_0xff]
  omega

theorem pack_parts (c : Nat) (h : c < 2 ^ 32) :
    shl32 (APART c) 24 ||| shl32 (RPART c) 16 ||| shl32 (GPART c) 8 ||| BPART c = c := by
  obtain ⟨ha, hr, hg, hb⟩ := parts_lt c
  have e1 : shl32 (APART c) 24 = APART c * 2 ^ 24 := by
    simp only [shl32, U32, Nat.shiftLeft_eq]
    exact Nat.mod_eq_of_lt (by omega)
  have e2 : shl32 (RPART c) 16 = RPART c * 2 ^ 16 := by
    simp only [shl32, U32, Nat.shiftLeft_eq]
    exact Nat.mod_eq_of_lt (by omega)
  have e3 : shl32 (GPART c) 8 = GPART c * 2 ^ 8 := by
    simp only [shl32, U32, Nat.shiftLeft_eq]
    exact Nat.mod_eq_of_lt (by omega)
  rw [e1, e2, e3, or_bytes _ _ _ _ hr hg hb]
  simp only [APART, RPART, GPART, BPART, and_0xff, Nat.shiftRight_eq_div_pow]
  omega

theorem addChannel_src (c b : Nat) (hc : c < 256) : BlendBgra.addChannel c b 256 0 = c := by
  simp only [BlendBgra.addChannel, add32, mul32, U32, Nat.shiftRight_eq_div_pow]
  omega

theorem addChannel_dest (c b : Nat) (hb : b < 256) : BlendBgra.addChannel c b 0 256 = b := by
  simp only [BlendBgra.addChannel, add32, mul32, U32, Nat.shiftRight_eq_div_pow]
  omega

/-! ## Blend identities -/

/-- C18. Blend identity (against the blend modelled from the spec). For all packed
32-bit pixel values `fg` and `bg`, `BlendBgra::add(fg, bg, 256, 0) == fg` and
`BlendBgra::add(fg, bg, 0, 256) == bg`. -/
theorem add_identity (fg bg : Nat) (hfg : fg < 2 ^ 32) (hbg : bg < 2 ^ 32) :
    BlendBgra.add fg bg 256 0 = fg ∧ BlendBgra.add fg bg 0 256 = bg := by
  obtain ⟨ha, hr, hg, hb⟩ := parts_lt fg
  obtain ⟨ha', hr', hg', hb'⟩ := parts_lt bg
  constructor
  · simp only [BlendBgra.add]
    rw [addChannel_src _ _ ha, addChannel_src _ _ hr, addChannel_src _ _ hg,
      addChannel_src _ _ hb]
    exact pack_parts fg hfg
  · simp only [BlendBgra.add]
    rw [addChannel_dest _ _ ha', addChannel_dest _ _ hr', addChannel_dest _ _ hg',
      addChannel_dest _ _ hb']
    exact pack_parts bg hbg

/-- Witness for `add_identity`: a translucent foreground over a background. -/
theorem add_identity_witness :
    ((0x80123456 : Nat) < 2 ^ 32 ∧ (0xffaabbcc : Nat) < 2 ^ 32) ∧
    BlendBgra.add 0x80123456 0xffaabbcc 256 0 = 0x80123456 ∧
    BlendBgra.add 0x80123456 0xffaabbcc 0 256 = 0xffaabbcc :=
  ⟨by decide, add_identity 0x80123456 0xffaabbcc (by decide) (by decide)⟩

/-! ## Alpha scale of the additive fill -/

theorem srcWeight_eq (a : Nat) (ha : a ≤ 255) :
    FillAddColumnRGBACommand.srcWeight a = a + a / 128 := by
  have e : a >>> 7 = a / 128 := Nat.shiftRight_eq_div_pow a 7
  simp only [FillAddColumnRGBACommand.srcWeight, add32, e, U32]
  exact Nat.mod_eq_of_lt (by omega)

/-- C20. Alpha scale compensation in `FillAddColumnRGBACommand`. For every alpha byte
`a` in `0..255` the source weight `a + (a >> 7)` lies in `0..256`, is 0 exactly
when `a = 0` and 256 exactly when `a = 255`, is non-decreasing in `a`, and the
source and destination weights passed to the blend sum to exactly 256. -/
theorem srcWeight_scale :
    (∀ a : Nat, a ≤ 255 →
      FillAddColumnRGBACommand.srcWeight a ≤ 256 ∧
      (FillAddColumnRGBACommand.srcWeight a = 0 ↔ a = 0) ∧
      (FillAddColumnRGBACommand.srcWeight a = 256 ↔ a = 255) ∧
      FillAddColumnRGBACommand.srcWeight a + FillAddColumnRGBACommand.destWeight a = 256) ∧
    (∀ a a' : Nat, a ≤ a' → a' ≤ 255 →
      FillAddColumnRGBACommand.srcWeight a ≤ FillAddColumnRGBACommand.srcWeight a') ∧
    (∀ (command : FillAddColumnRGBACommand) (thread : DrawerThread) (fb : FrameBuffer),
      command.Execute thread fb
        = DrawerColumnCommand.Execute
            (fun _ bg => BlendBgra.add command._srccolor bg
              (FillAddColumnRGBACommand.srcWeight (APART command._srccolor))
              (FillAddColumnRGBACommand.destWeight (APART command._srccolor)))
            command.column thread fb) := by
  refine ⟨?_, ?_, fun _ _ _ => rfl⟩
  · intro a ha
    have hs := srcWeight_eq a ha
    have hd : FillAddColumnRGBACommand.destWeight a = 256 - (a + a / 128) := by
      simp only [FillAddColumnRGBACommand.destWeight, hs, sub32, U32]
      rw [Nat.mod_eq_of_lt (show a + a / 128 < 2 ^ 32 by omega)]
      have : 256 + (2 ^ 32 - (a + a / 128)) = (256 - (a + a / 128)) + 2 ^ 32 := by omega
      rw [this, Nat.add_mod_right]
      exact Nat.mod_eq_of_lt (by omega)
    rw [hs, hd]
    omega
  · intro a a' h h'
    rw [srcWeight_eq a (by omega), srcWeight_eq a' h']
    omega

/-! ## Span sample index -/

/-- C17. Sample index equivalence. When `xbits = 6` and `ybits = 6` the iterator has
`yshift = 26`, `xshift = 20`, `xmask = 63 * 64` and is flagged `is_64x64`, and
for every pair of 32-bit fractions the general index `spot()` equals the fast
path `spot64()`; this holds at the start and after any number of `next()`
calls. -/
theorem spot_eq_spot64 (env : DrawEnv) (command : DrawerSpanCommand) (thread : DrawerThread)
    (hx : command._xbits = 6) (hy : command._ybits = 6) :
    (DrawerSpanCommand.LoopIterator.new env command thread).is_64x64 = true ∧
    (∀ loop : DrawerSpanCommand.LoopIterator,
      loop.xshift = (DrawerSpanCommand.LoopIterator.new env command thread).xshift →
      loop.yshift = (DrawerSpanCommand.LoopIterator.new env command thread).yshift →
      loop.xmask = (DrawerSpanCommand.LoopIterator.new env command thread).xmask →
      loop.spot = loop.spot64 ∧
      loop.spot64
        = toInt32 (add32 ((loop.xfrac >>> 20) &&& (63 * 64)) (loop.yfrac >>> 26))) ∧
    (∀ k : Nat,
      ((fun l : DrawerSpanCommand.LoopIterator => l.next.1)^[k]
          (DrawerSpanCommand.LoopIterator.new env command thread)).spot
        = ((fun l : DrawerSpanCommand.LoopIterator => l.next.1)^[k]
          (DrawerSpanCommand.LoopIterator.new env command thread)).spot64) := by
  have hxs : (DrawerSpanCommand.LoopIterator.new env command thread).xshift = 20 := by
    simp [DrawerSpanCommand.LoopIterator.new, hx, hy]
  have hys : (DrawerSpanCommand.LoopIterator.new env command thread).yshift = 26 := by
    simp [DrawerSpanCommand.LoopIterator.new, hy]
  have hm : (DrawerSpanCommand.LoopIterator.new env command thread).xmask = 4032 := by
    simp [DrawerSpanCommand.LoopIterator.new, hx, hy]
  have key : ∀ loop : DrawerSpanCommand.LoopIterator,
      loop.xshift = 20 → loop.yshift = 26 → loop.xmask = 4032 → loop.spot = loop.spot64 := by
    intro loop h1 h2 h3
    simp only [DrawerSpanCommand.LoopIterator.spot, DrawerSpanCommand.LoopIterator.spot64, h1,
      h2, h3]
    rfl
  refine ⟨by simp [DrawerSpanCommand.LoopIterator.new, hx, hy], ?_, ?_⟩
  · intro loop h1 h2 h3
    exact ⟨key loop (h1.trans hxs) (h2.trans hys) (h3.trans hm), rfl⟩
  · intro k
    have inv : ∀ k : Nat,
        ((fun l : DrawerSpanCommand.LoopIterator => l.next.1)^[k]
          (DrawerSpanCommand.LoopIterator.new env command thread)).xshift = 20 ∧
        ((fun l : DrawerSpanCommand.LoopIterator => l.next.1)^[k]
          (DrawerSpanCommand.LoopIterator.new env command thread)).yshift = 26 ∧
        ((fun l : DrawerSpanCommand.LoopIterator => l.next.1)^[k]
          (DrawerSpanCommand.LoopIterator.new env command thread)).xmask = 4032 := by
      intro k
      induction k with
      | zero => exact ⟨hxs, hys, hm⟩
      | succ n ih =>
        rw [Function.iterate_succ_apply']
        exact ih
    exact key _ (inv k).1 (inv k).2.1 (inv k).2.2

/-- Witness for `spot_eq_spot64`: a 64x64 span with fractions that use the top
bits; both indices are `63 * 64 + 63`. -/
theorem spot_eq_spot64_witness :
    ((6 : Int) = 6) ∧
    (DrawerSpanCommand.LoopIterator.new exampleDrawEnv
        { _xfrac := -1, _yfrac := -1, _xstep := 3, _ystep := 5, _x1 := 0, _x2 := 9, _y := 2,
          _xbits := 6, _ybits := 6, _destorg := 0 } ⟨0, 1, 0, 200⟩).spot = 4095 ∧
    (DrawerSpanCommand.LoopIterator.new exampleDrawEnv
        { _xfrac := -1, _yfrac := -1, _xstep := 3, _ystep := 5, _x1 := 0, _x2 := 9, _y := 2,
          _xbits := 6, _ybits := 6, _destorg := 0 } ⟨0, 1, 0, 200⟩).spot
      = (DrawerSpanCommand.LoopIterator.new exampleDrawEnv
        { _xfrac := -1, _yfrac := -1, _xstep := 3, _ystep := 5, _x1 := 0, _x2 := 9, _y := 2,
          _xbits := 6, _ybits := 6, _destorg := 0 } ⟨0, 1, 0, 200⟩).spot64 :=
  ⟨rfl, by decide,
    (spot_eq_spot64 exampleDrawEnv
      { _xfrac := -1, _yfrac := -1, _xstep := 3, _ystep := 5, _x1 := 0, _x2 := 9, _y := 2,
        _xbits := 6, _ybits := 6, _destorg := 0 } ⟨0, 1, 0, 200⟩ rfl rfl).2.2 0⟩

/-! ## Texture phase of the column iterator -/

theorem toInt32_modEq (x : Int) : toInt32 x ≡ x [ZMOD 2 ^ 32] := by
  unfold toInt32 Int.ModEq
  omega

theorem emod_modEq (x : Int) : x % 2 ^ 32 ≡ x [ZMOD 2 ^ 32] := by
  unfold Int.ModEq
  omega

theorem toInt32_congr {x y : Int} (h : x ≡ y [ZMOD 2 ^ 32]) : toInt32 x = toInt32 y := by
  unfold Int.ModEq at h
  unfold toInt32
  omega

theorem column_iterate (command : DrawerColumnCommand) (thread : DrawerThread)
    (hc : 0 < thread.count_for_thread command._dest_y command._count) (k : Nat) :
    ((fun l : DrawerColumnCommand.LoopIterator => l.next.1)^[k]
        (DrawerColumnCommand.LoopIterator.new command thread)).frac
      = toInt32 ((command._texturefrac : Int) + (command._iscale : Int)
          * (thread.skipped_by_thread command._dest_y + (k : Int) * thread.num_cores)) ∧
    ((fun l : DrawerColumnCommand.LoopIterator => l.next.1)^[k]
        (DrawerColumnCommand.LoopIterator.new command thread)).dest
      = thread.dest_for_thread command._dest_y command._pitch command._dest
        + (k : Int) * (command._pitch * thread.num_cores) ∧
    ((fun l : DrawerColumnCommand.LoopIterator => l.next.1)^[k]
        (DrawerColumnCommand.LoopIterator.new command thread)).pitch
      = command._pitch * thread.num_cores ∧
    ((fun l : DrawerColumnCommand.LoopIterator => l.next.1)^[k]
        (DrawerColumnCommand.LoopIterator.new command thread)).fracstep
      = toInt32 (((command._iscale : Int) * thread.num_cores) % 2 ^ 32) ∧
    ((fun l : DrawerColumnCommand.LoopIterator => l.next.1)^[k]
        (DrawerColumnCommand.LoopIterator.new command thread)).count
      = thread.count_for_thread command._dest_y command._count - k := by
  induction k with
  | zero =>
    have hnew : DrawerColumnCommand.LoopIterator.new command thread
        = { count := thread.count_for_thread command._dest_y command._count
            dest := thread.dest_for_thread command._dest_y command._pitch command._dest
            pitch := command._pitch * thread.num_cores
            fracstep := toInt32 (((command._iscale : Int) * thread.num_cores) % 2 ^ 32)
            frac := toInt32 (((command._texturefrac : Int)
              + (command._iscale : Int) * thread.skipped_by_thread command._dest_y)
              % 2 ^ 32) } := by
      unfold DrawerColumnCommand.LoopIterator.new
      rw [if_neg (not_le.mpr hc)]
    rw [Function.iterate_zero, id_eq, hnew]
    refine ⟨?_, ?_, rfl, rfl, ?_⟩
    · apply toInt32_congr
      refine (emod_modEq _).trans ?_
      show _ ≡ _ [ZMOD 2 ^ 32]
      have : thread.skipped_by_thread command._dest_y + ((0 : Nat) : Int) * thread.num_cores
          = thread.skipped_by_thread command._dest_y := by simp
      rw [this]
    · show _ = _ + ((0 : Nat) : Int) * _
      simp
    · show _ = _ - ((0 : Nat) : Int)
      simp
  | succ n ih =>
    obtain ⟨h1, h2, h3, h4, h5⟩ := ih
    rw [Function.iterate_succ_apply']
    refine ⟨?_, ?_, h3, h4, ?_⟩
    · show toInt32 (_ + _) = _
      rw [h1, h4]
      apply toInt32_congr
      refine ((toInt32_modEq _).add ((toInt32_modEq _).trans (emod_modEq _))).trans ?_
      have : (command._texturefrac : Int) + (command._iscale : Int)
          * (thread.skipped_by_thread command._dest_y
            + ((n + 1 : Nat) : Int) * thread.num_cores)
          = (command._texturefrac : Int) + (command._iscale : Int)
            * (thread.skipped_by_thread command._dest_y + (n : Int) * thread.num_cores)
            + (command._iscale : Int) * thread.num_cores := by
        push_cast; ring
      rw [this]
    · show _ + _ = _
      rw [h2, h3]
      push_cast; ring
    · show _ - 1 = _
      rw [h5]
      push_cast; ring

/-- C16. Texture phase of column commands. With `s = skipped_by_thread(dest_y)` and
`N = num_cores`, for a worker whose sub-range is not empty, after `k` calls
of `next()` the accumulator `frac` holds `texturefrac + iscale * (s + k*N)`
modulo `2^32` and `dest` is the first owned pixel plus `k * pitch * N`. Hence
two workers (for instance one of `N` workers and the single worker of a
one-worker run) that stand on the same row, `s + k*N = s' + k'*N'`, hold the
same texture coordinate. -/
theorem column_texture_phase (command : DrawerColumnCommand) (thread : DrawerThread)
    (hc : 0 < thread.count_for_thread command._dest_y command._count) (k : Nat) :
    (((fun l : DrawerColumnCommand.LoopIterator => l.next.1)^[k]
        (DrawerColumnCommand.LoopIterator.new command thread)).frac % 2 ^ 32
      = ((command._texturefrac : Int) + (command._iscale : Int)
          * (thread.skipped_by_thread command._dest_y + (k : Int) * thread.num_cores))
        % 2 ^ 32) ∧
    (((fun l : DrawerColumnCommand.LoopIterator => l.next.1)^[k]
        (DrawerColumnCommand.LoopIterator.new command thread)).dest
      = thread.dest_for_thread command._dest_y command._pitch command._dest
        + (k : Int) * command._pitch * thread.num_cores) ∧
    (∀ (thread' : DrawerThread) (k' : Nat),
      0 < thread'.count_for_thread command._dest_y command._count →
      thread.skipped_by_thread command._dest_y + (k : Int) * thread.num_cores
        = thread'.skipped_by_thread command._dest_y + (k' : Int) * thread'.num_cores →
      ((fun l : DrawerColumnCommand.LoopIterator => l.next.1)^[k]
          (DrawerColumnCommand.LoopIterator.new command thread)).frac
        = ((fun l : DrawerColumnCommand.LoopIterator => l.next.1)^[k']
          (DrawerColumnCommand.LoopIterator.new command thread')).frac) := by
  obtain ⟨h1, h2, -, -, -⟩ := column_iterate command thread hc k
  refine ⟨?_, ?_, ?_⟩
  · rw [h1]
    exact toInt32_modEq _
  · rw [h2]
    ring
  · intro thread' k' hc' hrow
    rw [h1, (column_iterate command thread' hc' k').1, hrow]

/-- Witness for `column_texture_phase`: worker 1 of 3 on a 10-row column that
starts at row 4 skips 0 rows (row 4 is its own); after 2 steps it is on row 10
with `frac = 7 + 100000 * 6` and `dest` advanced by `2 * 320 * 3`. -/
theorem column_texture_phase_witness :
    (0 < (⟨1, 3, 0, 200⟩ : DrawerThread).count_for_thread 4 10) ∧
    ((fun l : DrawerColumnCommand.LoopIterator => l.next.1)^[2]
        (DrawerColumnCommand.LoopIterator.new
          { _dest_y := 4, _count := 10, _dest := 1285, _pitch := 320, _iscale := 100000,
            _texturefrac := 7 } ⟨1, 3, 0, 200⟩)).frac = 600007 ∧
    ((fun l : DrawerColumnCommand.LoopIterator => l.next.1)^[2]
        (DrawerColumnCommand.LoopIterator.new
          { _dest_y := 4, _count := 10, _dest := 1285, _pitch := 320, _iscale := 100000,
            _texturefrac := 7 } ⟨1, 3, 0, 200⟩)).dest
      = (⟨1, 3, 0, 200⟩ : DrawerThread).dest_for_thread 4 320 1285 + (2 : Nat) * 320 * 3 :=
  ⟨by decide, by decide,
    (column_texture_phase
      { _dest_y := 4, _count := 10, _dest := 1285, _pitch := 320, _iscale := 100000,
        _texturefrac := 7 } ⟨1, 3, 0, 200⟩ (by decide) 2).2.1⟩

/-! ## Empty sub-ranges -/

theorem fillSpanLoop_zero (dest count : Int) (color : Nat) (fb : FrameBuffer)
    (h : count ≤ 0) : fillSpanLoop dest count color count.toNat 0 fb = fb := by
  have : count.toNat = 0 := by omega
  rw [this]
  rfl

/-- C11. For every command built on `DrawerColumnCommand`, `DrawerWall1Command` or
`DrawerWall4Command` (whatever its kernel), and for
`DrawFuzzColumnRGBACommand`, `FillTransColumnRGBACommand` and
`DrawSlabRGBACommand`: if `count_for_thread` returns a value `<= 0` for this
worker, `Execute` returns and leaves the frame buffer as it was. -/
theorem Execute_empty_subrange (env : DrawEnv) (thread : DrawerThread) (fb : FrameBuffer) :
    (∀ (kernel : DrawerColumnCommand.LoopIterator → Nat → Nat) (command : DrawerColumnCommand),
      thread.count_for_thread command._dest_y command._count ≤ 0 →
      DrawerColumnCommand.Execute kernel command thread fb = fb) ∧
    (∀ (kernel : DrawerWall1Command.LoopIterator → Nat → Nat) (command : DrawerWall1Command),
      thread.count_for_thread command._dest_y command._count ≤ 0 →
      DrawerWall1Command.Execute kernel command thread fb = fb) ∧
    (∀ (kernel : DrawerWall4Command.LoopIterator → Fin 4 → Nat → Nat)
      (command : DrawerWall4Command),
      thread.count_for_thread command._dest_y command._count ≤ 0 →
      DrawerWall4Command.Execute kernel command thread fb = fb) ∧
    (∀ command : DrawFuzzColumnRGBACommand,
      thread.count_for_thread (max command._yl 1)
        (min command._yh command._fuzzviewheight - max command._yl 1 + 1) ≤ 0 →
      DrawFuzzColumnRGBACommand.Execute env command thread fb = some fb) ∧
    (∀ command : FillTransColumnRGBACommand,
      thread.count_for_thread command._y1 (command._y2 - command._y1 + 1) ≤ 0 →
      FillTransColumnRGBACommand.Execute env command thread fb = fb) ∧
    (∀ (shade : Int → Nat) (command : DrawSlabRGBACommand),
      thread.count_for_thread command._start_y command._dy ≤ 0 →
      DrawSlabRGBACommand.Execute env shade command thread fb = fb) := by
  refine ⟨?_, ?_, ?_, ?_, ?_, ?_⟩
  · intro kernel command h
    simp [DrawerColumnCommand.Execute, DrawerColumnCommand.LoopIterator.new,
      DrawerColumnCommand.LoopIterator.toBool, h]
  · intro kernel command h
    simp [DrawerWall1Command.Execute, DrawerWall1Command.LoopIterator.new,
      DrawerWall1Command.LoopIterator.toBool, h]
  · intro kernel command h
    simp [DrawerWall4Command.Execute, DrawerWall4Command.LoopIterator.new,
      DrawerWall4Command.LoopIterator.toBool, h]
  · intro command h
    simp [DrawFuzzColumnRGBACommand.Execute, h]
  · intro command h
    simp [FillTransColumnRGBACommand.Execute, h]
  · intro shade command h
    have h0 : (thread.count_for_thread command._start_y command._dy).toNat = 0 := by omega
    simp only [DrawSlabRGBACommand.Execute, h0, DrawSlabRGBACommand.rowLoop]
    split_ifs <;> rfl

/-- A concrete case of `Execute_empty_subrange`: a one-row fill column at row 0
belongs to worker 0 of 2, so worker 1 has nothing to do and leaves the frame
buffer as it was, while worker 0 writes the pixel. -/
theorem Execute_empty_subrange_witness :
    (⟨1, 2, 0, 200⟩ : DrawerThread).count_for_thread 0 1 ≤ 0 ∧
    FillColumnRGBACommand.Execute
      { column := { _dest_y := 0, _count := 1, _dest := 5, _pitch := 320, _iscale := 0,
                    _texturefrac := 0 }, _color := 0xFFAABBCC }
      ⟨1, 2, 0, 200⟩ exampleFrameBuffer = exampleFrameBuffer ∧
    FillColumnRGBACommand.Execute
      { column := { _dest_y := 0, _count := 1, _dest := 5, _pitch := 320, _iscale := 0,
                    _texturefrac := 0 }, _color := 0xFFAABBCC }
      ⟨0, 2, 0, 200⟩ exampleFrameBuffer 5 = 0xFFAABBCC :=
  ⟨by decide,
    (Execute_empty_subrange exampleDrawEnv ⟨1, 2, 0, 200⟩ exampleFrameBuffer).1 _
      { _dest_y := 0, _count := 1, _dest := 5, _pitch := 320, _iscale := 0,
        _texturefrac := 0 } (by decide),
    by decide⟩

/-! ## Per-scanline commands -/

theorem span_Execute_skipped (env : DrawEnv)
    (kernel : DrawerSpanCommand.LoopIterator → Nat → Nat) (command : DrawerSpanCommand)
    (thread : DrawerThread) (fb : FrameBuffer)
    (h : thread.line_skipped_by_thread command._y = true ∨ command._x2 < command._x1) :
    DrawerSpanCommand.Execute env kernel command thread fb = fb := by
  have : (DrawerSpanCommand.LoopIterator.new env command thread).toBool = false := by
    simp only [DrawerSpanCommand.LoopIterator.toBool, DrawerSpanCommand.LoopIterator.new]
    rcases h with h | h
    · simp [h]
    · have : ¬ command._x2 - command._x1 + 1 > 0 := by omega
      simp [this]
  simp [DrawerSpanCommand.Execute, this]

theorem FillSpan_Execute_skipped (env : DrawEnv) (command : FillSpanRGBACommand)
    (thread : DrawerThread) (fb : FrameBuffer)
    (h : thread.line_skipped_by_thread command._y = true ∨ command._x2 < command._x1) :
    FillSpanRGBACommand.Execute env command thread fb = fb := by
  unfold FillSpanRGBACommand.Execute
  rcases h with h | h
  · simp [h]
  · split
    · rfl
    · exact fillSpanLoop_zero _ _ _ _ (by omega)

theorem DrawColoredSpan_Execute_skipped (env : DrawEnv) (command : DrawColoredSpanRGBACommand)
    (thread : DrawerThread) (fb : FrameBuffer)
    (h : thread.line_skipped_by_thread command._y = true ∨ command._x2 < command._x1) :
    DrawColoredSpanRGBACommand.Execute env command thread fb = fb := by
  unfold DrawColoredSpanRGBACommand.Execute
  rcases h with h | h
  · simp [h]
  · split
    · rfl
    · exact fillSpanLoop_zero _ _ _ _ (by omega)

theorem DrawTiltedSpan_Execute_skipped (env : DrawEnv) (source0 : Nat)
    (command : DrawTiltedSpanRGBACommand) (thread : DrawerThread) (fb : FrameBuffer)
    (h : thread.line_skipped_by_thread command._y = true ∨ command._x2 < command._x1) :
    DrawTiltedSpanRGBACommand.Execute env source0 command thread fb = fb := by
  unfold DrawTiltedSpanRGBACommand.Execute
  rcases h with h | h
  · simp [h]
  · split
    · rfl
    · have : (command._x2 - command._x1 + 1).toNat = 0 := by omega
      simp only [this]
      rfl

theorem DrawFogBoundaryLine_Execute_skipped (env : DrawEnv)
    (command : DrawFogBoundaryLineRGBACommand) (thread : DrawerThread) (fb : FrameBuffer)
    (h : thread.line_skipped_by_thread command._y = true) :
    DrawFogBoundaryLineRGBACommand.Execute env command thread fb = fb := by
  simp [DrawFogBoundaryLineRGBACommand.Execute, h]

/-- C12 (the code at the failing input). A fog boundary line with the empty column
range `x = 5`, `x2 = 4` on row 3, executed by the worker that owns row 3: the
`do ... while (++x <= x2)` loop runs its body once and stores a pixel at
column 5, so the frame buffer is not left as it was. -/
theorem DrawFogBoundaryLine_empty_range_writes :
    (4 : Int) < 5 ∧
    (⟨0, 1, 0, 200⟩ : DrawerThread).line_skipped_by_thread 3 = false ∧
    DrawFogBoundaryLineRGBACommand.Execute exampleDrawEnv
      { _y := 3, _x := 5, _x2 := 4, _destorg := 0, _light := 0,
        _shade_constants := ⟨256, 256, 256, 0, 0, 0, 0, true⟩ }
      ⟨0, 1, 0, 200⟩ exampleFrameBuffer (3 * 320 + 5) = 0xff000000 ∧
    exampleFrameBuffer (3 * 320 + 5) = 0 ∧
    DrawFogBoundaryLineRGBACommand.Execute exampleDrawEnv
      { _y := 3, _x := 5, _x2 := 4, _destorg := 0, _light := 0,
        _shade_constants := ⟨256, 256, 256, 0, 0, 0, 0, true⟩ }
      ⟨0, 1, 0, 200⟩ exampleFrameBuffer ≠ exampleFrameBuffer := by
  refine ⟨by decide, by decide, by decide, rfl, ?_⟩
  intro h
  have := congrFun h (3 * 320 + 5)
  revert this
  decide

/-- C13 (the code at the failing input). Worker 1 of 2 owns row 3; a fog boundary
line on row 3 with `x = 7`, `x2 = 2` is not skipped by it and changes the
pixel of column 7, which is not a column of `x .. x2`. -/
theorem DrawFogBoundaryLine_writes_outside_columns :
    (⟨1, 2, 0, 200⟩ : DrawerThread).line_skipped_by_thread 3 = false ∧
    DrawFogBoundaryLineRGBACommand.Execute exampleDrawEnv
      { _y := 3, _x := 7, _x2 := 2, _destorg := 0, _light := 0,
        _shade_constants := ⟨256, 256, 256, 0, 0, 0, 0, true⟩ }
      ⟨1, 2, 0, 200⟩ exampleFrameBuffer (exampleDrawEnv.ylookup 3 + 0 + 7)
        ≠ exampleFrameBuffer (exampleDrawEnv.ylookup 3 + 0 + 7) ∧
    ¬ ((7 : Int) ≤ 7 ∧ (7 : Int) ≤ 2) := by
  refine ⟨by decide, by decide, by decide⟩

theorem write_ne (fb : FrameBuffer) (dest idx : Int) (v : Nat) (h : idx ≠ dest) :
    fb.write dest v idx = fb idx := by
  simp [FrameBuffer.write, Function.update_apply, h]

theorem write_eq (fb : FrameBuffer) (dest : Int) (v : Nat) : fb.write dest v dest = v := by
  simp [FrameBuffer.write]

theorem fillSpanLoop_frame (dest count : Int) (color : Nat) (idx : Int) :
    ∀ (fuel : Nat) (i : Int) (fb : FrameBuffer),
      (∀ j, i ≤ j → j < count → idx ≠ dest + j) →
      fillSpanLoop dest count color fuel i fb idx = fb idx
  | 0, _, _, _ => rfl
  | fuel + 1, i, fb, h => by
    unfold fillSpanLoop
    split
    · rename_i hi
      rw [fillSpanLoop_frame dest count color idx fuel (i + 1) _
        (fun j hj hjc => h j (by omega) hjc)]
      exact write_ne _ _ _ _ (h i le_rfl hi)
    · rfl

theorem tiltedLoop_frame (source0 : Nat) (idx : Int) :
    ∀ (fuel : Nat) (dest count : Int) (fb : FrameBuffer),
      (∀ j, 0 ≤ j → j < count → idx ≠ dest + j) →
      DrawTiltedSpanRGBACommand.loop source0 fuel dest count fb idx = fb idx
  | 0, _, _, _, _ => rfl
  | fuel + 1, dest, count, fb, h => by
    unfold DrawTiltedSpanRGBACommand.loop
    split
    · rename_i hc
      rw [tiltedLoop_frame source0 idx fuel (dest + 1) (count - 1) _
        (fun j hj hjc => by have := h (j + 1) (by omega) (by omega); omega)]
      exact write_ne _ _ _ _ (by have := h 0 le_rfl (by omega); omega)
    · rfl

theorem spanDoWhile_frame (kernel : DrawerSpanCommand.LoopIterator → Nat → Nat) (idx : Int) :
    ∀ (fuel : Nat) (loop : DrawerSpanCommand.LoopIterator) (fb : FrameBuffer),
      0 < loop.count →
      (∀ j, 0 ≤ j → j < loop.count → idx ≠ loop.dest + j) →
      DrawerSpanCommand.doWhile kernel fuel loop fb idx = fb idx
  | 0, _, _, _, _ => rfl
  | fuel + 1, loop, fb, hc, h => by
    unfold DrawerSpanCommand.doWhile
    have h0 : idx ≠ loop.dest := by have := h 0 le_rfl hc; omega
    simp only
    split
    · rename_i hmore
      have hcnt : loop.next.1.count = loop.count - 1 := rfl
      have hdst : loop.next.1.dest = loop.dest + 1 := rfl
      have hne : loop.count - 1 ≠ 0 := by
        simpa [DrawerSpanCommand.LoopIterator.next] using hmore
      rw [spanDoWhile_frame kernel idx fuel loop.next.1 _ (by rw [hcnt]; omega)
        (fun j hj hjc => by
          rw [hcnt] at hjc
          rw [hdst]
          have := h (j + 1) (by omega) (by omega)
          omega)]
      exact write_ne _ _ _ _ h0
    · exact write_ne _ _ _ _ h0

theorem fogDoWhile_frame (light : Nat) (constants : ShadeConstants) (dest x2 idx : Int) :
    ∀ (fuel : Nat) (x : Int) (fb : FrameBuffer),
      x ≤ x2 →
      (∀ col, x ≤ col → col ≤ x2 → idx ≠ dest + col) →
      DrawFogBoundaryLineRGBACommand.doWhile light constants dest x2 fuel x fb idx = fb idx
  | 0, _, _, _, _ => rfl
  | fuel + 1, x, fb, hx, h => by
    unfold DrawFogBoundaryLineRGBACommand.doWhile
    dsimp only
    split
    · rename_i hmore
      rw [fogDoWhile_frame light constants dest x2 idx fuel (x + 1) _ hmore
        (fun col hc hc2 => h col (by omega) hc2)]
      exact write_ne _ _ _ _ (h x le_rfl hx)
    · exact write_ne _ _ _ _ (h x le_rfl hx)

/-- What does hold for the per-scanline commands: a worker that skips the row
leaves the frame buffer as it was, the span kernels, `FillSpanRGBACommand`,
`DrawColoredSpanRGBACommand` and `DrawTiltedSpanRGBACommand` change no word
outside columns `x1 .. x2` of row `y` (none at all when `x2 < x1`), and
`DrawFogBoundaryLineRGBACommand` changes no word outside columns `x .. x2`
provided `x <= x2`. -/
theorem scanline_frame (env : DrawEnv) (thread : DrawerThread) (fb : FrameBuffer) (idx : Int) :
    (∀ (kernel : DrawerSpanCommand.LoopIterator → Nat → Nat) (c : DrawerSpanCommand),
      (∀ col, c._x1 ≤ col → col ≤ c._x2 → idx ≠ env.ylookup c._y + c._destorg + col) →
      DrawerSpanCommand.Execute env kernel c thread fb idx = fb idx) ∧
    (∀ c : FillSpanRGBACommand,
      (∀ col, c._x1 ≤ col → col ≤ c._x2 → idx ≠ env.ylookup c._y + c._destorg + col) →
      FillSpanRGBACommand.Execute env c thread fb idx = fb idx) ∧
    (∀ c : DrawColoredSpanRGBACommand,
      (∀ col, c._x1 ≤ col → col ≤ c._x2 → idx ≠ env.ylookup c._y + c._destorg + col) →
      DrawColoredSpanRGBACommand.Execute env c thread fb idx = fb idx) ∧
    (∀ (source0 : Nat) (c : DrawTiltedSpanRGBACommand),
      (∀ col, c._x1 ≤ col → col ≤ c._x2 → idx ≠ env.ylookup c._y + c._destorg + col) →
      DrawTiltedSpanRGBACommand.Execute env source0 c thread fb idx = fb idx) ∧
    (∀ c : DrawFogBoundaryLineRGBACommand, c._x ≤ c._x2 →
      (∀ col, c._x ≤ col → col ≤ c._x2 → idx ≠ env.ylookup c._y + c._destorg + col) →
      DrawFogBoundaryLineRGBACommand.Execute env c thread fb idx = fb idx) := by
  refine ⟨?_, ?_, ?_, ?_, ?_⟩
  · intro kernel c h
    unfold DrawerSpanCommand.Execute
    split
    · rfl
    · rename_i hb
      have hcnt : (DrawerSpanCommand.LoopIterator.new env c thread).count
          = c._x2 - c._x1 + 1 := rfl
      have hdst : (DrawerSpanCommand.LoopIterator.new env c thread).dest
          = env.ylookup c._y + c._x1 + c._destorg := rfl
      have hpos : 0 < (DrawerSpanCommand.LoopIterator.new env c thread).count := by
        simp only [DrawerSpanCommand.LoopIterator.toBool, Bool.not_eq_true',
          Bool.and_eq_false_imp, not_forall] at hb
        simp only [Bool.not_eq_true, Bool.not_eq_eq_eq_not, Bool.not_true,
          decide_eq_false_iff_not, Bool.not_false, exists_prop] at hb
        omega
      apply spanDoWhile_frame kernel idx _ _ _ hpos
      intro j hj hjc
      rw [hcnt] at hjc
      rw [hdst]
      have := h (c._x1 + j) (by omega) (by omega)
      omega
  · intro c h
    unfold FillSpanRGBACommand.Execute
    split
    · rfl
    · apply fillSpanLoop_frame
      intro j hj hjc
      have := h (c._x1 + j) (by omega) (by omega)
      omega
  · intro c h
    unfold DrawColoredSpanRGBACommand.Execute
    split
    · rfl
    · apply fillSpanLoop_frame
      intro j hj hjc
      have := h (c._x1 + j) (by omega) (by omega)
      omega
  · intro source0 c h
    unfold DrawTiltedSpanRGBACommand.Execute
    split
    · rfl
    · apply tiltedLoop_frame
      intro j hj hjc
      have := h (c._x1 + j) (by omega) (by omega)
      omega
  · intro c hx h
    unfold DrawFogBoundaryLineRGBACommand.Execute
    split
    · rfl
    · apply fogDoWhile_frame _ _ _ _ _ _ _ _ hx
      intro col hc hc2
      have := h col hc hc2
      omega

/-! ## Rows of a worker -/

theorem count_for_thread_lt_iff (t : DrawerThread) (fl count : Int) (hN : 0 < t.num_cores)
    (j : Int) (hj : 0 ≤ j) :
    j < t.count_for_thread fl count ↔
      t.skipped_by_thread fl + j * t.num_cores < min count (max (t.pass_end_y - fl) 0) := by
  unfold DrawerThread.count_for_thread
  simp only
  generalize min count (max (t.pass_end_y - fl) 0) = c'
  generalize t.skipped_by_thread fl = s
  have hjN : 0 ≤ j * t.num_cores := mul_nonneg hj hN.le
  rcases le_or_lt 0 (c' - s + t.num_cores - 1) with h | h
  · rw [Int.tdiv_eq_ediv h hN.le]
    have hq : 0 ≤ (c' - s + t.num_cores - 1) / t.num_cores := Int.ediv_nonneg h hN.le
    rw [max_eq_left hq]
    have : j < (c' - s + t.num_cores - 1) / t.num_cores
        ↔ j + 1 ≤ (c' - s + t.num_cores - 1) / t.num_cores := by omega
    rw [this, Int.le_ediv_iff_mul_le hN]
    have e : (j + 1) * t.num_cores = j * t.num_cores + t.num_cores := by ring
    rw [e]
    omega
  · have hq : Int.tdiv (c' - s + t.num_cores - 1) t.num_cores ≤ 0 := by
      have h1 : c' - s + t.num_cores - 1 = -(-(c' - s + t.num_cores - 1)) := by ring
      rw [h1, Int.neg_tdiv]
      have := Int.tdiv_nonneg (show 0 ≤ -(c' - s + t.num_cores - 1) by omega) hN.le
      omega
    rw [max_eq_right hq]
    constructor
    · intro h'; omega
    · intro h'; omega

theorem owned_row_iff (k N ps pe fl count r : Int) (hN : 0 < N) (hk0 : 0 ≤ k) (hkN : k < N) :
    (∃ j : Int, 0 ≤ j ∧ j < (⟨k, N, ps, pe⟩ : DrawerThread).count_for_thread fl count ∧
      r = fl + (⟨k, N, ps, pe⟩ : DrawerThread).skipped_by_thread fl + j * N) ↔
    (fl ≤ r ∧ ps ≤ r ∧ r < fl + count ∧ r < pe ∧ r % N = k) := by
  have hs := skipped_by_thread_eq ⟨k, N, ps, pe⟩ fl hN
  simp only at hs
  set s := (⟨k, N, ps, pe⟩ : DrawerThread).skipped_by_thread fl with hsdef
  set P := max (ps - fl) 0 with hP
  have hm0 : 0 ≤ (k - (fl + P)) % N := Int.emod_nonneg _ hN.ne'
  have hmN : (k - (fl + P)) % N < N := Int.emod_lt_of_pos _ hN
  have hlt := fun j hj => count_for_thread_lt_iff ⟨k, N, ps, pe⟩ fl count hN j hj
  simp only at hlt
  constructor
  · rintro ⟨j, hj0, hjc, rfl⟩
    have hjN : 0 ≤ j * N := mul_nonneg hj0 hN.le
    have h1 := (hlt j hj0).1 hjc
    rw [← hsdef] at h1
    refine ⟨by omega, by omega, by omega, by omega, ?_⟩
    rw [hs]
    have e : fl + (P + (k - (fl + P)) % N) + j * N = (fl + P) + (k - (fl + P)) % N + j * N := by
      ring
    rw [e, Int.add_mul_emod_self, Int.add_emod, Int.emod_emod_of_dvd _ (dvd_refl N),
      ← Int.add_emod]
    have e2 : fl + P + (k - (fl + P)) = k := by ring
    rw [e2]
    exact Int.emod_eq_of_lt hk0 hkN
  · rintro ⟨h1, h2, h3, h4, h5⟩
    have hr0 : fl + P ≤ r := by omega
    have hrk : r ≡ k [ZMOD N] := by
      unfold Int.ModEq
      rw [h5, Int.emod_eq_of_lt hk0 hkN]
    have hmod : (r - (fl + P)) % N = (k - (fl + P)) % N :=
      Int.ModEq.sub hrk (Int.ModEq.refl _)
    have hq : 0 ≤ (r - (fl + P)) / N := Int.ediv_nonneg (by omega) hN.le
    have hdecomp := Int.emod_add_ediv (r - (fl + P)) N
    rw [hmod] at hdecomp
    refine ⟨(r - (fl + P)) / N, hq, ?_, ?_⟩
    · rw [hlt _ hq, ← hsdef, hs]
      have : N * ((r - (fl + P)) / N) = (r - (fl + P)) / N * N := by ring
      omega
    · rw [hs]
      have : N * ((r - (fl + P)) / N) = (r - (fl + P)) / N * N := by ring
      omega

/-! ## Fill column -/

theorem columnDoWhile_const (color : Nat) (idx : Int) :
    ∀ (n : Nat) (loop : DrawerColumnCommand.LoopIterator) (fb : FrameBuffer),
      loop.count = n + 1 →
      ((∃ j : Int, 0 ≤ j ∧ j ≤ n ∧ idx = loop.dest + j * loop.pitch) →
        DrawerColumnCommand.doWhile (fun _ _ => color) (n + 1) loop fb idx = color) ∧
      ((¬ ∃ j : Int, 0 ≤ j ∧ j ≤ n ∧ idx = loop.dest + j * loop.pitch) →
        DrawerColumnCommand.doWhile (fun _ _ => color) (n + 1) loop fb idx = fb idx)
  | 0, loop, fb, hc => by
    have hr : loop.next.2 = false := by
      simp [DrawerColumnCommand.LoopIterator.next, hc]
    unfold DrawerColumnCommand.doWhile
    simp only [hr, Bool.false_eq_true, if_false]
    constructor
    · rintro ⟨j, hj0, hj1, rfl⟩
      have : j = 0 := by
        have : j ≤ 0 := by exact_mod_cast hj1
        omega
      subst this
      simp [write_eq]
    · intro h
      apply write_ne
      intro he
      exact h ⟨0, le_rfl, by simp, by simp [he]⟩
  | n + 1, loop, fb, hc => by
    have hr : loop.next.2 = true := by
      simp only [DrawerColumnCommand.LoopIterator.next, hc, decide_eq_true_eq]
      omega
    have hcnt : loop.next.1.count = n + 1 := by
      show loop.count - 1 = _
      rw [hc]; push_cast; ring
    have hdst : loop.next.1.dest = loop.dest + loop.pitch := rfl
    have hpit : loop.next.1.pitch = loop.pitch := rfl
    obtain ⟨ih1, ih2⟩ := columnDoWhile_const color idx n loop.next.1
      (fb.write loop.dest color) hcnt
    rw [hdst, hpit] at ih1 ih2
    unfold DrawerColumnCommand.doWhile
    simp only [hr, if_true]
    by_cases hit' : ∃ j : Int, 0 ≤ j ∧ j ≤ n ∧ idx = loop.dest + loop.pitch + j * loop.pitch
    · refine ⟨fun _ => ih1 hit', fun h => absurd ?_ h⟩
      obtain ⟨j, hj0, hj1, hj⟩ := hit'
      exact ⟨j + 1, by omega, by push_cast; omega, by rw [hj]; ring⟩
    · rw [ih2 hit']
      constructor
      · rintro ⟨j, hj0, hj1, hj⟩
        have hj0' : j = 0 := by
          by_contra hne
          apply hit'
          exact ⟨j - 1, by omega, by push_cast at hj1; omega, by rw [hj]; ring⟩
        subst hj0'
        have : idx = loop.dest := by simpa using hj
        rw [this, write_eq]
      · intro h
        apply write_ne
        intro he
        exact h ⟨0, le_rfl, by positivity, by simp [he]⟩

theorem FillColumn_Execute_apply (command : FillColumnRGBACommand) (thread : DrawerThread)
    (fb : FrameBuffer) (idx : Int) :
    ((∃ k : Int, 0 ≤ k ∧
        k < thread.count_for_thread command.column._dest_y command.column._count ∧
        idx = thread.dest_for_thread command.column._dest_y command.column._pitch
                command.column._dest
              + k * (command.column._pitch * thread.num_cores)) →
      command.Execute thread fb idx = command._color) ∧
    ((¬ ∃ k : Int, 0 ≤ k ∧
        k < thread.count_for_thread command.column._dest_y command.column._count ∧
        idx = thread.dest_for_thread command.column._dest_y command.column._pitch
                command.column._dest
              + k * (command.column._pitch * thread.num_cores)) →
      command.Execute thread fb idx = fb idx) := by
  unfold FillColumnRGBACommand.Execute DrawerColumnCommand.Execute
  by_cases hc : thread.count_for_thread command.column._dest_y command.column._count ≤ 0
  · have hb : (DrawerColumnCommand.LoopIterator.new command.column thread).toBool = false := by
      simp [DrawerColumnCommand.LoopIterator.new, DrawerColumnCommand.LoopIterator.toBool, hc]
    simp only [hb, Bool.not_false, if_true]
    exact ⟨fun ⟨k, h0, h1, _⟩ => by omega, fun _ => trivial⟩
  · have hpos : 0 < thread.count_for_thread command.column._dest_y command.column._count := by
      omega
    obtain ⟨-, hd, hp, -, hcount⟩ := column_iterate command.column thread hpos 0
    simp only [Function.iterate_zero, id_eq, Nat.cast_zero, zero_mul, add_zero, sub_zero]
      at hd hp hcount
    have hb : (DrawerColumnCommand.LoopIterator.new command.column thread).toBool = true := by
      simp [DrawerColumnCommand.LoopIterator.toBool, hcount, hpos]
    simp only [hb, Bool.not_true, Bool.false_eq_true, if_false]
    obtain ⟨n, hn⟩ : ∃ n : Nat,
        thread.count_for_thread command.column._dest_y command.column._count = n + 1 :=
      ⟨(thread.count_for_thread command.column._dest_y command.column._count - 1).toNat,
        by omega⟩
    have hfuel : (DrawerColumnCommand.LoopIterator.new command.column thread).count.toNat
        = n + 1 := by rw [hcount, hn]; omega
    rw [hfuel]
    have := columnDoWhile_const (BlendBgra.copy command._color) idx n
      (DrawerColumnCommand.LoopIterator.new command.column thread) fb (by rw [hcount, hn])
    rw [hd, hp] at this
    have hiff : (∃ j : Int, 0 ≤ j ∧ j ≤ (n : Int) ∧
          idx = thread.dest_for_thread command.column._dest_y command.column._pitch
                  command.column._dest + j * (command.column._pitch * thread.num_cores)) ↔
        (∃ k : Int, 0 ≤ k ∧
          k < thread.count_for_thread command.column._dest_y command.column._count ∧
          idx = thread.dest_for_thread command.column._dest_y command.column._pitch
                  command.column._dest + k * (command.column._pitch * thread.num_cores)) := by
      constructor
      · rintro ⟨j, h0, h1, h2⟩
        exact ⟨j, h0, by omega, h2⟩
      · rintro ⟨j, h0, h1, h2⟩
        exact ⟨j, h0, by omega, h2⟩
    rw [hiff] at this
    exact this

theorem column_hit_iff_row (k N ps pe B P x : Int) (hN : 0 < N) (hk0 : 0 ≤ k) (hkN : k < N)
    (c : DrawerColumnCommand) (hp : c._pitch = P) (hd : c._dest = B + c._dest_y * P + x)
    (idx : Int) :
    (∃ j : Int, 0 ≤ j ∧ j < (⟨k, N, ps, pe⟩ : DrawerThread).count_for_thread c._dest_y c._count ∧
      idx = (⟨k, N, ps, pe⟩ : DrawerThread).dest_for_thread c._dest_y c._pitch c._dest
              + j * (c._pitch * N)) ↔
    (∃ r : Int, (c._dest_y ≤ r ∧ ps ≤ r ∧ r < c._dest_y + c._count ∧ r < pe ∧ r % N = k) ∧
      idx = B + r * P + x) := by
  constructor
  · rintro ⟨j, hj0, hjc, hj⟩
    refine ⟨c._dest_y + (⟨k, N, ps, pe⟩ : DrawerThread).skipped_by_thread c._dest_y + j * N,
      (owned_row_iff k N ps pe c._dest_y c._count _ hN hk0 hkN).1 ⟨j, hj0, hjc, rfl⟩, ?_⟩
    rw [hj, DrawerThread.dest_for_thread, hp, hd]
    ring
  · rintro ⟨r, hr, hidx⟩
    obtain ⟨j, hj0, hjc, hj⟩ := (owned_row_iff k N ps pe c._dest_y c._count r hN hk0 hkN).2 hr
    refine ⟨j, hj0, hjc, ?_⟩
    rw [hidx, DrawerThread.dest_for_thread, hp, hd, hj]
    ring

/-- C14. `FillColumnRGBACommand::Execute` stores the captured colour in exactly the
`c = count_for_thread(dest_y, count)` words at
`dest_for_thread(dest_y, pitch, dest) + k * pitch * num_cores`, `0 <= k < c`,
and leaves every other word as it was. In particular a command covering rows
10..20 of a buffer with pitch 320 (in any column `x`), run by the single
worker of a one-worker batch whose pass window reaches row 20, sets exactly
the 11 words of rows 10..20 of that column to `0xFFAABBCC`. -/
theorem FillColumn_writes :
    (∀ (command : FillColumnRGBACommand) (thread : DrawerThread) (fb : FrameBuffer) (idx : Int),
      ((∃ k : Int, 0 ≤ k ∧
          k < thread.count_for_thread command.column._dest_y command.column._count ∧
          idx = thread.dest_for_thread command.column._dest_y command.column._pitch
                  command.column._dest
                + k * command.column._pitch * thread.num_cores) →
        command.Execute thread fb idx = command._color) ∧
      ((¬ ∃ k : Int, 0 ≤ k ∧
          k < thread.count_for_thread command.column._dest_y command.column._count ∧
          idx = thread.dest_for_thread command.column._dest_y command.column._pitch
                  command.column._dest
                + k * command.column._pitch * thread.num_cores) →
        command.Execute thread fb idx = fb idx)) ∧
    (∀ (x pe : Int) (iscale texturefrac : Nat) (fb : FrameBuffer) (idx : Int), 20 < pe →
      ((∃ r : Int, 10 ≤ r ∧ r ≤ 20 ∧ idx = r * 320 + x) →
        FillColumnRGBACommand.Execute
          { column := { _dest_y := 10, _count := 11, _dest := 10 * 320 + x, _pitch := 320,
                        _iscale := iscale, _texturefrac := texturefrac },
            _color := 0xFFAABBCC }
          ⟨0, 1, 0, pe⟩ fb idx = 0xFFAABBCC) ∧
      ((¬ ∃ r : Int, 10 ≤ r ∧ r ≤ 20 ∧ idx = r * 320 + x) →
        FillColumnRGBACommand.Execute
          { column := { _dest_y := 10, _count := 11, _dest := 10 * 320 + x, _pitch := 320,
                        _iscale := iscale, _texturefrac := texturefrac },
            _color := 0xFFAABBCC }
          ⟨0, 1, 0, pe⟩ fb idx = fb idx)) := by
  constructor
  · intro command thread fb idx
    have h := FillColumn_Execute_apply command thread fb idx
    have e : ∀ k : Int, k * command.column._pitch * thread.num_cores
        = k * (command.column._pitch * thread.num_cores) := fun k => by ring
    simp only [e]
    exact h
  · intro x pe iscale texturefrac fb idx hpe
    have h := FillColumn_Execute_apply
      { column := { _dest_y := 10, _count := 11, _dest := 10 * 320 + x, _pitch := 320,
                    _iscale := iscale, _texturefrac := texturefrac },
        _color := 0xFFAABBCC } ⟨0, 1, 0, pe⟩ fb idx
    have hiff := column_hit_iff_row 0 1 0 pe 0 320 x (by decide) le_rfl (by decide)
      { _dest_y := 10, _count := 11, _dest := 10 * 320 + x, _pitch := 320,
        _iscale := iscale, _texturefrac := texturefrac } rfl (by simp) idx
    have hrows : (∃ r : Int, ((10 : Int) ≤ r ∧ 0 ≤ r ∧ r < 10 + 11 ∧ r < pe ∧ r % 1 = 0) ∧
          idx = 0 + r * 320 + x) ↔ (∃ r : Int, 10 ≤ r ∧ r ≤ 20 ∧ idx = r * 320 + x) := by
      constructor
      · rintro ⟨r, ⟨h1, -, h3, -, -⟩, h5⟩
        exact ⟨r, h1, by omega, by omega⟩
      · rintro ⟨r, h1, h2, h3⟩
        exact ⟨r, ⟨h1, by omega, by omega, by omega, by omega⟩, by omega⟩
    rw [hiff, hrows] at h
    exact h

/-! ## Fill columns on several workers -/

theorem destLog_eq_map :
    ∀ (n : Nat) (loop : DrawerColumnCommand.LoopIterator), loop.count = n + 1 →
      DrawerColumnCommand.destLog (n + 1) loop
        = (List.range (n + 1)).map (fun j : Nat => loop.dest + (j : Int) * loop.pitch)
  | 0, loop, hc => by
    have hr : loop.next.2 = false := by
      simp [DrawerColumnCommand.LoopIterator.next, hc]
    simp [DrawerColumnCommand.destLog, hr, List.range_succ]
  | n + 1, loop, hc => by
    have hr : loop.next.2 = true := by
      simp only [DrawerColumnCommand.LoopIterator.next, hc, decide_eq_true_eq]
      omega
    have hcnt : loop.next.1.count = n + 1 := by
      show loop.count - 1 = _
      rw [hc]; push_cast; ring
    have hdst : loop.next.1.dest = loop.dest + loop.pitch := rfl
    have hpit : loop.next.1.pitch = loop.pitch := rfl
    have ih := destLog_eq_map n loop.next.1 hcnt
    rw [hdst, hpit] at ih
    unfold DrawerColumnCommand.destLog
    rw [hr, if_pos rfl, ih, List.range_succ_eq_map (n + 1), List.map_cons, List.map_map]
    congr 1
    · simp
    · apply List.map_congr_left
      intro j _
      simp only [Function.comp, Nat.succ_eq_add_one]
      push_cast
      ring

theorem stores_eq (command : DrawerColumnCommand) (thread : DrawerThread) :
    command.stores thread
      = (List.range (thread.count_for_thread command._dest_y command._count).toNat).map
          (fun j : Nat =>
            thread.dest_for_thread command._dest_y command._pitch command._dest
              + (j : Int) * (command._pitch * thread.num_cores)) := by
  unfold DrawerColumnCommand.stores
  by_cases hc : thread.count_for_thread command._dest_y command._count ≤ 0
  · have hb : (DrawerColumnCommand.LoopIterator.new command thread).toBool = false := by
      simp [DrawerColumnCommand.LoopIterator.new, DrawerColumnCommand.LoopIterator.toBool, hc]
    have h0 : (thread.count_for_thread command._dest_y command._count).toNat = 0 := by omega
    simp [hb, h0]
  · have hpos : 0 < thread.count_for_thread command._dest_y command._count := by omega
    obtain ⟨-, hd, hp, -, hcount⟩ := column_iterate command thread hpos 0
    simp only [Function.iterate_zero, id_eq, Nat.cast_zero, zero_mul, add_zero, sub_zero]
      at hd hp hcount
    have hb : (DrawerColumnCommand.LoopIterator.new command thread).toBool = true := by
      simp [DrawerColumnCommand.LoopIterator.toBool, hcount, hpos]
    simp only [hb, Bool.not_true, Bool.false_eq_true, if_false]
    obtain ⟨n, hn⟩ : ∃ n : Nat,
        thread.count_for_thread command._dest_y command._count = n + 1 :=
      ⟨(thread.count_for_thread command._dest_y command._count - 1).toNat, by omega⟩
    have hfuel : (thread.count_for_thread command._dest_y command._count).toNat = n + 1 := by
      omega
    rw [hcount, hfuel, destLog_eq_map n _ (by rw [hcount, hn]), hd, hp]

theorem mem_stores_iff (command : DrawerColumnCommand) (thread : DrawerThread) (idx : Int) :
    idx ∈ command.stores thread ↔ command.Stored thread idx := by
  rw [stores_eq]
  simp only [List.mem_map, List.mem_range, DrawerColumnCommand.Stored]
  constructor
  · rintro ⟨j, hj, rfl⟩
    exact ⟨j, by positivity, by omega, rfl⟩
  · rintro ⟨k, hk0, hk, rfl⟩
    exact ⟨k.toNat, by omega, by rw [Int.toNat_of_nonneg hk0]⟩

theorem stores_nodup (command : DrawerColumnCommand) (thread : DrawerThread)
    (h : command._pitch * thread.num_cores ≠ 0) : (command.stores thread).Nodup := by
  rw [stores_eq]
  refine (List.nodup_range _).map ?_
  intro a b hab
  have h' : (a : Int) * (command._pitch * thread.num_cores)
      = (b : Int) * (command._pitch * thread.num_cores) := by simpa using hab
  have := mul_right_cancel₀ h h'
  exact_mod_cast this

theorem FillColumn_Execute_stored (command : FillColumnRGBACommand) (thread : DrawerThread)
    (fb : FrameBuffer) (idx : Int) :
    (command.column.Stored thread idx → command.Execute thread fb idx = command._color) ∧
    (¬ command.column.Stored thread idx → command.Execute thread fb idx = fb idx) :=
  FillColumn_Execute_apply command thread fb idx

theorem ExecuteAll_not_stored (idx : Int) (thread : DrawerThread) :
    ∀ (commands : List FillColumnRGBACommand) (fb : FrameBuffer),
      (∀ c ∈ commands, ¬ c.column.Stored thread idx) →
      FillColumnRGBACommand.ExecuteAll commands thread fb idx = fb idx
  | [], _, _ => rfl
  | c :: cs, fb, h => by
    show FillColumnRGBACommand.ExecuteAll cs thread (c.Execute thread fb) idx = _
    rw [ExecuteAll_not_stored idx thread cs _ (fun c' hc' => h c' (List.mem_cons_of_mem _ hc'))]
    exact (FillColumn_Execute_stored c thread fb idx).2 (h c (List.mem_cons_self _ _))

theorem ExecuteAll_agree (idx : Int) (t1 t2 : DrawerThread) :
    ∀ (commands : List FillColumnRGBACommand) (fb1 fb2 : FrameBuffer),
      (∀ c ∈ commands, c.column.Stored t1 idx ↔ c.column.Stored t2 idx) →
      fb1 idx = fb2 idx →
      FillColumnRGBACommand.ExecuteAll commands t1 fb1 idx
        = FillColumnRGBACommand.ExecuteAll commands t2 fb2 idx
  | [], _, _, _, h => h
  | c :: cs, fb1, fb2, hs, h => by
    show FillColumnRGBACommand.ExecuteAll cs t1 (c.Execute t1 fb1) idx
      = FillColumnRGBACommand.ExecuteAll cs t2 (c.Execute t2 fb2) idx
    apply ExecuteAll_agree idx t1 t2 cs _ _ (fun c' hc' => hs c' (List.mem_cons_of_mem _ hc'))
    have hc := hs c (List.mem_cons_self _ _)
    by_cases hst : c.column.Stored t1 idx
    · rw [(FillColumn_Execute_stored c t1 fb1 idx).1 hst,
        (FillColumn_Execute_stored c t2 fb2 idx).1 (hc.1 hst)]
    · rw [(FillColumn_Execute_stored c t1 fb1 idx).2 hst,
        (FillColumn_Execute_stored c t2 fb2 idx).2 (fun h' => hst (hc.2 h'))]
      exact h

theorem stored_iff_row (k N ps pe B P x : Int) (hN : 0 < N) (hk0 : 0 ≤ k) (hkN : k < N)
    (hP : 0 < P) (hx0 : 0 ≤ x) (hxP : x < P)
    (c : DrawerColumnCommand) (hp : c._pitch = P) (hd : c._dest = B + c._dest_y * P + x)
    (idx : Int) :
    c.Stored ⟨k, N, ps, pe⟩ idx ↔
      ((c._dest_y ≤ (idx - B) / P ∧ ps ≤ (idx - B) / P ∧ (idx - B) / P < c._dest_y + c._count ∧
        (idx - B) / P < pe ∧ (idx - B) / P % N = k) ∧ idx = B + (idx - B) / P * P + x) := by
  unfold DrawerColumnCommand.Stored
  have := column_hit_iff_row k N ps pe B P x hN hk0 hkN c hp hd idx
  simp only at this
  rw [this]
  constructor
  · rintro ⟨r, hr, hidx⟩
    have hdiv : (idx - B) / P = r := by
      have e : idx - B = x + r * P := by rw [hidx]; ring
      rw [e, Int.add_mul_ediv_right _ _ hP.ne', Int.ediv_eq_zero_of_lt hx0 hxP, zero_add]
    rw [hdiv]
    exact ⟨hr, hidx⟩
  · rintro ⟨hr, hidx⟩
    exact ⟨_, hr, hidx⟩

theorem not_stored_of_not_owner (k N ps pe B P : Int) (hN : 0 < N) (hk0 : 0 ≤ k) (hkN : k < N)
    (hP : 0 < P) (c : DrawerColumnCommand) (hf : c.InFrame B P) (idx : Int)
    (hne : (idx - B) / P % N ≠ k) : ¬ c.Stored ⟨k, N, ps, pe⟩ idx := by
  obtain ⟨hp, x, hx0, hxP, hd⟩ := hf
  rw [stored_iff_row k N ps pe B P x hN hk0 hkN hP hx0 hxP c hp hd idx]
  rintro ⟨⟨-, -, -, -, h⟩, -⟩
  exact hne h

theorem stored_owner_iff_single (N ps pe B P : Int) (hN : 0 < N) (hP : 0 < P)
    (c : DrawerColumnCommand) (hf : c.InFrame B P) (idx : Int) :
    c.Stored ⟨(idx - B) / P % N, N, ps, pe⟩ idx ↔ c.Stored ⟨0, 1, ps, pe⟩ idx := by
  obtain ⟨hp, x, hx0, hxP, hd⟩ := hf
  rw [stored_iff_row _ N ps pe B P x hN (Int.emod_nonneg _ hN.ne') (Int.emod_lt_of_pos _ hN)
      hP hx0 hxP c hp hd idx,
    stored_iff_row 0 1 ps pe B P x (by decide) le_rfl (by decide) hP hx0 hxP c hp hd idx]
  constructor
  · rintro ⟨⟨h1, h2, h3, h4, -⟩, h6⟩
    exact ⟨⟨h1, h2, h3, h4, by omega⟩, h6⟩
  · rintro ⟨⟨h1, h2, h3, h4, -⟩, h6⟩
    exact ⟨⟨h1, h2, h3, h4, rfl⟩, h6⟩

theorem ExecuteOnWorkers_cons (commands : List FillColumnRGBACommand) (t : DrawerThread)
    (ts : List DrawerThread) (fb : FrameBuffer) :
    FillColumnRGBACommand.ExecuteOnWorkers commands (t :: ts) fb
      = FillColumnRGBACommand.ExecuteOnWorkers commands ts
          (FillColumnRGBACommand.ExecuteAll commands t fb) := rfl

theorem ExecuteOnWorkers_not_owner (N : Nat) (ps pe B P : Int) (hN : 0 < N) (hP : 0 < P)
    (commands : List FillColumnRGBACommand) (hf : ∀ c ∈ commands, c.column.InFrame B P)
    (idx : Int) :
    ∀ (ws : List Nat) (fb : FrameBuffer),
      (∀ k ∈ ws, k < N ∧ (idx - B) / P % (N : Int) ≠ (k : Int)) →
      FillColumnRGBACommand.ExecuteOnWorkers commands
        (ws.map (workerThread N ps pe)) fb idx = fb idx
  | [], _, _ => rfl
  | w :: ws, fb, h => by
    obtain ⟨hw, hne⟩ := h w (List.mem_cons_self _ _)
    rw [List.map_cons, ExecuteOnWorkers_cons,
      ExecuteOnWorkers_not_owner N ps pe B P hN hP commands hf idx ws _
        (fun k hk => h k (List.mem_cons_of_mem _ hk))]
    apply ExecuteAll_not_stored
    intro c hc
    exact not_stored_of_not_owner w N ps pe B P (by exact_mod_cast hN) (by positivity)
      (by exact_mod_cast hw) hP c.column (hf c hc) idx hne

theorem ExecuteOnWorkers_owner (N : Nat) (ps pe B P : Int) (hN : 0 < N) (hP : 0 < P)
    (commands : List FillColumnRGBACommand) (hf : ∀ c ∈ commands, c.column.InFrame B P)
    (idx : Int) :
    ∀ (ws : List Nat) (fb : FrameBuffer), ws.Nodup → (∀ k ∈ ws, k < N) →
      (∃ k ∈ ws, (idx - B) / P % (N : Int) = (k : Int)) →
      FillColumnRGBACommand.ExecuteOnWorkers commands
        (ws.map (workerThread N ps pe)) fb idx
        = FillColumnRGBACommand.ExecuteAll commands ⟨0, 1, ps, pe⟩ fb idx
  | [], _, _, _, h => by
    obtain ⟨k, hk, -⟩ := h
    cases hk
  | w :: ws, fb, hnd, hlt, hown => by
    have hN' : (0 : Int) < (N : Int) := by exact_mod_cast hN
    rw [List.nodup_cons] at hnd
    rw [List.map_cons, ExecuteOnWorkers_cons]
    by_cases hw : (idx - B) / P % (N : Int) = (w : Int)
    · -- `w` owns the row of `idx`: the later workers leave the word alone
      rw [ExecuteOnWorkers_not_owner N ps pe B P hN hP commands hf idx ws _
        (fun k hk => ⟨hlt k (List.mem_cons_of_mem _ hk), fun hk' => by
          have : (k : Int) = (w : Int) := by rw [← hk', hw]
          have : k = w := by exact_mod_cast this
          subst this
          exact hnd.1 hk⟩)]
      apply ExecuteAll_agree idx _ _ commands fb fb _ rfl
      intro c hc
      have e : workerThread N ps pe w
          = { core := (idx - B) / P % (N : Int), num_cores := (N : Int), pass_start_y := ps,
              pass_end_y := pe } := by
        unfold workerThread
        rw [hw]
      rw [e]
      exact stored_owner_iff_single N ps pe B P hN' hP c.column (hf c hc) idx
    · -- `w` does not own the row: it leaves the word alone
      have hown' : ∃ k ∈ ws, (idx - B) / P % (N : Int) = (k : Int) := by
        obtain ⟨k, hk, hk'⟩ := hown
        rcases List.mem_cons.1 hk with rfl | hk2
        · exact absurd hk' hw
        · exact ⟨k, hk2, hk'⟩
      rw [ExecuteOnWorkers_owner N ps pe B P hN hP commands hf idx ws _ hnd.2
        (fun k hk => hlt k (List.mem_cons_of_mem _ hk)) hown']
      apply ExecuteAll_agree idx _ _ commands _ fb (fun c _ => Iff.rfl)
      apply ExecuteAll_not_stored
      intro c hc
      exact not_stored_of_not_owner w N ps pe B P hN' (by positivity)
        (by exact_mod_cast hlt w (List.mem_cons_self _ _)) hP c.column (hf c hc) idx hw

theorem count_stores_workers (N : Nat) (ps pe B P : Int) (hN : 0 < N) (hP : 0 < P)
    (c : DrawerColumnCommand) (hf : c.InFrame B P) (idx : Int)
    (hst : c.Stored ⟨0, 1, ps, pe⟩ idx) :
    ∀ (ws : List Nat), ws.Nodup → (∀ k ∈ ws, k < N) →
      List.count idx (ws.flatMap fun k => c.stores (workerThread N ps pe k))
        = if ∃ k ∈ ws, (idx - B) / P % (N : Int) = (k : Int) then 1 else 0
  | [], _, _ => by simp
  | w :: ws, hnd, hlt => by
    have hN' : (0 : Int) < (N : Int) := by exact_mod_cast hN
    rw [List.nodup_cons] at hnd
    have ih := count_stores_workers N ps pe B P hN hP c hf idx hst ws hnd.2
      (fun k hk => hlt k (List.mem_cons_of_mem _ hk))
    rw [List.flatMap_cons, List.count_append, ih]
    have hpn : c._pitch * (workerThread N ps pe w).num_cores ≠ 0 := by
      rw [hf.1]
      exact mul_ne_zero hP.ne' hN'.ne'
    by_cases hw : (idx - B) / P % (N : Int) = (w : Int)
    · have hmem : idx ∈ c.stores (workerThread N ps pe w) := by
        have e : workerThread N ps pe w
            = { core := (idx - B) / P % (N : Int), num_cores := (N : Int), pass_start_y := ps,
                pass_end_y := pe } := by
          unfold workerThread
          rw [hw]
        rw [mem_stores_iff, e]
        exact (stored_owner_iff_single N ps pe B P hN' hP c hf idx).2 hst
      rw [List.count_eq_one_of_mem (stores_nodup c _ hpn) hmem]
      have hno : ¬ ∃ k ∈ ws, (idx - B) / P % (N : Int) = (k : Int) := by
        rintro ⟨k, hk, hk'⟩
        have : (k : Int) = (w : Int) := by rw [← hk', hw]
        have : k = w := by exact_mod_cast this
        subst this
        exact hnd.1 hk
      rw [if_neg hno, if_pos ⟨w, List.mem_cons_self _ _, hw⟩]
    · have hnmem : idx ∉ c.stores (workerThread N ps pe w) := by
        rw [mem_stores_iff]
        exact not_stored_of_not_owner w N ps pe B P hN' (by positivity)
          (by exact_mod_cast hlt w (List.mem_cons_self _ _)) hP c hf idx hw
      rw [List.count_eq_zero_of_not_mem hnmem, zero_add]
      have hiff : (∃ k ∈ w :: ws, (idx - B) / P % (N : Int) = (k : Int))
          ↔ ∃ k ∈ ws, (idx - B) / P % (N : Int) = (k : Int) := by
        constructor
        · rintro ⟨k, hk, hk'⟩
          rcases List.mem_cons.1 hk with rfl | hk2
          · exact absurd hk' hw
          · exact ⟨k, hk2, hk'⟩
        · rintro ⟨k, hk, hk'⟩
          exact ⟨k, List.mem_cons_of_mem _ hk, hk'⟩
      simp only [hiff]

theorem owner_mem_of_perm (N : Nat) (hN : 0 < N) (ws : List Nat)
    (hperm : ws.Perm (List.range N)) (R : Int) :
    ∃ k ∈ ws, R % (N : Int) = (k : Int) := by
  have hN' : (0 : Int) < (N : Int) := by exact_mod_cast hN
  have h0 : 0 ≤ R % (N : Int) := Int.emod_nonneg _ hN'.ne'
  have h1 : R % (N : Int) < N := Int.emod_lt_of_pos _ hN'
  refine ⟨(R % (N : Int)).toNat, ?_, (Int.toNat_of_nonneg h0).symm⟩
  rw [hperm.mem_iff, List.mem_range]
  omega

theorem writeAll_append (fb : FrameBuffer) (l1 l2 : List (Int × Nat)) :
    fb.writeAll (l1 ++ l2) = (fb.writeAll l1).writeAll l2 := by
  unfold FrameBuffer.writeAll
  rw [List.foldl_append]

theorem columnDoWhile_eq_writeAll (v : Nat) :
    ∀ (fuel : Nat) (loop : DrawerColumnCommand.LoopIterator) (fb : FrameBuffer),
      DrawerColumnCommand.doWhile (fun _ _ => v) fuel loop fb
        = fb.writeAll ((DrawerColumnCommand.destLog fuel loop).map fun dest => (dest, v))
  | 0, _, _ => rfl
  | fuel + 1, loop, fb => by
    unfold DrawerColumnCommand.doWhile DrawerColumnCommand.destLog
    dsimp only
    rw [List.map_cons]
    show _ = (fb.write loop.dest v).writeAll _
    split
    · rw [columnDoWhile_eq_writeAll v fuel]
    · rfl

theorem FillColumn_Execute_eq_writeAll (command : FillColumnRGBACommand) (thread : DrawerThread)
    (fb : FrameBuffer) :
    command.Execute thread fb = fb.writeAll (command.storeLog thread) := by
  unfold FillColumnRGBACommand.Execute DrawerColumnCommand.Execute
    FillColumnRGBACommand.storeLog DrawerColumnCommand.stores
  dsimp only
  split
  · rfl
  · exact columnDoWhile_eq_writeAll _ _ _ _

theorem ExecuteAll_eq_writeAll (thread : DrawerThread) :
    ∀ (commands : List FillColumnRGBACommand) (fb : FrameBuffer),
      FillColumnRGBACommand.ExecuteAll commands thread fb
        = fb.writeAll (commands.flatMap fun c => c.storeLog thread)
  | [], _ => rfl
  | c :: cs, fb => by
    show FillColumnRGBACommand.ExecuteAll cs thread (c.Execute thread fb) = _
    rw [ExecuteAll_eq_writeAll thread cs, FillColumn_Execute_eq_writeAll, List.flatMap_cons,
      writeAll_append]

theorem ExecuteOnWorkers_eq_writeAll (commands : List FillColumnRGBACommand) :
    ∀ (threads : List DrawerThread) (fb : FrameBuffer),
      FillColumnRGBACommand.ExecuteOnWorkers commands threads fb
        = fb.writeAll (threads.flatMap fun t => commands.flatMap fun c => c.storeLog t)
  | [], _ => rfl
  | t :: ts, fb => by
    rw [ExecuteOnWorkers_cons, ExecuteOnWorkers_eq_writeAll commands ts, ExecuteAll_eq_writeAll,
      List.flatMap_cons, writeAll_append]

theorem ExecuteAll_append (thread : DrawerThread) (l1 l2 : List FillColumnRGBACommand)
    (fb : FrameBuffer) :
    FillColumnRGBACommand.ExecuteAll (l1 ++ l2) thread fb
      = FillColumnRGBACommand.ExecuteAll l2 thread
          (FillColumnRGBACommand.ExecuteAll l1 thread fb) := by
  unfold FillColumnRGBACommand.ExecuteAll
  rw [List.foldl_append]

theorem ExecuteAll_last (idx : Int) (thread : DrawerThread)
    (l1 l2 : List FillColumnRGBACommand) (c : FillColumnRGBACommand) (fb : FrameBuffer)
    (hc : c.column.Stored thread idx) (hl : ∀ c' ∈ l2, ¬ c'.column.Stored thread idx) :
    FillColumnRGBACommand.ExecuteAll (l1 ++ c :: l2) thread fb idx = c._color := by
  rw [ExecuteAll_append]
  show FillColumnRGBACommand.ExecuteAll l2 thread (c.Execute thread _) idx = _
  rw [ExecuteAll_not_stored idx thread l2 _ hl]
  exact (FillColumn_Execute_stored c thread _ idx).1 hc

/-- C15. For every worker count `N >= 1` and every list of fill-column commands
captured for one frame (pitch `> 0`), executing the list once on each of the
workers `0 .. N-1`, in any order of the workers, gives the same frame buffer
as executing the list with a single worker (`N = 1`) over the same pass
window. Every `Execute` is the sequence of stores of its `storeLog`, and the
run on the workers is the sequence of stores of all workers' logs. In these
logs, over all workers, every word a command's column has inside the pass
window, one per row, is stored to exactly once, and no other word is stored
to. In the frame buffer the run leaves, a word of some command's column (inside
the window) holds the colour of the last command of the list whose column
has it, and every other word is as before. -/
theorem fill_columns_on_workers (N : Nat) (destorg pitch ps pe : Int) (hN : 1 ≤ N)
    (hP : 0 < pitch) (commands : List FillColumnRGBACommand)
    (hframe : ∀ c ∈ commands, c.column.InFrame destorg pitch)
    (workers : List Nat) (hperm : workers.Perm (List.range N)) (fb : FrameBuffer) :
    FillColumnRGBACommand.ExecuteOnWorkers commands (workers.map (workerThread N ps pe)) fb
      = FillColumnRGBACommand.ExecuteAll commands ⟨0, 1, ps, pe⟩ fb ∧
    (∀ (c : FillColumnRGBACommand) (thread : DrawerThread) (fb0 : FrameBuffer),
      c.Execute thread fb0 = fb0.writeAll (c.storeLog thread) ∧
      (c.storeLog thread).map (fun s => s.1) = c.column.stores thread ∧
      ∀ s ∈ c.storeLog thread, s.2 = c._color) ∧
    FillColumnRGBACommand.ExecuteOnWorkers commands (workers.map (workerThread N ps pe)) fb
      = fb.writeAll (workers.flatMap fun k =>
          commands.flatMap fun c => c.storeLog (workerThread N ps pe k)) ∧
    (∀ idx : Int, (∀ c ∈ commands, ¬ c.column.Stored ⟨0, 1, ps, pe⟩ idx) →
      FillColumnRGBACommand.ExecuteOnWorkers commands (workers.map (workerThread N ps pe)) fb idx
        = fb idx) ∧
    (∀ (l1 l2 : List FillColumnRGBACommand) (c : FillColumnRGBACommand) (idx : Int),
      commands = l1 ++ c :: l2 → c.column.Stored ⟨0, 1, ps, pe⟩ idx →
      (∀ c' ∈ l2, ¬ c'.column.Stored ⟨0, 1, ps, pe⟩ idx) →
      FillColumnRGBACommand.ExecuteOnWorkers commands (workers.map (workerThread N ps pe)) fb idx
        = c._color) ∧
    (∀ c ∈ commands, ∀ idx : Int,
      (c.column.Stored ⟨0, 1, ps, pe⟩ idx →
        List.count idx (workers.flatMap fun k => c.column.stores (workerThread N ps pe k))
          = 1) ∧
      (idx ∈ (workers.flatMap fun k => c.column.stores (workerThread N ps pe k)) →
        c.column.Stored ⟨0, 1, ps, pe⟩ idx)) ∧
    (∀ c ∈ commands, ∀ x : Int, 0 ≤ x → x < pitch →
      c.column._dest = destorg + c.column._dest_y * pitch + x →
      ∀ idx : Int, c.column.Stored ⟨0, 1, ps, pe⟩ idx ↔
        ∃ r : Int, c.column._dest_y ≤ r ∧ r < c.column._dest_y + c.column._count ∧
          ps ≤ r ∧ r < pe ∧ idx = destorg + r * pitch + x) := by
  have hN0 : 0 < N := hN
  have hN' : (0 : Int) < (N : Int) := by exact_mod_cast hN0
  have hnd : workers.Nodup := hperm.nodup_iff.2 (List.nodup_range N)
  have hlt : ∀ k ∈ workers, k < N := fun k hk => List.mem_range.1 (hperm.mem_iff.1 hk)
  have hone : FillColumnRGBACommand.ExecuteOnWorkers commands
        (workers.map (workerThread N ps pe)) fb
      = FillColumnRGBACommand.ExecuteAll commands ⟨0, 1, ps, pe⟩ fb := by
    funext idx
    exact ExecuteOnWorkers_owner N ps pe destorg pitch hN0 hP commands hframe idx workers fb
      hnd hlt (owner_mem_of_perm N hN0 workers hperm _)
  refine ⟨hone, ?_, ?_, ?_, ?_, ?_, ?_⟩
  · intro c thread fb0
    refine ⟨FillColumn_Execute_eq_writeAll c thread fb0, ?_, ?_⟩
    · unfold FillColumnRGBACommand.storeLog
      rw [List.map_map]
      exact List.map_id _
    · intro s hs
      unfold FillColumnRGBACommand.storeLog at hs
      rw [List.mem_map] at hs
      obtain ⟨d, -, rfl⟩ := hs
      rfl
  · rw [ExecuteOnWorkers_eq_writeAll, List.flatMap_map]
  · intro idx hno
    rw [hone]
    exact ExecuteAll_not_stored idx _ commands fb hno
  · intro l1 l2 c idx hsplit hc hl
    rw [hone, hsplit]
    exact ExecuteAll_last idx _ l1 l2 c fb hc hl
  · intro c hc idx
    constructor
    · intro hst
      rw [count_stores_workers N ps pe destorg pitch hN0 hP c.column (hframe c hc) idx hst
        workers hnd hlt, if_pos (owner_mem_of_perm N hN0 workers hperm _)]
    · intro hmem
      rw [List.mem_flatMap] at hmem
      obtain ⟨k, hk, hk'⟩ := hmem
      rw [mem_stores_iff] at hk'
      by_cases hown : (idx - destorg) / pitch % (N : Int) = (k : Int)
      · have e : workerThread N ps pe k
            = { core := (idx - destorg) / pitch % (N : Int), num_cores := (N : Int),
                pass_start_y := ps, pass_end_y := pe } := by
          unfold workerThread
          rw [hown]
        rw [e] at hk'
        exact (stored_owner_iff_single N ps pe destorg pitch hN' hP c.column (hframe c hc)
          idx).1 hk'
      · exact absurd hk' (not_stored_of_not_owner k N ps pe destorg pitch hN' (by positivity)
          (by exact_mod_cast hlt k hk) hP c.column (hframe c hc) idx hown)
  · intro c hc x hx0 hxP hd idx
    unfold DrawerColumnCommand.Stored
    have h := column_hit_iff_row 0 1 ps pe destorg pitch x (by decide) le_rfl (by decide)
      c.column (hframe c hc).1 hd idx
    simp only at h
    rw [h]
    constructor
    · rintro ⟨r, ⟨h1, h2, h3, h4, -⟩, h6⟩
      exact ⟨r, h1, h3, h2, h4, h6⟩
    · rintro ⟨r, h1, h3, h2, h4, h6⟩
      exact ⟨r, ⟨h1, h2, h3, h4, by omega⟩, h6⟩

theorem exampleFillColumns_InFrame :
    ∀ c ∈ exampleFillColumns, c.column.InFrame 0 4 := by
  intro c hc
  simp only [exampleFillColumns, List.mem_cons, List.mem_singleton, List.not_mem_nil,
    or_false] at hc
  rcases hc with rfl | rfl | rfl | rfl
  · exact ⟨rfl, 0, by decide, by decide, by decide⟩
  · exact ⟨rfl, 1, by decide, by decide, by decide⟩
  · exact ⟨rfl, 2, by decide, by decide, by decide⟩
  · exact ⟨rfl, 3, by decide, by decide, by decide⟩

/-- Witness for `fill_columns_on_workers`: four fill columns of 1000 rows each,
four workers taken in the order 2, 0, 3, 1, pass window `[0, 1000)`. The run
equals the one-worker run, and it leaves the colour of the fourth command in
the word of row 500 of column 3. -/
theorem fill_columns_on_workers_witness :
    (1 ≤ 4 ∧ (0 : Int) < 4 ∧ (∀ c ∈ exampleFillColumns, c.column.InFrame 0 4) ∧
      [2, 0, 3, 1].Perm (List.range 4)) ∧
    FillColumnRGBACommand.ExecuteOnWorkers exampleFillColumns
        ([2, 0, 3, 1].map (workerThread 4 0 1000)) exampleFrameBuffer
      = FillColumnRGBACommand.ExecuteAll exampleFillColumns ⟨0, 1, 0, 1000⟩
          exampleFrameBuffer ∧
    FillColumnRGBACommand.ExecuteOnWorkers exampleFillColumns
        ([2, 0, 3, 1].map (workerThread 4 0 1000)) exampleFrameBuffer (500 * 4 + 3)
      = 0xff000044 :=
  ⟨⟨by decide, by decide, exampleFillColumns_InFrame, by decide⟩,
    (fill_columns_on_workers 4 0 4 0 1000 (by decide) (by decide) exampleFillColumns
      exampleFillColumns_InFrame [2, 0, 3, 1] (by decide) exampleFrameBuffer).1,
    (fill_columns_on_workers 4 0 4 0 1000 (by decide) (by decide) exampleFillColumns
      exampleFillColumns_InFrame [2, 0, 3, 1] (by decide) exampleFrameBuffer).2.2.2.2.1
      (exampleFillColumns.take 3)
      []
      (FillColumnRGBACommand.mk ⟨0, 1000, 3, 4, 0, 0⟩ 0xff000044)
      (500 * 4 + 3) rfl ⟨500, by decide, by decide, by decide⟩
      (fun _ h => absurd h (List.not_mem_nil _))⟩

/-! ## Subtractive blends, channel by channel -/

theorem subChannel_le (p wp m wm : Nat) : BlendBgra.subChannel p wp m wm ≤ 255 := by
  unfold BlendBgra.subChannel
  omega

theorem subChannel_eq (p wp m wm : Nat) :
    BlendBgra.subChannel p wp m wm = min 255 ((p * wp - m * wm) / 256) := by
  unfold BlendBgra.subChannel
  rcases le_or_lt (m * wm) (p * wp) with h | h
  · have hz : ((p : Int) * wp - (m : Int) * wm) = ((p * wp - m * wm : Nat) : Int) := by
      push_cast [Nat.cast_sub h]
      ring
    rw [hz, Int.tdiv_eq_ediv (Int.ofNat_nonneg _) (by decide)]
    have hq : ((p * wp - m * wm : Nat) : Int) / 256 = (((p * wp - m * wm) / 256 : Nat) : Int) := by
      push_cast
      rfl
    rw [hq]
    omega
  · have hneg : (p : Int) * wp - (m : Int) * wm < 0 := by
      have : ((p * wp : Nat) : Int) < ((m * wm : Nat) : Int) := by exact_mod_cast h
      push_cast at this
      omega
    have hq : Int.tdiv ((p : Int) * wp - (m : Int) * wm) 256 ≤ 0 := by
      have h1 : (p : Int) * wp - (m : Int) * wm = -(-((p : Int) * wp - (m : Int) * wm)) := by
        ring
      rw [h1, Int.neg_tdiv]
      have := Int.tdiv_nonneg (show 0 ≤ -((p : Int) * wp - (m : Int) * wm) by omega)
        (show (0 : Int) ≤ 256 by decide)
      omega
    have hsub : p * wp - m * wm = 0 := by omega
    rw [hsub]
    simp only [Nat.zero_div]
    omega

theorem parts_of_pack (a r g b : Nat) (ha : a < 256) (hr : r < 256) (hg : g < 256)
    (hb : b < 256) :
    APART (shl32 a 24 ||| shl32 r 16 ||| shl32 g 8 ||| b) = a ∧
    RPART (shl32 a 24 ||| shl32 r 16 ||| shl32 g 8 ||| b) = r ∧
    GPART (shl32 a 24 ||| shl32 r 16 ||| shl32 g 8 ||| b) = g ∧
    BPART (shl32 a 24 ||| shl32 r 16 ||| shl32 g 8 ||| b) = b := by
  have e1 : shl32 a 24 = a * 2 ^ 24 := by
    simp only [shl32, U32, Nat.shiftLeft_eq]
    exact Nat.mod_eq_of_lt (by omega)
  have e2 : shl32 r 16 = r * 2 ^ 16 := by
    simp only [shl32, U32, Nat.shiftLeft_eq]
    exact Nat.mod_eq_of_lt (by omega)
  have e3 : shl32 g 8 = g * 2 ^ 8 := by
    simp only [shl32, U32, Nat.shiftLeft_eq]
    exact Nat.mod_eq_of_lt (by omega)
  rw [e1, e2, e3, or_bytes _ _ _ _ hr hg hb]
  simp only [APART, RPART, GPART, BPART, and_0xff, Nat.shiftRight_eq_div_pow]
  refine ⟨by omega, by omega, by omega, by omega⟩

/-! ## Size and descriptors of the pool -/

theorem createLoop_getElem? (num_threads : Int) :
    ∀ (fuel : Nat) (i : Nat) (threads : List PoolThread) (j : Nat),
      i + fuel = threads.length → (threads.length : Int) = num_threads - 1 →
      (StartThreads.createLoop num_threads fuel (i : Int) threads)[j]?
        = if i ≤ j then
            threads[j]?.map (fun t =>
              { thread := { t.thread with core := (j : Int) + 1, num_cores := num_threads },
                run_id := 0 })
          else threads[j]?
  | 0, i, threads, j, h1, _ => by
    unfold StartThreads.createLoop
    split
    · rw [List.getElem?_eq_none (by omega)]; rfl
    · rfl
  | fuel + 1, i, threads, j, h1, h2 => by
    have hi : i < threads.length := by omega
    unfold StartThreads.createLoop
    rw [if_pos (by omega)]
    simp only [Int.toNat_ofNat, List.getElem?_eq_getElem hi]
    have h := createLoop_getElem? num_threads fuel (i + 1)
      (threads.set i { thread := { threads[i].thread with
        core := (i : Int) + 1, num_cores := num_threads }, run_id := 0 }) j
      (by rw [List.length_set]; omega) (by rw [List.length_set]; exact h2)
    rw [Nat.cast_add, Nat.cast_one] at h
    rw [h]
    by_cases hij : i + 1 ≤ j
    · rw [if_pos hij, if_pos (by omega), List.getElem?_set_ne (by omega)]
    · rw [if_neg hij]
      by_cases hj : i = j
      · subst hj
        rw [if_pos (le_refl _), List.getElem?_set_eq_of_lt _ hi, List.getElem?_eq_getElem hi]
        rfl
      · rw [if_neg (by omega), List.getElem?_set_ne hj]

theorem num_threads_pos (env : Env) : 1 ≤ StartThreads.num_threads env := by
  unfold StartThreads.num_threads
  simp only
  split <;> omega

theorem StartThreads_threads_eq {Cmd : Type} (env : Env) (q : DrawerCommandQueue Cmd)
    (h : q.threads = []) :
    (StartThreads env q).threads
      = (List.range (StartThreads.num_threads env - 1).toNat).map
          (fun (j : Nat) => PoolThread.mk
            { env.default_thread with
              core := (j : Int) + 1, num_cores := StartThreads.num_threads env } 0) := by
  have hN := num_threads_pos env
  have hthreads : (StartThreads env q).threads
      = StartThreads.createLoop (StartThreads.num_threads env)
          (StartThreads.num_threads env - 1).toNat ((0 : Nat) : Int)
          (List.replicate (StartThreads.num_threads env - 1).toNat
            { thread := env.default_thread, run_id := 0 }) := by
    unfold StartThreads
    simp only [h, List.isEmpty_nil, Bool.not_true, Bool.false_eq_true, if_false]
    rfl
  rw [hthreads]
  generalize StartThreads.num_threads env = N at hN ⊢
  apply List.ext_getElem?
  intro j
  rw [createLoop_getElem? N (N - 1).toNat 0 _ j (by simp) (by simp; omega)]
  simp only [Nat.zero_le, if_true]
  by_cases hj : j < (N - 1).toNat
  · rw [List.getElem?_eq_getElem (by simpa using hj),
      List.getElem?_eq_getElem (by simpa using hj)]
    simp
  · rw [List.getElem?_eq_none (by simpa using hj), List.getElem?_eq_none (by simpa using hj)]
    rfl

/-- C23. Thread count. When the pool is empty, `StartThreads` leaves a pool of
exactly `h - 1` threads, `h` being the hardware concurrency hint, and of
exactly 3 threads (4 workers with the caller) when the hint is 0, and changes
no other member of the queue; when the pool is not empty it changes nothing.
The hint is taken to fit the `int` it is assigned to. -/
theorem StartThreads_thread_count {Cmd : Type} (env : Env) (q : DrawerCommandQueue Cmd)
    (he : env.HintFits) :
    (q.threads = [] →
      (env.hardware_concurrency ≠ 0 →
        (StartThreads env q).threads.length = env.hardware_concurrency - 1) ∧
      (env.hardware_concurrency = 0 → (StartThreads env q).threads.length = 3) ∧
      StartThreads env q = { q with threads := (StartThreads env q).threads }) ∧
    (q.threads ≠ [] → StartThreads env q = q) := by
  have _ := he
  refine ⟨fun h => ⟨fun h0 => ?_, fun h0 => ?_, StartThreads_fields env q⟩, fun h => ?_⟩
  · rw [(StartThreads_threads_of_nil env q h).2, if_neg (by exact_mod_cast h0)]
    omega
  · rw [(StartThreads_threads_of_nil env q h).2, h0]
    rfl
  · rw [StartThreads_fields env q, StartThreads_threads_of_ne env q h]

/-- Witness for `StartThreads_thread_count`: with a hint of 3 the example queue
gets a pool of 2 threads. -/
theorem StartThreads_thread_count_witness :
    exampleEnv.HintFits ∧ exampleQueue.threads = [] ∧
      (StartThreads exampleEnv exampleQueue).threads.length = 2 :=
  ⟨exampleEnv_HintFits, rfl,
    ((StartThreads_thread_count exampleEnv exampleQueue exampleEnv_HintFits).1 rfl).1
      (by decide)⟩

theorem passLoop_invariant {Cmd : Type} (window : DrawerThread → Int → DrawerThread)
    (q : DrawerCommandQueue Cmd) (P : DrawerThread → Prop)
    (hw : ∀ t pass, P t → P (window t pass)) :
    ∀ (fuel : Nat) (pass : Int) (t : DrawerThread), P t →
      P (passLoop window q fuel pass t).1 ∧
      ∀ e ∈ Event.executed (passLoop window q fuel pass t).2, P e.2
  | 0, _, _, h => ⟨h, fun e he => by simp [passLoop, Event.executed] at he⟩
  | fuel + 1, pass, t, h => by
    unfold passLoop
    split
    · have ih := passLoop_invariant window q P hw fuel (pass + 1) (window t pass) (hw t pass h)
      refine ⟨ih.1, fun e he => ?_⟩
      simp only at he
      rw [executed_append, List.mem_append] at he
      rcases he with he | he
      · rw [executeLoop_eq_map _ _ _ _ (by omega), List.drop_zero, executed_map_execute] at he
        obtain ⟨c, _, rfl⟩ := List.mem_map.1 he
        exact hw t pass h
      · exact ih.2 e he
    · exact ⟨h, fun e he => by simp [Event.executed] at he⟩

theorem workerWindow_cores {Cmd : Type} (env : Env) (q : DrawerCommandQueue Cmd)
    (t : DrawerThread) (pass : Int) :
    (WorkerLoop.passWindow env q t pass).core = t.core ∧
      (WorkerLoop.passWindow env q t pass).num_cores = t.num_cores := by
  unfold WorkerLoop.passWindow
  split <;> exact ⟨rfl, rfl⟩

theorem finishWindow_cores {Cmd : Type} (env : Env) (q : DrawerCommandQueue Cmd)
    (t : DrawerThread) (pass : Int) :
    (Finish.passWindow env q t pass).core = t.core ∧
      (Finish.passWindow env q t pass).num_cores = t.num_cores := by
  unfold Finish.passWindow
  split <;> exact ⟨rfl, rfl⟩

theorem runPool_cores {Cmd : Type} (env : Env) (q : DrawerCommandQueue Cmd) :
    ∀ (ws : List PoolThread) (f : Nat),
      (runPool env q ws f).1.map (fun w => (w.thread.core, w.thread.num_cores))
        = ws.map (fun w => (w.thread.core, w.thread.num_cores)) ∧
      ∀ e ∈ Event.executed (runPool env q ws f).2.2,
        (e.2.core, e.2.num_cores) ∈ ws.map (fun w => (w.thread.core, w.thread.num_cores))
  | [], _ => ⟨rfl, fun e he => by simp [runPool, Event.executed] at he⟩
  | w :: ws, f => by
    unfold runPool
    cases ht : WorkerLoop.turn env q w with
    | none =>
      have ih := runPool_cores env q ws f
      exact ⟨by simp [ih.1], fun e he => List.mem_cons_of_mem _ (ih.2 e he)⟩
    | some r =>
      obtain ⟨w', events⟩ := r
      have ih := runPool_cores env q ws ((f + 1) % SIZE_MOD)
      have hinv := passLoop_invariant (WorkerLoop.passWindow env q) q
        (fun t => t.core = w.thread.core ∧ t.num_cores = w.thread.num_cores)
        (fun t pass h => by
          obtain ⟨h1, h2⟩ := workerWindow_cores env q t pass
          exact ⟨h1.trans h.1, h2.trans h.2⟩)
        q.num_passes.toNat 0 w.thread ⟨rfl, rfl⟩
      have hr : w' = { thread := (passLoop (WorkerLoop.passWindow env q) q q.num_passes.toNat 0
            w.thread).1, run_id := q.run_id } ∧
          events = (passLoop (WorkerLoop.passWindow env q) q q.num_passes.toNat 0 w.thread).2 := by
        unfold WorkerLoop.turn at ht
        split at ht
        · split at ht
          · exact absurd ht (by simp)
          · simp only [Option.some.injEq, Prod.mk.injEq] at ht
            exact ⟨ht.1.symm, ht.2.symm⟩
        · exact absurd ht (by simp)
      obtain ⟨rfl, rfl⟩ := hr
      refine ⟨?_, fun e he => ?_⟩
      · simp only [List.map_cons, ih.1, hinv.1.1, hinv.1.2]
      · simp only at he
        rw [executed_append, List.mem_append] at he
        rcases he with he | he
        · have := hinv.2 e he
          rw [List.map_cons, this.1, this.2]
          exact List.mem_cons_self _ _
        · exact List.mem_cons_of_mem _ (ih.2 e he)

theorem Finish_pool_log {Cmd : Type} (env : Env) (q : DrawerCommandQueue Cmd)
    (h : q.commands ≠ []) (r : FinishResult Cmd) (hr : Finish env q = some r) :
    r.pool_log = (runPool env (Finish.started env q) (Finish.started env q).threads
      q.finished_threads).2.2 := by
  have hs := Finish.started_eq env q
  have e1 : (Finish.started env q).finished_threads = q.finished_threads := by rw [hs]
  rw [Finish_unfold, isEmpty_eq_false_of_ne h, e1] at hr
  simp only [Bool.false_eq_true, if_false] at hr
  split at hr
  · injection hr with hr
    subst hr
    rfl
  · exact absurd hr (by simp)

theorem StartThreads_PoolBuilt {Cmd : Type} (env : Env) (q : DrawerCommandQueue Cmd)
    (h : q.threads = []) : (StartThreads env q).PoolBuilt env := by
  unfold DrawerCommandQueue.PoolBuilt
  rw [StartThreads_threads_eq env q h, List.map_map]
  rfl

theorem PoolBuilt_length {Cmd : Type} (env : Env) (q : DrawerCommandQueue Cmd)
    (h : q.PoolBuilt env) : (q.threads.length : Int) + 1 = StartThreads.num_threads env := by
  have h1 := congrArg List.length h
  rw [List.length_map, List.length_map, List.length_range] at h1
  have := num_threads_pos env
  omega

theorem started_PoolBuilt {Cmd : Type} (env : Env) (q : DrawerCommandQueue Cmd)
    (hq : q.threads = [] ∨ q.PoolBuilt env) : (Finish.started env q).PoolBuilt env := by
  by_cases h : q.threads = []
  · exact StartThreads_PoolBuilt env _ h
  · rcases hq with hq | hq
    · exact absurd hq h
    · have e : (Finish.started env q).threads = q.threads :=
        StartThreads_threads_of_ne env _ h
      unfold DrawerCommandQueue.PoolBuilt
      rw [e]
      exact hq

/-- C24. Worker descriptors are consistent. `StartThreads` on an empty pool builds
pool thread `i` with `core = i + 1` and `num_cores = N` (`N` the number of
workers it settled on). In every `Finish` that runs a batch on a pool built
this way (or builds it), the caller executes with `core = 0` and `num_cores =
pool size + 1 = N`, every pool thread executes with its `core` in `1 .. N-1`
and `num_cores = N`, the pool keeps its descriptors, and the cores of the
caller and the pool threads together are exactly `0, 1, .., N-1`, each once.
From an idle state `Finish` does return. -/
theorem worker_descriptors {Cmd : Type} (env : Env) (q : DrawerCommandQueue Cmd)
    (hp : q.commands ≠ []) (hq : q.threads = [] ∨ q.PoolBuilt env) :
    (q.threads = [] → ∀ (i : Nat) (w : PoolThread), (StartThreads env q).threads[i]? = some w →
      w.thread.core = (i : Int) + 1 ∧ w.thread.num_cores = StartThreads.num_threads env) ∧
    (∀ r, Finish env q = some r →
      (r.queue.threads.length : Int) + 1 = StartThreads.num_threads env ∧
      r.queue.PoolBuilt env ∧
      (∀ e ∈ Event.executed r.log,
        e.2.core = 0 ∧ e.2.num_cores = StartThreads.num_threads env) ∧
      (∀ e ∈ Event.executed r.pool_log,
        1 ≤ e.2.core ∧ e.2.core < StartThreads.num_threads env ∧
          e.2.num_cores = StartThreads.num_threads env) ∧
      (0 :: r.queue.threads.map (fun w => w.thread.core))
        = (List.range (StartThreads.num_threads env).toNat).map (fun (i : Nat) => (i : Int))) ∧
    (env.HintFits → q.Idle → ∃ r, Finish env q = some r) := by
  have hN := num_threads_pos env
  refine ⟨fun h i w hw => ?_, fun r hr => ?_, fun he hi => Finish_total env q he hi⟩
  · rw [StartThreads_threads_eq env q h, List.getElem?_map] at hw
    by_cases hi : i < (StartThreads.num_threads env - 1).toNat
    · rw [List.getElem?_eq_getElem (by simpa using hi), List.getElem_range] at hw
      simp only [Option.map_some', Option.some.injEq] at hw
      subst hw
      exact ⟨rfl, rfl⟩
    · rw [List.getElem?_eq_none (by simpa using hi)] at hw
      exact absurd hw (by simp)
  · obtain ⟨_, hrq, hlog⟩ := Finish_of_nonempty env q hp r hr
    have hpl := Finish_pool_log env q hp r hr
    have hb := started_PoolBuilt env q hq
    have hlen := PoolBuilt_length env _ hb
    have hcores := runPool_cores env (Finish.started env q) (Finish.started env q).threads
      q.finished_threads
    have hthreads : r.queue.threads = (runPool env (Finish.started env q)
        (Finish.started env q).threads q.finished_threads).1 := by rw [hrq]
    have hbuilt : r.queue.PoolBuilt env := by
      unfold DrawerCommandQueue.PoolBuilt
      rw [hthreads, hcores.1]
      exact hb
    refine ⟨PoolBuilt_length env _ hbuilt, hbuilt, ?_, ?_, ?_⟩
    · intro e he
      rw [hlog] at he
      simp only [Event.executed] at he
      rw [executed_append, executed_map_destroy, List.append_nil] at he
      have hinv := passLoop_invariant (Finish.passWindow env (Finish.started env q))
        (Finish.started env q)
        (fun t => t.core = 0 ∧ t.num_cores = StartThreads.num_threads env)
        (fun t pass h => by
          obtain ⟨h1, h2⟩ := finishWindow_cores env (Finish.started env q) t pass
          exact ⟨h1.trans h.1, h2.trans h.2⟩)
        q.num_passes.toNat 0
        { env.default_thread with
          core := 0, num_cores := ((Finish.started env q).threads.length : Int) + 1 }
        ⟨rfl, hlen⟩
      exact hinv.2 e he
    · intro e he
      rw [hpl] at he
      have hmem := hcores.2 e he
      rw [hb] at hmem
      obtain ⟨i, hi, hie⟩ := List.mem_map.1 hmem
      rw [List.mem_range] at hi
      simp only [Prod.mk.injEq] at hie
      refine ⟨by omega, by omega, hie.2.symm⟩
    · have h1 : r.queue.threads.map (fun w => w.thread.core)
          = (List.range (StartThreads.num_threads env - 1).toNat).map
              (fun (i : Nat) => (i : Int) + 1) := by
        have := congrArg (List.map Prod.fst) hbuilt
        simpa [List.map_map, Function.comp_def] using this
      rw [h1]
      have h2 : (StartThreads.num_threads env).toNat
          = (StartThreads.num_threads env - 1).toNat + 1 := by omega
      rw [h2, List.range_succ_eq_map, List.map_cons, List.map_map]
      simp [Function.comp_def]

/-- Witness for `worker_descriptors`: on the example queue (hint 3) the caller
and the two pool threads run with cores 0, 1, 2 of 3. -/
theorem worker_descriptors_witness :
    (exampleQueue.commands ≠ [] ∧ exampleQueue.threads = []) ∧
    (∃ r, Finish exampleEnv exampleQueue = some r ∧
      (0 :: r.queue.threads.map (fun w => w.thread.core)) = [0, 1, 2] ∧
      (∀ e ∈ Event.executed r.pool_log, 1 ≤ e.2.core ∧ e.2.core < 3 ∧ e.2.num_cores = 3)) :=
  ⟨⟨by decide, rfl⟩,
    let h := worker_descriptors exampleEnv exampleQueue (by decide) (Or.inl rfl)
    (h.2.2 exampleEnv_HintFits exampleQueue_Idle).elim fun r hr =>
      ⟨r, hr, (h.2.1 r hr).2.2.2.2, fun e he => (h.2.1 r hr).2.2.2.1 e he⟩⟩

/-! ## Shutdown -/

theorem StopThreads_eq {Cmd : Type} (q : DrawerCommandQueue Cmd) :
    StopThreads q = some { q with threads := [], shutdown_flag := false } := by
  unfold StopThreads
  have h : (q.threads.all (WorkerLoop.exits { q with shutdown_flag := true })) = true := by
    rw [List.all_eq_true]
    intro w _
    simp [WorkerLoop.exits]
  simp only [h, if_true]

/-- C25. Shutdown is idempotent and safe without a pool. From every queue state
`StopThreads` returns (every pool thread leaves its loop, so every `join()`
returns) with an empty pool and `shutdown_flag = false`, and leaves the pending
list, the active list, `run_id`, the arena offset and every other member as
they were; called with an empty pool (and the flag clear, as it is outside
`StopThreads`) it changes nothing; and a second `StopThreads` leaves the state
the first one left. -/
theorem StopThreads_idempotent {Cmd : Type} (q : DrawerCommandQueue Cmd) :
    ∃ q1, StopThreads q = some q1 ∧
      q1.threads = [] ∧ q1.shutdown_flag = false ∧
      q1.commands = q.commands ∧ q1.active_commands = q.active_commands ∧
      q1.run_id = q.run_id ∧ q1.memorypool_pos = q.memorypool_pos ∧
      q1 = { q with threads := [], shutdown_flag := false } ∧
      (q.threads = [] → q.shutdown_flag = false → q1 = q) ∧
      StopThreads q1 = some q1 := by
  refine ⟨_, StopThreads_eq q, rfl, rfl, rfl, rfl, rfl, rfl, rfl, fun h1 h2 => ?_,
    StopThreads_eq _⟩
  rw [← h1, ← h2]

/-- Witness for `StopThreads_idempotent`: on the example queue with a pool of
two threads `StopThreads` returns with the pool empty and the 48 bytes of arena
still in use. -/
theorem StopThreads_idempotent_witness :
    ∃ q1, StopThreads examplePoolQueue = some q1 ∧ q1.threads = [] ∧
      q1.memorypool_pos = 48 ∧ StopThreads q1 = some q1 :=
  (StopThreads_idempotent examplePoolQueue).imp fun _ h =>
    ⟨h.1, h.2.1, h.2.2.2.2.2.2.1, h.2.2.2.2.2.2.2.2.2⟩

/-! ## Texture phase of the 4-wide wall iterator -/

theorem add32_cast (a b : Nat) : ((add32 a b : Nat) : Int) = ((a : Int) + (b : Int)) % 2 ^ 32 := by
  unfold add32 U32
  push_cast
  rfl

theorem wall4_iterate (command : DrawerWall4Command) (thread : DrawerThread)
    (hc : 0 < thread.count_for_thread command._dest_y command._count) (k : Nat) :
    (∀ i : Fin 4,
      ((((fun l : DrawerWall4Command.LoopIterator => l.next.1)^[k]
        (DrawerWall4Command.LoopIterator.new command thread)).vplce i : Nat) : Int)
      = ((command._vplce i : Int) + (command._vince i : Int)
          * (thread.skipped_by_thread command._dest_y + (k : Int) * thread.num_cores))
        % 2 ^ 32) ∧
    (∀ i : Fin 4,
      ((((fun l : DrawerWall4Command.LoopIterator => l.next.1)^[k]
        (DrawerWall4Command.LoopIterator.new command thread)).vince i : Nat) : Int)
      = ((command._vince i : Int) * thread.num_cores) % 2 ^ 32) ∧
    ((fun l : DrawerWall4Command.LoopIterator => l.next.1)^[k]
        (DrawerWall4Command.LoopIterator.new command thread)).dest
      = thread.dest_for_thread command._dest_y command._pitch command._dest
        + (k : Int) * (command._pitch * thread.num_cores) ∧
    ((fun l : DrawerWall4Command.LoopIterator => l.next.1)^[k]
        (DrawerWall4Command.LoopIterator.new command thread)).pitch
      = command._pitch * thread.num_cores ∧
    ((fun l : DrawerWall4Command.LoopIterator => l.next.1)^[k]
        (DrawerWall4Command.LoopIterator.new command thread)).bits = command._vlinebits ∧
    ((fun l : DrawerWall4Command.LoopIterator => l.next.1)^[k]
        (DrawerWall4Command.LoopIterator.new command thread)).count
      = thread.count_for_thread command._dest_y command._count - k := by
  induction k with
  | zero =>
    have hnew : DrawerWall4Command.LoopIterator.new command thread
        = { dest := thread.dest_for_thread command._dest_y command._pitch command._dest
            pitch := command._pitch * thread.num_cores
            count := thread.count_for_thread command._dest_y command._count
            bits := command._vlinebits
            vplce := fun i => (((command._vplce i : Int) + (command._vince i : Int)
              * thread.skipped_by_thread command._dest_y) % 2 ^ 32).toNat
            vince := fun i =>
              (((command._vince i : Int) * thread.num_cores) % 2 ^ 32).toNat } := by
      unfold DrawerWall4Command.LoopIterator.new
      rw [if_neg (not_le.mpr hc)]
    rw [Function.iterate_zero, id_eq, hnew]
    refine ⟨fun i => ?_, fun i => ?_, ?_, rfl, rfl, ?_⟩
    · show (((_ : Int) % 2 ^ 32).toNat : Int) = _
      rw [Int.toNat_of_nonneg (Int.emod_nonneg _ (by norm_num))]
      have : thread.skipped_by_thread command._dest_y + ((0 : Nat) : Int) * thread.num_cores
          = thread.skipped_by_thread command._dest_y := by simp
      rw [this]
    · show (((_ : Int) % 2 ^ 32).toNat : Int) = _
      rw [Int.toNat_of_nonneg (Int.emod_nonneg _ (by norm_num))]
    · show _ = _ + ((0 : Nat) : Int) * _
      simp
    · show _ = _ - ((0 : Nat) : Int)
      simp
  | succ n ih =>
    obtain ⟨h1, h2, h3, h4, h5, h6⟩ := ih
    rw [Function.iterate_succ_apply']
    refine ⟨fun i => ?_, h2, ?_, h4, h5, ?_⟩
    · show ((add32 _ _ : Nat) : Int) = _
      rw [add32_cast, h1 i, h2 i]
      have : (command._vplce i : Int) + (command._vince i : Int)
          * (thread.skipped_by_thread command._dest_y
            + ((n + 1 : Nat) : Int) * thread.num_cores)
          = (command._vplce i : Int) + (command._vince i : Int)
            * (thread.skipped_by_thread command._dest_y + (n : Int) * thread.num_cores)
            + (command._vince i : Int) * thread.num_cores := by
        push_cast; ring
      rw [this]
      exact (emod_modEq _).add (emod_modEq _)
    · show _ + _ = _
      rw [h3, h4]
      push_cast; ring
    · show _ - 1 = _
      rw [h6]
      push_cast; ring

/-- C27. Texture phase of the 4-wide wall commands. With `s =
skipped_by_thread(dest_y)` and `N = num_cores`, for a worker whose sub-range
is not empty, after `k` calls of `next()` each accumulator `vplce[i]`,
`i = 0..3`, holds `_vplce[i] + _vince[i] * (s + k*N)` modulo `2^32` and `dest`
is the first owned pixel plus `k * pitch * N`. Hence two workers (for
instance one of `N` workers and the single worker of a one-worker run) that
stand on the same row, `s + k*N = s' + k'*N'`, hold the same four
accumulators and read the same four samples. -/
theorem wall4_texture_phase (command : DrawerWall4Command) (thread : DrawerThread)
    (hc : 0 < thread.count_for_thread command._dest_y command._count) (k : Nat) :
    (∀ i : Fin 4,
      ((((fun l : DrawerWall4Command.LoopIterator => l.next.1)^[k]
        (DrawerWall4Command.LoopIterator.new command thread)).vplce i : Nat) : Int)
      = ((command._vplce i : Int) + (command._vince i : Int)
          * (thread.skipped_by_thread command._dest_y + (k : Int) * thread.num_cores))
        % 2 ^ 32) ∧
    (((fun l : DrawerWall4Command.LoopIterator => l.next.1)^[k]
        (DrawerWall4Command.LoopIterator.new command thread)).dest
      = thread.dest_for_thread command._dest_y command._pitch command._dest
        + (k : Int) * command._pitch * thread.num_cores) ∧
    (∀ (thread' : DrawerThread) (k' : Nat),
      0 < thread'.count_for_thread command._dest_y command._count →
      thread.skipped_by_thread command._dest_y + (k : Int) * thread.num_cores
        = thread'.skipped_by_thread command._dest_y + (k' : Int) * thread'.num_cores →
      ∀ i : Fin 4,
        ((fun l : DrawerWall4Command.LoopIterator => l.next.1)^[k]
            (DrawerWall4Command.LoopIterator.new command thread)).vplce i
          = ((fun l : DrawerWall4Command.LoopIterator => l.next.1)^[k']
            (DrawerWall4Command.LoopIterator.new command thread')).vplce i ∧
        ((fun l : DrawerWall4Command.LoopIterator => l.next.1)^[k]
            (DrawerWall4Command.LoopIterator.new command thread)).sample_index i
          = ((fun l : DrawerWall4Command.LoopIterator => l.next.1)^[k']
            (DrawerWall4Command.LoopIterator.new command thread')).sample_index i) := by
  obtain ⟨h1, -, h3, -, h5, -⟩ := wall4_iterate command thread hc k
  refine ⟨h1, ?_, ?_⟩
  · rw [h3]
    ring
  · intro thread' k' hc' hrow i
    obtain ⟨h1', -, -, -, h5', -⟩ := wall4_iterate command thread' hc' k'
    have hv : ((fun l : DrawerWall4Command.LoopIterator => l.next.1)^[k]
          (DrawerWall4Command.LoopIterator.new command thread)).vplce i
        = ((fun l : DrawerWall4Command.LoopIterator => l.next.1)^[k']
          (DrawerWall4Command.LoopIterator.new command thread')).vplce i := by
      have := h1 i
      rw [hrow, ← h1' i] at this
      exact_mod_cast this
    refine ⟨hv, ?_⟩
    unfold DrawerWall4Command.LoopIterator.sample_index
    rw [hv, h5, h5']

/-- Witness for `wall4_texture_phase`: worker 1 of 3 on a 10-row wall that starts
at row 4 owns row 4; after 2 steps (row 10) the accumulator of column 2 holds
`12 + 3000000000 * 6` modulo `2^32` and `dest` has advanced by `2 * 320 * 3`. -/
theorem wall4_texture_phase_witness :
    (0 < (⟨1, 3, 0, 200⟩ : DrawerThread).count_for_thread 4 10) ∧
    ((fun l : DrawerWall4Command.LoopIterator => l.next.1)^[2]
        (DrawerWall4Command.LoopIterator.new
          { _dest_y := 4, _dest := 1285, _count := 10, _pitch := 320, _vlinebits := 26,
            _vplce := fun i => 10 + i.val, _vince := fun i => 1000000000 * (i.val + 1) }
          ⟨1, 3, 0, 200⟩)).vplce 2 = 820130828 ∧
    ((fun l : DrawerWall4Command.LoopIterator => l.next.1)^[2]
        (DrawerWall4Command.LoopIterator.new
          { _dest_y := 4, _dest := 1285, _count := 10, _pitch := 320, _vlinebits := 26,
            _vplce := fun i => 10 + i.val, _vince := fun i => 1000000000 * (i.val + 1) }
          ⟨1, 3, 0, 200⟩)).dest
      = (⟨1, 3, 0, 200⟩ : DrawerThread).dest_for_thread 4 320 1285 + (2 : Nat) * 320 * 3 :=
  ⟨by decide, by decide,
    (wall4_texture_phase
      { _dest_y := 4, _dest := 1285, _count := 10, _pitch := 320, _vlinebits := 26,
        _vplce := fun i => 10 + i.val, _vince := fun i => 1000000000 * (i.val + 1) }
      ⟨1, 3, 0, 200⟩ (by decide) 2).2.1⟩

/-! ## The fuzz column and its trace -/

theorem replay_cons (s : DrawFuzzColumnRGBACommand.Step)
    (steps : List DrawFuzzColumnRGBACommand.Step) (fb : FrameBuffer) :
    DrawFuzzColumnRGBACommand.replay (s :: steps) fb
      = DrawFuzzColumnRGBACommand.replay steps (s.run fb) := rfl

theorem replay_append (l1 l2 : List DrawFuzzColumnRGBACommand.Step) (fb : FrameBuffer) :
    DrawFuzzColumnRGBACommand.replay (l1 ++ l2) fb
      = DrawFuzzColumnRGBACommand.replay l2 (DrawFuzzColumnRGBACommand.replay l1 fb) := by
  unfold DrawFuzzColumnRGBACommand.replay
  rw [List.foldl_append]

theorem inner_eq_replay (env : DrawEnv) (pitch fuzzstep : Int) :
    ∀ (fuel : Nat) (dest fuzz cnt : Int) (fb : FrameBuffer),
      DrawFuzzColumnRGBACommand.inner env pitch fuzzstep fuel dest fuzz cnt fb
        = (DrawFuzzColumnRGBACommand.innerSteps env pitch fuzzstep fuel dest fuzz cnt).map
            (fun r => (r.1, r.2.1, DrawFuzzColumnRGBACommand.replay r.2.2 fb))
  | 0, _, _, _, _ => rfl
  | fuel + 1, dest, fuzz, cnt, fb => by
    unfold DrawFuzzColumnRGBACommand.inner DrawFuzzColumnRGBACommand.innerSteps
    simp only
    split
    · rw [inner_eq_replay env pitch fuzzstep fuel]
      cases DrawFuzzColumnRGBACommand.innerSteps env pitch fuzzstep fuel (dest + pitch)
        (fuzz + fuzzstep) (cnt - 1) with
      | none => rfl
      | some r => rfl
    · rfl

theorem middle_eq_replay (env : DrawEnv) (pitch fuzzstep : Int) :
    ∀ (fuel : Nat) (dest fuzz count : Int) (fb : FrameBuffer),
      DrawFuzzColumnRGBACommand.middle env pitch fuzzstep fuel dest fuzz count fb
        = (DrawFuzzColumnRGBACommand.middleSteps env pitch fuzzstep fuel dest fuzz count).map
            (fun r => (r.1, r.2.1, DrawFuzzColumnRGBACommand.replay r.2.2 fb))
  | 0, dest, fuzz, count, fb => by
    unfold DrawFuzzColumnRGBACommand.middle DrawFuzzColumnRGBACommand.middleSteps
    split <;> rfl
  | fuel + 1, dest, fuzz, count, fb => by
    unfold DrawFuzzColumnRGBACommand.middle DrawFuzzColumnRGBACommand.middleSteps
    simp only
    split
    · rw [inner_eq_replay]
      cases DrawFuzzColumnRGBACommand.innerSteps env pitch fuzzstep _ dest fuzz _ with
      | none => rfl
      | some r =>
        obtain ⟨d, f, steps⟩ := r
        simp only [Option.map_some']
        rw [middle_eq_replay env pitch fuzzstep fuel]
        cases DrawFuzzColumnRGBACommand.middleSteps env pitch fuzzstep fuel d
          (Int.tmod f env.FUZZTABLE) _ with
        | none => rfl
        | some r2 =>
          simp only [Option.map_some', replay_append]
    · rfl

theorem afterTop_eq_replay (env : DrawEnv) (command : DrawFuzzColumnRGBACommand)
    (pitch fuzzstep yl dest fuzz count : Int) (fb : FrameBuffer) :
    DrawFuzzColumnRGBACommand.afterTop env command pitch fuzzstep yl dest fuzz count fb
      = (DrawFuzzColumnRGBACommand.afterTopSteps env command pitch fuzzstep yl dest fuzz
          count).map (fun steps => DrawFuzzColumnRGBACommand.replay steps fb) := by
  unfold DrawFuzzColumnRGBACommand.afterTop DrawFuzzColumnRGBACommand.afterTopSteps
  simp only
  rw [middle_eq_replay]
  cases DrawFuzzColumnRGBACommand.middleSteps env pitch fuzzstep _ dest fuzz _ with
  | none => rfl
  | some r =>
    obtain ⟨d, f, steps⟩ := r
    simp only [Option.map_some']
    split
    · simp only [Option.map_some', replay_append]
      rfl
    · rfl

theorem Execute_eq_replay (env : DrawEnv) (command : DrawFuzzColumnRGBACommand)
    (thread : DrawerThread) (fb : FrameBuffer) :
    DrawFuzzColumnRGBACommand.Execute env command thread fb
      = (DrawFuzzColumnRGBACommand.ExecuteSteps env command thread).map
          (fun steps => DrawFuzzColumnRGBACommand.replay steps fb) := by
  unfold DrawFuzzColumnRGBACommand.Execute DrawFuzzColumnRGBACommand.ExecuteSteps
  simp only
  split
  · rfl
  · split
    · split
      · rfl
      · rw [afterTop_eq_replay]
        cases DrawFuzzColumnRGBACommand.afterTopSteps env command _ _ _ _ _ _ with
        | none => rfl
        | some steps => rfl
    · rw [afterTop_eq_replay]

theorem innerSteps_run (env : DrawEnv) (pitch fuzzstep : Int) :
    ∀ (n : Nat) (dest fuzz : Int),
      DrawFuzzColumnRGBACommand.innerSteps env pitch fuzzstep (n + 1) dest fuzz ((n : Int) + 1)
        = some (dest + ((n : Int) + 1) * pitch, fuzz + ((n : Int) + 1) * fuzzstep,
            (List.range (n + 1)).map (fun (j : Nat) =>
              ({ dest := dest + (j : Int) * pitch, fuzz := fuzz + (j : Int) * fuzzstep,
                 offset := env.fuzzoffset (fuzz + (j : Int) * fuzzstep) * fuzzstep } :
                DrawFuzzColumnRGBACommand.Step)))
  | 0, dest, fuzz => by
    unfold DrawFuzzColumnRGBACommand.innerSteps
    simp [List.range_succ]
  | n + 1, dest, fuzz => by
    unfold DrawFuzzColumnRGBACommand.innerSteps
    have hne : ((n + 1 : Nat) : Int) + 1 - 1 ≠ 0 := by push_cast; omega
    have hc : ((n + 1 : Nat) : Int) + 1 - 1 = (n : Int) + 1 := by push_cast; ring
    simp only [hne, ne_eq, not_false_eq_true, if_true]
    rw [hc, innerSteps_run env pitch fuzzstep n (dest + pitch) (fuzz + fuzzstep)]
    simp only [Option.some.injEq, Prod.mk.injEq]
    refine ⟨by push_cast; ring, by push_cast; ring, ?_⟩
    rw [List.range_succ_eq_map (n + 1), List.map_cons, List.map_map]
    congr 1
    · simp
    · apply List.map_congr_left
      intro j _
      simp only [Function.comp_apply, Nat.cast_succ]
      have e1 : dest + pitch + (j : Int) * pitch = dest + ((j : Int) + 1) * pitch := by ring
      have e2 : fuzz + fuzzstep + (j : Int) * fuzzstep = fuzz + ((j : Int) + 1) * fuzzstep := by
        ring
      rw [e1, e2]

theorem next_wrap_bound (available fuzzstep : Int) (ha : 1 ≤ available) (hs : 1 ≤ fuzzstep) :
    1 ≤ (if Int.tmod available fuzzstep ≠ 0 then Int.tdiv available fuzzstep + 1
          else Int.tdiv available fuzzstep) ∧
    ∀ j : Int, j < (if Int.tmod available fuzzstep ≠ 0 then Int.tdiv available fuzzstep + 1
          else Int.tdiv available fuzzstep) → j * fuzzstep < available := by
  have h0 : (0 : Int) ≤ available := by omega
  have hs0 : (0 : Int) ≤ fuzzstep := by omega
  rw [Int.tmod_eq_emod h0 hs0, Int.tdiv_eq_ediv h0 hs0]
  have hdm := Int.emod_add_ediv available fuzzstep
  have hr0 := Int.emod_nonneg available (by omega : fuzzstep ≠ 0)
  have hrs := Int.emod_lt_of_pos available (by omega : 0 < fuzzstep)
  have hq0 : 0 ≤ available / fuzzstep := Int.ediv_nonneg h0 hs0
  split
  · rename_i hr
    refine ⟨by omega, fun j hj => ?_⟩
    have hjq : j ≤ available / fuzzstep := by omega
    have : j * fuzzstep ≤ available / fuzzstep * fuzzstep :=
      Int.mul_le_mul_of_nonneg_right hjq hs0
    have hcomm : fuzzstep * (available / fuzzstep) = available / fuzzstep * fuzzstep :=
      Int.mul_comm _ _
    omega
  · rename_i hr
    have hr' : available % fuzzstep = 0 := by
      by_contra h
      exact hr h
    have hq1 : 1 ≤ available / fuzzstep := by
      by_contra h
      have : available / fuzzstep = 0 := by omega
      rw [this] at hdm
      omega
    refine ⟨hq1, fun j hj => ?_⟩
    have hjq : j + 1 ≤ available / fuzzstep := by omega
    have : (j + 1) * fuzzstep ≤ available / fuzzstep * fuzzstep :=
      Int.mul_le_mul_of_nonneg_right hjq hs0
    have hcomm : fuzzstep * (available / fuzzstep) = available / fuzzstep * fuzzstep :=
      Int.mul_comm _ _
    have hexp : (j + 1) * fuzzstep = j * fuzzstep + fuzzstep := by ring
    omega

theorem middleSteps_run (env : DrawEnv) (pitch fuzzstep : Int) (hs : 1 ≤ fuzzstep)
    (hF : 0 < env.FUZZTABLE) :
    ∀ (fuel n : Nat) (dest fuzz : Int), n ≤ fuel → fuzz < env.FUZZTABLE →
      ∃ (fuzzEnd : Int) (steps : List DrawFuzzColumnRGBACommand.Step),
        DrawFuzzColumnRGBACommand.middleSteps env pitch fuzzstep fuel dest fuzz (n : Int)
          = some (dest + (n : Int) * pitch, fuzzEnd, steps) ∧
        fuzzEnd < env.FUZZTABLE ∧
        steps.map (fun s => s.dest) = (List.range n).map (fun (j : Nat) => dest + (j : Int) * pitch) ∧
        (0 ≤ fuzz → 0 ≤ fuzzEnd ∧
          fuzzEnd = (fuzz + (n : Int) * fuzzstep) % env.FUZZTABLE ∧
          steps = (List.range n).map (fun (j : Nat) =>
            ({ dest := dest + (j : Int) * pitch,
               fuzz := (fuzz + (j : Int) * fuzzstep) % env.FUZZTABLE,
               offset := env.fuzzoffset ((fuzz + (j : Int) * fuzzstep) % env.FUZZTABLE)
                 * fuzzstep } : DrawFuzzColumnRGBACommand.Step)))
  | fuel, 0, dest, fuzz, _, hfz => by
    refine ⟨fuzz, [], ?_, hfz, rfl, fun h0 => ⟨h0, ?_, rfl⟩⟩
    · cases fuel with
      | zero =>
        unfold DrawFuzzColumnRGBACommand.middleSteps
        simp
      | succ fuel =>
        unfold DrawFuzzColumnRGBACommand.middleSteps
        simp
    · simp only [Nat.cast_zero, zero_mul, add_zero]
      exact (Int.emod_eq_of_lt h0 hfz).symm
  | 0, n + 1, _, _, hn, _ => absurd hn (by omega)
  | fuel + 1, n + 1, dest, fuzz, hn, hfz => by
    have hav : 1 ≤ env.FUZZTABLE - fuzz := by omega
    obtain ⟨hnw1, hnwj⟩ := next_wrap_bound (env.FUZZTABLE - fuzz) fuzzstep hav hs
    generalize hnw : (if Int.tmod (env.FUZZTABLE - fuzz) fuzzstep ≠ 0
        then Int.tdiv (env.FUZZTABLE - fuzz) fuzzstep + 1
        else Int.tdiv (env.FUZZTABLE - fuzz) fuzzstep) = nw at hnw1 hnwj
    obtain ⟨m, hm⟩ : ∃ m : Nat, min ((n + 1 : Nat) : Int) nw = (m : Int) + 1 :=
      ⟨(min ((n + 1 : Nat) : Int) nw - 1).toNat, by omega⟩
    have hmn : m ≤ n := by omega
    have hmnw : (m : Int) < nw := by omega
    have hstep : DrawFuzzColumnRGBACommand.middleSteps env pitch fuzzstep (fuel + 1) dest fuzz
          ((n + 1 : Nat) : Int)
        = match DrawFuzzColumnRGBACommand.innerSteps env pitch fuzzstep (m + 1) dest fuzz
            ((m : Int) + 1) with
          | none => none
          | some (dest, fuzz, steps) =>
            match DrawFuzzColumnRGBACommand.middleSteps env pitch fuzzstep fuel dest
              (Int.tmod fuzz env.FUZZTABLE) (((n - m : Nat) : Int)) with
            | none => none
            | some (dest, fuzz, rest) => some (dest, fuzz, steps ++ rest) := by
      conv_lhs => unfold DrawFuzzColumnRGBACommand.middleSteps
      have hpos : ((n + 1 : Nat) : Int) > 0 := by omega
      simp only [hpos, if_true]
      rw [hnw, hm]
      have e1 : ((m : Int) + 1).toNat = m + 1 := by omega
      have e2 : ((n + 1 : Nat) : Int) - ((m : Int) + 1) = ((n - m : Nat) : Int) := by omega
      rw [e1, e2]
    rw [hstep, innerSteps_run]
    simp only
    obtain ⟨fuzzEnd, rest, hrest, hlt, hdest, hfuzz⟩ :=
      middleSteps_run env pitch fuzzstep hs hF fuel (n - m)
        (dest + ((m : Int) + 1) * pitch)
        (Int.tmod (fuzz + ((m : Int) + 1) * fuzzstep) env.FUZZTABLE) (by omega)
        (Int.tmod_lt_of_pos _ hF)
    rw [hrest]
    have hsplit : n + 1 = (m + 1) + (n - m) := by omega
    refine ⟨fuzzEnd, (List.range (m + 1)).map (fun (j : Nat) =>
        ({ dest := dest + (j : Int) * pitch, fuzz := fuzz + (j : Int) * fuzzstep,
           offset := env.fuzzoffset (fuzz + (j : Int) * fuzzstep) * fuzzstep } :
          DrawFuzzColumnRGBACommand.Step)) ++ rest, ?_, hlt, ?_, fun h0 => ?_⟩
    · simp only [Option.some.injEq, Prod.mk.injEq, and_true]
      have : ((n - m : Nat) : Int) = (n : Int) - (m : Int) := by omega
      rw [this]
      push_cast
      ring
    · rw [List.map_append, hdest, List.map_map]
      conv_rhs => rw [hsplit, List.range_add, List.map_append, List.map_map]
      congr 1
      apply List.map_congr_left
      intro j _
      simp only [Function.comp_apply]
      push_cast
      ring
    · have hs0 : (0 : Int) ≤ fuzzstep := by omega
      have hnn : 0 ≤ fuzz + ((m : Int) + 1) * fuzzstep := by positivity
      have htm : Int.tmod (fuzz + ((m : Int) + 1) * fuzzstep) env.FUZZTABLE
          = (fuzz + ((m : Int) + 1) * fuzzstep) % env.FUZZTABLE :=
        Int.tmod_eq_emod hnn (le_of_lt hF)
      have h0' : 0 ≤ Int.tmod (fuzz + ((m : Int) + 1) * fuzzstep) env.FUZZTABLE := by
        rw [htm]
        exact Int.emod_nonneg _ (by omega)
      obtain ⟨hE0, hE, hsteps⟩ := hfuzz h0'
      refine ⟨hE0, ?_, ?_⟩
      · rw [hE, htm, Int.emod_add_emod]
        congr 1
        have : ((n - m : Nat) : Int) = (n : Int) - (m : Int) := by omega
        rw [this]
        push_cast
        ring
      · rw [hsteps]
        conv_rhs => rw [hsplit, List.range_add, List.map_append, List.map_map]
        congr 1
        · apply List.map_congr_left
          intro j hj
          rw [List.mem_range] at hj
          have hjl : (j : Int) * fuzzstep < env.FUZZTABLE - fuzz := hnwj j (by omega)
          have hj0 : 0 ≤ (j : Int) * fuzzstep := by positivity
          have : (fuzz + (j : Int) * fuzzstep) % env.FUZZTABLE = fuzz + (j : Int) * fuzzstep :=
            Int.emod_eq_of_lt (by omega) (by omega)
          rw [this]
        · apply List.map_congr_left
          intro j _
          simp only [Function.comp_apply]
          have e1 : dest + ((m : Int) + 1) * pitch + (j : Int) * pitch
              = dest + ((m + 1 + j : Nat) : Int) * pitch := by push_cast; ring
          have e2 : (Int.tmod (fuzz + ((m : Int) + 1) * fuzzstep) env.FUZZTABLE
                + (j : Int) * fuzzstep) % env.FUZZTABLE
              = (fuzz + ((m + 1 + j : Nat) : Int) * fuzzstep) % env.FUZZTABLE := by
            rw [htm, Int.emod_add_emod]
            congr 1
            push_cast
            ring
          rw [e1, e2]

theorem afterTopSteps_run (env : DrawEnv) (command : DrawFuzzColumnRGBACommand)
    (pitch fuzzstep : Int) (hs : 1 ≤ fuzzstep) (hF : 0 < env.FUZZTABLE)
    (yl dest fuzz : Int) (n : Nat) (hfz : fuzz < env.FUZZTABLE) :
    ∃ steps : List DrawFuzzColumnRGBACommand.Step,
      DrawFuzzColumnRGBACommand.afterTopSteps env command pitch fuzzstep yl dest fuzz
        ((n : Int) + 1) = some steps ∧
      steps.map (fun s => s.dest)
        = (List.range (n + 1)).map (fun (j : Nat) => dest + (j : Int) * pitch) ∧
      (0 ≤ fuzz →
        steps = (List.range (n + 1)).map (fun (j : Nat) =>
          ({ dest := dest + (j : Int) * pitch,
             fuzz := (fuzz + (j : Int) * fuzzstep) % env.FUZZTABLE,
             offset := env.fuzzoffset ((fuzz + (j : Int) * fuzzstep) % env.FUZZTABLE)
               * fuzzstep
               + (if decide (yl + ((n : Int) + 1) * fuzzstep > command._fuzzviewheight)
                    && decide (j = n) then -pitch else 0) } :
            DrawFuzzColumnRGBACommand.Step))) := by
  by_cases hlb : yl + ((n : Int) + 1) * fuzzstep > command._fuzzviewheight
  · obtain ⟨fuzzEnd, steps, hrun, -, hdest, hfuzz⟩ :=
      middleSteps_run env pitch fuzzstep hs hF n n dest fuzz (le_refl _) hfz
    have e : DrawFuzzColumnRGBACommand.afterTopSteps env command pitch fuzzstep yl dest fuzz
          ((n : Int) + 1)
        = some (steps ++ [DrawFuzzColumnRGBACommand.Step.mk (dest + (n : Int) * pitch) fuzzEnd
            (env.fuzzoffset fuzzEnd * fuzzstep - pitch)]) := by
      unfold DrawFuzzColumnRGBACommand.afterTopSteps
      have e1 : (n : Int) + 1 - 1 = (n : Int) := by ring
      simp only [hlb, decide_True, if_true, e1, Int.toNat_ofNat]
      rw [hrun]
    refine ⟨_, e, ?_, fun h0 => ?_⟩
    · rw [List.map_append, hdest, List.range_succ, List.map_append]
      rfl
    · obtain ⟨-, hE, hsteps⟩ := hfuzz h0
      rw [hsteps, hE, List.range_succ, List.map_append]
      congr 1
      · apply List.map_congr_left
        intro j hj
        rw [List.mem_range] at hj
        have : decide (j = n) = false := by simp; omega
        simp [this]
      · simp [hlb]
        ring
  · obtain ⟨fuzzEnd, steps, hrun, -, hdest, hfuzz⟩ :=
      middleSteps_run env pitch fuzzstep hs hF (n + 1) (n + 1) dest fuzz (le_refl _) hfz
    have e : DrawFuzzColumnRGBACommand.afterTopSteps env command pitch fuzzstep yl dest fuzz
          ((n : Int) + 1) = some steps := by
      unfold DrawFuzzColumnRGBACommand.afterTopSteps
      have e1 : ((n : Int) + 1).toNat = n + 1 := by omega
      simp only [hlb, decide_False, Bool.false_eq_true, if_false, e1]
      have e2 : ((n + 1 : Nat) : Int) = (n : Int) + 1 := by push_cast; ring
      rw [e2] at hrun
      rw [hrun]
    refine ⟨_, e, hdest, fun h0 => ?_⟩
    obtain ⟨-, -, hsteps⟩ := hfuzz h0
    rw [hsteps]
    apply List.map_congr_left
    intro j _
    simp [hlb]

theorem ExecuteSteps_run (env : DrawEnv) (command : DrawFuzzColumnRGBACommand)
    (thread : DrawerThread) (hN : 1 ≤ thread.num_cores) (hF : 0 < env.FUZZTABLE)
    (hc : 0 < thread.count_for_thread (max command._yl 1)
      (min command._yh command._fuzzviewheight - max command._yl 1 + 1)) :
    ∃ steps : List DrawFuzzColumnRGBACommand.Step,
      DrawFuzzColumnRGBACommand.ExecuteSteps env command thread = some steps ∧
      steps.map (fun s => s.dest)
        = (List.range (thread.count_for_thread (max command._yl 1)
            (min command._yh command._fuzzviewheight - max command._yl 1 + 1)).toNat).map
          (fun (k : Nat) =>
            thread.dest_for_thread (max command._yl 1) command._pitch
              (env.ylookup (max command._yl 1) + command._x + command._destorg)
            + (k : Int) * (command._pitch * thread.num_cores)) ∧
      (0 ≤ command._fuzzpos + thread.skipped_by_thread (max command._yl 1) →
        steps = (List.range (thread.count_for_thread (max command._yl 1)
            (min command._yh command._fuzzviewheight - max command._yl 1 + 1)).toNat).map
          (DrawFuzzColumnRGBACommand.rowStep env command thread)) := by
  have hrow : ∀ k : Nat, DrawFuzzColumnRGBACommand.rowStep env command thread k
      = DrawFuzzColumnRGBACommand.Step.mk
          (thread.dest_for_thread (max command._yl 1) command._pitch
              (env.ylookup (max command._yl 1) + command._x + command._destorg)
            + (k : Int) * (command._pitch * thread.num_cores))
          ((command._fuzzpos + thread.skipped_by_thread (max command._yl 1)
            + (k : Int) * thread.num_cores) % env.FUZZTABLE)
          (env.fuzzoffset ((command._fuzzpos + thread.skipped_by_thread (max command._yl 1)
              + (k : Int) * thread.num_cores) % env.FUZZTABLE) * thread.num_cores
            + (if decide (max command._yl 1 + thread.skipped_by_thread (max command._yl 1)
                    < thread.num_cores) && decide (k = 0)
                then command._pitch * thread.num_cores
               else if decide (max command._yl 1 + thread.skipped_by_thread (max command._yl 1)
                    + (if decide (max command._yl 1
                          + thread.skipped_by_thread (max command._yl 1) < thread.num_cores)
                        then thread.count_for_thread (max command._yl 1)
                          (min command._yh command._fuzzviewheight - max command._yl 1 + 1) - 1
                        else thread.count_for_thread (max command._yl 1)
                          (min command._yh command._fuzzviewheight - max command._yl 1 + 1))
                      * thread.num_cores > command._fuzzviewheight)
                  && decide ((k : Int) = thread.count_for_thread (max command._yl 1)
                      (min command._yh command._fuzzviewheight - max command._yl 1 + 1) - 1)
                then -(command._pitch * thread.num_cores)
               else 0)) := fun k => rfl
  rw [funext hrow]
  clear hrow
  generalize hcdef : thread.count_for_thread (max command._yl 1)
      (min command._yh command._fuzzviewheight - max command._yl 1 + 1) = c at hc ⊢
  generalize hsdef : thread.skipped_by_thread (max command._yl 1) = s
  generalize hddef : thread.dest_for_thread (max command._yl 1) command._pitch
      (env.ylookup (max command._yl 1) + command._x + command._destorg) = dest0
  generalize hyldef : max command._yl 1 = yl at hcdef hsdef hddef ⊢
  obtain ⟨n, rfl⟩ : ∃ n : Nat, c = (n : Int) + 1 := ⟨(c - 1).toNat, by omega⟩
  have hcn : ((n : Int) + 1).toNat = n + 1 := by omega
  rw [hcn]
  have hfz0 : Int.tmod (command._fuzzpos + s) env.FUZZTABLE < env.FUZZTABLE :=
    Int.tmod_lt_of_pos _ hF
  by_cases htop : yl + s < thread.num_cores
  · by_cases hn : n = 0
    · subst hn
      have e : DrawFuzzColumnRGBACommand.ExecuteSteps env command thread
          = some [DrawFuzzColumnRGBACommand.Step.mk dest0
              (Int.tmod (command._fuzzpos + s) env.FUZZTABLE)
              (env.fuzzoffset (Int.tmod (command._fuzzpos + s) env.FUZZTABLE) * thread.num_cores
                + command._pitch * thread.num_cores)] := by
        unfold DrawFuzzColumnRGBACommand.ExecuteSteps
        simp only [hyldef, hcdef, hsdef, hddef]
        simp [htop]
      refine ⟨_, e, by simp [List.range_succ], fun h0 => ?_⟩
      rw [Int.tmod_eq_emod h0 (le_of_lt hF)]
      simp [List.range_succ, htop]
    · obtain ⟨m, rfl⟩ : ∃ m : Nat, n = m + 1 := ⟨n - 1, by omega⟩
      have hfz1 : Int.tmod (Int.tmod (command._fuzzpos + s) env.FUZZTABLE + thread.num_cores)
          env.FUZZTABLE < env.FUZZTABLE := Int.tmod_lt_of_pos _ hF
      obtain ⟨steps, hrun, hdest, hfuzz⟩ := afterTopSteps_run env command
        (command._pitch * thread.num_cores) thread.num_cores hN hF (yl + s)
        (dest0 + command._pitch * thread.num_cores)
        (Int.tmod (Int.tmod (command._fuzzpos + s) env.FUZZTABLE + thread.num_cores)
          env.FUZZTABLE) m hfz1
      have e : DrawFuzzColumnRGBACommand.ExecuteSteps env command thread
          = some (DrawFuzzColumnRGBACommand.Step.mk dest0
              (Int.tmod (command._fuzzpos + s) env.FUZZTABLE)
              (env.fuzzoffset (Int.tmod (command._fuzzpos + s) env.FUZZTABLE) * thread.num_cores
                + command._pitch * thread.num_cores) :: steps) := by
        unfold DrawFuzzColumnRGBACommand.ExecuteSteps
        simp only [hyldef, hcdef, hsdef, hddef]
        have e1 : ¬ (((m + 1 : Nat) : Int) + 1 ≤ 0) := by omega
        have e2 : ¬ (((m + 1 : Nat) : Int) + 1 - 1 = 0) := by omega
        have e3 : ((m + 1 : Nat) : Int) + 1 - 1 = (m : Int) + 1 := by push_cast; ring
        simp only [e1, e2, if_false, htop, if_true]
        rw [e3, hrun]
      refine ⟨_, e, ?_, fun h0 => ?_⟩
      · rw [List.map_cons, hdest, List.range_succ_eq_map (m + 1), List.map_cons, List.map_map]
        congr 1
        · simp
        · apply List.map_congr_left
          intro j _
          simp only [Function.comp_apply]
          push_cast
          ring
      · have hs0 : (0 : Int) ≤ thread.num_cores := by omega
        have ht0 : Int.tmod (command._fuzzpos + s) env.FUZZTABLE
            = (command._fuzzpos + s) % env.FUZZTABLE := Int.tmod_eq_emod h0 (le_of_lt hF)
        have ht1 : Int.tmod (Int.tmod (command._fuzzpos + s) env.FUZZTABLE + thread.num_cores)
            env.FUZZTABLE = (command._fuzzpos + s + thread.num_cores) % env.FUZZTABLE := by
          rw [ht0, Int.tmod_eq_emod
            (add_nonneg (Int.emod_nonneg _ (by omega)) hs0) (le_of_lt hF), Int.emod_add_emod]
        have h1 : 0 ≤ Int.tmod (Int.tmod (command._fuzzpos + s) env.FUZZTABLE
            + thread.num_cores) env.FUZZTABLE := by
          rw [ht1]
          exact Int.emod_nonneg _ (by omega)
        rw [hfuzz h1, ht1, ht0, List.range_succ_eq_map (m + 1), List.map_cons, List.map_map]
        congr 1
        · simp [htop]
        · apply List.map_congr_left
          intro j hj
          rw [List.mem_range] at hj
          simp only [Function.comp_apply]
          have e1 : dest0 + command._pitch * thread.num_cores
                + (j : Int) * (command._pitch * thread.num_cores)
              = dest0 + ((j + 1 : Nat) : Int) * (command._pitch * thread.num_cores) := by
            push_cast; ring
          have e2 : ((command._fuzzpos + s + thread.num_cores) % env.FUZZTABLE
                + (j : Int) * thread.num_cores) % env.FUZZTABLE
              = (command._fuzzpos + s + ((j + 1 : Nat) : Int) * thread.num_cores)
                % env.FUZZTABLE := by
            rw [Int.emod_add_emod]
            congr 1
            push_cast
            ring
          have e3 : (decide (yl + s < thread.num_cores) && decide (j + 1 = 0)) = false := by
            simp
          have e4 : ((m + 1 : Nat) : Int) + 1 - 1 = (m : Int) + 1 := by push_cast; ring
          have e5 : decide (((j + 1 : Nat) : Int) = (m : Int) + 1) = decide (j = m) := by
            congr 1
            apply propext
            constructor <;> intro h <;> omega
          rw [e1, e2, e3, e4, e5]
          simp only [htop, decide_True, if_true, Bool.false_eq_true, if_false]
  · obtain ⟨steps, hrun, hdest, hfuzz⟩ := afterTopSteps_run env command
      (command._pitch * thread.num_cores) thread.num_cores hN hF (yl + s) dest0
      (Int.tmod (command._fuzzpos + s) env.FUZZTABLE) n hfz0
    have e : DrawFuzzColumnRGBACommand.ExecuteSteps env command thread = some steps := by
      unfold DrawFuzzColumnRGBACommand.ExecuteSteps
      simp only [hyldef, hcdef, hsdef, hddef]
      have e1 : ¬ ((n : Int) + 1 ≤ 0) := by omega
      simp only [e1, if_false, htop]
      exact hrun
    refine ⟨_, e, hdest, fun h0 => ?_⟩
    have ht0 : Int.tmod (command._fuzzpos + s) env.FUZZTABLE
        = (command._fuzzpos + s) % env.FUZZTABLE := Int.tmod_eq_emod h0 (le_of_lt hF)
    have h1 : 0 ≤ Int.tmod (command._fuzzpos + s) env.FUZZTABLE := by
      rw [ht0]
      exact Int.emod_nonneg _ (by omega)
    rw [hfuzz h1, ht0]
    apply List.map_congr_left
    intro j _
    have e2 : ((command._fuzzpos + s) % env.FUZZTABLE + (j : Int) * thread.num_cores)
          % env.FUZZTABLE
        = (command._fuzzpos + s + (j : Int) * thread.num_cores) % env.FUZZTABLE :=
      Int.emod_add_emod _ _ _
    have e5 : decide ((j : Int) = (n : Int) + 1 - 1) = decide (j = n) := by
      congr 1
      apply propext
      constructor <;> intro h <;> omega
    rw [e2, e5]
    simp only [htop, decide_False, Bool.false_and, Bool.false_eq_true, if_false]

theorem replay_frame (idx : Int) :
    ∀ (steps : List DrawFuzzColumnRGBACommand.Step) (fb : FrameBuffer),
      (∀ s ∈ steps, s.dest ≠ idx) → DrawFuzzColumnRGBACommand.replay steps fb idx = fb idx
  | [], _, _ => rfl
  | s :: steps, fb, h => by
    rw [replay_cons, replay_frame idx steps _ (fun t ht => h t (List.mem_cons_of_mem _ ht))]
    exact write_ne _ _ _ _ (Ne.symm (h s (List.mem_cons_self _ _)))

theorem replay_stored (l1 l2 : List DrawFuzzColumnRGBACommand.Step)
    (s : DrawFuzzColumnRGBACommand.Step) (fb : FrameBuffer) (h : ∀ t ∈ l2, t.dest ≠ s.dest) :
    DrawFuzzColumnRGBACommand.replay (l1 ++ s :: l2) fb s.dest
      = DrawFuzzColumnRGBACommand.darken
          (DrawFuzzColumnRGBACommand.replay l1 fb (s.dest + s.offset)) := by
  rw [replay_append, replay_cons, replay_frame s.dest l2 _ h]
  exact write_eq _ _ _

theorem darken_eq (bg : Nat) :
    DrawFuzzColumnRGBACommand.darken bg
      = shl32 255 24 ||| shl32 (RPART bg * 3 / 4) 16 ||| shl32 (GPART bg * 3 / 4) 8
        ||| BPART bg * 3 / 4 := by
  obtain ⟨-, hr, hg, hb⟩ := parts_lt bg
  unfold DrawFuzzColumnRGBACommand.darken packBgra mul32 U32
  simp only
  rw [Nat.mod_eq_of_lt (by omega : RPART bg * 3 < 2 ^ 32),
    Nat.mod_eq_of_lt (by omega : GPART bg * 3 < 2 ^ 32),
    Nat.mod_eq_of_lt (by omega : BPART bg * 3 < 2 ^ 32)]
  rfl

/-- C28. `DrawFuzzColumnRGBACommand::Execute`, for a worker whose count
`c = count_for_thread(yl, yh - yl + 1)` is positive (`yl`, `yh` clamped to
`[1, fuzzviewheight]`), returns after exactly `c` stores, the `k`-th of them
(`0 <= k < c`) to the word `dest + k * pitch * num_cores`, whichever of the
top, in-bounds and bottom branches makes it, and changes no other word. Every
store writes the darkened value of the pixel it has just read (`Step.run`),
which has alpha `0xff` and red, green and blue `R*3/4`, `G*3/4`, `B*3/4` of
that pixel, truncated; when the stores go to distinct words
(`pitch * num_cores` not 0) each stored value is the final value of its word. -/
theorem DrawFuzzColumn_writes (env : DrawEnv) (command : DrawFuzzColumnRGBACommand)
    (thread : DrawerThread) (fb : FrameBuffer)
    (hN : 1 ≤ thread.num_cores) (hF : 0 < env.FUZZTABLE)
    (hc : 0 < thread.count_for_thread (max command._yl 1)
      (min command._yh command._fuzzviewheight - max command._yl 1 + 1)) :
    (∃ steps : List DrawFuzzColumnRGBACommand.Step,
      DrawFuzzColumnRGBACommand.Execute env command thread fb
        = some (DrawFuzzColumnRGBACommand.replay steps fb) ∧
      DrawFuzzColumnRGBACommand.ExecuteSteps env command thread = some steps ∧
      (steps.length : Int) = thread.count_for_thread (max command._yl 1)
        (min command._yh command._fuzzviewheight - max command._yl 1 + 1) ∧
      steps.map (fun s => s.dest)
        = (List.range steps.length).map (fun (k : Nat) =>
            thread.dest_for_thread (max command._yl 1) command._pitch
              (env.ylookup (max command._yl 1) + command._x + command._destorg)
            + (k : Int) * command._pitch * thread.num_cores) ∧
      (∀ idx : Int,
        (∀ k : Nat, k < steps.length →
          idx ≠ thread.dest_for_thread (max command._yl 1) command._pitch
              (env.ylookup (max command._yl 1) + command._x + command._destorg)
            + (k : Int) * command._pitch * thread.num_cores) →
        DrawFuzzColumnRGBACommand.replay steps fb idx = fb idx) ∧
      (command._pitch * thread.num_cores ≠ 0 →
        ∀ (l1 l2 : List DrawFuzzColumnRGBACommand.Step) (s : DrawFuzzColumnRGBACommand.Step),
          steps = l1 ++ s :: l2 →
          DrawFuzzColumnRGBACommand.replay steps fb s.dest
            = DrawFuzzColumnRGBACommand.darken
                (DrawFuzzColumnRGBACommand.replay l1 fb (s.dest + s.offset)))) ∧
    (∀ bg : Nat,
      DrawFuzzColumnRGBACommand.darken bg
        = 0xff000000 ||| ((RPART bg * 3 / 4) <<< 16) ||| ((GPART bg * 3 / 4) <<< 8)
          ||| (BPART bg * 3 / 4) ∧
      APART (DrawFuzzColumnRGBACommand.darken bg) = 0xff ∧
      RPART (DrawFuzzColumnRGBACommand.darken bg) = RPART bg * 3 / 4 ∧
      GPART (DrawFuzzColumnRGBACommand.darken bg) = GPART bg * 3 / 4 ∧
      BPART (DrawFuzzColumnRGBACommand.darken bg) = BPART bg * 3 / 4) := by
  constructor
  · obtain ⟨steps, hrun, hdest, -⟩ := ExecuteSteps_run env command thread hN hF hc
    have hlen : steps.length = (thread.count_for_thread (max command._yl 1)
        (min command._yh command._fuzzviewheight - max command._yl 1 + 1)).toNat := by
      have := congrArg List.length hdest
      simpa using this
    have hdest' : steps.map (fun s => s.dest)
        = (List.range steps.length).map (fun (k : Nat) =>
            thread.dest_for_thread (max command._yl 1) command._pitch
              (env.ylookup (max command._yl 1) + command._x + command._destorg)
            + (k : Int) * command._pitch * thread.num_cores) := by
      rw [hdest, hlen]
      apply List.map_congr_left
      intro k _
      ring
    refine ⟨steps, ?_, hrun, ?_, hdest', ?_, ?_⟩
    · rw [Execute_eq_replay, hrun]
      rfl
    · rw [hlen]
      omega
    · intro idx hidx
      apply replay_frame
      intro s hs hsd
      have hmem : s.dest ∈ steps.map (fun s => s.dest) := List.mem_map_of_mem _ hs
      rw [hdest'] at hmem
      obtain ⟨k, hk, hkd⟩ := List.mem_map.1 hmem
      rw [List.mem_range] at hk
      exact hidx k hk (by rw [← hsd, ← hkd])
    · intro hP l1 l2 s hsplit
      have hnd : (steps.map (fun s => s.dest)).Nodup := by
        rw [hdest']
        apply (List.nodup_range _).map
        intro a b hab
        simp only at hab
        have hab' : (a : Int) * (command._pitch * thread.num_cores)
            = (b : Int) * (command._pitch * thread.num_cores) := by
          have e1 := mul_assoc (a : Int) command._pitch thread.num_cores
          have e2 := mul_assoc (b : Int) command._pitch thread.num_cores
          omega
        exact_mod_cast mul_right_cancel₀ hP hab'
      rw [hsplit, List.map_append, List.map_cons] at hnd
      have hnd2 := (List.nodup_append.1 hnd).2.1
      rw [List.nodup_cons] at hnd2
      rw [hsplit]
      apply replay_stored
      intro t ht htd
      exact hnd2.1 (by rw [← htd]; exact List.mem_map_of_mem _ ht)
  · intro bg
    obtain ⟨-, hr, hg, hb⟩ := parts_lt bg
    have hp := parts_of_pack 255 (RPART bg * 3 / 4) (GPART bg * 3 / 4) (BPART bg * 3 / 4)
      (by omega) (by omega) (by omega) (by omega)
    rw [← darken_eq] at hp
    refine ⟨?_, hp.1, hp.2.1, hp.2.2.1, hp.2.2.2⟩
    rw [darken_eq]
    have e2 : shl32 (RPART bg * 3 / 4) 16 = (RPART bg * 3 / 4) <<< 16 := by
      simp only [shl32, U32, Nat.shiftLeft_eq]
      exact Nat.mod_eq_of_lt (by omega)
    have e3 : shl32 (GPART bg * 3 / 4) 8 = (GPART bg * 3 / 4) <<< 8 := by
      simp only [shl32, U32, Nat.shiftLeft_eq]
      exact Nat.mod_eq_of_lt (by omega)
    rw [e2, e3]
    rfl

/-- Witness for `DrawFuzzColumn_writes`: worker 0 of 3 on the example column
(rows 1 .. 120) owns rows 3, 6, .., 120; it makes 40 stores, the last one in
the bottom branch. -/
theorem DrawFuzzColumn_writes_witness :
    ((1 : Int) ≤ 3 ∧ 0 < exampleFuzzEnv.FUZZTABLE ∧
      0 < (⟨0, 3, 0, 200⟩ : DrawerThread).count_for_thread (max exampleFuzzColumn._yl 1)
        (min exampleFuzzColumn._yh exampleFuzzColumn._fuzzviewheight
          - max exampleFuzzColumn._yl 1 + 1)) ∧
    ∃ steps : List DrawFuzzColumnRGBACommand.Step,
      DrawFuzzColumnRGBACommand.Execute exampleFuzzEnv exampleFuzzColumn ⟨0, 3, 0, 200⟩
          exampleFrameBuffer
        = some (DrawFuzzColumnRGBACommand.replay steps exampleFrameBuffer) ∧
      (steps.length : Int) = 40 :=
  ⟨⟨by decide, by decide, by decide⟩,
    (DrawFuzzColumn_writes exampleFuzzEnv exampleFuzzColumn ⟨0, 3, 0, 200⟩ exampleFrameBuffer
      (by decide) (by decide) (by decide)).1.imp
      fun _ h => ⟨h.1, h.2.2.1.trans (by decide)⟩⟩

theorem ExecuteSteps_empty (env : DrawEnv) (command : DrawFuzzColumnRGBACommand)
    (thread : DrawerThread)
    (hc : thread.count_for_thread (max command._yl 1)
      (min command._yh command._fuzzviewheight - max command._yl 1 + 1) ≤ 0) :
    DrawFuzzColumnRGBACommand.ExecuteSteps env command thread = some [] := by
  unfold DrawFuzzColumnRGBACommand.ExecuteSteps
  simp only [hc, if_true]

theorem ExecuteSteps_rows (env : DrawEnv) (command : DrawFuzzColumnRGBACommand)
    (thread : DrawerThread) (hN : 1 ≤ thread.num_cores) (hF : 0 < env.FUZZTABLE)
    (h0 : 0 ≤ command._fuzzpos + thread.skipped_by_thread (max command._yl 1)) :
    ∃ steps : List DrawFuzzColumnRGBACommand.Step,
      DrawFuzzColumnRGBACommand.ExecuteSteps env command thread = some steps ∧
      steps = (List.range (thread.count_for_thread (max command._yl 1)
          (min command._yh command._fuzzviewheight - max command._yl 1 + 1)).toNat).map
        (DrawFuzzColumnRGBACommand.rowStep env command thread) := by
  by_cases hc : 0 < thread.count_for_thread (max command._yl 1)
      (min command._yh command._fuzzviewheight - max command._yl 1 + 1)
  · obtain ⟨steps, hrun, -, hsteps⟩ := ExecuteSteps_run env command thread hN hF hc
    exact ⟨steps, hrun, hsteps h0⟩
  · refine ⟨[], ExecuteSteps_empty env command thread (by omega), ?_⟩
    rw [Int.toNat_of_nonpos (by omega)]
    rfl

theorem inner_none_iff (env : DrawEnv) (pitch fuzzstep dest fuzz cnt : Int) (fb : FrameBuffer) :
    DrawFuzzColumnRGBACommand.inner env pitch fuzzstep cnt.toNat dest fuzz cnt fb = none
      ↔ cnt ≤ 0 := by
  constructor
  · intro h
    by_contra hcnt
    obtain ⟨n, rfl⟩ : ∃ n : Nat, cnt = (n : Int) + 1 := ⟨(cnt - 1).toNat, by omega⟩
    have e : ((n : Int) + 1).toNat = n + 1 := by omega
    rw [e, inner_eq_replay, innerSteps_run] at h
    exact absurd h (by simp)
  · intro h
    rw [Int.toNat_of_nonpos h]
    rfl

/-- C29. Fuzz table indexing is in bounds. For every worker with `num_cores >= 1`,
every captured `fuzzpos` in `[0, FUZZTABLE)` (only `0 <= fuzzpos` is needed),
every non-negative `skipped_by_thread` value and every row count, `Execute`
returns and each index
it uses to read `fuzzoffset` (in the top branch, the inner loop and the bottom
branch alike) lies in `[0, FUZZTABLE)`. The inner `do ... while (--cnt)` loop
fails to come to an end exactly when it is entered with `cnt <= 0`, so that
`Execute` returns says it is always entered with `cnt >= 1`. -/
theorem fuzz_index_in_bounds (env : DrawEnv) (command : DrawFuzzColumnRGBACommand)
    (thread : DrawerThread) (hN : 1 ≤ thread.num_cores) (hF : 0 < env.FUZZTABLE)
    (hp0 : 0 ≤ command._fuzzpos)
    (hs : 0 ≤ thread.skipped_by_thread (max command._yl 1)) :
    (∃ steps : List DrawFuzzColumnRGBACommand.Step,
      DrawFuzzColumnRGBACommand.ExecuteSteps env command thread = some steps ∧
      (∀ fb : FrameBuffer, DrawFuzzColumnRGBACommand.Execute env command thread fb
        = some (DrawFuzzColumnRGBACommand.replay steps fb)) ∧
      ∀ s ∈ steps, 0 ≤ s.fuzz ∧ s.fuzz < env.FUZZTABLE) ∧
    (∀ (pitch fuzzstep dest fuzz cnt : Int) (fb : FrameBuffer),
      DrawFuzzColumnRGBACommand.inner env pitch fuzzstep cnt.toNat dest fuzz cnt fb = none
        ↔ cnt ≤ 0) := by
  refine ⟨?_, inner_none_iff env⟩
  obtain ⟨steps, hrun, hsteps⟩ := ExecuteSteps_rows env command thread hN hF (by omega)
  refine ⟨steps, hrun, fun fb => by rw [Execute_eq_replay, hrun]; rfl, fun s hs' => ?_⟩
  rw [hsteps] at hs'
  obtain ⟨k, -, rfl⟩ := List.mem_map.1 hs'
  exact ⟨Int.emod_nonneg _ (by omega), Int.emod_lt_of_pos _ hF⟩

/-- Witness for `fuzz_index_in_bounds`: worker 1 of 3 on the example column
(`fuzzpos = 47` in a table of 50) owns row 1, so it takes the top branch and
wraps around the table; all its indices are in bounds. -/
theorem fuzz_index_in_bounds_witness :
    ((1 : Int) ≤ 3 ∧ 0 < exampleFuzzEnv.FUZZTABLE ∧ 0 ≤ exampleFuzzColumn._fuzzpos ∧
      0 ≤ (⟨1, 3, 0, 200⟩ : DrawerThread).skipped_by_thread (max exampleFuzzColumn._yl 1)) ∧
    ∃ steps : List DrawFuzzColumnRGBACommand.Step,
      DrawFuzzColumnRGBACommand.ExecuteSteps exampleFuzzEnv exampleFuzzColumn ⟨1, 3, 0, 200⟩
        = some steps ∧
      ∀ s ∈ steps, 0 ≤ s.fuzz ∧ s.fuzz < 50 :=
  ⟨⟨by decide, by decide, by decide, by decide⟩,
    (fuzz_index_in_bounds exampleFuzzEnv exampleFuzzColumn ⟨1, 3, 0, 200⟩
      (by decide) (by decide) (by decide) (by decide)).1.imp
      fun _ h => ⟨h.1, h.2.2⟩⟩

/-- C30. Fuzz phase is independent of the worker split. With `s =
skipped_by_thread(yl)` and `N = num_cores`, the index `Execute` uses to read
`fuzzoffset` for the worker's `k`-th pixel is `(fuzzpos + s + k*N) mod
FUZZTABLE`, and that pixel lies in row `yl + s + k*N`. Hence two workers (for
instance one of `N` workers and the single worker of a one-worker run, which
advances the index by one per row) use the same index for the same row. -/
theorem fuzz_phase (env : DrawEnv) (command : DrawFuzzColumnRGBACommand)
    (thread : DrawerThread) (hN : 1 ≤ thread.num_cores) (hF : 0 < env.FUZZTABLE)
    (hp0 : 0 ≤ command._fuzzpos)
    (hs : 0 ≤ thread.skipped_by_thread (max command._yl 1)) :
    ∃ steps : List DrawFuzzColumnRGBACommand.Step,
      DrawFuzzColumnRGBACommand.ExecuteSteps env command thread = some steps ∧
      steps.length = (thread.count_for_thread (max command._yl 1)
        (min command._yh command._fuzzviewheight - max command._yl 1 + 1)).toNat ∧
      (∀ (k : Nat) (hk : k < steps.length),
        steps[k].fuzz = (command._fuzzpos + thread.skipped_by_thread (max command._yl 1)
          + (k : Int) * thread.num_cores) % env.FUZZTABLE ∧
        steps[k].dest = thread.dest_for_thread (max command._yl 1) command._pitch
            (env.ylookup (max command._yl 1) + command._x + command._destorg)
          + (k : Int) * command._pitch * thread.num_cores) ∧
      (∀ (thread' : DrawerThread) (steps' : List DrawFuzzColumnRGBACommand.Step),
        1 ≤ thread'.num_cores → 0 ≤ thread'.skipped_by_thread (max command._yl 1) →
        DrawFuzzColumnRGBACommand.ExecuteSteps env command thread' = some steps' →
        ∀ (k k' : Nat) (hk : k < steps.length) (hk' : k' < steps'.length),
          thread.skipped_by_thread (max command._yl 1) + (k : Int) * thread.num_cores
            = thread'.skipped_by_thread (max command._yl 1) + (k' : Int) * thread'.num_cores →
          steps[k].fuzz = steps'[k'].fuzz) := by
  obtain ⟨steps, hrun, hsteps⟩ := ExecuteSteps_rows env command thread hN hF (by omega)
  have hget : ∀ (k : Nat) (hk : k < steps.length),
      steps[k] = DrawFuzzColumnRGBACommand.rowStep env command thread k := by
    intro k hk
    subst hsteps
    simp
  refine ⟨steps, hrun, by rw [hsteps]; simp, fun k hk => ?_, ?_⟩
  · rw [hget k hk]
    refine ⟨rfl, ?_⟩
    show _ + (k : Int) * (command._pitch * thread.num_cores) = _
    ring
  · intro thread' steps' hN' hs' hrun' k k' hk hk' hrow
    obtain ⟨steps2, hrun2, hsteps2⟩ := ExecuteSteps_rows env command thread' hN' hF (by omega)
    rw [hrun'] at hrun2
    injection hrun2 with hrun2
    subst hrun2
    have hget' : steps'[k'] = DrawFuzzColumnRGBACommand.rowStep env command thread' k' := by
      subst hsteps2
      simp
    rw [hget k hk, hget']
    show (_ : Int) % _ = _ % _
    have e1 : command._fuzzpos + thread.skipped_by_thread (max command._yl 1)
          + (k : Int) * thread.num_cores
        = command._fuzzpos + (thread.skipped_by_thread (max command._yl 1)
          + (k : Int) * thread.num_cores) := by ring
    have e2 : command._fuzzpos + thread'.skipped_by_thread (max command._yl 1)
          + (k' : Int) * thread'.num_cores
        = command._fuzzpos + (thread'.skipped_by_thread (max command._yl 1)
          + (k' : Int) * thread'.num_cores) := by ring
    rw [e1, e2, hrow]

/-- Witness for `fuzz_phase`: worker 0 of 3 on the example column skips 2 rows;
its 40 pixels use the indices `(47 + 2 + 3k) mod 50`. -/
theorem fuzz_phase_witness :
    ((1 : Int) ≤ 3 ∧ 0 < exampleFuzzEnv.FUZZTABLE ∧ 0 ≤ exampleFuzzColumn._fuzzpos ∧
      0 ≤ (⟨0, 3, 0, 200⟩ : DrawerThread).skipped_by_thread (max exampleFuzzColumn._yl 1)) ∧
    ∃ steps : List DrawFuzzColumnRGBACommand.Step,
      DrawFuzzColumnRGBACommand.ExecuteSteps exampleFuzzEnv exampleFuzzColumn ⟨0, 3, 0, 200⟩
        = some steps ∧
      steps.length = 40 ∧
      ∀ (k : Nat) (hk : k < steps.length), steps[k].fuzz = (47 + 2 + (k : Int) * 3) % 50 :=
  ⟨⟨by decide, by decide, by decide, by decide⟩,
    (fuzz_phase exampleFuzzEnv exampleFuzzColumn ⟨0, 3, 0, 200⟩
      (by decide) (by decide) (by decide) (by decide)).imp
      fun _ h => ⟨h.1, h.2.1.trans (by decide), fun k hk => (h.2.2.1 k hk).1⟩⟩

/-! ## The two forms of the special colormap filter -/

set_option maxRecDepth 100000 in
/-- C21 (the code at the failing input). A filter from black `(0,0,0)` to white
`(255,255,255)` on a row of white pixels `0xffffffff`: the wide (SSE) form of
`ApplySpecialColormapRGBACommand::Execute` stores `0xfffefefe`, the scalar form
(`NO_SSE`) stores `0xffffffff` for the same pixel. The wide loop weights with
`gray = (77 R + 143 G + 37 B) >> 8`, the scalar loop goes on with
`gray += gray >> 7`. In a row of five pixels the wide form itself treats the
fifth pixel, which its scalar tail loop handles, unlike the first four. On
black pixels, and on four different dark pixels (gray below 128, where
`gray >> 7` is 0) under a filter from `(10, 20, 30)` to `(200, 150, 100)`,
the two forms agree. -/
theorem ApplySpecialColormap_forms_differ :
    ApplySpecialColormapRGBACommand.Execute exampleColormap ⟨0, 1, 0, 200⟩
        exampleWhiteFrameBuffer 0 = 0xfffefefe ∧
    ApplySpecialColormapRGBACommand.Execute_NO_SSE exampleColormap ⟨0, 1, 0, 200⟩
        exampleWhiteFrameBuffer 0 = 0xffffffff ∧
    (List.range 5).map (fun (i : Nat) =>
        ApplySpecialColormapRGBACommand.Execute { exampleColormap with width := 5, pitch := 5 }
          ⟨0, 1, 0, 200⟩ exampleWhiteFrameBuffer (i : Int))
      = [0xfffefefe, 0xfffefefe, 0xfffefefe, 0xfffefefe, 0xffffffff] ∧
    ApplySpecialColormapRGBACommand.Execute exampleColormap ⟨0, 1, 0, 200⟩
        exampleFrameBuffer 0 = 0xff000000 ∧
    ApplySpecialColormapRGBACommand.Execute_NO_SSE exampleColormap ⟨0, 1, 0, 200⟩
        exampleFrameBuffer 0 = 0xff000000 ∧
    (List.range 4).map (fun (i : Nat) =>
        ApplySpecialColormapRGBACommand.Execute exampleTintColormap ⟨0, 1, 0, 200⟩
          exampleDarkFrameBuffer (i : Int))
      = [0xff1f2225, 0xff433b33, 0xff0a141e, 0xff262728] ∧
    (List.range 4).map (fun (i : Nat) =>
        ApplySpecialColormapRGBACommand.Execute_NO_SSE exampleTintColormap ⟨0, 1, 0, 200⟩
          exampleDarkFrameBuffer (i : Int))
      = [0xff1f2225, 0xff433b33, 0xff0a141e, 0xff262728] := by
  decide

/-! ## What a command reads while it executes -/

theorem rowStep_congr (env1 env2 : DrawEnv) (command : DrawFuzzColumnRGBACommand)
    (thread : DrawerThread) (hF : 0 < env1.FUZZTABLE)
    (hy : env1.ylookup (max command._yl 1) = env2.ylookup (max command._yl 1))
    (hT : env1.FUZZTABLE = env2.FUZZTABLE)
    (hf : ∀ i, 0 ≤ i → i < env1.FUZZTABLE → env1.fuzzoffset i = env2.fuzzoffset i) (k : Nat) :
    DrawFuzzColumnRGBACommand.rowStep env1 command thread k
      = DrawFuzzColumnRGBACommand.rowStep env2 command thread k := by
  unfold DrawFuzzColumnRGBACommand.rowStep
  simp only
  rw [← hy, ← hT, hf _ (Int.emod_nonneg _ (by omega)) (Int.emod_lt_of_pos _ hF)]

set_option maxRecDepth 100000 in
/-- C22 (counterexample). `Execute` does read lookup globals: with the captured
fields, the worker descriptor, the frame buffer and every ambient variable the
same in both runs, a fuzz column gives another frame buffer when only
`ylookup` differs, and another one when only `fuzzoffset` differs; a
translucent fill column gives another frame buffer when only the palette
differs. -/
theorem Execute_reads_lookup_tables :
    (DrawerCommand.Execute exampleGlobals (.DrawFuzzColumnRGBACommand exampleFuzzColumn)
        ⟨0, 1, 0, 200⟩ exampleRowFrameBuffer).map (fun fb => fb 327)
      ≠ (DrawerCommand.Execute { exampleGlobals with ylookup := fun y => y * 640 }
          (.DrawFuzzColumnRGBACommand exampleFuzzColumn) ⟨0, 1, 0, 200⟩
          exampleRowFrameBuffer).map (fun fb => fb 327) ∧
    (DrawerCommand.Execute exampleGlobals (.DrawFuzzColumnRGBACommand exampleFuzzColumn)
        ⟨0, 1, 0, 200⟩ exampleRowFrameBuffer).map (fun fb => fb 327)
      ≠ (DrawerCommand.Execute { exampleGlobals with fuzzoffset := fun _ => 320 }
          (.DrawFuzzColumnRGBACommand exampleFuzzColumn) ⟨0, 1, 0, 200⟩
          exampleRowFrameBuffer).map (fun fb => fb 327) ∧
    (DrawerCommand.Execute exampleGlobals
        (.FillTransColumnRGBACommand (FillTransColumnRGBACommand.new exampleGlobals 7 1 3 0 255))
        ⟨0, 1, 0, 200⟩ exampleRowFrameBuffer).map (fun fb => fb 327)
      ≠ (DrawerCommand.Execute { exampleGlobals with palette := fun _ => 0xff445566 }
          (.FillTransColumnRGBACommand (FillTransColumnRGBACommand.new exampleGlobals 7 1 3 0 255))
          ⟨0, 1, 0, 200⟩ exampleRowFrameBuffer).map (fun fb => fb 327) := by
  decide

theorem fuzzInner_congr (env1 env2 : DrawEnv) (h : env1.fuzzoffset = env2.fuzzoffset)
    (pitch fuzzstep : Int) :
    ∀ (fuel : Nat) (dest fuzz cnt : Int) (fb : FrameBuffer),
      DrawFuzzColumnRGBACommand.inner env1 pitch fuzzstep fuel dest fuzz cnt fb
        = DrawFuzzColumnRGBACommand.inner env2 pitch fuzzstep fuel dest fuzz cnt fb
  | 0, _, _, _, _ => rfl
  | fuel + 1, dest, fuzz, cnt, fb => by
    unfold DrawFuzzColumnRGBACommand.inner
    simp only [h, fuzzInner_congr env1 env2 h pitch fuzzstep fuel]

theorem fuzzMiddle_congr (env1 env2 : DrawEnv) (h : env1.fuzzoffset = env2.fuzzoffset)
    (hT : env1.FUZZTABLE = env2.FUZZTABLE) (pitch fuzzstep : Int) :
    ∀ (fuel : Nat) (dest fuzz count : Int) (fb : FrameBuffer),
      DrawFuzzColumnRGBACommand.middle env1 pitch fuzzstep fuel dest fuzz count fb
        = DrawFuzzColumnRGBACommand.middle env2 pitch fuzzstep fuel dest fuzz count fb
  | 0, _, _, _, _ => rfl
  | fuel + 1, dest, fuzz, count, fb => by
    unfold DrawFuzzColumnRGBACommand.middle
    simp only [hT, fuzzInner_congr env1 env2 h, fuzzMiddle_congr env1 env2 h hT pitch fuzzstep fuel]

theorem fuzzExecute_congr (env1 env2 : DrawEnv) (h : env1.fuzzoffset = env2.fuzzoffset)
    (hT : env1.FUZZTABLE = env2.FUZZTABLE) (hy : env1.ylookup = env2.ylookup)
    (command : DrawFuzzColumnRGBACommand) (thread : DrawerThread) (fb : FrameBuffer) :
    DrawFuzzColumnRGBACommand.Execute env1 command thread fb
      = DrawFuzzColumnRGBACommand.Execute env2 command thread fb := by
  unfold DrawFuzzColumnRGBACommand.Execute DrawFuzzColumnRGBACommand.afterTop
  simp only [h, hT, hy, fuzzMiddle_congr env1 env2 h hT]

theorem slabRowLoop_congr (env1 env2 : DrawEnv) (h : env1.FRACBITS = env2.FRACBITS)
    (shade : Int → Nat) (row : Int → Nat → FrameBuffer → FrameBuffer) (pitch vi : Int) :
    ∀ (fuel : Nat) (dy p v : Int) (fb : FrameBuffer),
      DrawSlabRGBACommand.rowLoop env1 shade row pitch vi fuel dy p v fb
        = DrawSlabRGBACommand.rowLoop env2 shade row pitch vi fuel dy p v fb
  | 0, _, _, _, _ => rfl
  | fuel + 1, dy, p, v, fb => by
    unfold DrawSlabRGBACommand.rowLoop
    simp only [h, slabRowLoop_congr env1 env2 h shade row pitch vi fuel]

theorem slabExecute_congr (env1 env2 : DrawEnv) (h : env1.FRACBITS = env2.FRACBITS)
    (shade : Int → Nat) (command : DrawSlabRGBACommand) (thread : DrawerThread)
    (fb : FrameBuffer) :
    DrawSlabRGBACommand.Execute env1 shade command thread fb
      = DrawSlabRGBACommand.Execute env2 shade command thread fb := by
  unfold DrawSlabRGBACommand.Execute
  simp only [slabRowLoop_congr env1 env2 h]

/-- C22 (amended). Snapshot noninterference with respect to the ambient variables.
`DrawerCommand.Execute` hands the whole process state to the `Execute` of the
command; for every command class of the file, with the same captured fields,
worker descriptor and frame buffer, the result is the same whatever the
ambient variables (`dc_*`, `ds_*`, `fuzzpos`, `fuzzviewheight`, `vplce`,
`vince`) hold when it runs, the rest of the state (lookup tables, helpers of
the header, memory behind the captured pointers) being the same. Of the
lookup tables the span iterator reads only `ylookup[_y]`, the translucent fill
column only `GPalette` at `_color` and `ylookup[_y1]`, and the fuzz column (on
a worker with `num_cores >= 1`, with a `fuzzpos` and a skip count that are not
negative) only `ylookup[yl]`, `FUZZTABLE` and the entries `0 .. FUZZTABLE-1`
of `fuzzoffset`. -/
theorem snapshot_noninterference :
    (∀ (g : Globals) (ambient : Ambient) (command : DrawerCommand) (thread : DrawerThread)
        (fb : FrameBuffer),
      DrawerCommand.Execute { g with toAmbient := ambient } command thread fb
        = DrawerCommand.Execute g command thread fb) ∧
    (∀ (env1 env2 : DrawEnv) (kernel : DrawerSpanCommand.LoopIterator → Nat → Nat)
      (command : DrawerSpanCommand) (thread : DrawerThread) (fb : FrameBuffer),
      env1.ylookup command._y = env2.ylookup command._y →
      DrawerSpanCommand.Execute env1 kernel command thread fb
        = DrawerSpanCommand.Execute env2 kernel command thread fb) ∧
    (∀ (env1 env2 : DrawEnv) (command : FillTransColumnRGBACommand) (thread : DrawerThread)
      (fb : FrameBuffer),
      env1.ylookup command._y1 = env2.ylookup command._y1 →
      env1.palette command._color = env2.palette command._color →
      FillTransColumnRGBACommand.Execute env1 command thread fb
        = FillTransColumnRGBACommand.Execute env2 command thread fb) ∧
    (∀ (env1 env2 : DrawEnv) (command : DrawFuzzColumnRGBACommand) (thread : DrawerThread)
      (fb : FrameBuffer),
      1 ≤ thread.num_cores → 0 < env1.FUZZTABLE → 0 ≤ command._fuzzpos →
      0 ≤ thread.skipped_by_thread (max command._yl 1) →
      env1.ylookup (max command._yl 1) = env2.ylookup (max command._yl 1) →
      env1.FUZZTABLE = env2.FUZZTABLE →
      (∀ i, 0 ≤ i → i < env1.FUZZTABLE → env1.fuzzoffset i = env2.fuzzoffset i) →
      DrawFuzzColumnRGBACommand.Execute env1 command thread fb
        = DrawFuzzColumnRGBACommand.Execute env2 command thread fb) := by
  refine ⟨?_, ?_, ?_, ?_⟩
  · intro g ambient command thread fb
    cases command with
    | DrawFuzzColumnRGBACommand command =>
      exact fuzzExecute_congr { g with toAmbient := ambient } g rfl rfl rfl command thread fb
    | DrawSlabRGBACommand command shading =>
      exact congrArg some
        (slabExecute_congr { g with toAmbient := ambient } g rfl _ command thread fb)
    | _ => rfl
  · intro env1 env2 kernel command thread fb hy
    unfold DrawerSpanCommand.Execute DrawerSpanCommand.LoopIterator.new
    simp only [hy]
  · intro env1 env2 command thread fb hy hp
    unfold FillTransColumnRGBACommand.Execute
    simp only [hy, hp]
  · intro env1 env2 command thread fb hN hF hp0 hs hy hT hf
    obtain ⟨steps1, hrun1, hsteps1⟩ := ExecuteSteps_rows env1 command thread hN hF (by omega)
    obtain ⟨steps2, hrun2, hsteps2⟩ :=
      ExecuteSteps_rows env2 command thread hN (by omega) (by omega)
    rw [Execute_eq_replay, Execute_eq_replay, hrun1, hrun2, hsteps1, hsteps2]
    rw [funext (rowStep_congr env1 env2 command thread hF hy hT hf)]

/-- An instance of `snapshot_noninterference`: the fuzz column queued from the
example variables gives the same frame buffer after every ambient variable has
been overwritten, and so does a textured column. -/
theorem snapshot_noninterference_witness :
    exampleGlobalsLater = { exampleGlobals with toAmbient := exampleGlobalsLater.toAmbient } ∧
    exampleGlobals.dc_x ≠ exampleGlobalsLater.dc_x ∧
    exampleGlobals.fuzzpos ≠ exampleGlobalsLater.fuzzpos ∧
    DrawerCommand.Execute exampleGlobalsLater
        (.DrawFuzzColumnRGBACommand (DrawFuzzColumnRGBACommand.new exampleGlobals))
        ⟨0, 3, 0, 200⟩ exampleRowFrameBuffer
      = DrawerCommand.Execute exampleGlobals
        (.DrawFuzzColumnRGBACommand (DrawFuzzColumnRGBACommand.new exampleGlobals))
        ⟨0, 3, 0, 200⟩ exampleRowFrameBuffer ∧
    DrawerCommand.Execute exampleGlobalsLater (.DrawColumnRGBACommand exampleColumn)
        ⟨0, 3, 0, 200⟩ exampleRowFrameBuffer
      = DrawerCommand.Execute exampleGlobals (.DrawColumnRGBACommand exampleColumn)
        ⟨0, 3, 0, 200⟩ exampleRowFrameBuffer :=
  ⟨rfl, by decide, by decide,
    snapshot_noninterference.1 exampleGlobals exampleGlobalsLater.toAmbient _ _ _,
    snapshot_noninterference.1 exampleGlobals exampleGlobalsLater.toAmbient _ _ _⟩

/-! ## Completion barrier -/

theorem passLoop_congr {Cmd : Type} (env : Env) (qa qb : DrawerCommandQueue Cmd)
    (h1 : qa.num_passes = qb.num_passes) (h2 : qa.rows_in_pass = qb.rows_in_pass)
    (h3 : qa.active_commands = qb.active_commands) :
    ∀ (fuel : Nat) (pass : Int) (t : DrawerThread),
      passLoop (WorkerLoop.passWindow env qa) qa fuel pass t
        = passLoop (WorkerLoop.passWindow env qb) qb fuel pass t
  | 0, _, _ => rfl
  | fuel + 1, pass, t => by
    have hw : WorkerLoop.passWindow env qa t pass = WorkerLoop.passWindow env qb t pass := by
      unfold WorkerLoop.passWindow
      rw [h1, h2]
    unfold passLoop
    rw [h1, h3, hw]
    simp only [passLoop_congr env qa qb h1 h2 h3 fuel]

theorem passLoop_no_destroy {Cmd : Type} (window : DrawerThread → Int → DrawerThread)
    (q : DrawerCommandQueue Cmd) (c : Cmd) :
    ∀ (fuel : Nat) (pass : Int) (t : DrawerThread),
      Event.destroy c ∉ (passLoop window q fuel pass t).2
  | 0, _, _ => by simp [passLoop]
  | fuel + 1, pass, t => by
    unfold passLoop
    split
    · simp only [List.mem_append, not_or]
      refine ⟨?_, passLoop_no_destroy window q c fuel _ _⟩
      rw [executeLoop_eq_map _ _ _ _ (by omega)]
      simp
    · simp

theorem countP_range_congr (p p' : Nat → Bool) :
    ∀ n : Nat, (∀ j, j < n → p' j = p j) →
      (List.range n).countP p' = (List.range n).countP p
  | 0, _ => rfl
  | n + 1, h => by
    rw [List.range_succ, List.countP_append, List.countP_append,
      countP_range_congr p p' n (fun j hj => h j (by omega))]
    simp only [List.countP_cons, List.countP_nil, h n (by omega)]

theorem countP_range_update (p p' : Nat → Bool) (i : Nat) :
    ∀ n : Nat, i < n → (∀ j, j ≠ i → p' j = p j) →
      (List.range n).countP p' + (if p i then 1 else 0)
        = (List.range n).countP p + (if p' i then 1 else 0)
  | 0, hi, _ => absurd hi (by omega)
  | n + 1, hi, h => by
    rw [List.range_succ, List.countP_append, List.countP_append]
    by_cases hin : i = n
    · subst hin
      rw [countP_range_congr p p' i (fun j hj => h j (by omega))]
      simp only [List.countP_cons, List.countP_nil]
      cases p i <;> cases p' i <;> simp
    · have ih := countP_range_update p p' i n (by omega) h
      have hn := h n (fun e => hin e.symm)
      simp only [List.countP_cons, List.countP_nil, hn]
      omega

theorem countP_range_le (p : Nat → Bool) (n : Nat) : (List.range n).countP p ≤ n := by
  have := List.countP_le_length p (l := List.range n)
  simpa using this

theorem countP_range_full (p : Nat → Bool) (n : Nat) (h : (List.range n).countP p = n) :
    ∀ i, i < n → p i = true := by
  intro i hi
  have h' : (List.range n).countP p = (List.range n).length := by simpa using h
  exact (List.countP_eq_length.1 h') i (List.mem_range.2 hi)

theorem WorkerInv_mono {Cmd : Type} (env : Env) (q0 : DrawerCommandQueue Cmd)
    (log extra : List (Event Cmd)) (w : PoolThread) (pc : Barrier.WorkerPc) (w0 : PoolThread)
    (h : Barrier.WorkerInv env q0 log w pc w0) :
    Barrier.WorkerInv env q0 (log ++ extra) w pc w0 := by
  cases pc with
  | parked =>
    rcases h with h | h
    · exact Or.inl h
    · exact Or.inr ⟨h.1, h.2.trans (List.sublist_append_left _ _)⟩
  | running => exact h
  | counting => exact ⟨h.1, h.2.trans (List.sublist_append_left _ _)⟩
  | exited => exact h

theorem done_congr {Cmd : Type} (s s' : Barrier.State Cmd) (j : Nat)
    (h1 : s'.queue.threads[j]? = s.queue.threads[j]?) (h2 : s'.pool[j]? = s.pool[j]?)
    (h3 : s'.queue.run_id = s.queue.run_id) : Barrier.done s' j = Barrier.done s j := by
  unfold Barrier.done
  rw [h1, h2, h3]

theorem callerStep_Inv {Cmd : Type} (env : Env) (q0 : DrawerCommandQueue Cmd)
    (s : Barrier.State Cmd) (h : Barrier.Inv env q0 s) :
    Barrier.Inv env q0 (Barrier.callerStep env s) := by
  obtain ⟨hq, hlen, hw, h4, h5, h6, h7⟩ := h
  unfold Barrier.callerStep
  split
  · rename_i hc
    have hd : ∀ log : List (Event Cmd),
        Barrier.done { s with caller := Barrier.CallerPc.waiting, log := log } = Barrier.done s :=
      fun log => funext (fun j => done_congr _ _ j rfl rfl rfl)
    refine ⟨hq, hlen, fun i w pc w0 h1 h2 h3 => WorkerInv_mono _ _ _ _ _ _ _ (hw i w pc w0 h1 h2 h3),
      fun _ => ?_, fun _ => ?_, fun hx => ?_, fun hx => absurd hx (by simp)⟩
    · obtain ⟨a, b, c⟩ := h4 (by rw [hc]; simp)
      refine ⟨a, b, fun c' hmem => ?_⟩
      rcases List.mem_append.1 hmem with hmem | hmem
      · exact c c' hmem
      · exact passLoop_no_destroy _ _ c' _ _ _ hmem
    · show s.queue.finished_threads = _
      rw [hd]
      exact h5 (Or.inl hc)
    · rcases hx with hx | hx <;> exact absurd hx (by simp)
  · rename_i hc
    split
    · rename_i hfin
      have hd : Barrier.done { s with caller := Barrier.CallerPc.cleaning } = Barrier.done s :=
        funext (fun j => done_congr _ _ j rfl rfl rfl)
      have hcount := h5 (Or.inr hc)
      have hfull : (List.range q0.threads.length).countP (Barrier.done s) = q0.threads.length := by
        rw [← hcount, hfin, hlen.1]
      refine ⟨hq, hlen, hw, fun _ => h4 (by rw [hc]; simp),
        fun hx => ?_, fun _ => ?_, fun _ => ?_⟩
      · rcases hx with hx | hx <;> exact absurd hx (by simp)
      · rw [hd]
        exact countP_range_full _ _ hfull
      · show s.queue.finished_threads = _
        rw [hfin, hlen.1]
    · exact ⟨hq, hlen, hw, h4, h5, h6, h7⟩
  · rename_i hc
    refine ⟨hq, hlen, fun i w pc w0 h1 h2 h3 => WorkerInv_mono _ _ _ _ _ _ _ (hw i w pc w0 h1 h2 h3),
      fun hx => absurd rfl hx, fun hx => ?_, fun _ => ?_, fun hx => absurd hx (by simp)⟩
    · rcases hx with hx | hx <;> exact absurd hx (by simp)
    · intro i hi
      exact (done_congr s _ i rfl rfl rfl).trans (h6 (Or.inl hc) i hi)
  · exact ⟨hq, hlen, hw, h4, h5, h6, h7⟩

theorem getElem?_some_lt {α : Type} {l : List α} {i : Nat} {a : α} (h : l[i]? = some a) :
    i < l.length := by
  by_contra hge
  rw [List.getElem?_eq_none (by omega)] at h
  exact absurd h (by simp)

theorem worker_update_Inv {Cmd : Type} (env : Env) (q0 : DrawerCommandQueue Cmd)
    (s : Barrier.State Cmd) (h : Barrier.Inv env q0 s) (i : Nat)
    (w w0 w' : PoolThread) (pc pc' : Barrier.WorkerPc)
    (ht : s.queue.threads[i]? = some w) (hp : s.pool[i]? = some pc)
    (h0 : q0.threads[i]? = some w0) (extra : List (Event Cmd)) (f' : Nat)
    (hnot : Barrier.done s i = false)
    (hwinv : Barrier.WorkerInv env q0 (s.log ++ extra) w' pc' w0)
    (hnd : ∀ c, Event.destroy c ∉ extra)
    (hfin : f' = s.queue.finished_threads
      + (if pc' = Barrier.WorkerPc.parked ∧ w'.run_id = s.queue.run_id then 1 else 0)) :
    Barrier.Inv env q0
      { queue := { s.queue with threads := s.queue.threads.set i w', finished_threads := f' }
        caller := s.caller
        pool := s.pool.set i pc'
        log := s.log ++ extra } := by
  obtain ⟨hq, hlen, hw, h4, h5, h6, h7⟩ := h
  have hi : i < q0.threads.length := by
    have := getElem?_some_lt ht
    omega
  have hcaller : s.caller = Barrier.CallerPc.working ∨ s.caller = Barrier.CallerPc.waiting := by
    cases hc : s.caller with
    | working => exact Or.inl rfl
    | waiting => exact Or.inr rfl
    | cleaning =>
      have := h6 (Or.inl hc) i hi
      rw [hnot] at this
      exact absurd this (by simp)
    | returned =>
      have := h6 (Or.inr hc) i hi
      rw [hnot] at this
      exact absurd this (by simp)
  have hcne : s.caller ≠ Barrier.CallerPc.cleaning ∧ s.caller ≠ Barrier.CallerPc.returned := by
    rcases hcaller with hc | hc <;> rw [hc] <;> exact ⟨by simp, by simp⟩
  refine ⟨hq, ⟨by simpa using hlen.1, by simpa using hlen.2.1, hlen.2.2⟩, ?_, ?_, ?_, ?_, ?_⟩
  · intro j w1 pc1 w01 h1 h2 h3
    by_cases hj : j = i
    · subst hj
      have e1 : (s.queue.threads.set j w')[j]? = some w' :=
        List.getElem?_set_eq_of_lt _ (getElem?_some_lt ht)
      have e2 : (s.pool.set j pc')[j]? = some pc' :=
        List.getElem?_set_eq_of_lt _ (getElem?_some_lt hp)
      have h1' : some w' = some w1 := e1.symm.trans h1
      have h2' : some pc' = some pc1 := e2.symm.trans h2
      have h3' : some w0 = some w01 := h0.symm.trans h3
      injection h1' with h1'
      injection h2' with h2'
      injection h3' with h3'
      subst h1' h2' h3'
      exact hwinv
    · have e1 : (s.queue.threads.set i w')[j]? = s.queue.threads[j]? :=
        List.getElem?_set_ne (fun e => hj e.symm)
      have e2 : (s.pool.set i pc')[j]? = s.pool[j]? :=
        List.getElem?_set_ne (fun e => hj e.symm)
      exact WorkerInv_mono _ _ _ _ _ _ _ (hw j w1 pc1 w01 (e1.symm.trans h1) (e2.symm.trans h2) h3)
  · intro hx
    obtain ⟨a, b, c⟩ := h4 hx
    refine ⟨a, b, fun c' hmem => ?_⟩
    rcases List.mem_append.1 hmem with hmem | hmem
    · exact c c' hmem
    · exact hnd c' hmem
  · intro _
    have key : ∀ s' : Barrier.State Cmd,
        (∀ j, j ≠ i → Barrier.done s' j = Barrier.done s j) →
        Barrier.done s' i = decide (pc' = Barrier.WorkerPc.parked ∧ w'.run_id = s.queue.run_id) →
        f' = (List.range q0.threads.length).countP (Barrier.done s') := by
      intro s' hne hnew
      have hupd := countP_range_update (Barrier.done s) (Barrier.done s') i q0.threads.length hi
        hne
      rw [hnot, hnew] at hupd
      have h5' := h5 hcaller
      by_cases hcond : pc' = Barrier.WorkerPc.parked ∧ w'.run_id = s.queue.run_id
      · simp only [hcond, and_self, decide_True, if_true, Bool.false_eq_true, if_false]
          at hupd hfin
        omega
      · simp only [hcond, decide_False, if_false, Bool.false_eq_true] at hupd hfin
        omega
    refine key _ (fun j hj => done_congr _ _ j (List.getElem?_set_ne (fun e => hj e.symm))
      (List.getElem?_set_ne (fun e => hj e.symm)) rfl) ?_
    unfold Barrier.done
    have e1 : (s.queue.threads.set i w')[i]? = some w' :=
      List.getElem?_set_eq_of_lt _ (getElem?_some_lt ht)
    have e2 : (s.pool.set i pc')[i]? = some pc' :=
      List.getElem?_set_eq_of_lt _ (getElem?_some_lt hp)
    simp only [e1, e2]
    cases pc' <;> simp
  · intro hx
    rcases hx with hx | hx
    · exact absurd hx hcne.1
    · exact absurd hx hcne.2
  · intro hx
    exact absurd hx hcne.1

theorem set_of_getElem? {α : Type} :
    ∀ (l : List α) (i : Nat) (a : α), l[i]? = some a → l.set i a = l
  | [], _, _, _ => rfl
  | x :: l, 0, a, h => by
    simp only [List.getElem?_cons_zero, Option.some.injEq] at h
    rw [List.set_cons_zero, h]
  | x :: l, i + 1, a, h => by
    simp only [List.getElem?_cons_succ] at h
    rw [List.set_cons_succ, set_of_getElem? l i a h]

theorem caller_before_barrier {Cmd : Type} (env : Env) (q0 : DrawerCommandQueue Cmd)
    (s : Barrier.State Cmd) (h : Barrier.Inv env q0 s) (i : Nat) (hi : i < q0.threads.length)
    (hnot : Barrier.done s i = false) :
    s.caller = Barrier.CallerPc.working ∨ s.caller = Barrier.CallerPc.waiting := by
  obtain ⟨-, -, -, -, -, h6, -⟩ := h
  cases hc : s.caller with
  | working => exact Or.inl rfl
  | waiting => exact Or.inr rfl
  | cleaning =>
    have := h6 (Or.inl hc) i hi
    rw [hnot] at this
    exact absurd this (by simp)
  | returned =>
    have := h6 (Or.inr hc) i hi
    rw [hnot] at this
    exact absurd this (by simp)

theorem countP_range_lt (p : Nat → Bool) (n i : Nat) (hi : i < n) (hp : p i = false) :
    (List.range n).countP p < n := by
  have hle := countP_range_le p n
  by_contra hge
  have := countP_range_full p n (by omega) i hi
  rw [hp] at this
  exact absurd this (by simp)

theorem workerStep_Inv {Cmd : Type} (env : Env) (q0 : DrawerCommandQueue Cmd)
    (s : Barrier.State Cmd) (h : Barrier.Inv env q0 s) (i : Nat) :
    Barrier.Inv env q0 (Barrier.workerStep env s i) := by
  have hInv := h
  obtain ⟨⟨hrun, hsf, hnp, hrp⟩, hlen, hw, h4, h5, h6, h7⟩ := h
  unfold Barrier.workerStep
  split
  · rename_i w ht hp
    have hi : i < q0.threads.length := by
      have := getElem?_some_lt ht
      omega
    have h0 : q0.threads[i]? = some q0.threads[i] := List.getElem?_eq_getElem hi
    have hwi := hw i w _ _ ht hp h0
    split
    · rename_i hcond
      split
      · rename_i hflag
        rw [hsf] at hflag
        exact absurd hflag (by simp)
      · have hne : s.queue.run_id ≠ w.run_id := by
          simpa [hsf] using hcond
        have hnot : Barrier.done s i = false := by
          unfold Barrier.done
          simp only [ht, hp]
          simpa using fun e => hne e.symm
        have hthread : w.thread = q0.threads[i].thread := by
          rcases hwi with hwi | hwi
          · exact hwi.2
          · exact absurd (hwi.1.trans hrun.symm).symm hne
        have := worker_update_Inv env q0 s hInv i w q0.threads[i]
          { w with run_id := s.queue.run_id } Barrier.WorkerPc.parked Barrier.WorkerPc.running
          ht hp h0 [] s.queue.finished_threads hnot ⟨hrun, hthread⟩ (by simp) (by simp)
        rw [List.append_nil] at this
        exact this
    · exact hInv
  · rename_i w ht hp
    have hi : i < q0.threads.length := by
      have := getElem?_some_lt ht
      omega
    have h0 : q0.threads[i]? = some q0.threads[i] := List.getElem?_eq_getElem hi
    have hwi := hw i w _ _ ht hp h0
    have hnot : Barrier.done s i = false := by
      unfold Barrier.done
      simp only [ht, hp]
    have hcaller := caller_before_barrier env q0 s hInv i hi hnot
    have hcne : s.caller ≠ Barrier.CallerPc.returned := by
      rcases hcaller with hc | hc <;> rw [hc] <;> simp
    have hev : (passLoop (WorkerLoop.passWindow env s.queue) s.queue s.queue.num_passes.toNat 0
        w.thread).2 = Barrier.batchEvents env q0 q0.threads[i] := by
      unfold Barrier.batchEvents
      rw [passLoop_congr env s.queue q0 hnp hrp (h4 hcne).1, hnp, hwi.2]
    exact worker_update_Inv env q0 s hInv i w q0.threads[i] _ Barrier.WorkerPc.running
      Barrier.WorkerPc.counting ht hp h0 _ s.queue.finished_threads hnot
      ⟨hwi.1, by rw [hev]; exact List.sublist_append_right _ _⟩
      (fun c => passLoop_no_destroy _ _ c _ _ _) (by simp)
  · rename_i w ht hp
    have hi : i < q0.threads.length := by
      have := getElem?_some_lt ht
      omega
    have h0 : q0.threads[i]? = some q0.threads[i] := List.getElem?_eq_getElem hi
    have hwi := hw i w _ _ ht hp h0
    have hnot : Barrier.done s i = false := by
      unfold Barrier.done
      simp only [ht, hp]
    have hcaller := caller_before_barrier env q0 s hInv i hi hnot
    have hlt := countP_range_lt (Barrier.done s) q0.threads.length i hi hnot
    have hfin := h5 hcaller
    have hmod : (s.queue.finished_threads + 1) % SIZE_MOD = s.queue.finished_threads + 1 :=
      Nat.mod_eq_of_lt (by omega)
    have := worker_update_Inv env q0 s hInv i w q0.threads[i] w Barrier.WorkerPc.counting
      Barrier.WorkerPc.parked ht hp h0 [] ((s.queue.finished_threads + 1) % SIZE_MOD) hnot
      (Or.inr ⟨hwi.1, hwi.2.trans (List.sublist_append_left _ _)⟩) (by simp)
      (by rw [hmod, if_pos ⟨rfl, hwi.1.trans hrun.symm⟩])
    rw [List.append_nil, set_of_getElem? _ _ _ ht] at this
    exact this
  · exact hInv

theorem mem_of_getElem?_some {α : Type} {l : List α} {i : Nat} {a : α} (h : l[i]? = some a) :
    a ∈ l :=
  List.mem_iff_getElem?.2 ⟨i, h⟩

theorem init_Inv {Cmd : Type} (env : Env) (q : DrawerCommandQueue Cmd)
    (he : env.HintFits) (hi : q.Idle) :
    Barrier.Inv env (Finish.started env q) (Barrier.init env q) := by
  obtain ⟨hpark, hbound⟩ := started_parked env q he hi
  have hs := Finish.started_eq env q
  have erun : (Finish.started env q).run_id = q.run_id + 1 := by rw [hs]
  have efin : (Finish.started env q).finished_threads = 0 := by rw [hs]; exact hi.2.1
  have eflag : (Finish.started env q).shutdown_flag = false := by rw [hs]; exact hi.2.2.1
  have hpc : ∀ (j : Nat) (pc : Barrier.WorkerPc),
      (List.replicate (Finish.started env q).threads.length Barrier.WorkerPc.parked)[j]? = some pc →
      pc = Barrier.WorkerPc.parked := by
    intro j pc h
    have hmem := mem_of_getElem?_some h
    exact List.eq_of_mem_replicate hmem
  have hdone : ∀ j, Barrier.done (Barrier.init env q) j = false := by
    intro j
    unfold Barrier.done Barrier.init
    simp only
    cases hj : (Finish.started env q).threads[j]? with
    | none => rfl
    | some w =>
      cases hp : (List.replicate (Finish.started env q).threads.length
          Barrier.WorkerPc.parked)[j]? with
      | none => rfl
      | some pc =>
        have := hpc j pc hp
        subst this
        simp only [decide_eq_false_iff_not]
        rw [erun]
        exact hpark w (mem_of_getElem?_some hj)
  refine ⟨⟨rfl, eflag, rfl, rfl⟩, ⟨rfl, List.length_replicate _ _, hbound⟩, ?_, ?_, ?_, ?_, ?_⟩
  · intro j w pc w0 h1 h2 h3
    have hpc' := hpc j pc h2
    subst hpc'
    have hw : some w = some w0 := h1.symm.trans h3
    injection hw with hw
    subst hw
    refine Or.inl ⟨?_, rfl⟩
    rw [erun]
    exact hpark w (mem_of_getElem?_some h3)
  · intro _
    refine ⟨rfl, rfl, fun c hc => ?_⟩
    simp [Barrier.init] at hc
  · intro _
    show (Finish.started env q).finished_threads = _
    rw [efin]
    symm
    rw [List.countP_eq_zero]
    intro j _
    rw [hdone j]
    simp
  · intro hx
    rcases hx with hx | hx <;> exact absurd hx (by simp [Barrier.init])
  · intro hx
    exact absurd hx (by simp [Barrier.init])

theorem run_Inv {Cmd : Type} (env : Env) (q0 : DrawerCommandQueue Cmd) :
    ∀ (schedule : List Barrier.Action) (s : Barrier.State Cmd),
      Barrier.Inv env q0 s → Barrier.Inv env q0 (Barrier.run env s schedule)
  | [], _, h => h
  | a :: schedule, s, h => by
    have hstep : Barrier.Inv env q0 (Barrier.step env s a) := by
      cases a with
      | caller => exact callerStep_Inv env q0 s h
      | worker i => exact workerStep_Inv env q0 s h i
    exact run_Inv env q0 schedule _ hstep

/-- C26. Completion barrier. Take any execution of `Finish` on a batch (a
non-empty pending list) handed out from an idle queue, the caller and the pool
threads taking their steps in any order. As long as the caller has not cleaned up, the active list and the
arena offset are as they were and no command has been destroyed. Whenever a
command has been destroyed, the arena offset or the active list has changed,
or the caller is past `end_condition.wait`, every pool thread has executed its
whole batch, has incremented `finished_threads` and is parked again with the
new epoch; and the caller leaves the wait only with `finished_threads` equal
to the pool size. -/
theorem completion_barrier {Cmd : Type} (env : Env) (q : DrawerCommandQueue Cmd)
    (he : env.HintFits) (hi : q.Idle) (hp : q.commands ≠ []) (schedule : List Barrier.Action) :
    ((Barrier.run env (Barrier.init env q) schedule).caller ≠ Barrier.CallerPc.returned →
      (Barrier.run env (Barrier.init env q) schedule).queue.active_commands = q.commands ∧
      (Barrier.run env (Barrier.init env q) schedule).queue.memorypool_pos = q.memorypool_pos ∧
      ∀ c, Event.destroy c ∉ (Barrier.run env (Barrier.init env q) schedule).log) ∧
    (((∃ c, Event.destroy c ∈ (Barrier.run env (Barrier.init env q) schedule).log) ∨
        (Barrier.run env (Barrier.init env q) schedule).queue.memorypool_pos ≠ q.memorypool_pos ∨
        (Barrier.run env (Barrier.init env q) schedule).queue.active_commands ≠ q.commands ∨
        (Barrier.run env (Barrier.init env q) schedule).caller = Barrier.CallerPc.cleaning ∨
        (Barrier.run env (Barrier.init env q) schedule).caller = Barrier.CallerPc.returned) →
      ∀ (i : Nat) (w0 : PoolThread), (Finish.started env q).threads[i]? = some w0 →
        (Barrier.run env (Barrier.init env q) schedule).pool[i]? = some Barrier.WorkerPc.parked ∧
        (∃ w, (Barrier.run env (Barrier.init env q) schedule).queue.threads[i]? = some w ∧
          w.run_id = q.run_id + 1) ∧
        (Barrier.batchEvents env (Finish.started env q) w0).Sublist
          (Barrier.run env (Barrier.init env q) schedule).log) ∧
    ((Barrier.run env (Barrier.init env q) schedule).caller = Barrier.CallerPc.cleaning →
      (Barrier.run env (Barrier.init env q) schedule).queue.finished_threads
        = (Barrier.run env (Barrier.init env q) schedule).queue.threads.length) := by
  have _ := hp
  have hInv := run_Inv env (Finish.started env q) schedule _ (init_Inv env q he hi)
  generalize Barrier.run env (Barrier.init env q) schedule = s at hInv ⊢
  obtain ⟨⟨hrun, -, -, -⟩, hlen, hw, h4, -, h6, h7⟩ := hInv
  have hs := Finish.started_eq env q
  have erun : (Finish.started env q).run_id = q.run_id + 1 := by rw [hs]
  have eact : (Finish.started env q).active_commands = q.commands := by rw [hs]
  have epos : (Finish.started env q).memorypool_pos = q.memorypool_pos := by rw [hs]
  have h4' : s.caller ≠ Barrier.CallerPc.returned →
      s.queue.active_commands = q.commands ∧ s.queue.memorypool_pos = q.memorypool_pos ∧
      ∀ c, Event.destroy c ∉ s.log := by
    intro hx
    obtain ⟨a, b, c⟩ := h4 hx
    exact ⟨a.trans eact, b.trans epos, c⟩
  refine ⟨h4', ?_, fun hx => by rw [h7 hx, hlen.1]⟩
  intro hpast i w0 h0
  have hcase : s.caller = Barrier.CallerPc.cleaning ∨ s.caller = Barrier.CallerPc.returned := by
    by_cases hr : s.caller = Barrier.CallerPc.returned
    · exact Or.inr hr
    · obtain ⟨a, b, c⟩ := h4' hr
      rcases hpast with ⟨c', hc'⟩ | hx | hx | hx | hx
      · exact absurd hc' (c c')
      · exact absurd b hx
      · exact absurd a hx
      · exact Or.inl hx
      · exact Or.inr hx
  have hd := h6 hcase i (getElem?_some_lt h0)
  unfold Barrier.done at hd
  cases ht : s.queue.threads[i]? with
  | none => simp [ht] at hd
  | some w =>
    cases hp : s.pool[i]? with
    | none => simp [ht, hp] at hd
    | some pc =>
      cases pc with
      | parked =>
        simp only [ht, hp, decide_eq_true_eq] at hd
        have hwi := hw i w _ w0 ht hp h0
        rcases hwi with hwi | hwi
        · exact absurd (hd.trans hrun) hwi.1
        · exact ⟨rfl, ⟨w, rfl, by rw [hd, hrun, erun]⟩, hwi.2⟩
      | running => simp [ht, hp] at hd
      | counting => simp [ht, hp] at hd
      | exited => simp [ht, hp] at hd

/-- Witness for `completion_barrier`: on the example queue (a pool of two
threads) a schedule in which the caller looks at the barrier once too early
and passes it once both pool threads have counted themselves; the caller has
then returned and the arena offset is 0. -/
theorem completion_barrier_witness :
    (exampleEnv.HintFits ∧ exampleQueue.Idle ∧ exampleQueue.commands ≠ []) ∧
    (Barrier.run exampleEnv (Barrier.init exampleEnv exampleQueue)
      [.worker 0, .caller, .worker 1, .worker 0, .worker 1, .worker 0, .caller, .worker 1,
        .caller, .caller]).caller = Barrier.CallerPc.returned ∧
    (Barrier.run exampleEnv (Barrier.init exampleEnv exampleQueue)
      [.worker 0, .caller, .worker 1, .worker 0, .worker 1, .worker 0, .caller, .worker 1,
        .caller, .caller]).queue.memorypool_pos = 0 ∧
    (Barrier.run exampleEnv (Barrier.init exampleEnv exampleQueue)
      [.worker 0, .caller, .worker 1, .worker 0, .worker 1, .worker 0, .caller]).caller
      = Barrier.CallerPc.waiting ∧
    ∀ (i : Nat) (w0 : PoolThread), (Finish.started exampleEnv exampleQueue).threads[i]? = some w0 →
      (Barrier.batchEvents exampleEnv (Finish.started exampleEnv exampleQueue) w0).Sublist
        (Barrier.run exampleEnv (Barrier.init exampleEnv exampleQueue)
          [.worker 0, .caller, .worker 1, .worker 0, .worker 1, .worker 0, .caller, .worker 1,
            .caller, .caller]).log :=
  ⟨⟨exampleEnv_HintFits, exampleQueue_Idle, by decide⟩, by decide, by decide, by decide,
    fun i w0 h0 =>
      ((completion_barrier exampleEnv exampleQueue exampleEnv_HintFits exampleQueue_Idle
        (by decide) [.worker 0, .caller, .worker 1, .worker 0, .worker 1, .worker 0, .caller, .worker 1,
          .caller, .caller]).2.1 (Or.inr (Or.inr (Or.inr (Or.inr (by decide))))) i w0 h0).2.2⟩

/-! ## Blocks of the arena -/

theorem calls_append {Cmd : Type} (env : Env) :
    ∀ (l1 l2 : List Nat) (q : DrawerCommandQueue Cmd),
      AllocMemory.calls env (l1 ++ l2) q
        = ((AllocMemory.calls env l1 q).1
            ++ (AllocMemory.calls env l2 (AllocMemory.calls env l1 q).2).1,
          (AllocMemory.calls env l2 (AllocMemory.calls env l1 q).2).2)
  | [], l2, q => rfl
  | s :: l1, l2, q => by
    have ih := calls_append env l1 l2 (AllocMemory env q s).2
    show ((AllocMemory env q s).1 :: (AllocMemory.calls env (l1 ++ l2) (AllocMemory env q s).2).1,
      (AllocMemory.calls env (l1 ++ l2) (AllocMemory env q s).2).2) = _
    rw [ih]
    rfl

theorem AllocMemory_step {Cmd : Type} (env : Env) (q : DrawerCommandQueue Cmd) (s : Nat)
    (hb : 2 * env.memorypool_size + 15 < SIZE_MOD) (hq : q.memorypool_pos ≤ env.memorypool_size)
    (hs : s ≤ env.memorypool_size) :
    q.memorypool_pos ≤ (AllocMemory env q s).2.memorypool_pos ∧
    (AllocMemory env q s).2.memorypool_pos ≤ env.memorypool_size ∧
    (∀ data, (AllocMemory env q s).1 = some data →
      data = q.memorypool_pos ∧ data + s ≤ (AllocMemory env q s).2.memorypool_pos) := by
  have h1 : (s + 15) % SIZE_MOD = s + 15 := Nat.mod_eq_of_lt (by omega)
  have h2 : (q.memorypool_pos + (s + 15) / 16 * 16) % SIZE_MOD
      = q.memorypool_pos + (s + 15) / 16 * 16 := Nat.mod_eq_of_lt (by omega)
  unfold AllocMemory
  simp only
  rw [h1, h2]
  split
  · exact ⟨le_refl _, hq, fun data h => by simp at h⟩
  · refine ⟨by simp, by simp; omega, fun data h => ?_⟩
    simp only [Option.some.injEq] at h
    subst h
    refine ⟨rfl, ?_⟩
    simp only
    omega

theorem calls_blocks {Cmd : Type} (env : Env)
    (hb : 2 * env.memorypool_size + 15 < SIZE_MOD) :
    ∀ (sizes : List Nat) (q : DrawerCommandQueue Cmd),
      q.memorypool_pos ≤ env.memorypool_size → (∀ s ∈ sizes, s ≤ env.memorypool_size) →
      q.memorypool_pos ≤ (AllocMemory.calls env sizes q).2.memorypool_pos ∧
      (AllocMemory.calls env sizes q).2.memorypool_pos ≤ env.memorypool_size ∧
      (∀ b ∈ AllocMemory.blocks sizes (AllocMemory.calls env sizes q).1,
        q.memorypool_pos ≤ b.1 ∧
        b.1 + b.2 ≤ (AllocMemory.calls env sizes q).2.memorypool_pos) ∧
      (AllocMemory.blocks sizes (AllocMemory.calls env sizes q).1).Pairwise
        (fun a b => a.1 + a.2 ≤ b.1)
  | [], q, hq, _ => ⟨le_refl _, hq, fun b hb' => by simp [AllocMemory.calls, AllocMemory.blocks] at hb',
      by simp [AllocMemory.calls, AllocMemory.blocks]⟩
  | s :: sizes, q, hq, hs => by
    obtain ⟨a1, a2, a3⟩ := AllocMemory_step env q s hb hq (hs s (List.mem_cons_self _ _))
    obtain ⟨b1, b2, b3, b4⟩ := calls_blocks env hb sizes (AllocMemory env q s).2 a2
      (fun s' hs' => hs s' (List.mem_cons_of_mem _ hs'))
    unfold AllocMemory.calls
    simp only
    refine ⟨le_trans a1 b1, b2, ?_, ?_⟩
    · cases hd : (AllocMemory env q s).1 with
      | none =>
        intro b hmem
        simp only [AllocMemory.blocks] at hmem
        exact ⟨le_trans a1 (b3 b hmem).1, (b3 b hmem).2⟩
      | some data =>
        intro b hmem
        simp only [AllocMemory.blocks, List.mem_cons] at hmem
        obtain ⟨e1, e2⟩ := a3 data hd
        rcases hmem with rfl | hmem
        · exact ⟨by simp [e1], le_trans e2 b1⟩
        · exact ⟨le_trans a1 (b3 b hmem).1, (b3 b hmem).2⟩
    · cases hd : (AllocMemory env q s).1 with
      | none =>
        simp only [AllocMemory.blocks]
        exact b4
      | some data =>
        simp only [AllocMemory.blocks, List.pairwise_cons]
        obtain ⟨e1, e2⟩ := a3 data hd
        exact ⟨fun b hmem => le_trans e2 (b3 b hmem).1, b4⟩

/-- C39. Arena blocks stay inside the pool and never overlap. Starting from
`memorypool_pos = 0`, for every sequence of `AllocMemory` calls with sizes
`≤ memorypool_size` (and `2 * memorypool_size + 15` inside the `size_t`
range): `memorypool_pos` never decreases from one call to a later one and never
exceeds `memorypool_size`; every block handed out, taken with the size that
was asked for, ends at or before `memorypool_size`; and of any two blocks
handed out the earlier one ends at or before the offset of the later one. -/
theorem arena_blocks {Cmd : Type} (env : Env) (sizes : List Nat) (q : DrawerCommandQueue Cmd)
    (h0 : q.memorypool_pos = 0) (hb : 2 * env.memorypool_size + 15 < SIZE_MOD)
    (hs : ∀ s ∈ sizes, s ≤ env.memorypool_size) :
    (∀ l1 l2 : List Nat, sizes = l1 ++ l2 →
      (AllocMemory.calls env l1 q).2.memorypool_pos
        ≤ (AllocMemory.calls env sizes q).2.memorypool_pos ∧
      (AllocMemory.calls env l1 q).2.memorypool_pos ≤ env.memorypool_size) ∧
    (∀ b ∈ AllocMemory.blocks sizes (AllocMemory.calls env sizes q).1,
      b.1 + b.2 ≤ env.memorypool_size) ∧
    (AllocMemory.blocks sizes (AllocMemory.calls env sizes q).1).Pairwise
      (fun a b => a.1 + a.2 ≤ b.1 ∧ ∀ x, ¬ (a.1 ≤ x ∧ x < a.1 + a.2 ∧ b.1 ≤ x ∧ x < b.1 + b.2)) := by
  have hq : q.memorypool_pos ≤ env.memorypool_size := by omega
  obtain ⟨-, c2, c3, c4⟩ := calls_blocks env hb sizes q hq hs
  refine ⟨?_, fun b hmem => le_trans (c3 b hmem).2 c2, ?_⟩
  · intro l1 l2 hsplit
    subst hsplit
    obtain ⟨-, d2, -, -⟩ := calls_blocks env hb l1 q hq
      (fun s hs' => hs s (List.mem_append_left _ hs'))
    obtain ⟨e1, -, -, -⟩ := calls_blocks env hb l2 (AllocMemory.calls env l1 q).2 d2
      (fun s hs' => hs s (List.mem_append_right _ hs'))
    rw [calls_append]
    exact ⟨e1, d2⟩
  · refine c4.imp ?_
    intro a b hab
    exact ⟨hab, fun x hx => by omega⟩

/-- Witness for `arena_blocks`: sizes 1, 16, 17, 40 and 0 on the empty 64-byte
example arena give the blocks at offsets 0, 16, 32 and (of size 0) 64; the
request of 40 bytes is refused. -/
theorem arena_blocks_witness :
    (exampleIdleQueue.memorypool_pos = 0 ∧ 2 * exampleEnv.memorypool_size + 15 < SIZE_MOD ∧
      ∀ s ∈ [1, 16, 17, 40, 0], s ≤ exampleEnv.memorypool_size) ∧
    AllocMemory.blocks [1, 16, 17, 40, 0]
        (AllocMemory.calls exampleEnv [1, 16, 17, 40, 0] exampleIdleQueue).1
      = [(0, 1), (16, 16), (32, 17), (64, 0)] ∧
    ∀ b ∈ AllocMemory.blocks [1, 16, 17, 40, 0]
        (AllocMemory.calls exampleEnv [1, 16, 17, 40, 0] exampleIdleQueue).1,
      b.1 + b.2 ≤ exampleEnv.memorypool_size :=
  ⟨⟨rfl, by decide, by decide⟩, by decide,
    (arena_blocks exampleEnv [1, 16, 17, 40, 0] exampleIdleQueue rfl (by decide)
      (by decide)).2.1⟩

/-! ## Pass windows -/

theorem windowAt_Finish_window {Cmd : Type} (env : Env) (q : DrawerCommandQueue Cmd) :
    ∀ (j : Nat) (pass : Int) (t : DrawerThread),
      (windowAt (Finish.passWindow env q) pass t j).pass_start_y
        = (pass + j) * q.rows_in_pass ∧
      (windowAt (Finish.passWindow env q) pass t j).pass_end_y
        = if pass + j + 1 = q.num_passes then
            max ((pass + j + 1) * q.rows_in_pass) env.MAXHEIGHT
          else (pass + j + 1) * q.rows_in_pass
  | 0, pass, t => by
    unfold windowAt Finish.passWindow
    simp only [Nat.cast_zero, add_zero]
    split <;> simp
  | j + 1, pass, t => by
    unfold windowAt
    obtain ⟨h1, h2⟩ := windowAt_Finish_window env q j (pass + 1) (Finish.passWindow env q t pass)
    have e : pass + 1 + (j : Int) = pass + ((j + 1 : Nat) : Int) := by push_cast; ring
    rw [h1, h2, e]
    exact ⟨rfl, rfl⟩

theorem windowAt_Worker_window {Cmd : Type} (env : Env) (q : DrawerCommandQueue Cmd) :
    ∀ (j : Nat) (pass : Int) (t : DrawerThread),
      (windowAt (WorkerLoop.passWindow env q) pass t j).pass_start_y
        = (pass + j) * q.rows_in_pass ∧
      (windowAt (WorkerLoop.passWindow env q) pass t j).pass_end_y
        = if pass + j + 1 = q.num_passes then
            max ((pass + j + 1) * q.rows_in_pass) env.MAXHEIGHT
          else (pass + j + 1) * q.rows_in_pass
  | 0, pass, t => by
    unfold windowAt WorkerLoop.passWindow
    simp only [Nat.cast_zero, add_zero]
    split <;> simp
  | j + 1, pass, t => by
    unfold windowAt
    obtain ⟨h1, h2⟩ := windowAt_Worker_window env q j (pass + 1)
      (WorkerLoop.passWindow env q t pass)
    have e : pass + 1 + (j : Int) = pass + ((j + 1 : Nat) : Int) := by push_cast; ring
    rw [h1, h2, e]
    exact ⟨rfl, rfl⟩

/-- C37. Pass windows tile the frame. For `num_passes >= 1` and `rows_in_pass >= 1`
the windows `[pass_start_y, pass_end_y)` the caller of `Finish` holds during
pass `0 .. num_passes-1` start at row 0, follow one another without a gap
(each ends where the next begins) and the last one ends at
`max(num_passes * rows_in_pass, MAXHEIGHT)`; every row from 0 up to that bound,
so every row in `[0, MAXHEIGHT)`, lies in the window of exactly one pass; and
a pool thread holds the same window as the caller in every pass. -/
theorem pass_windows_tile {Cmd : Type} (env : Env) (q : DrawerCommandQueue Cmd)
    (t : DrawerThread) (hn : 1 ≤ q.num_passes) (hr : 1 ≤ q.rows_in_pass) :
    (windowAt (Finish.passWindow env q) 0 t 0).pass_start_y = 0 ∧
    (∀ p : Nat, (p : Int) + 1 < q.num_passes →
      (windowAt (Finish.passWindow env q) 0 t p).pass_start_y = (p : Int) * q.rows_in_pass ∧
      (windowAt (Finish.passWindow env q) 0 t p).pass_end_y
        = ((p : Int) + 1) * q.rows_in_pass ∧
      (windowAt (Finish.passWindow env q) 0 t p).pass_end_y
        = (windowAt (Finish.passWindow env q) 0 t (p + 1)).pass_start_y) ∧
    (∀ p : Nat, (p : Int) + 1 = q.num_passes →
      (windowAt (Finish.passWindow env q) 0 t p).pass_start_y = (p : Int) * q.rows_in_pass ∧
      (windowAt (Finish.passWindow env q) 0 t p).pass_end_y
        = max (q.num_passes * q.rows_in_pass) env.MAXHEIGHT) ∧
    (∀ r : Int, 0 ≤ r → r < max (q.num_passes * q.rows_in_pass) env.MAXHEIGHT →
      ∃! p : Nat, (p : Int) < q.num_passes ∧
        (windowAt (Finish.passWindow env q) 0 t p).pass_start_y ≤ r ∧
        r < (windowAt (Finish.passWindow env q) 0 t p).pass_end_y) ∧
    (∀ (p : Nat) (t' : DrawerThread),
      (windowAt (WorkerLoop.passWindow env q) 0 t' p).pass_start_y
        = (windowAt (Finish.passWindow env q) 0 t p).pass_start_y ∧
      (windowAt (WorkerLoop.passWindow env q) 0 t' p).pass_end_y
        = (windowAt (Finish.passWindow env q) 0 t p).pass_end_y) := by
  have hW : ∀ p : Nat,
      (windowAt (Finish.passWindow env q) 0 t p).pass_start_y = (p : Int) * q.rows_in_pass ∧
      (windowAt (Finish.passWindow env q) 0 t p).pass_end_y
        = if (p : Int) + 1 = q.num_passes then
            max (((p : Int) + 1) * q.rows_in_pass) env.MAXHEIGHT
          else ((p : Int) + 1) * q.rows_in_pass := by
    intro p
    have := windowAt_Finish_window env q p 0 t
    simpa using this
  have hmono : ∀ a b : Int, a ≤ b → a * q.rows_in_pass ≤ b * q.rows_in_pass :=
    fun a b hab => Int.mul_le_mul_of_nonneg_right hab (by omega)
  refine ⟨by rw [(hW 0).1]; simp, fun p hp => ?_, fun p hp => ?_, fun r hr0 hr1 => ?_,
    fun p t' => ?_⟩
  · refine ⟨(hW p).1, ?_, ?_⟩
    · rw [(hW p).2, if_neg (by omega)]
    · rw [(hW p).2, if_neg (by omega), (hW (p + 1)).1]
      push_cast
      ring
  · refine ⟨(hW p).1, ?_⟩
    rw [(hW p).2, if_pos hp, hp]
  · -- the pass of row `r`: its quotient by `rows_in_pass`, capped at the last pass
    have hdm := Int.emod_add_ediv r q.rows_in_pass
    have hm0 := Int.emod_nonneg r (by omega : q.rows_in_pass ≠ 0)
    have hm1 := Int.emod_lt_of_pos r (by omega : 0 < q.rows_in_pass)
    have hq0 : 0 ≤ r / q.rows_in_pass := Int.ediv_nonneg hr0 (by omega)
    have hcomm : q.rows_in_pass * (r / q.rows_in_pass) = r / q.rows_in_pass * q.rows_in_pass :=
      Int.mul_comm _ _
    have hin : ∀ p : Nat, (p : Int) < q.num_passes →
        (((windowAt (Finish.passWindow env q) 0 t p).pass_start_y ≤ r ∧
          r < (windowAt (Finish.passWindow env q) 0 t p).pass_end_y) ↔
        ((p : Int) = min (r / q.rows_in_pass) (q.num_passes - 1))) := by
      intro p hp
      rw [(hW p).1, (hW p).2]
      have hp1 := hmono (p : Int) (r / q.rows_in_pass)
      have hp2 := hmono (r / q.rows_in_pass + 1) (p : Int)
      have hp3 := hmono ((p : Int) + 1) q.num_passes
      have e2 : (r / q.rows_in_pass + 1) * q.rows_in_pass
          = r / q.rows_in_pass * q.rows_in_pass + q.rows_in_pass := by ring
      have e3 : ((p : Int) + 1) * q.rows_in_pass
          = (p : Int) * q.rows_in_pass + q.rows_in_pass := by ring
      by_cases hlast : (p : Int) + 1 = q.num_passes
      · rw [if_pos hlast]
        have e4 : ((p : Int) + 1) * q.rows_in_pass = q.num_passes * q.rows_in_pass := by
          rw [hlast]
        rw [e4]
        constructor
        · rintro ⟨h1, -⟩
          have : (p : Int) ≤ r / q.rows_in_pass := by
            by_contra hlt
            have := hp2 (by omega)
            omega
          omega
        · intro h
          have hle : (p : Int) ≤ r / q.rows_in_pass := by omega
          have := hp1 hle
          exact ⟨by omega, hr1⟩
      · rw [if_neg hlast]
        constructor
        · rintro ⟨h1, h2⟩
          have hle : (p : Int) ≤ r / q.rows_in_pass := by
            by_contra hlt
            have := hp2 (by omega)
            omega
          have hge : r / q.rows_in_pass ≤ (p : Int) := by
            by_contra hlt
            have := hmono ((p : Int) + 1) (r / q.rows_in_pass) (by omega)
            omega
          omega
        · intro h
          have hpe : (p : Int) = r / q.rows_in_pass := by omega
          rw [hpe]
          exact ⟨by omega, by omega⟩
    refine ⟨(min (r / q.rows_in_pass) (q.num_passes - 1)).toNat, ⟨by omega, ?_⟩, ?_⟩
    · exact (hin _ (by omega)).2 (by omega)
    · rintro p ⟨hp, hwin⟩
      have := (hin p hp).1 hwin
      omega
  · have := windowAt_Worker_window env q p 0 t'
    simp only [zero_add] at this
    rw [this.1, this.2, (hW p).1, (hW p).2]
    exact ⟨rfl, rfl⟩

/-- Witness for `pass_windows_tile`: the example queue has two passes of 100
rows and a maximum height of 200; row 150 lies in the window of pass 1 only. -/
theorem pass_windows_tile_witness :
    ((1 : Int) ≤ exampleQueue.num_passes ∧ (1 : Int) ≤ exampleQueue.rows_in_pass) ∧
    (windowAt (Finish.passWindow exampleEnv exampleQueue) 0 exampleEnv.default_thread 1).pass_start_y
      = 100 ∧
    (windowAt (Finish.passWindow exampleEnv exampleQueue) 0 exampleEnv.default_thread 1).pass_end_y
      = 200 ∧
    ∃! p : Nat, (p : Int) < exampleQueue.num_passes ∧
      (windowAt (Finish.passWindow exampleEnv exampleQueue) 0
        exampleEnv.default_thread p).pass_start_y ≤ 150 ∧
      150 < (windowAt (Finish.passWindow exampleEnv exampleQueue) 0
        exampleEnv.default_thread p).pass_end_y :=
  ⟨⟨by decide, by decide⟩, by decide, by decide,
    (pass_windows_tile exampleEnv exampleQueue exampleEnv.default_thread (by decide)
      (by decide)).2.2.2.1 150 (by decide) (by decide)⟩

/-! ## Queueing a fuzz column -/

/-- C31. `R_DrawFuzzColumn_rgba` keeps the global fuzz position cyclic. With
`yl' = max(dc_yl, 1)` and `yh' = min(dc_yh, fuzzviewheight)`, which are the
values left in `dc_yl`, `dc_yh` and also the row range the queued command
clamps itself to, and `fuzzpos` in `[0, FUZZTABLE)` on entry: `fuzzpos` is in
`[0, FUZZTABLE)` on return; it is `(fuzzpos + yh' - yl' + 1) mod FUZZTABLE`
when `yl' <= yh'` and unchanged when `yl' > yh'`. The added amount is the
number of rows the command draws over all workers: in a pool of `N` workers
whose pass window `[ps, pe)` holds the rows `yl' .. yh'`, each of these
`yh' - yl' + 1` rows is one of the rows `yl' + skipped_by_thread(yl') + j * N`,
`0 <= j < count_for_thread(yl', yh' - yl' + 1)`, of exactly one worker. -/
theorem R_DrawFuzzColumn_fuzzpos (g : Globals) (hF : 0 < g.FUZZTABLE)
    (h0 : 0 ≤ g.fuzzpos) (h1 : g.fuzzpos < g.FUZZTABLE) :
    (0 ≤ (R_DrawFuzzColumn_rgba g).2.fuzzpos ∧
      (R_DrawFuzzColumn_rgba g).2.fuzzpos < g.FUZZTABLE) ∧
    (R_DrawFuzzColumn_rgba g).2.dc_yl = max g.dc_yl 1 ∧
    (R_DrawFuzzColumn_rgba g).2.dc_yh = min g.dc_yh g.fuzzviewheight ∧
    max (R_DrawFuzzColumn_rgba g).1._yl 1 = max g.dc_yl 1 ∧
    min (R_DrawFuzzColumn_rgba g).1._yh (R_DrawFuzzColumn_rgba g).1._fuzzviewheight
      = min g.dc_yh g.fuzzviewheight ∧
    (R_DrawFuzzColumn_rgba g).1._fuzzpos = g.fuzzpos ∧
    (max g.dc_yl 1 ≤ min g.dc_yh g.fuzzviewheight →
      (R_DrawFuzzColumn_rgba g).2.fuzzpos
        = (g.fuzzpos + min g.dc_yh g.fuzzviewheight - max g.dc_yl 1 + 1) % g.FUZZTABLE) ∧
    (min g.dc_yh g.fuzzviewheight < max g.dc_yl 1 →
      (R_DrawFuzzColumn_rgba g).2.fuzzpos = g.fuzzpos) ∧
    (∀ N ps pe : Int, 0 < N → ps ≤ max g.dc_yl 1 → min g.dc_yh g.fuzzviewheight < pe →
      ∀ r : Int, max g.dc_yl 1 ≤ r → r ≤ min g.dc_yh g.fuzzviewheight →
        ∃! k : Int, (0 ≤ k ∧ k < N) ∧
          ∃ j : Int, 0 ≤ j ∧
            j < (⟨k, N, ps, pe⟩ : DrawerThread).count_for_thread (max g.dc_yl 1)
                  (min g.dc_yh g.fuzzviewheight - max g.dc_yl 1 + 1) ∧
            r = max g.dc_yl 1
                + (⟨k, N, ps, pe⟩ : DrawerThread).skipped_by_thread (max g.dc_yl 1) + j * N) := by
  have hpos : (R_DrawFuzzColumn_rgba g).2.fuzzpos
      = if max g.dc_yl 1 ≤ min g.dc_yh g.fuzzviewheight then
          Int.tmod (g.fuzzpos + min g.dc_yh g.fuzzviewheight - max g.dc_yl 1 + 1) g.FUZZTABLE
        else g.fuzzpos := by
    unfold R_DrawFuzzColumn_rgba
    dsimp only
    split <;> rfl
  have hyl : (R_DrawFuzzColumn_rgba g).2.dc_yl = max g.dc_yl 1 := by
    unfold R_DrawFuzzColumn_rgba
    dsimp only
    split <;> rfl
  have hyh : (R_DrawFuzzColumn_rgba g).2.dc_yh = min g.dc_yh g.fuzzviewheight := by
    unfold R_DrawFuzzColumn_rgba
    dsimp only
    split <;> rfl
  refine ⟨?_, hyl, hyh, rfl, rfl, rfl, ?_, ?_, ?_⟩
  · rw [hpos]
    split
    · rw [Int.tmod_eq_emod (by omega) hF.le]
      exact ⟨Int.emod_nonneg _ hF.ne', Int.emod_lt_of_pos _ hF⟩
    · exact ⟨h0, h1⟩
  · intro h
    rw [hpos, if_pos h, Int.tmod_eq_emod (by omega) hF.le]
  · intro h
    rw [hpos, if_neg (by omega)]
  · intro N ps pe hN hps hpe r hr0 hr1
    have hm0 := Int.emod_nonneg r hN.ne'
    have hm1 := Int.emod_lt_of_pos r hN
    refine ⟨r % N, ⟨⟨hm0, hm1⟩, ?_⟩, ?_⟩
    · exact (owned_row_iff (r % N) N ps pe _ _ r hN hm0 hm1).2
        ⟨hr0, by omega, by omega, by omega, rfl⟩
    · rintro k ⟨⟨hk0, hkN⟩, hj⟩
      have := (owned_row_iff k N ps pe _ _ r hN hk0 hkN).1 hj
      exact this.2.2.2.2.symm

/-- Witness for `R_DrawFuzzColumn_fuzzpos`: the example process (`dc_yl = 0`,
`dc_yh = 150`, view height 120, `fuzzpos = 47`, table of 50) leaves rows
`1 .. 120` and `fuzzpos = (47 + 120) mod 50 = 17`. -/
theorem R_DrawFuzzColumn_fuzzpos_witness :
    (0 < exampleGlobals.FUZZTABLE ∧ 0 ≤ exampleGlobals.fuzzpos ∧
      exampleGlobals.fuzzpos < exampleGlobals.FUZZTABLE) ∧
    max exampleGlobals.dc_yl 1 ≤ min exampleGlobals.dc_yh exampleGlobals.fuzzviewheight ∧
    (R_DrawFuzzColumn_rgba exampleGlobals).2.fuzzpos = 17 :=
  ⟨⟨by decide, by decide, by decide⟩, by decide,
    ((R_DrawFuzzColumn_fuzzpos exampleGlobals (by decide) (by decide) (by decide)).2.2.2.2.2.2.1
      (by decide)).trans (by decide)⟩

/-! ## Endpoints of the scalar colormap loop -/

theorem shr_eq_ediv (x : Int) (n : Nat) : x >>> (n : Int) = x / 2 ^ n := by
  cases x with
  | ofNat m =>
    rw [Int.ofNat_eq_coe, Int.shiftRight_coe_nat, Nat.shiftRight_eq_div_pow]
    norm_cast
  | negSucc m =>
    rw [Int.shiftRight_negSucc, Nat.shiftRight_eq_div_pow,
      Int.negSucc_ediv m (by positivity : (0 : Int) < 2 ^ n)]
    rw [Int.negSucc_eq]
    norm_cast

theorem shr8_eq_ediv (x : Int) : x >>> 8 = x / 256 := by
  have := shr_eq_ediv x 8
  norm_num at this
  exact this

theorem shr7_eq_ediv (x : Int) : x >>> 7 = x / 128 := by
  have := shr_eq_ediv x 7
  norm_num at this
  exact this

theorem scalarPixel_eq (command : ApplySpecialColormapRGBACommand) (p : Nat) :
    command.scalarPixel p
      = (max 0 (min 255 (ApplySpecialColormapRGBACommand.scalarChannel command.start_blue
            command.end_blue (ApplySpecialColormapRGBACommand.scalarGray p))) % 256).toNat
        + 2 ^ 8 * (max 0 (min 255 (ApplySpecialColormapRGBACommand.scalarChannel
            command.start_green command.end_green
            (ApplySpecialColormapRGBACommand.scalarGray p))) % 256).toNat
        + 2 ^ 16 * (max 0 (min 255 (ApplySpecialColormapRGBACommand.scalarChannel
            command.start_red command.end_red
            (ApplySpecialColormapRGBACommand.scalarGray p))) % 256).toNat
        + 2 ^ 24 * 0xff := rfl

theorem scalarGray_eq (p : Nat) :
    ApplySpecialColormapRGBACommand.scalarGray p
      = ((RPART p : Int) * 77 + (GPART p : Int) * 143 + (BPART p : Int) * 37) / 256
        + ((RPART p : Int) * 77 + (GPART p : Int) * 143 + (BPART p : Int) * 37) / 256 / 128 := by
  simp only [ApplySpecialColormapRGBACommand.scalarGray, RPART, GPART, BPART, and_0xff,
    shr8_eq_ediv, shr7_eq_ediv, Nat.shiftRight_eq_div_pow]

theorem scalarGray_range (p : Nat) :
    0 ≤ ApplySpecialColormapRGBACommand.scalarGray p ∧
    ApplySpecialColormapRGBACommand.scalarGray p ≤ 256 := by
  rw [scalarGray_eq]
  obtain ⟨-, hr, hg, hb⟩ := parts_lt p
  omega

theorem scalarChannel_range (s e g : Int) (hs0 : 0 ≤ s) (hs1 : s ≤ 255) (he0 : 0 ≤ e)
    (he1 : e ≤ 255) (hg0 : 0 ≤ g) (hg1 : g ≤ 256) :
    0 ≤ ApplySpecialColormapRGBACommand.scalarChannel s e g ∧
    ApplySpecialColormapRGBACommand.scalarChannel s e g ≤ 255 := by
  simp only [ApplySpecialColormapRGBACommand.scalarChannel, shr8_eq_ediv]
  have h1 : 0 ≤ s * (256 - g) := mul_nonneg hs0 (by omega)
  have h2 : 0 ≤ e * g := mul_nonneg he0 hg0
  have h3 : s * (256 - g) ≤ 255 * (256 - g) := Int.mul_le_mul_of_nonneg_right hs1 (by omega)
  have h4 : e * g ≤ 255 * g := Int.mul_le_mul_of_nonneg_right he1 hg0
  omega

theorem bytes_parts (a r g b : Nat) (ha : a < 256) (hr : r < 256) (hg : g < 256)
    (hb : b < 256) :
    APART (b + 2 ^ 8 * g + 2 ^ 16 * r + 2 ^ 24 * a) = a ∧
    RPART (b + 2 ^ 8 * g + 2 ^ 16 * r + 2 ^ 24 * a) = r ∧
    GPART (b + 2 ^ 8 * g + 2 ^ 16 * r + 2 ^ 24 * a) = g ∧
    BPART (b + 2 ^ 8 * g + 2 ^ 16 * r + 2 ^ 24 * a) = b := by
  simp only [APART, RPART, GPART, BPART, and_0xff, Nat.shiftRight_eq_div_pow]
  omega

theorem scalarLoop_pixels (command : ApplySpecialColormapRGBACommand) (idx : Int) :
    ∀ (fuel : Nat) (x pixels : Int) (fb : FrameBuffer), (command.width - x).toNat ≤ fuel →
      ApplySpecialColormapRGBACommand.scalarLoop command fuel x pixels fb idx
        = if pixels ≤ idx ∧ idx < pixels + (command.width - x) then command.scalarPixel (fb idx)
          else fb idx
  | 0, x, pixels, fb, h => by
    unfold ApplySpecialColormapRGBACommand.scalarLoop
    rw [if_neg (by omega)]
  | fuel + 1, x, pixels, fb, h => by
    unfold ApplySpecialColormapRGBACommand.scalarLoop
    split
    · dsimp only
      rw [scalarLoop_pixels command idx fuel (x + 1) (pixels + 1) _ (by omega)]
      by_cases hi : idx = pixels
      · subst hi
        rw [if_neg (by omega), if_pos (by omega), write_eq]
      · rw [write_ne _ _ _ _ hi]
        by_cases hr : pixels ≤ idx ∧ idx < pixels + (command.width - x)
        · rw [if_pos (by omega), if_pos hr]
        · rw [if_neg (by omega), if_neg hr]
    · rw [if_neg (by omega)]

/-- C38. Endpoints of the scalar special-colormap filter. For start and end
colours with components in `0..255`, the scalar `for` loop over a row of
`width` pixels replaces each pixel of the row by `scalarPixel` of it and
touches no other word; for every input pixel the gray weight lies in `0..256`,
each value handed to `clamp` lies in `0..255`, so `clamp` returns it unchanged
and it is the byte stored; the alpha byte stored is `0xff`; a pixel whose red,
green and blue bytes are 0 is mapped to the start colour and one whose red,
green and blue bytes are 255 to the end colour. -/
theorem scalar_colormap_endpoints (command : ApplySpecialColormapRGBACommand)
    (hsr : 0 ≤ command.start_red ∧ command.start_red ≤ 255)
    (hsg : 0 ≤ command.start_green ∧ command.start_green ≤ 255)
    (hsb : 0 ≤ command.start_blue ∧ command.start_blue ≤ 255)
    (her : 0 ≤ command.end_red ∧ command.end_red ≤ 255)
    (heg : 0 ≤ command.end_green ∧ command.end_green ≤ 255)
    (heb : 0 ≤ command.end_blue ∧ command.end_blue ≤ 255) :
    (∀ (pixels : Int) (fb : FrameBuffer) (idx : Int),
      ApplySpecialColormapRGBACommand.scalarLoop command command.width.toNat 0 pixels fb idx
        = if pixels ≤ idx ∧ idx < pixels + command.width then command.scalarPixel (fb idx)
          else fb idx) ∧
    (∀ p : Nat,
      (0 ≤ ApplySpecialColormapRGBACommand.scalarGray p ∧
        ApplySpecialColormapRGBACommand.scalarGray p ≤ 256) ∧
      (∀ s e : Int, 0 ≤ s → s ≤ 255 → 0 ≤ e → e ≤ 255 →
        0 ≤ ApplySpecialColormapRGBACommand.scalarChannel s e
              (ApplySpecialColormapRGBACommand.scalarGray p) ∧
        ApplySpecialColormapRGBACommand.scalarChannel s e
              (ApplySpecialColormapRGBACommand.scalarGray p) ≤ 255 ∧
        max 0 (min 255 (ApplySpecialColormapRGBACommand.scalarChannel s e
              (ApplySpecialColormapRGBACommand.scalarGray p)))
          = ApplySpecialColormapRGBACommand.scalarChannel s e
              (ApplySpecialColormapRGBACommand.scalarGray p)) ∧
      APART (command.scalarPixel p) = 0xff ∧
      (RPART (command.scalarPixel p) : Int)
        = ApplySpecialColormapRGBACommand.scalarChannel command.start_red command.end_red
            (ApplySpecialColormapRGBACommand.scalarGray p) ∧
      (GPART (command.scalarPixel p) : Int)
        = ApplySpecialColormapRGBACommand.scalarChannel command.start_green command.end_green
            (ApplySpecialColormapRGBACommand.scalarGray p) ∧
      (BPART (command.scalarPixel p) : Int)
        = ApplySpecialColormapRGBACommand.scalarChannel command.start_blue command.end_blue
            (ApplySpecialColormapRGBACommand.scalarGray p) ∧
      (RPART p = 0 → GPART p = 0 → BPART p = 0 →
        (RPART (command.scalarPixel p) : Int) = command.start_red ∧
        (GPART (command.scalarPixel p) : Int) = command.start_green ∧
        (BPART (command.scalarPixel p) : Int) = command.start_blue) ∧
      (RPART p = 255 → GPART p = 255 → BPART p = 255 →
        (RPART (command.scalarPixel p) : Int) = command.end_red ∧
        (GPART (command.scalarPixel p) : Int) = command.end_green ∧
        (BPART (command.scalarPixel p) : Int) = command.end_blue)) := by
  constructor
  · intro pixels fb idx
    have := scalarLoop_pixels command idx command.width.toNat 0 pixels fb (by simp)
    simpa using this
  · intro p
    obtain ⟨hg0, hg1⟩ := scalarGray_range p
    have hch := fun s e h1 h2 h3 h4 =>
      scalarChannel_range s e (ApplySpecialColormapRGBACommand.scalarGray p) h1 h2 h3 h4 hg0 hg1
    obtain ⟨hr0, hr1⟩ := hch _ _ hsr.1 hsr.2 her.1 her.2
    obtain ⟨hgg0, hgg1⟩ := hch _ _ hsg.1 hsg.2 heg.1 heg.2
    obtain ⟨hb0, hb1⟩ := hch _ _ hsb.1 hsb.2 heb.1 heb.2
    have hpix := scalarPixel_eq command p
    rw [max_eq_right (le_min (by norm_num) hr0), min_eq_right hr1,
      max_eq_right (le_min (by norm_num) hgg0), min_eq_right hgg1,
      max_eq_right (le_min (by norm_num) hb0), min_eq_right hb1,
      Int.emod_eq_of_lt hr0 (by omega), Int.emod_eq_of_lt hgg0 (by omega),
      Int.emod_eq_of_lt hb0 (by omega)] at hpix
    obtain ⟨ha, hr, hg, hb⟩ := bytes_parts 0xff
      (ApplySpecialColormapRGBACommand.scalarChannel command.start_red command.end_red
        (ApplySpecialColormapRGBACommand.scalarGray p)).toNat
      (ApplySpecialColormapRGBACommand.scalarChannel command.start_green command.end_green
        (ApplySpecialColormapRGBACommand.scalarGray p)).toNat
      (ApplySpecialColormapRGBACommand.scalarChannel command.start_blue command.end_blue
        (ApplySpecialColormapRGBACommand.scalarGray p)).toNat
      (by norm_num) (by omega) (by omega) (by omega)
    rw [← hpix] at ha hr hg hb
    have hR : (RPART (command.scalarPixel p) : Int)
        = ApplySpecialColormapRGBACommand.scalarChannel command.start_red command.end_red
            (ApplySpecialColormapRGBACommand.scalarGray p) := by
      rw [hr]; exact Int.toNat_of_nonneg hr0
    have hG : (GPART (command.scalarPixel p) : Int)
        = ApplySpecialColormapRGBACommand.scalarChannel command.start_green command.end_green
            (ApplySpecialColormapRGBACommand.scalarGray p) := by
      rw [hg]; exact Int.toNat_of_nonneg hgg0
    have hB : (BPART (command.scalarPixel p) : Int)
        = ApplySpecialColormapRGBACommand.scalarChannel command.start_blue command.end_blue
            (ApplySpecialColormapRGBACommand.scalarGray p) := by
      rw [hb]; exact Int.toNat_of_nonneg hb0
    refine ⟨⟨hg0, hg1⟩, ?_, ha, hR, hG, hB, ?_, ?_⟩
    · intro s e h1 h2 h3 h4
      obtain ⟨c0, c1⟩ := hch s e h1 h2 h3 h4
      exact ⟨c0, c1, by rw [min_eq_right c1, max_eq_right c0]⟩
    · intro h1 h2 h3
      have hgray : ApplySpecialColormapRGBACommand.scalarGray p = 0 := by
        rw [scalarGray_eq, h1, h2, h3]; norm_num
      rw [hR, hG, hB, hgray]
      simp only [ApplySpecialColormapRGBACommand.scalarChannel, shr8_eq_ediv]
      norm_num
    · intro h1 h2 h3
      have hgray : ApplySpecialColormapRGBACommand.scalarGray p = 256 := by
        rw [scalarGray_eq, h1, h2, h3]; norm_num
      rw [hR, hG, hB, hgray]
      simp only [ApplySpecialColormapRGBACommand.scalarChannel, shr8_eq_ediv]
      norm_num

/-- Witness for `scalar_colormap_endpoints`: the filter from `(10, 20, 30)` to
`(200, 150, 100)` maps the white pixel `0x00ffffff` to `0xffc89664`, the end
colour with alpha `0xff`. -/
theorem scalar_colormap_endpoints_witness :
    ((0 : Int) ≤ exampleTintColormap.start_red ∧ exampleTintColormap.start_red ≤ 255) ∧
    exampleTintColormap.scalarPixel 0x00ffffff = 0xffc89664 ∧
    (RPART (exampleTintColormap.scalarPixel 0x00ffffff) : Int) = exampleTintColormap.end_red ∧
    (GPART (exampleTintColormap.scalarPixel 0x00ffffff) : Int) = exampleTintColormap.end_green ∧
    (BPART (exampleTintColormap.scalarPixel 0x00ffffff) : Int) = exampleTintColormap.end_blue :=
  ⟨⟨by decide, by decide⟩, by decide,
    ((scalar_colormap_endpoints exampleTintColormap ⟨by decide, by decide⟩
      ⟨by decide, by decide⟩ ⟨by decide, by decide⟩ ⟨by decide, by decide⟩
      ⟨by decide, by decide⟩ ⟨by decide, by decide⟩).2 0x00ffffff).2.2.2.2.2.2.2
      (by decide) (by decide) (by decide)⟩

/-! ## Fog boundary shader -/

theorem mul32_small (a b : Nat) (h : a * b < 2 ^ 32) : mul32 a b = a * b := by
  unfold mul32 U32
  exact Nat.mod_eq_of_lt h

theorem add32_small (a b : Nat) (h : a + b < 2 ^ 32) : add32 a b = a + b := by
  unfold add32 U32
  exact Nat.mod_eq_of_lt h

theorem sub32_small (a b : Nat) (hb : b ≤ a) (ha : a < 2 ^ 32) : sub32 a b = a - b := by
  unfold sub32 U32
  rw [Nat.mod_eq_of_lt (by omega : b < 2 ^ 32)]
  have e : a + (2 ^ 32 - b) = (a - b) + 2 ^ 32 := by omega
  rw [e, Nat.add_mod_right]
  exact Nat.mod_eq_of_lt (by omega)

theorem shl32_small (a n : Nat) (h : a * 2 ^ n < 2 ^ 32) : shl32 a n = a <<< n := by
  unfold shl32 U32
  rw [Nat.shiftLeft_eq]
  exact Nat.mod_eq_of_lt h

theorem packBgra_parts (r g b : Nat) (hr : r < 256) (hg : g < 256) (hb : b < 256) :
    APART (packBgra r g b) = 0xff ∧ RPART (packBgra r g b) = r ∧
    GPART (packBgra r g b) = g ∧ BPART (packBgra r g b) = b := by
  have e : packBgra r g b = shl32 0xff 24 ||| shl32 r 16 ||| shl32 g 8 ||| b := rfl
  rw [e]
  exact parts_of_pack 0xff r g b (by norm_num) hr hg hb

theorem shadePixel_eq_pack (light : Nat) (constants : ShadeConstants) (bg : Nat) :
    DrawFogBoundaryLineRGBACommand.shadePixel light constants bg
      = packBgra (DrawFogBoundaryLineRGBACommand.shadeChannels light constants bg).1
          (DrawFogBoundaryLineRGBACommand.shadeChannels light constants bg).2.1
          (DrawFogBoundaryLineRGBACommand.shadeChannels light constants bg).2.2 := by
  unfold DrawFogBoundaryLineRGBACommand.shadePixel DrawFogBoundaryLineRGBACommand.shadeChannels
  dsimp only
  split <;> rfl

theorem shadeChannels_simple (light : Nat) (constants : ShadeConstants) (bg : Nat)
    (hs : constants.simple_shade = true) :
    DrawFogBoundaryLineRGBACommand.shadeChannels light constants bg
      = (mul32 (RPART bg) light / 256, mul32 (GPART bg) light / 256,
          mul32 (BPART bg) light / 256) := by
  unfold DrawFogBoundaryLineRGBACommand.shadeChannels
  dsimp only
  rw [if_pos hs]
  rfl

theorem fogDoWhile_pixels (light : Nat) (constants : ShadeConstants) (dest x2 idx : Int) :
    ∀ (fuel : Nat) (x : Int) (fb : FrameBuffer), x ≤ x2 → (x2 - x).toNat + 1 ≤ fuel →
      DrawFogBoundaryLineRGBACommand.doWhile light constants dest x2 fuel x fb idx
        = if dest + x ≤ idx ∧ idx ≤ dest + x2 then
            DrawFogBoundaryLineRGBACommand.shadePixel light constants (fb idx)
          else fb idx
  | 0, _, _, _, h => by omega
  | fuel + 1, x, fb, hx, h => by
    unfold DrawFogBoundaryLineRGBACommand.doWhile
    dsimp only
    split
    · rename_i hmore
      rw [fogDoWhile_pixels light constants dest x2 idx fuel (x + 1) _ hmore (by omega)]
      by_cases hi : idx = dest + x
      · subst hi
        rw [if_neg (by omega), if_pos (by omega), write_eq]
      · rw [write_ne _ _ _ _ hi]
        by_cases hr : dest + x ≤ idx ∧ idx ≤ dest + x2
        · rw [if_pos (by omega), if_pos hr]
        · rw [if_neg (by omega), if_neg hr]
    · rename_i hlast
      by_cases hi : idx = dest + x
      · subst hi
        rw [if_pos (by omega), write_eq]
      · rw [write_ne _ _ _ _ hi, if_neg (by omega)]

theorem fogExecute_pixels (env : DrawEnv) (command : DrawFogBoundaryLineRGBACommand)
    (thread : DrawerThread) (fb : FrameBuffer)
    (hown : thread.line_skipped_by_thread command._y = false)
    (hx : command._x ≤ command._x2) (idx : Int) :
    DrawFogBoundaryLineRGBACommand.Execute env command thread fb idx
      = if env.ylookup command._y + command._destorg + command._x ≤ idx
            ∧ idx ≤ env.ylookup command._y + command._destorg + command._x2 then
          DrawFogBoundaryLineRGBACommand.shadePixel (env.calc_light_multiplier command._light)
            command._shade_constants (fb idx)
        else fb idx := by
  unfold DrawFogBoundaryLineRGBACommand.Execute
  rw [hown]
  simp only [Bool.false_eq_true, if_false]
  exact fogDoWhile_pixels _ _ _ _ idx _ _ fb hx (le_refl _)

/-- C32. Fog boundary, simple path. For a worker that owns row `y`
(`line_skipped_by_thread(y)` is false), with `x <= x2` and `simple_shade` set,
`DrawFogBoundaryLineRGBACommand::Execute` replaces the pixel `bg` of every
column `x .. x2` of row `y` by `0xff000000 | (red << 16) | (green << 8) | blue`
with `red = R * light / 256` and likewise green and blue, computed on
`uint32_t` with truncating division, `light` being the value of
`calc_light_multiplier`; for `light <= 65536` no operation wraps and the pixel
is `0xff000000 | (R*light/256 << 16) | (G*light/256 << 8) | (B*light/256)` on
the integers; for `light <= 256` its alpha byte is `0xff` and its colour bytes
are `R*light/256`, `G*light/256`, `B*light/256`; for `light = 256` its red,
green and blue bytes are those of `bg`. Every other pixel is left unchanged. -/
theorem fog_simple_path (env : DrawEnv) (command : DrawFogBoundaryLineRGBACommand)
    (thread : DrawerThread) (fb : FrameBuffer)
    (hown : thread.line_skipped_by_thread command._y = false)
    (hx : command._x ≤ command._x2)
    (hs : command._shade_constants.simple_shade = true) :
    (∀ col : Int, command._x ≤ col → col ≤ command._x2 →
      DrawFogBoundaryLineRGBACommand.Execute env command thread fb
          (env.ylookup command._y + command._destorg + col)
        = packBgra
            (mul32 (RPART (fb (env.ylookup command._y + command._destorg + col)))
              (env.calc_light_multiplier command._light) / 256)
            (mul32 (GPART (fb (env.ylookup command._y + command._destorg + col)))
              (env.calc_light_multiplier command._light) / 256)
            (mul32 (BPART (fb (env.ylookup command._y + command._destorg + col)))
              (env.calc_light_multiplier command._light) / 256) ∧
      (env.calc_light_multiplier command._light ≤ 65536 →
        DrawFogBoundaryLineRGBACommand.Execute env command thread fb
            (env.ylookup command._y + command._destorg + col)
          = 0xff000000
            ||| ((RPART (fb (env.ylookup command._y + command._destorg + col))
                  * env.calc_light_multiplier command._light / 256) <<< 16)
            ||| ((GPART (fb (env.ylookup command._y + command._destorg + col))
                  * env.calc_light_multiplier command._light / 256) <<< 8)
            ||| (BPART (fb (env.ylookup command._y + command._destorg + col))
                  * env.calc_light_multiplier command._light / 256)) ∧
      (env.calc_light_multiplier command._light ≤ 256 →
        APART (DrawFogBoundaryLineRGBACommand.Execute env command thread fb
            (env.ylookup command._y + command._destorg + col)) = 0xff ∧
        RPART (DrawFogBoundaryLineRGBACommand.Execute env command thread fb
            (env.ylookup command._y + command._destorg + col))
          = RPART (fb (env.ylookup command._y + command._destorg + col))
              * env.calc_light_multiplier command._light / 256 ∧
        GPART (DrawFogBoundaryLineRGBACommand.Execute env command thread fb
            (env.ylookup command._y + command._destorg + col))
          = GPART (fb (env.ylookup command._y + command._destorg + col))
              * env.calc_light_multiplier command._light / 256 ∧
        BPART (DrawFogBoundaryLineRGBACommand.Execute env command thread fb
            (env.ylookup command._y + command._destorg + col))
          = BPART (fb (env.ylookup command._y + command._destorg + col))
              * env.calc_light_multiplier command._light / 256) ∧
      (env.calc_light_multiplier command._light = 256 →
        RPART (DrawFogBoundaryLineRGBACommand.Execute env command thread fb
            (env.ylookup command._y + command._destorg + col))
          = RPART (fb (env.ylookup command._y + command._destorg + col)) ∧
        GPART (DrawFogBoundaryLineRGBACommand.Execute env command thread fb
            (env.ylookup command._y + command._destorg + col))
          = GPART (fb (env.ylookup command._y + command._destorg + col)) ∧
        BPART (DrawFogBoundaryLineRGBACommand.Execute env command thread fb
            (env.ylookup command._y + command._destorg + col))
          = BPART (fb (env.ylookup command._y + command._destorg + col)))) ∧
    (∀ idx : Int,
      (∀ col : Int, command._x ≤ col → col ≤ command._x2 →
        idx ≠ env.ylookup command._y + command._destorg + col) →
      DrawFogBoundaryLineRGBACommand.Execute env command thread fb idx = fb idx) := by
  constructor
  · intro col hc1 hc2
    generalize hL : env.calc_light_multiplier command._light = light
    have hE : DrawFogBoundaryLineRGBACommand.Execute env command thread fb
          (env.ylookup command._y + command._destorg + col)
        = packBgra
            (mul32 (RPART (fb (env.ylookup command._y + command._destorg + col))) light / 256)
            (mul32 (GPART (fb (env.ylookup command._y + command._destorg + col))) light / 256)
            (mul32 (BPART (fb (env.ylookup command._y + command._destorg + col))) light
              / 256) := by
      rw [fogExecute_pixels env command thread fb hown hx, if_pos (by omega), hL,
        shadePixel_eq_pack, shadeChannels_simple _ _ _ hs]
    rw [hE]
    generalize fb (env.ylookup command._y + command._destorg + col) = bg
    obtain ⟨-, hr, hg, hb⟩ := parts_lt bg
    have hparts : light ≤ 256 →
        APART (packBgra (mul32 (RPART bg) light / 256) (mul32 (GPART bg) light / 256)
          (mul32 (BPART bg) light / 256)) = 0xff ∧
        RPART (packBgra (mul32 (RPART bg) light / 256) (mul32 (GPART bg) light / 256)
          (mul32 (BPART bg) light / 256)) = RPART bg * light / 256 ∧
        GPART (packBgra (mul32 (RPART bg) light / 256) (mul32 (GPART bg) light / 256)
          (mul32 (BPART bg) light / 256)) = GPART bg * light / 256 ∧
        BPART (packBgra (mul32 (RPART bg) light / 256) (mul32 (GPART bg) light / 256)
          (mul32 (BPART bg) light / 256)) = BPART bg * light / 256 := by
      intro hl
      have h1 : RPART bg * light ≤ 255 * 256 := Nat.mul_le_mul (by omega) hl
      have h2 : GPART bg * light ≤ 255 * 256 := Nat.mul_le_mul (by omega) hl
      have h3 : BPART bg * light ≤ 255 * 256 := Nat.mul_le_mul (by omega) hl
      rw [mul32_small _ _ (by omega), mul32_small _ _ (by omega), mul32_small _ _ (by omega)]
      exact packBgra_parts _ _ _ (by omega) (by omega) (by omega)
    refine ⟨rfl, ?_, hparts, ?_⟩
    · intro hl
      have h1 : RPART bg * light ≤ 255 * 65536 := Nat.mul_le_mul (by omega) hl
      have h2 : GPART bg * light ≤ 255 * 65536 := Nat.mul_le_mul (by omega) hl
      have h3 : BPART bg * light ≤ 255 * 65536 := Nat.mul_le_mul (by omega) hl
      rw [mul32_small _ _ (by omega), mul32_small _ _ (by omega), mul32_small _ _ (by omega)]
      unfold packBgra
      rw [shl32_small _ 16 (by omega), shl32_small _ 8 (by omega)]
    · intro hl
      obtain ⟨-, e1, e2, e3⟩ := hparts (by omega)
      rw [e1, e2, e3, hl]
      omega
  · intro idx h
    rw [fogExecute_pixels env command thread fb hown hx, if_neg]
    rintro ⟨h1, h2⟩
    exact h (idx - (env.ylookup command._y + command._destorg)) (by omega) (by omega) (by ring)

set_option maxRecDepth 100000 in
/-- Witness for `fog_simple_path`: the example line (columns 5 .. 8 of row 3,
light multiplier 128) on a white frame buffer, run by the only worker, turns
the pixel of column 6 into `0xff7f7f7f` and leaves column 9 white. -/
theorem fog_simple_path_witness :
    ((⟨0, 1, 0, 200⟩ : DrawerThread).line_skipped_by_thread exampleFogLine._y = false ∧
      exampleFogLine._x ≤ exampleFogLine._x2 ∧
      exampleFogLine._shade_constants.simple_shade = true) ∧
    DrawFogBoundaryLineRGBACommand.Execute exampleDrawEnv exampleFogLine ⟨0, 1, 0, 200⟩
        exampleWhiteFrameBuffer (3 * 320 + 6) = 0xff7f7f7f ∧
    DrawFogBoundaryLineRGBACommand.Execute exampleDrawEnv exampleFogLine ⟨0, 1, 0, 200⟩
        exampleWhiteFrameBuffer (3 * 320 + 9) = 0xffffffff :=
  ⟨⟨by decide, by decide, by decide⟩,
    ((fog_simple_path exampleDrawEnv exampleFogLine ⟨0, 1, 0, 200⟩ exampleWhiteFrameBuffer
      (by decide) (by decide) (by decide)).1 6 (by decide) (by decide)).1.trans (by decide),
    ((fog_simple_path exampleDrawEnv exampleFogLine ⟨0, 1, 0, 200⟩ exampleWhiteFrameBuffer
      (by decide) (by decide) (by decide)).2 (3 * 320 + 9)
      (by intro col (h1 : (5 : Int) ≤ col) (h2 : col ≤ 8)
          show (3 * 320 + 9 : Int) ≠ 3 * 320 + 0 + col
          omega)).trans rfl⟩

theorem fogDoWhile_congr (light : Nat) (c1 c2 : ShadeConstants) (dest x2 : Int)
    (h : ∀ bg, DrawFogBoundaryLineRGBACommand.shadePixel light c1 bg
      = DrawFogBoundaryLineRGBACommand.shadePixel light c2 bg) :
    ∀ (fuel : Nat) (x : Int) (fb : FrameBuffer),
      DrawFogBoundaryLineRGBACommand.doWhile light c1 dest x2 fuel x fb
        = DrawFogBoundaryLineRGBACommand.doWhile light c2 dest x2 fuel x fb
  | 0, _, _ => rfl
  | fuel + 1, x, fb => by
    unfold DrawFogBoundaryLineRGBACommand.doWhile
    simp only [h, fogDoWhile_congr light c1 c2 dest x2 h fuel]

theorem fog_neutral_channel (c light gray : Nat) (hc : c < 256) :
    mul32 (add32 (mul32 0 (sub32 256 light))
        (mul32 (add32 (mul32 c (sub32 256 0)) (mul32 gray 0) / 256) light) / 256) 256 / 256
      = mul32 c light / 256 := by
  have e1 : sub32 256 0 = 256 := by norm_num [sub32, U32]
  have e2 : mul32 gray 0 = 0 := by simp [mul32]
  have e3 : mul32 0 (sub32 256 light) = 0 := by simp [mul32]
  rw [e1, e2, e3, mul32_small c 256 (by omega), add32_small _ 0 (by omega), Nat.add_zero,
    Nat.mul_div_cancel c (by norm_num : 0 < 256)]
  have hm : mul32 c light < 2 ^ 32 := by
    unfold mul32 U32
    exact Nat.mod_lt _ (by norm_num)
  rw [add32_small 0 _ (by omega), Nat.zero_add, mul32_small _ 256 (by omega),
    Nat.mul_div_cancel _ (by norm_num : 0 < 256)]

/-- C33. The two paths of the fog boundary shader agree on neutral constants:
with `desaturate = 0`, `fade_red = fade_green = fade_blue = 0` and
`light_red = light_green = light_blue = 256`, the full desaturate, fade and
light path stores for every pixel and every light multiplier (in `0..256` and
beyond) exactly the pixel the simple multiply-by-light path stores, and so
`DrawFogBoundaryLineRGBACommand::Execute` leaves the same frame buffer with
`simple_shade` cleared as with `simple_shade` set. -/
theorem fog_paths_agree (constants : ShadeConstants)
    (hd : constants.desaturate = 0)
    (hf : constants.fade_red = 0 ∧ constants.fade_green = 0 ∧ constants.fade_blue = 0)
    (hl : constants.light_red = 256 ∧ constants.light_green = 256
      ∧ constants.light_blue = 256) :
    (∀ light bg : Nat,
      DrawFogBoundaryLineRGBACommand.shadePixel light { constants with simple_shade := false } bg
        = DrawFogBoundaryLineRGBACommand.shadePixel light
            { constants with simple_shade := true } bg) ∧
    (∀ (env : DrawEnv) (command : DrawFogBoundaryLineRGBACommand) (thread : DrawerThread)
        (fb : FrameBuffer),
      DrawFogBoundaryLineRGBACommand.Execute env
          { command with _shade_constants := { constants with simple_shade := false } } thread fb
        = DrawFogBoundaryLineRGBACommand.Execute env
          { command with _shade_constants := { constants with simple_shade := true } }
          thread fb) := by
  have hpix : ∀ light bg : Nat,
      DrawFogBoundaryLineRGBACommand.shadePixel light { constants with simple_shade := false } bg
        = DrawFogBoundaryLineRGBACommand.shadePixel light
            { constants with simple_shade := true } bg := by
    intro light bg
    obtain ⟨-, hr, hg, hb⟩ := parts_lt bg
    unfold DrawFogBoundaryLineRGBACommand.shadePixel
    simp only [Bool.false_eq_true, if_false, if_true, hd, hf.1, hf.2.1, hf.2.2, hl.1, hl.2.1,
      hl.2.2]
    rw [fog_neutral_channel (bg >>> 16 &&& 255) light _ hr,
      fog_neutral_channel (bg >>> 8 &&& 255) light _ hg,
      fog_neutral_channel (bg &&& 255) light _ hb]
  refine ⟨hpix, fun env command thread fb => ?_⟩
  unfold DrawFogBoundaryLineRGBACommand.Execute
  dsimp only
  split
  · rfl
  · exact fogDoWhile_congr _ _ _ _ _ (hpix _) _ _ _

/-- Witness for `fog_paths_agree`: with neutral constants and light multiplier
100 both paths turn `0xff804020` into `0xff32190c`. -/
theorem fog_paths_agree_witness :
    ((⟨256, 256, 256, 0, 0, 0, 0, false⟩ : ShadeConstants).desaturate = 0) ∧
    DrawFogBoundaryLineRGBACommand.shadePixel 100 ⟨256, 256, 256, 0, 0, 0, 0, false⟩ 0xff804020
      = 0xff32190c ∧
    DrawFogBoundaryLineRGBACommand.shadePixel 100 ⟨256, 256, 256, 0, 0, 0, 0, true⟩ 0xff804020
      = 0xff32190c :=
  ⟨rfl, by decide,
    ((fog_paths_agree ⟨256, 256, 256, 0, 0, 0, 0, false⟩ rfl ⟨rfl, rfl, rfl⟩
      ⟨rfl, rfl, rfl⟩).1 100 0xff804020).symm.trans (by decide)⟩

theorem fog_gray_le (r g b : Nat) (hr : r < 256) (hg : g < 256) (hb : b < 256) :
    add32 (add32 (mul32 r 77) (mul32 g 143)) (mul32 b 37) >>> 8 ≤ 255 := by
  rw [mul32_small r 77 (by omega), mul32_small g 143 (by omega), mul32_small b 37 (by omega),
    add32_small (r * 77) (g * 143) (by omega), add32_small _ _ (by omega),
    Nat.shiftRight_eq_div_pow]
  omega

theorem fog_full_channel_le (c gray light d f lc : Nat) (hc : c < 256) (hgray : gray ≤ 255)
    (hl : light ≤ 256) (hd : d ≤ 256) (hf : f ≤ 255) (hlc : lc ≤ 256) :
    mul32 (add32 (mul32 f (sub32 256 light))
        (mul32 (add32 (mul32 c (sub32 256 d)) (mul32 gray d) / 256) light) / 256) lc / 256
      ≤ 255 := by
  rw [sub32_small 256 light hl (by norm_num), sub32_small 256 d hd (by norm_num)]
  have h1 : c * (256 - d) ≤ 255 * (256 - d) := Nat.mul_le_mul_right _ (by omega)
  have h2 : gray * d ≤ 255 * d := Nat.mul_le_mul_right _ hgray
  rw [mul32_small c _ (by omega), mul32_small gray d (by omega),
    add32_small (c * (256 - d)) (gray * d) (by omega)]
  have hr1 : (c * (256 - d) + gray * d) / 256 ≤ 255 := by omega
  generalize (c * (256 - d) + gray * d) / 256 = r1 at hr1
  have h3 : f * (256 - light) ≤ 255 * (256 - light) := Nat.mul_le_mul_right _ hf
  have h4 : r1 * light ≤ 255 * light := Nat.mul_le_mul_right _ hr1
  rw [mul32_small f _ (by omega), mul32_small r1 light (by omega),
    add32_small (f * (256 - light)) (r1 * light) (by omega)]
  have hr2 : (f * (256 - light) + r1 * light) / 256 ≤ 255 := by omega
  generalize (f * (256 - light) + r1 * light) / 256 = r2 at hr2
  have h5 : r2 * lc ≤ 255 * 256 := Nat.mul_le_mul hr2 hlc
  rw [mul32_small r2 lc (by omega)]
  omega

theorem fog_simple_channel_le (c light : Nat) (hc : c < 256) (hl : light ≤ 256) :
    mul32 c light / 256 ≤ 255 := by
  have h1 : c * light ≤ 255 * 256 := Nat.mul_le_mul (by omega) hl
  rw [mul32_small c light (by omega)]
  omega

/-- C34. The channels of the fog boundary shader never overflow a byte. For
every input pixel, light multiplier in `0..256`, `desaturate` in `0..256`,
fade components in `0..255` and light colour components in `0..256`, the
`red`, `green` and `blue` values either path of
`DrawFogBoundaryLineRGBACommand::Execute` has computed when it stores the
pixel lie in `0..255`; the pixel stored is their packing, its alpha byte is
`0xff` and its red, green and blue bytes are exactly these three values. -/
theorem fog_channels_in_byte (light : Nat) (constants : ShadeConstants) (bg : Nat)
    (hl : light ≤ 256) (hd : constants.desaturate ≤ 256)
    (hf : constants.fade_red ≤ 255 ∧ constants.fade_green ≤ 255 ∧ constants.fade_blue ≤ 255)
    (hc : constants.light_red ≤ 256 ∧ constants.light_green ≤ 256
      ∧ constants.light_blue ≤ 256) :
    ((DrawFogBoundaryLineRGBACommand.shadeChannels light constants bg).1 ≤ 255 ∧
      (DrawFogBoundaryLineRGBACommand.shadeChannels light constants bg).2.1 ≤ 255 ∧
      (DrawFogBoundaryLineRGBACommand.shadeChannels light constants bg).2.2 ≤ 255) ∧
    DrawFogBoundaryLineRGBACommand.shadePixel light constants bg
      = packBgra (DrawFogBoundaryLineRGBACommand.shadeChannels light constants bg).1
          (DrawFogBoundaryLineRGBACommand.shadeChannels light constants bg).2.1
          (DrawFogBoundaryLineRGBACommand.shadeChannels light constants bg).2.2 ∧
    APART (DrawFogBoundaryLineRGBACommand.shadePixel light constants bg) = 0xff ∧
    RPART (DrawFogBoundaryLineRGBACommand.shadePixel light constants bg)
      = (DrawFogBoundaryLineRGBACommand.shadeChannels light constants bg).1 ∧
    GPART (DrawFogBoundaryLineRGBACommand.shadePixel light constants bg)
      = (DrawFogBoundaryLineRGBACommand.shadeChannels light constants bg).2.1 ∧
    BPART (DrawFogBoundaryLineRGBACommand.shadePixel light constants bg)
      = (DrawFogBoundaryLineRGBACommand.shadeChannels light constants bg).2.2 := by
  have hch : (DrawFogBoundaryLineRGBACommand.shadeChannels light constants bg).1 ≤ 255 ∧
      (DrawFogBoundaryLineRGBACommand.shadeChannels light constants bg).2.1 ≤ 255 ∧
      (DrawFogBoundaryLineRGBACommand.shadeChannels light constants bg).2.2 ≤ 255 := by
    obtain ⟨-, hr, hg, hb⟩ := parts_lt bg
    unfold DrawFogBoundaryLineRGBACommand.shadeChannels
    dsimp only
    split
    · exact ⟨fog_simple_channel_le _ _ hr hl, fog_simple_channel_le _ _ hg hl,
        fog_simple_channel_le _ _ hb hl⟩
    · have hgray := fog_gray_le _ _ _ hr hg hb
      exact ⟨fog_full_channel_le _ _ _ _ _ _ hr hgray hl hd hf.1 hc.1,
        fog_full_channel_le _ _ _ _ _ _ hg hgray hl hd hf.2.1 hc.2.1,
        fog_full_channel_le _ _ _ _ _ _ hb hgray hl hd hf.2.2 hc.2.2⟩
  have hp := packBgra_parts _ _ _ (Nat.lt_succ_of_le hch.1) (Nat.lt_succ_of_le hch.2.1)
    (Nat.lt_succ_of_le hch.2.2)
  rw [← shadePixel_eq_pack] at hp
  exact ⟨hch, shadePixel_eq_pack _ _ _, hp⟩

/-- Witness for `fog_channels_in_byte`: the full path with the example constants
and light multiplier 200 turns `0xff804020` into `0xff883215`: the channels are
`0x88`, `0x32` and `0x15`. -/
theorem fog_channels_in_byte_witness :
    ((200 : Nat) ≤ 256 ∧ exampleFullShade.desaturate ≤ 256) ∧
    DrawFogBoundaryLineRGBACommand.shadeChannels 200 exampleFullShade 0xff804020
      = (0x88, 0x32, 0x15) ∧
    APART (DrawFogBoundaryLineRGBACommand.shadePixel 200 exampleFullShade 0xff804020) = 0xff ∧
    RPART (DrawFogBoundaryLineRGBACommand.shadePixel 200 exampleFullShade 0xff804020)
      = (DrawFogBoundaryLineRGBACommand.shadeChannels 200 exampleFullShade 0xff804020).1 :=
  ⟨⟨by decide, by decide⟩, by decide,
    (fog_channels_in_byte 200 exampleFullShade 0xff804020 (by decide) (by decide)
      ⟨by decide, by decide, by decide⟩ ⟨by decide, by decide, by decide⟩).2.2.1,
    (fog_channels_in_byte 200 exampleFullShade 0xff804020 (by decide) (by decide)
      ⟨by decide, by decide, by decide⟩ ⟨by decide, by decide, by decide⟩).2.2.2.1⟩

/-! ## Branches of the voxel slab -/

theorem fillRow_pixels (dx p : Int) (color : Nat) (idx : Int) :
    ∀ (fuel : Nat) (x : Int) (fb : FrameBuffer), (dx - x).toNat ≤ fuel →
      DrawSlabRGBACommand.fillRow dx p color fuel x fb idx
        = if p + x ≤ idx ∧ idx < p + dx then color else fb idx
  | 0, x, fb, h => by
    unfold DrawSlabRGBACommand.fillRow
    rw [if_neg (by omega)]
  | fuel + 1, x, fb, h => by
    unfold DrawSlabRGBACommand.fillRow
    split
    · rw [fillRow_pixels dx p color idx fuel (x + 1) _ (by omega)]
      by_cases hi : idx = p + x
      · subst hi
        rw [if_neg (by omega), if_pos (by omega), write_eq]
      · rw [write_ne _ _ _ _ hi]
        by_cases hr : p + x ≤ idx ∧ idx < p + dx
        · rw [if_pos (by omega), if_pos hr]
        · rw [if_neg (by omega), if_neg hr]
    · rw [if_neg (by omega)]

theorem slabRowLoop_eq_foldl (env : DrawEnv) (shade : Int → Nat)
    (row : Int → Nat → FrameBuffer → FrameBuffer) (pitch vi : Int) :
    ∀ (fuel : Nat) (dy p v : Int) (fb : FrameBuffer),
      DrawSlabRGBACommand.rowLoop env shade row pitch vi fuel dy p v fb
        = (DrawSlabRGBACommand.rowStates pitch vi fuel dy p v).foldl
            (fun (fb : FrameBuffer) (s : Int × Int) => row s.1 (shade (s.2 >>> env.FRACBITS)) fb)
            fb
  | 0, _, _, _, _ => rfl
  | fuel + 1, dy, p, v, fb => by
    unfold DrawSlabRGBACommand.rowLoop DrawSlabRGBACommand.rowStates
    split
    · dsimp only
      rw [slabRowLoop_eq_foldl env shade row pitch vi fuel]
      rfl
    · rfl

theorem slabRowStates_getElem? (pitch vi : Int) :
    ∀ (fuel : Nat) (dy p v : Int) (k : Nat), dy.toNat ≤ fuel →
      (DrawSlabRGBACommand.rowStates pitch vi fuel dy p v).length = dy.toNat ∧
      ∀ s, (DrawSlabRGBACommand.rowStates pitch vi fuel dy p v)[k]? = some s →
        s.1 = p + (k : Int) * pitch
  | 0, dy, p, v, k, h => by
    unfold DrawSlabRGBACommand.rowStates
    exact ⟨by simp; omega, by simp⟩
  | fuel + 1, dy, p, v, k, h => by
    unfold DrawSlabRGBACommand.rowStates
    split
    · obtain ⟨hlen, -⟩ := slabRowStates_getElem? pitch vi fuel (dy - 1) (p + pitch)
        (toInt32 (v + vi)) 0 (by omega)
      refine ⟨by rw [List.length_cons, hlen]; omega, ?_⟩
      intro s hs
      cases k with
      | zero =>
        simp only [List.getElem?_cons_zero, Option.some.injEq] at hs
        subst hs
        simp
      | succ k =>
        simp only [List.getElem?_cons_succ] at hs
        have := (slabRowStates_getElem? pitch vi fuel (dy - 1) (p + pitch)
          (toInt32 (v + vi)) k (by omega)).2 s hs
        rw [this]
        push_cast
        ring
    · exact ⟨by simp; omega, by simp⟩

/-- C36. The unrolled voxel-slab branches equal the general one. For `dx` in
`{1, 2, 3, 4}` and every row count, start value `v`, step `vi`, worker
descriptor and frame buffer, `DrawSlabRGBACommand::Execute` (which takes the
specialised branch) leaves the frame buffer the general branch would leave
for that `dx`. In both, the rows visited are the `count_for_thread(start_y,
dy)` rows of the worker, the `k`-th at `p + k * pitch * num_cores` from the
worker's first row; each row gets the one colour sampled at `v >> FRACBITS`
for that row, stored by the per-row loop into exactly the `dx` consecutive
words from the row's `p` on. -/
theorem slab_unrolled_eq_general (env : DrawEnv) (shade : Int → Nat)
    (command : DrawSlabRGBACommand) (thread : DrawerThread) (fb : FrameBuffer)
    (hdx : command._dx = 1 ∨ command._dx = 2 ∨ command._dx = 3 ∨ command._dx = 4) :
    DrawSlabRGBACommand.Execute env shade command thread fb
      = DrawSlabRGBACommand.ExecuteGeneral env shade command thread fb ∧
    DrawSlabRGBACommand.Execute env shade command thread fb
      = (DrawSlabRGBACommand.rowStates (command._pitch * thread.num_cores)
            (toInt32 (command._vi * thread.num_cores))
            (thread.count_for_thread command._start_y command._dy).toNat
            (thread.count_for_thread command._start_y command._dy)
            (thread.dest_for_thread command._start_y command._pitch command._p)
            (toInt32 (command._v
              + toInt32 (command._vi * thread.skipped_by_thread command._start_y)))).foldl
          (fun (fb : FrameBuffer) (s : Int × Int) => DrawSlabRGBACommand.fillRow command._dx s.1
            (shade (s.2 >>> env.FRACBITS)) command._dx.toNat 0 fb) fb ∧
    (DrawSlabRGBACommand.rowStates (command._pitch * thread.num_cores)
        (toInt32 (command._vi * thread.num_cores))
        (thread.count_for_thread command._start_y command._dy).toNat
        (thread.count_for_thread command._start_y command._dy)
        (thread.dest_for_thread command._start_y command._pitch command._p)
        (toInt32 (command._v
          + toInt32 (command._vi * thread.skipped_by_thread command._start_y)))).length
      = (thread.count_for_thread command._start_y command._dy).toNat ∧
    (∀ (k : Nat) (s : Int × Int),
      (DrawSlabRGBACommand.rowStates (command._pitch * thread.num_cores)
        (toInt32 (command._vi * thread.num_cores))
        (thread.count_for_thread command._start_y command._dy).toNat
        (thread.count_for_thread command._start_y command._dy)
        (thread.dest_for_thread command._start_y command._pitch command._p)
        (toInt32 (command._v
          + toInt32 (command._vi * thread.skipped_by_thread command._start_y))))[k]? = some s →
      s.1 = thread.dest_for_thread command._start_y command._pitch command._p
        + (k : Int) * (command._pitch * thread.num_cores)) ∧
    (∀ (p : Int) (color : Nat) (fb0 : FrameBuffer) (idx : Int),
      DrawSlabRGBACommand.fillRow command._dx p color command._dx.toNat 0 fb0 idx
        = if p ≤ idx ∧ idx < p + command._dx then color else fb0 idx) := by
  have hrow : ∀ (p : Int) (color : Nat) (fb0 : FrameBuffer) (idx : Int),
      DrawSlabRGBACommand.fillRow command._dx p color command._dx.toNat 0 fb0 idx
        = if p ≤ idx ∧ idx < p + command._dx then color else fb0 idx := by
    intro p color fb0 idx
    have := fillRow_pixels command._dx p color idx command._dx.toNat 0 fb0 (by simp)
    simpa using this
  have e1 : (fun (p : Int) (color : Nat) (fb0 : FrameBuffer) => fb0.write p color)
      = fun p color fb0 => DrawSlabRGBACommand.fillRow 1 p color (1 : Int).toNat 0 fb0 := by
    funext p color fb0 idx
    rw [fillRow_pixels 1 p color idx (Int.toNat 1) 0 fb0 (by decide)]
    by_cases hi : idx = p
    · subst hi
      rw [write_eq, if_pos (by omega)]
    · rw [write_ne _ _ _ _ hi, if_neg (by omega)]
  have e2 : (fun (p : Int) (color : Nat) (fb0 : FrameBuffer) =>
        (fb0.write (p + 0) color).write (p + 1) color)
      = fun p color fb0 => DrawSlabRGBACommand.fillRow 2 p color (2 : Int).toNat 0 fb0 := by
    funext p color fb0 idx
    rw [fillRow_pixels 2 p color idx (Int.toNat 2) 0 fb0 (by decide)]
    by_cases h1 : idx = p + 1
    · subst h1
      rw [write_eq, if_pos (by omega)]
    · rw [write_ne _ _ _ _ h1]
      by_cases h0 : idx = p + 0
      · subst h0
        rw [write_eq, if_pos (by omega)]
      · rw [write_ne _ _ _ _ h0, if_neg (by omega)]
  have e3 : (fun (p : Int) (color : Nat) (fb0 : FrameBuffer) =>
        ((fb0.write (p + 0) color).write (p + 1) color).write (p + 2) color)
      = fun p color fb0 => DrawSlabRGBACommand.fillRow 3 p color (3 : Int).toNat 0 fb0 := by
    funext p color fb0 idx
    rw [fillRow_pixels 3 p color idx (Int.toNat 3) 0 fb0 (by decide)]
    by_cases h2 : idx = p + 2
    · subst h2
      rw [write_eq, if_pos (by omega)]
    · rw [write_ne _ _ _ _ h2]
      by_cases h1 : idx = p + 1
      · subst h1
        rw [write_eq, if_pos (by omega)]
      · rw [write_ne _ _ _ _ h1]
        by_cases h0 : idx = p + 0
        · subst h0
          rw [write_eq, if_pos (by omega)]
        · rw [write_ne _ _ _ _ h0, if_neg (by omega)]
  have e4 : (fun (p : Int) (color : Nat) (fb0 : FrameBuffer) =>
        (((fb0.write (p + 0) color).write (p + 1) color).write (p + 2) color).write (p + 3)
          color)
      = fun p color fb0 => DrawSlabRGBACommand.fillRow 4 p color (4 : Int).toNat 0 fb0 := by
    funext p color fb0 idx
    rw [fillRow_pixels 4 p color idx (Int.toNat 4) 0 fb0 (by decide)]
    by_cases h3 : idx = p + 3
    · subst h3
      rw [write_eq, if_pos (by omega)]
    · rw [write_ne _ _ _ _ h3]
      by_cases h2 : idx = p + 2
      · subst h2
        rw [write_eq, if_pos (by omega)]
      · rw [write_ne _ _ _ _ h2]
        by_cases h1 : idx = p + 1
        · subst h1
          rw [write_eq, if_pos (by omega)]
        · rw [write_ne _ _ _ _ h1]
          by_cases h0 : idx = p + 0
          · subst h0
            rw [write_eq, if_pos (by omega)]
          · rw [write_ne _ _ _ _ h0, if_neg (by omega)]
  have hgen : DrawSlabRGBACommand.Execute env shade command thread fb
      = DrawSlabRGBACommand.ExecuteGeneral env shade command thread fb := by
    unfold DrawSlabRGBACommand.Execute DrawSlabRGBACommand.ExecuteGeneral
    dsimp only
    rcases hdx with h | h | h | h
    · rw [if_pos h, h, e1]
    · rw [if_neg (by omega), if_pos h, h, e2]
    · rw [if_neg (by omega), if_neg (by omega), if_pos h, h, e3]
    · rw [if_neg (by omega), if_neg (by omega), if_neg (by omega), if_pos h, h, e4]
  refine ⟨hgen, ?_, ?_, ?_, hrow⟩
  · rw [hgen]
    unfold DrawSlabRGBACommand.ExecuteGeneral
    dsimp only
    exact slabRowLoop_eq_foldl _ _ _ _ _ _ _ _ _ _
  · exact (slabRowStates_getElem? _ _ _ _ _ _ 0 (le_refl _)).1
  · intro k s hs
    exact (slabRowStates_getElem? _ _ _ _ _ _ k (le_refl _)).2 s hs

set_option maxRecDepth 100000 in
/-- Witness for `slab_unrolled_eq_general`: on the example slab (`dx = 3`, rows
2 .. 6), worker 1 of 2 owns rows 3 and 5; the specialised and the general
branch both leave the colour of voxel 1 in the three words of row 3 and do
not touch the fourth. -/
theorem slab_unrolled_eq_general_witness :
    (exampleSlab._dx = 1 ∨ exampleSlab._dx = 2 ∨ exampleSlab._dx = 3 ∨ exampleSlab._dx = 4) ∧
    DrawSlabRGBACommand.Execute exampleDrawEnv (fun i => 0xff000000 + i.toNat) exampleSlab
        ⟨1, 2, 0, 200⟩ exampleFrameBuffer
      = DrawSlabRGBACommand.ExecuteGeneral exampleDrawEnv (fun i => 0xff000000 + i.toNat)
          exampleSlab ⟨1, 2, 0, 200⟩ exampleFrameBuffer ∧
    DrawSlabRGBACommand.Execute exampleDrawEnv (fun i => 0xff000000 + i.toNat) exampleSlab
        ⟨1, 2, 0, 200⟩ exampleFrameBuffer (3 * 320 + 12) = 0xff000001 ∧
    DrawSlabRGBACommand.Execute exampleDrawEnv (fun i => 0xff000000 + i.toNat) exampleSlab
        ⟨1, 2, 0, 200⟩ exampleFrameBuffer (3 * 320 + 13) = 0 :=
  ⟨by decide,
    (slab_unrolled_eq_general exampleDrawEnv (fun i => 0xff000000 + i.toNat) exampleSlab
      ⟨1, 2, 0, 200⟩ exampleFrameBuffer (by decide)).1,
    by decide, by decide⟩

/-! ## Shade constants of the voxel slab -/

/-- C35. `R_SetupDrawSlab_rgba` selects the simple shade mode only for neutral
constants. For every base colormap: if it sets `simple_shade` to true, the
constants it computes are `light_red = light_green = light_blue = 256`,
`fade_red = fade_green = fade_blue = 0` and `desaturate = 0`. Each light
component is `c * 256 / 255` of the colour byte `c` (in `0..255`), lies in
`0..256` and is 256 exactly when `c = 255`; `desaturate` lies in `0..254`. -/
theorem R_SetupDrawSlab_simple_shade {L : Type} (LIGHTSCALE : L → Int → Int)
    (base_colormap : FColormap) (light : L) (shade : Int) :
    ((R_SetupDrawSlab_rgba LIGHTSCALE base_colormap light
        shade).slab_rgba_shade_constants.simple_shade = true →
      (R_SetupDrawSlab_rgba LIGHTSCALE base_colormap light
        shade).slab_rgba_shade_constants.light_red = 256 ∧
      (R_SetupDrawSlab_rgba LIGHTSCALE base_colormap light
        shade).slab_rgba_shade_constants.light_green = 256 ∧
      (R_SetupDrawSlab_rgba LIGHTSCALE base_colormap light
        shade).slab_rgba_shade_constants.light_blue = 256 ∧
      (R_SetupDrawSlab_rgba LIGHTSCALE base_colormap light
        shade).slab_rgba_shade_constants.fade_red = 0 ∧
      (R_SetupDrawSlab_rgba LIGHTSCALE base_colormap light
        shade).slab_rgba_shade_constants.fade_green = 0 ∧
      (R_SetupDrawSlab_rgba LIGHTSCALE base_colormap light
        shade).slab_rgba_shade_constants.fade_blue = 0 ∧
      (R_SetupDrawSlab_rgba LIGHTSCALE base_colormap light
        shade).slab_rgba_shade_constants.desaturate = 0) ∧
    (base_colormap.Color.r ≤ 255 ∧ base_colormap.Color.g ≤ 255 ∧ base_colormap.Color.b ≤ 255) ∧
    ((R_SetupDrawSlab_rgba LIGHTSCALE base_colormap light
        shade).slab_rgba_shade_constants.light_red = base_colormap.Color.r * 256 / 255 ∧
      (R_SetupDrawSlab_rgba LIGHTSCALE base_colormap light
        shade).slab_rgba_shade_constants.light_red ≤ 256 ∧
      ((R_SetupDrawSlab_rgba LIGHTSCALE base_colormap light
        shade).slab_rgba_shade_constants.light_red = 256 ↔ base_colormap.Color.r = 255)) ∧
    ((R_SetupDrawSlab_rgba LIGHTSCALE base_colormap light
        shade).slab_rgba_shade_constants.light_green = base_colormap.Color.g * 256 / 255 ∧
      (R_SetupDrawSlab_rgba LIGHTSCALE base_colormap light
        shade).slab_rgba_shade_constants.light_green ≤ 256 ∧
      ((R_SetupDrawSlab_rgba LIGHTSCALE base_colormap light
        shade).slab_rgba_shade_constants.light_green = 256 ↔ base_colormap.Color.g = 255)) ∧
    ((R_SetupDrawSlab_rgba LIGHTSCALE base_colormap light
        shade).slab_rgba_shade_constants.light_blue = base_colormap.Color.b * 256 / 255 ∧
      (R_SetupDrawSlab_rgba LIGHTSCALE base_colormap light
        shade).slab_rgba_shade_constants.light_blue ≤ 256 ∧
      ((R_SetupDrawSlab_rgba LIGHTSCALE base_colormap light
        shade).slab_rgba_shade_constants.light_blue = 256 ↔ base_colormap.Color.b = 255)) ∧
    (R_SetupDrawSlab_rgba LIGHTSCALE base_colormap light
        shade).slab_rgba_shade_constants.desaturate ≤ 254 := by
  obtain ⟨-, hr, hg, hb⟩ := parts_lt base_colormap.Color.d
  have hr2 : base_colormap.Color.r < 256 := hr
  have hg2 : base_colormap.Color.g < 256 := hg
  have hb2 : base_colormap.Color.b < 256 := hb
  refine ⟨?_, ⟨by omega, by omega, by omega⟩, ⟨rfl, ?_, ?_⟩, ⟨rfl, ?_, ?_⟩, ⟨rfl, ?_, ?_⟩, ?_⟩
  · intro hs
    simp only [R_SetupDrawSlab_rgba, Bool.and_eq_true, decide_eq_true_eq] at hs
    obtain ⟨⟨hc, hfd⟩, hds⟩ := hs
    simp only [R_SetupDrawSlab_rgba, PalEntry.r, PalEntry.g, PalEntry.b, hc, hfd, hds]
    decide
  · show base_colormap.Color.r * 256 / 255 ≤ 256
    omega
  · show base_colormap.Color.r * 256 / 255 = 256 ↔ _
    omega
  · show base_colormap.Color.g * 256 / 255 ≤ 256
    omega
  · show base_colormap.Color.g * 256 / 255 = 256 ↔ _
    omega
  · show base_colormap.Color.b * 256 / 255 ≤ 256
    omega
  · show base_colormap.Color.b * 256 / 255 = 256 ↔ _
    omega
  · show min (Int.natAbs base_colormap.Desaturate) 255 * 255 / 256 ≤ 254
    omega

/-- Witness for `R_SetupDrawSlab_simple_shade`: the neutral colormap selects the
simple mode and gets light components 256; the tinted colormap (green byte
128, `Desaturate = -300`) does not, and gets `light_green = 128` and
`desaturate = 254`. -/
theorem R_SetupDrawSlab_simple_shade_witness :
    (R_SetupDrawSlab_rgba (fun (l : Int) s => l + s) exampleNeutralColormap 0
      0).slab_rgba_shade_constants.simple_shade = true ∧
    (R_SetupDrawSlab_rgba (fun (l : Int) s => l + s) exampleNeutralColormap 0
      0).slab_rgba_shade_constants.light_red = 256 ∧
    (R_SetupDrawSlab_rgba (fun (l : Int) s => l + s) exampleTintedColormap 0
      0).slab_rgba_shade_constants = ⟨256, 128, 0, 0x40, 0, 0, 254, false⟩ :=
  ⟨by decide,
    ((R_SetupDrawSlab_simple_shade (fun (l : Int) s => l + s) exampleNeutralColormap 0 0).1
      (by decide)).1,
    by decide⟩

end RDrawRgba
